import Mathlib

/-! Syncius: encrypted bookmark and tab synchronisation.

A shallow embedding of the Syncius browser extension (`src/background.js`) and of its
storage server (`src/server/index.ts`).

* Pure JavaScript helpers become Lean functions.
* Asynchronous code that talks to the browser, the network, the random source or the clock
  becomes a program of type `Prog`: a tree of host requests (`Op`) with continuations. A
  handler interprets the requests over any state type, so a statement about every handler is
  a statement about every behaviour of the collaborators.
* A JavaScript `throw` becomes an `Except String` result whose error is the message.

Part I holds the definitions, Part II the lemmas and theorems.
-/

namespace Syncius

/-! ## Part I: definitions -/

/-! ### JavaScript values -/

/-- One element of a `Uint8Array`. -/
abbrev Byte := Fin 256

instance instDecidableEqExcept {ε α : Type} [DecidableEq ε] [DecidableEq α] :
    DecidableEq (Except ε α)
  | .ok a, .ok b =>
      if h : a = b then isTrue (by rw [h]) else isFalse (by intro h2; cases h2; exact h rfl)
  | .error a, .error b =>
      if h : a = b then isTrue (by rw [h]) else isFalse (by intro h2; cases h2; exact h rfl)
  | .ok _, .error _ => isFalse (by intro h; cases h)
  | .error _, .ok _ => isFalse (by intro h; cases h)

/-- Truthiness of a JavaScript string: only the empty string is falsy. -/
def truthy (s : String) : Bool := decide (s ≠ "")

/-- Truthiness of a value that is either `undefined` or a string. -/
def optTruthy : Option String → Bool
  | none => false
  | some s => truthy s

/-- Truthiness of a value that is either `undefined` or a number. -/
def numTruthy : Option Nat → Bool
  | none => false
  | some n => decide (n ≠ 0)

/-- A value used as an identifier: `undefined`, `null`, a string, or the built-in object
that a property read found on `Object.prototype` under the given name. -/
inductive JsId where
  | undefined : JsId
  | null : JsId
  | str (s : String) : JsId
  | builtin (name : String) : JsId
deriving DecidableEq

/-- The property key a value is coerced to when it indexes an object. A built-in object is
coerced to the text of its source, which the engine chooses and which is taken not to be the
id of a bookmark; it is written here as the name in brackets, and the lookups of the
reconciler do not find anything under it. -/
def JsId.key : JsId → String
  | .undefined => "undefined"
  | .null => "null"
  | .str s => s
  | .builtin name => "[" ++ name ++ "]"

/-- The names of the properties that an object created with `{}` inherits from
`Object.prototype`. Their values are functions, and for `__proto__` the prototype itself. -/
def objectPrototypeKeys : List String :=
  ["constructor", "__defineGetter__", "__defineSetter__", "hasOwnProperty",
   "__lookupGetter__", "__lookupSetter__", "isPrototypeOf", "propertyIsEnumerable",
   "toString", "valueOf", "__proto__", "toLocaleString"]

/-- An object created with `{}` whose own values are strings, as the list of its own
entries in insertion order. -/
abbrev JsObj := List (String × String)

/-- The own entry of a key: the value of `obj[key]` when `obj.hasOwnProperty(key)`. -/
def JsObj.get (o : JsObj) (key : String) : Option String := o.lookup key

/-- Property read `obj[key]`: the own entry, or else what the object inherits from
`Object.prototype` under that name, or else `undefined`. -/
def JsObj.read (o : JsObj) (key : String) : JsId :=
  match o.get key with
  | some value => .str value
  | none => if key ∈ objectPrototypeKeys then .builtin key else .undefined

/-- Property write `obj[key] = value`: an existing entry keeps its place. The key
`__proto__`, an accessor of `Object.prototype` that ignores a string, is written like any
other key. -/
def JsObj.set : JsObj → String → String → JsObj
  | [], key, value => [(key, value)]
  | (k, v) :: rest, key, value =>
      if k = key then (k, value) :: rest else (k, v) :: JsObj.set rest key value

/-- Property removal `delete obj[key]`. -/
def JsObj.delete (o : JsObj) (key : String) : JsObj := o.filter (fun e => e.1 ≠ key)

/-- The number a key denotes when it is a canonical array index (at most `2^32 - 2`). -/
def arrayIndex (s : String) : Option Nat :=
  if s.data ≠ [] ∧ s.data.all Char.isDigit = true ∧ (s.data.length = 1 ∨ s.data.head? ≠ some '0')
  then
    let n := s.data.foldl (fun acc c => acc * 10 + (c.toNat - 48)) 0
    if n < 4294967295 then some n else none
  else none

/-- Insertion of an index key into a list of index keys sorted in ascending order. -/
def insertIndexKey (n : Nat) (s : String) : List (Nat × String) → List (Nat × String)
  | [] => [(n, s)]
  | (m, t) :: rest => if n ≤ m then (n, s) :: (m, t) :: rest else (m, t) :: insertIndexKey n s rest

/-- The array-index keys among the given keys, in ascending numeric order. -/
def indexKeys : List String → List (Nat × String)
  | [] => []
  | k :: rest =>
      match arrayIndex k with
      | some n => insertIndexKey n k (indexKeys rest)
      | none => indexKeys rest

/-- The order in which `Object.keys` lists keys that were inserted in the given order:
array-index keys in ascending order, then the other keys in insertion order. -/
def jsKeyOrder (inserted : List String) : List String :=
  (indexKeys inserted).map Prod.snd ++ inserted.filter (fun k => (arrayIndex k).isNone)

/-- JavaScript `Object.keys(obj)`. -/
def JsObj.keys (o : JsObj) : List String := jsKeyOrder (o.map Prod.fst)

/-! ### Base64 (lines 15-33)

`btoa` and `atob` are functions of the web platform; they are written out here after the
forgiving-base64 algorithm so that the byte helpers of the extension can be evaluated. -/

/-- The character of a six-bit value in the base64 alphabet. -/
def b64Char (n : Nat) : Char :=
  if n < 26 then Char.ofNat (65 + n)
  else if n < 52 then Char.ofNat (97 + (n - 26))
  else if n < 62 then Char.ofNat (48 + (n - 52))
  else if n = 62 then '+' else '/'

/-- The six-bit value of a character of the base64 alphabet. -/
def b64Val (c : Char) : Option Nat :=
  let n := c.toNat
  if 65 ≤ n ∧ n ≤ 90 then some (n - 65)
  else if 97 ≤ n ∧ n ≤ 122 then some (n - 97 + 26)
  else if 48 ≤ n ∧ n ≤ 57 then some (n - 48 + 52)
  else if n = 43 then some 62
  else if n = 47 then some 63
  else none

/-- Tab, line feed, form feed, carriage return and space. -/
def isAsciiWhitespace (c : Char) : Bool :=
  c.toNat = 9 || c.toNat = 10 || c.toNat = 12 || c.toNat = 13 || c.toNat = 32

/-- Base64 encoding of a list of character codes, three codes to four characters. -/
def btoaCore : List Nat → List Char
  | [] => []
  | [a] => [b64Char (a / 4), b64Char (a % 4 * 16), '=', '=']
  | [a, b] => [b64Char (a / 4), b64Char (a % 4 * 16 + b / 16), b64Char (b % 16 * 4), '=']
  | a :: b :: c :: rest =>
      b64Char (a / 4) :: b64Char (a % 4 * 16 + b / 16) :: b64Char (b % 16 * 4 + c / 64)
        :: b64Char (c % 64) :: btoaCore rest

/-- JavaScript `btoa(binary)`: fails on a character above U+00FF. -/
def btoa (s : String) : Except String String :=
  if s.data.all (fun c => decide (c.toNat ≤ 255)) = true then
    .ok (String.mk (btoaCore (s.data.map Char.toNat)))
  else .error "InvalidCharacterError"

/-- Removal of one or two trailing `=` from data whose length is a multiple of four. -/
def stripPadding (l : List Char) : List Char :=
  if l.length % 4 = 0 then
    match l.reverse with
    | '=' :: '=' :: r => r.reverse
    | '=' :: r => r.reverse
    | _ => l
  else l

/-- Base64 decoding of unpadded data, four characters to three codes. -/
def atobCore : List Char → Option (List Nat)
  | [] => some []
  | [_] => none
  | [a, b] =>
      match b64Val a, b64Val b with
      | some x, some y => some [(x * 4 + y / 16) % 256]
      | _, _ => none
  | [a, b, c] =>
      match b64Val a, b64Val b, b64Val c with
      | some x, some y, some z => some [(x * 4 + y / 16) % 256, (y % 16 * 16 + z / 4) % 256]
      | _, _, _ => none
  | a :: b :: c :: d :: rest =>
      match b64Val a, b64Val b, b64Val c, b64Val d, atobCore rest with
      | some x, some y, some z, some w, some tail =>
          some ((x * 4 + y / 16) % 256 :: (y % 16 * 16 + z / 4) % 256
            :: (z % 4 * 64 + w) % 256 :: tail)
      | _, _, _, _, _ => none

/-- JavaScript `atob(base64)`. -/
def atob (s : String) : Except String String :=
  match atobCore (stripPadding (s.data.filter (fun c => !isAsciiWhitespace c))) with
  | some codes => .ok (String.mk (codes.map Char.ofNat))
  | none => .error "InvalidCharacterError"

/-- The binary string built by `binary += String.fromCharCode(bytes[i])`. -/
def binaryString (buffer : List Byte) : String :=
  String.mk (buffer.map (fun b => Char.ofNat b.val))

/-- JavaScript `bufferToBase64(buffer)`. -/
def bufferToBase64 (buffer : List Byte) : Except String String :=
  btoa (binaryString buffer)

/-- JavaScript `base64ToBuffer(base64)`: a store into a `Uint8Array` keeps the code modulo 256. -/
def base64ToBuffer (base64 : String) : Except String (List Byte) :=
  match atob base64 with
  | .ok binary_string => .ok (binary_string.data.map (fun c => Fin.ofNat (c.toNat % 256)))
  | .error e => .error e

/-! ### Data model -/

/-- An exported or imported AES-GCM key. -/
structure CryptoKey where
  raw : List Byte
deriving DecidableEq

/-- The JSON Web Key form of a key, as kept in local storage. -/
structure Jwk where
  k : String
deriving DecidableEq

/-- The process-lifetime `syncState` object (lines 8-13). -/
structure SyncState where
  lastSync : Option String
  status : String
  serverUrl : Option String
  encryptionKey : Option CryptoKey
deriving DecidableEq

/-- A flattened bookmark record, as produced by `flattenBookmarkNodes` and as found in a
server bookmark list. -/
structure BookmarkItem where
  id : String
  parentId : JsId
  index : Option Nat
  title : String
  dateAdded : Option Nat
  type : Option String
  url : Option String
  dateGroupModified : Option Nat
deriving DecidableEq

/-- A node of the tree returned by `browser.bookmarks.getTree()`; a node without a
`children` property has the empty list. -/
inductive BookmarkTreeNode where
  | mk (id : String) (parentId : JsId) (index : Option Nat) (title : String)
      (dateAdded : Option Nat) (type : Option String) (url : Option String)
      (dateGroupModified : Option Nat) (children : List BookmarkTreeNode) : BookmarkTreeNode

/-- The record `flattenBookmarkNodes` builds for one node (lines 384-397). -/
def BookmarkTreeNode.item : BookmarkTreeNode → BookmarkItem
  | .mk id parentId index title dateAdded type url dateGroupModified _ =>
      { id := id, parentId := parentId, index := index, title := title, dateAdded := dateAdded,
        type := type,
        url := if optTruthy url then url else none,
        dateGroupModified :=
          if type = some "folder" ∧ numTruthy dateGroupModified = true then dateGroupModified
          else none }

/-- The `children` of a node. -/
def BookmarkTreeNode.children : BookmarkTreeNode → List BookmarkTreeNode
  | .mk _ _ _ _ _ _ _ _ children => children

mutual
/-- The part of `flattenBookmarkNodes` that handles one node: its record, in which the
children play no part, then its subtree. -/
def flattenNode : BookmarkTreeNode → List BookmarkItem
  | .mk id parentId index title dateAdded type url dateGroupModified children =>
      (BookmarkTreeNode.mk id parentId index title dateAdded type url dateGroupModified []).item
        :: flattenBookmarkNodes children
/-- JavaScript `flattenBookmarkNodes(nodes)` (lines 381-406). -/
def flattenBookmarkNodes : List BookmarkTreeNode → List BookmarkItem
  | [] => []
  | node :: rest => flattenNode node ++ flattenBookmarkNodes rest
end

/-- A tab as returned by `browser.tabs.query`. -/
structure Tab where
  id : Nat
  windowId : Nat
  index : Nat
  url : String
  title : String
  active : Bool
  pinned : Bool
  discarded : Bool
deriving DecidableEq

/-- A synchronised tab record. -/
structure TabRecord where
  id : Nat
  windowId : Nat
  index : Nat
  url : String
  title : String
  active : Bool
  pinned : Bool
  discarded : Bool
  browserId : Option String
  lastUpdated : Option String
deriving DecidableEq

/-- The plaintext `{ tabs, bookmarks }`. -/
structure SyncPayload where
  tabs : Option (List TabRecord)
  bookmarks : Option (List BookmarkItem)
deriving DecidableEq

/-- The object `{ payload, lastModified }` that `sendDataToServer` encrypts. -/
structure PlainEnvelope where
  payload : Option SyncPayload
  lastModified : Option String
deriving DecidableEq

/-- The `payload` field of the result of `fetchDataFromServer`: either the literal
`{ bookmarks: [], tabs: [] }` or the decrypted value. -/
inductive RemoteData (P : Type) where
  | emptyState : RemoteData P
  | decrypted (value : P) : RemoteData P
deriving DecidableEq

/-- The result `{ payload, lastModified }` of `fetchDataFromServer`. -/
structure FetchedData (P : Type) where
  payload : RemoteData P
  lastModified : Option String
deriving DecidableEq

/-- The contents of `browser.storage.local` that the extension reads and writes; an absent
field is an absent key. -/
structure StorageItems where
  serverUrl : Option String := none
  cryptoSalt : Option String := none
  passphrase : Option String := none
  cryptoKeyJWK : Option Jwk := none
  lastKnownServerTimestamp : Option String := none
  syncedRemoteTabs : Option (List TabRecord) := none
  syncBrowserId : Option String := none
deriving DecidableEq

/-! ### Wire format -/

/-- A field of a JSON request body as the server inspects it: absent, a string, or a value
of another type. -/
inductive JsField where
  | absent : JsField
  | str (s : String) : JsField
  | other : JsField
deriving DecidableEq

/-- The outcome of `req.json()`: not JSON at all, the value `null`, or a value with the
fields below (a number, string, boolean or array has none of them). -/
inductive ReqBody where
  | invalid : ReqBody
  | jsonNull : ReqBody
  | object (salt payload lastModified : JsField) : ReqBody
deriving DecidableEq

/-- The fields of a JSON response body. -/
structure RespJson where
  error : Option String := none
  success : Option Bool := none
  salt : Option String := none
  payload : Option String := none
  lastModified : Option String := none
deriving DecidableEq

/-- An HTTP response; `json` is the outcome of `response.json()`. -/
structure HttpResponse where
  status : Nat
  statusText : String
  json : Except String RespJson
deriving DecidableEq

/-- JavaScript `response.ok`. -/
def HttpResponse.ok (r : HttpResponse) : Bool := decide (200 ≤ r.status ∧ r.status ≤ 299)

/-- A call `fetch(url, { method, body })`. -/
structure HttpRequest where
  method : String
  url : String
  body : ReqBody
deriving DecidableEq

/-! ### The server (`src/server/index.ts`) -/

/-- The stored envelope `{ payload, lastModified }` of `sync_data.json`. -/
structure Envelope where
  payload : String
  lastModified : String
deriving DecidableEq

/-- The files of the data directory. -/
structure DataDir where
  salt : Option String
  data : Option Envelope
deriving DecidableEq

/-- The file system of the server: `none` when the data directory does not exist. -/
abbrev Fs := Option DataDir

/-- What the server reads from its surroundings while it handles one request: the clock
and whether a file-system call throws. -/
structure ServerEnv where
  now : String
  mkdirFails : Bool := false
  readFails : Bool := false
  writeFails : Bool := false
deriving DecidableEq

/-- A request as the server sees it: `url.pathname`, `url.searchParams.get('force')`. -/
structure Request where
  method : String
  pathname : String
  force : Option String
  body : ReqBody
deriving DecidableEq

/-- A handler suspended at `await req.json()`. -/
inductive Pending where
  | salt (forceOverwrite : Bool) : Pending
  | data : Pending
deriving DecidableEq

/-- The response `createCorsResponse(JSON.stringify({ error }), status)`. -/
def errorResponse (msg : String) (status : Nat) : HttpResponse :=
  { status := status, statusText := "", json := .ok { error := some msg } }

/-- The response `createCorsResponse(JSON.stringify({ success: true }), status)`. -/
def successResponse (status : Nat) : HttpResponse :=
  { status := status, statusText := "", json := .ok { success := some true } }

/-- The handler up to its first `await` (lines 28-69, 90-110): either the response or the
suspended handler. -/
def handleStart (env : ServerEnv) (fs : Fs) (req : Request) : Fs × (HttpResponse ⊕ Pending) :=
  if req.method = "OPTIONS" then
    (fs, .inl { status := 204, statusText := "", json := .error "Unexpected end of JSON input" })
  else
    match (match fs with
           | some dir => some dir
           | none => if env.mkdirFails then none else some { salt := none, data := none }) with
    | none => (fs, .inl (errorResponse "Server setup error: Cannot create data directory" 500))
    | some dir =>
      if req.method = "GET" ∧ req.pathname = "/sync/salt" then
        match dir.salt with
        | none => (some dir, .inl (errorResponse "Salt not found" 404))
        | some saltContent =>
            if env.readFails then (some dir, .inl (errorResponse "Error reading salt" 500))
            else (some dir, .inl { status := 200, statusText := "",
                                   json := .ok { salt := some saltContent } })
      else if req.method = "POST" ∧ req.pathname = "/sync/salt" then
        let forceOverwrite := decide (req.force = some "true")
        if !forceOverwrite && dir.salt.isSome then
          (some dir, .inl (errorResponse "Salt already exists" 409))
        else (some dir, .inr (.salt forceOverwrite))
      else if req.method = "GET" ∧ req.pathname = "/sync/data" then
        match dir.data with
        | none => (some dir, .inl (errorResponse "No data found" 404))
        | some fileContent =>
            if env.readFails then (some dir, .inl (errorResponse "Error reading data" 500))
            else (some dir, .inl { status := 200, statusText := "",
                                   json := .ok { payload := some fileContent.payload,
                                                 lastModified := some fileContent.lastModified } })
      else if req.method = "POST" ∧ req.pathname = "/sync/data" then
        (some dir, .inr .data)
      else (some dir, .inl (errorResponse "Not Found" 404))

/-- The handler after `await req.json()` (lines 71-86, 111-143). -/
def handleResume (env : ServerEnv) (fs : Fs) : Pending → ReqBody → Fs × HttpResponse
  | .salt _, .invalid => (fs, errorResponse "Invalid JSON in request body" 400)
  | .salt _, .jsonNull => (fs, errorResponse "Error saving salt" 500)
  | .salt forceOverwrite, .object saltToStore _ _ =>
      match saltToStore with
      | .str s =>
          if truthy s then
            match fs with
            | some dir =>
                if env.writeFails then (fs, errorResponse "Error saving salt" 500)
                else (some { dir with salt := some s },
                      successResponse (if forceOverwrite then 200 else 201))
            | none => (fs, errorResponse "Error saving salt" 500)
          else (fs, errorResponse "Invalid salt format in request" 400)
      | _ => (fs, errorResponse "Invalid salt format in request" 400)
  | .data, .invalid => (fs, errorResponse "Invalid JSON in request body" 400)
  | .data, .jsonNull => (fs, errorResponse "Error saving data" 500)
  | .data, .object _ clientPayloadString _ =>
      match clientPayloadString with
      | .str p =>
          if truthy p then
            match (match fs with
                   | some dir => some dir
                   | none => if env.mkdirFails then none else some { salt := none, data := none })
            with
            | some dir =>
                if env.writeFails then (some dir, errorResponse "Error saving data" 500)
                else (some { dir with data := some { payload := p, lastModified := env.now } },
                      successResponse 200)
            | none => (fs, errorResponse "Error saving data" 500)
          else (fs, errorResponse "Invalid payload format" 400)
      | _ => (fs, errorResponse "Invalid payload format" 400)

/-- One request handled from start to end with no other request in between. -/
def handle (env : ServerEnv) (fs : Fs) (req : Request) : Fs × HttpResponse :=
  match handleStart env fs req with
  | (fs1, .inl response) => (fs1, response)
  | (fs1, .inr pending) => handleResume env fs1 pending req.body

/-- A sequence of requests handled one after the other, each in its own environment. -/
def handleAll : Fs → List (ServerEnv × Request) → Fs
  | fs, [] => fs
  | fs, (env, req) :: rest => handleAll (handle env fs req).1 rest

/-! ### Host requests and programs -/

/-- The argument of `browser.bookmarks.create`; `url` is `none` when the property is not
set and `some none` when it is set to `undefined`. -/
structure CreateDetails where
  parentId : JsId
  index : Option Nat
  title : String
  type : Option String
  url : Option (Option String)
deriving DecidableEq

/-- The destination argument of `browser.bookmarks.move`. -/
structure MoveInfo where
  parentId : JsId
  index : Option Nat
deriving DecidableEq

/-- The changes argument of `browser.bookmarks.update`. -/
structure Changes where
  title : Option String
  url : Option (Option String)
deriving DecidableEq

/-- A request to a collaborator of the extension: local storage, the network, the random
source, the clock, the tab and bookmark interfaces of the browser, and the message channel
to the popup. -/
inductive Op where
  | storageGet (keys : List String) : Op
  | storageSet (items : StorageItems) : Op
  | storageRemove (keys : List String) : Op
  | fetch (request : HttpRequest) : Op
  | getRandomValues (length : Nat) : Op
  | isoNow : Op
  | dateNow : Op
  | mathRandom : Op
  | tabsQuery : Op
  | bookmarksGetTree : Op
  | bookmarksCreate (details : CreateDetails) : Op
  | bookmarksMove (id : String) (destination : MoveInfo) : Op
  | bookmarksUpdate (id : String) (changes : Changes) : Op
  | bookmarksRemove (id : String) : Op
  | bookmarksRemoveTree (id : String) : Op
  | sendMessage (status : String) (lastSync : Option String) : Op
deriving DecidableEq

/-- The type of the answer to a request; a rejected promise is an `Except.error`. `isoNow`
is `new Date().toISOString()`, `dateNow` is `Date.now()` and `mathRandom` is
`Math.random().toString(36).substr(2, 9)`. -/
def Op.Resp : Op → Type
  | .storageGet _ => Except String StorageItems
  | .storageSet _ => Except String Unit
  | .storageRemove _ => Except String Unit
  | .fetch _ => Except String HttpResponse
  | .getRandomValues length => Fin length → Byte
  | .isoNow => String
  | .dateNow => Nat
  | .mathRandom => String
  | .tabsQuery => Except String (List Tab)
  | .bookmarksGetTree => Except String (List BookmarkTreeNode)
  | .bookmarksCreate _ => Except String BookmarkTreeNode
  | .bookmarksMove _ _ => Except String Unit
  | .bookmarksUpdate _ _ => Except String Unit
  | .bookmarksRemove _ => Except String Unit
  | .bookmarksRemoveTree _ => Except String Unit
  | .sendMessage _ _ => Unit

/-- An asynchronous computation: it ends with a value or issues a request and goes on with
the answer. -/
inductive Prog (α : Type) where
  | pure (a : α) : Prog α
  | step (op : Op) (k : Op.Resp op → Prog α) : Prog α

/-- Sequential composition of programs. -/
def Prog.bind {α β : Type} : Prog α → (α → Prog β) → Prog β
  | .pure a, f => f a
  | .step op k, f => .step op (fun r => (k r).bind f)

instance : Monad Prog where
  pure := Prog.pure
  bind := Prog.bind

/-- The program that issues one request and returns its answer. -/
def perform (op : Op) : Prog (Op.Resp op) := .step op .pure

/-- A handler answers every request and moves the state of the collaborators. -/
abbrev Handler (ω : Type) := (op : Op) → ω → Op.Resp op × ω

/-- Execution of a program against a handler: the value, the final state of the
collaborators and the requests issued, in order. -/
def Prog.run {α ω : Type} (h : Handler ω) : Prog α → ω → α × ω × List Op
  | .pure a, w => (a, w, [])
  | .step op k, w =>
      let res := (k (h op w).1).run h (h op w).2
      (res.1, res.2.1, op :: res.2.2)

/-- Every request a program can issue, whatever the answers, satisfies `allowed`. -/
inductive Prog.OnlyOps {α : Type} (allowed : Op → Prop) : Prog α → Prop where
  | pure (a : α) : Prog.OnlyOps allowed (.pure a)
  | step (op : Op) (k : Op.Resp op → Prog α) :
      allowed op → (∀ r, Prog.OnlyOps allowed (k r)) → Prog.OnlyOps allowed (.step op k)

/-! ### Platform functions -/

/-- The deterministic functions of the platform that the extension calls: `JSON`,
`TextEncoder` and `TextDecoder`, `crypto.subtle` and the reading of a date string
(`none` for an invalid date). `P` is the type of the values that are serialised. -/
structure Runtime (P : Type) where
  jsonStringify : P → String
  jsonParse : String → Except String P
  textEncode : String → List Byte
  textDecode : List Byte → String
  subtleEncrypt : CryptoKey → List Byte → List Byte → Except String (List Byte)
  subtleDecrypt : CryptoKey → List Byte → List Byte → Except String (List Byte)
  deriveKey : List Byte → List Byte → Nat → Except String CryptoKey
  exportKey : CryptoKey → Except String Jwk
  importKey : Jwk → Except String CryptoKey
  dateValue : String → Option Int

/-! ### The extension (`src/background.js`) -/

/-- The storage key of the salt (line 5). -/
def SALT_STORAGE_KEY : String := "cryptoSalt"

/-- The storage key of the last server timestamp applied (line 6). -/
def LAST_KNOWN_SERVER_TIMESTAMP_KEY : String := "lastKnownServerTimestamp"

/-- The storage key of the tabs of the other devices (lines 422, 683). -/
def REMOTE_TABS_STORAGE_KEY : String := "syncedRemoteTabs"

/-- The iteration count of the key derivation (line 43). -/
def PBKDF2_ITERATIONS : Nat := 100000

/-- JavaScript `serverUrl.replace(/\/+$/, '')`. -/
def stripTrailingSlashes (url : String) : String :=
  String.mk (url.data.reverse.dropWhile (fun c => c = '/')).reverse

/-- JavaScript `sendStatusUpdateToPopup()` (lines 655-666): the message is sent and not awaited. -/
def sendStatusUpdateToPopup (syncState : SyncState) : Prog Unit :=
  perform (.sendMessage syncState.status syncState.lastSync)

/-- JavaScript `deriveEncryptionKey(passphrase, salt)` (lines 45-65). -/
def deriveEncryptionKey {P : Type} (R : Runtime P) (passphrase : String) (salt : List Byte) :
    Except String CryptoKey :=
  R.deriveKey (R.textEncode passphrase) salt PBKDF2_ITERATIONS

/-- JavaScript `fetchSaltFromServer()` (lines 67-90): `none` is the `null` returned on a 404. -/
def fetchSaltFromServer (syncState : SyncState) : Prog (Except String (Option String)) :=
  match syncState.serverUrl with
  | none => pure (.error "Cannot fetch salt: Server URL not configured.")
  | some serverUrl =>
    if !truthy serverUrl then pure (.error "Cannot fetch salt: Server URL not configured.")
    else do
      let url := stripTrailingSlashes serverUrl ++ "/sync/salt"
      let fetched ← perform (.fetch { method := "GET", url := url, body := .invalid })
      match fetched with
      | .error e => pure (.error e)
      | .ok response =>
        if response.status = 404 then pure (.ok none)
        else if !response.ok then
          pure (.error ("Server error fetching salt: " ++ toString response.status ++ " "
            ++ response.statusText))
        else
          match response.json with
          | .error e => pure (.error e)
          | .ok data =>
            if !optTruthy data.salt then pure (.error "Invalid salt response from server.")
            else pure (.ok data.salt)

/-- JavaScript `uploadSaltToServer(saltBase64, force)` (lines 92-119). -/
def uploadSaltToServer (syncState : SyncState) (saltBase64 : String) (force : Bool) :
    Prog (Except String Bool) :=
  match syncState.serverUrl with
  | none => pure (.error "Cannot upload salt: Server URL not configured.")
  | some serverUrl =>
    if !truthy serverUrl then pure (.error "Cannot upload salt: Server URL not configured.")
    else do
      let url := stripTrailingSlashes serverUrl ++ "/sync/salt"
        ++ (if force then "?force=true" else "")
      let fetched ← perform (.fetch { method := "POST", url := url,
                                      body := .object (.str saltBase64) .absent .absent })
      match fetched with
      | .error e => pure (.error e)
      | .ok response =>
        if !force && response.status = 409 then pure (.ok false)
        else if !response.ok then
          pure (.error ("Server error uploading salt: " ++ toString response.status ++ " "
            ++ response.statusText))
        else pure (.ok true)

/-- The refetch after a 409 (lines 164-173 and 187-196): the salt to use. -/
def resolveSaltConflict (syncState : SyncState) (message : String) :
    Prog (Except String (List Byte)) := do
  let refetched ← fetchSaltFromServer syncState
  match refetched with
  | .error e => pure (.error e)
  | .ok fetchedSaltBase64 =>
    if optTruthy fetchedSaltBase64 then
      match base64ToBuffer (fetchedSaltBase64.getD "") with
      | .error e => pure (.error e)
      | .ok saltToUse => do
        let stored ← perform (.storageSet { cryptoSalt := fetchedSaltBase64 })
        match stored with
        | .error e => pure (.error e)
        | .ok _ => pure (.ok saltToUse)
    else pure (.error message)

/-- The salt bootstrap of `loadConfiguration` (lines 139-197): the result is `saltToUse`,
an error is an exception that reaches the `catch` of line 248. -/
def saltBootstrap (syncState : SyncState) (localSaltBase64 : Option String) :
    Prog (Except String (List Byte)) := do
  let firstFetch ← fetchSaltFromServer syncState
  match (match firstFetch with
         | .ok fetched => Except.ok fetched
         | .error _ =>
             if !optTruthy localSaltBase64 then
               Except.error "Failed to fetch salt and no local salt available."
             else Except.ok none) with
  | .error e => pure (.error e)
  | .ok fetchedSaltBase64 =>
    if optTruthy fetchedSaltBase64 then
      match base64ToBuffer (fetchedSaltBase64.getD "") with
      | .error e => pure (.error e)
      | .ok saltToUse =>
        if fetchedSaltBase64 ≠ localSaltBase64 then do
          let stored ← perform (.storageSet { cryptoSalt := fetchedSaltBase64 })
          match stored with
          | .error e => pure (.error e)
          | .ok _ => pure (.ok saltToUse)
        else pure (.ok saltToUse)
    else if optTruthy localSaltBase64 then
      match base64ToBuffer (localSaltBase64.getD "") with
      | .error e => pure (.error e)
      | .ok saltToUse =>
        if fetchedSaltBase64 = none then do
          let uploaded ← uploadSaltToServer syncState (localSaltBase64.getD "") false
          match uploaded with
          | .error e => pure (.error e)
          | .ok true => pure (.ok saltToUse)
          | .ok false =>
              resolveSaltConflict syncState
                "Failed to resolve salt conflict: Could not fetch salt after 409."
        else pure (.ok saltToUse)
    else do
      let newSaltArray ← perform (.getRandomValues 16)
      let saltToUse := List.ofFn newSaltArray
      match bufferToBase64 saltToUse with
      | .error e => pure (.error e)
      | .ok newSaltBase64 =>
        let stored ← perform (.storageSet { cryptoSalt := some newSaltBase64 })
        match stored with
        | .error e => pure (.error e)
        | .ok _ =>
          let uploaded ← uploadSaltToServer syncState newSaltBase64 false
          match uploaded with
          | .error e => pure (.error e)
          | .ok true => pure (.ok saltToUse)
          | .ok false =>
              resolveSaltConflict syncState
                "Failed to resolve salt conflict: Could not fetch salt after 409 on initial upload."

/-- The key setup of `loadConfiguration` (lines 199-246): the result is the new
`syncState`, an error is an exception that reaches the `catch` of line 248 together with
the `syncState` at the time of the throw. -/
def keySetup {P : Type} (R : Runtime P) (syncState : SyncState) (saltToUse : List Byte) :
    Prog (Except (String × SyncState) SyncState) := do
  let got ← perform (.storageGet ["passphrase", "cryptoKeyJWK"])
  match got with
  | .error e => pure (.error (e, syncState))
  | .ok storedData =>
    if optTruthy storedData.passphrase then
      match deriveEncryptionKey R (storedData.passphrase.getD "") saltToUse with
      | .error e => pure (.error (e, syncState))
      | .ok derivedKey => do
        let syncState1 := { syncState with encryptionKey := some derivedKey }
        match R.exportKey derivedKey with
        | .error _ => pure ()
        | .ok jwk =>
            let _ ← perform (.storageSet { cryptoKeyJWK := some jwk })
            pure ()
        let removed ← perform (.storageRemove ["passphrase"])
        match removed with
        | .error e => pure (.error (e, syncState1))
        | .ok _ =>
          sendStatusUpdateToPopup syncState1
          pure (.ok syncState1)
    else
      match storedData.cryptoKeyJWK with
      | some storedJwk =>
        match R.importKey storedJwk with
        | .ok key => do
          let syncState1 := { syncState with encryptionKey := some key }
          sendStatusUpdateToPopup syncState1
          pure (.ok syncState1)
        | .error _ => do
          let removed ← perform (.storageRemove ["cryptoKeyJWK"])
          match removed with
          | .error e => pure (.error (e, syncState))
          | .ok _ =>
            let syncState1 := { syncState with status := "Key import failed. Passphrase needed." }
            sendStatusUpdateToPopup syncState1
            pure (.ok syncState1)
      | none => do
        let syncState1 := { syncState with status := "Passphrase needed" }
        sendStatusUpdateToPopup syncState1
        pure (.ok syncState1)

/-- The `catch` block of `loadConfiguration` (lines 248-253). -/
def loadConfigurationFailed (syncState : SyncState) (message : String) : Prog SyncState := do
  let syncState1 := { syncState with status := "Error: " ++ message, encryptionKey := none }
  sendStatusUpdateToPopup syncState1
  pure syncState1

/-- JavaScript `loadConfiguration()` (lines 121-254): the `syncState` it leaves. -/
def loadConfiguration {P : Type} (R : Runtime P) (syncState : SyncState) : Prog SyncState := do
  let syncState0 := { syncState with encryptionKey := none }
  let got ← perform (.storageGet ["serverUrl", SALT_STORAGE_KEY])
  match got with
  | .error e => loadConfigurationFailed syncState0 e
  | .ok result =>
    let syncState1 := { syncState0 with serverUrl := result.serverUrl }
    let localSaltBase64 := result.cryptoSalt
    if !optTruthy syncState1.serverUrl then do
      let syncState2 := { syncState1 with status := "Configuration missing" }
      sendStatusUpdateToPopup syncState2
      pure syncState2
    else do
      let salt ← saltBootstrap syncState1 localSaltBase64
      match salt with
      | .error e => loadConfigurationFailed syncState1 e
      | .ok saltToUse =>
        let done ← keySetup R syncState1 saltToUse
        match done with
        | .error (e, syncState2) => loadConfigurationFailed syncState2 e
        | .ok syncState2 => pure syncState2

/-- JavaScript `encryptData(data)` (lines 256-278). -/
def encryptData {P : Type} (R : Runtime P) (syncState : SyncState) (data : P) :
    Prog (Except String String) :=
  match syncState.encryptionKey with
  | none => pure (.error "Encryption key not available.")
  | some encryptionKey => do
    let drawn ← perform (.getRandomValues 12)
    let iv := List.ofFn drawn
    let dataString := R.jsonStringify data
    let encodedData := R.textEncode dataString
    match R.subtleEncrypt encryptionKey iv encodedData with
    | .error e => pure (.error e)
    | .ok encryptedContent =>
      let combinedBuffer := iv ++ encryptedContent
      pure (bufferToBase64 combinedBuffer)

/-- JavaScript `decryptData(encryptedBase64Data)` (lines 280-301). -/
def decryptData {P : Type} (R : Runtime P) (syncState : SyncState)
    (encryptedBase64Data : String) : Except String P :=
  match syncState.encryptionKey with
  | none => .error "Encryption key not available for decryption."
  | some encryptionKey =>
    match base64ToBuffer encryptedBase64Data with
    | .error e => .error e
    | .ok combinedBuffer =>
      let iv := combinedBuffer.take 12
      let encryptedContent := combinedBuffer.drop 12
      match R.subtleDecrypt encryptionKey iv encryptedContent with
      | .error _ => .error "Decryption failed. Check passphrase or data integrity."
      | .ok decryptedContent =>
        match R.jsonParse (R.textDecode decryptedContent) with
        | .error _ => .error "Decryption failed. Check passphrase or data integrity."
        | .ok value => .ok value

/-- JavaScript `fetchDataFromServer()` (lines 303-343). -/
def fetchDataFromServer {P : Type} (R : Runtime P) (syncState : SyncState) :
    Prog (Except String (FetchedData P)) :=
  match syncState.serverUrl with
  | none => pure (.error "Server URL not configured.")
  | some serverUrl =>
    if !truthy serverUrl then pure (.error "Server URL not configured.")
    else do
      let url := stripTrailingSlashes serverUrl ++ "/sync/data"
      let fetched ← perform (.fetch { method := "GET", url := url, body := .invalid })
      match fetched with
      | .error e => pure (.error ("Network or fetch error: " ++ e))
      | .ok response =>
        if !response.ok then
          if response.status = 404 then
            pure (.ok { payload := .emptyState, lastModified := none })
          else
            pure (.error ("Network or fetch error: " ++ ("Server error: "
              ++ toString response.status ++ " " ++ response.statusText)))
        else
          match response.json with
          | .error e => pure (.error ("Network or fetch error: " ++ e))
          | .ok responseJson =>
            let encryptedData := responseJson.payload
            let lastModified := responseJson.lastModified
            if !optTruthy encryptedData then
              pure (.ok { payload := .emptyState,
                          lastModified := if optTruthy lastModified then lastModified else none })
            else
              match decryptData R syncState (encryptedData.getD "") with
              | .error e => pure (.error ("Network or fetch error: " ++ e))
              | .ok decryptedPayload =>
                pure (.ok { payload := .decrypted decryptedPayload, lastModified := lastModified })

/-- JavaScript `sendDataToServer(dataPayload)` (lines 345-379). -/
def sendDataToServer (R : Runtime PlainEnvelope) (syncState : SyncState)
    (dataPayload : SyncPayload) : Prog (Except String Bool) :=
  match syncState.serverUrl with
  | none => pure (.error "Server URL not configured.")
  | some serverUrl =>
    if !truthy serverUrl then pure (.error "Server URL not configured.")
    else do
      let url := stripTrailingSlashes serverUrl ++ "/sync/data"
      let newTimestamp : String ← perform .isoNow
      let dataToSend : PlainEnvelope :=
        { payload := some dataPayload, lastModified := some newTimestamp }
      let encrypted ← encryptData R syncState dataToSend
      match encrypted with
      | .error e => pure (.error ("Network or fetch error: " ++ e))
      | .ok encryptedPayloadString =>
        let fetched ← perform (.fetch { method := "POST", url := url,
                                        body := .object .absent (.str encryptedPayloadString)
                                          .absent })
        match fetched with
        | .error e => pure (.error ("Network or fetch error: " ++ e))
        | .ok response =>
          if !response.ok then
            pure (.error ("Network or fetch error: " ++ ("Server error: "
              ++ toString response.status ++ " " ++ response.statusText)))
          else pure (.ok true)

/-- The record built for one live tab (lines 430-441); the clock is read once per tab. -/
def tagTabs (browserId : String) : List Tab → Prog (List TabRecord)
  | [] => pure []
  | tab :: rest => do
    let lastUpdated : String ← perform .isoNow
    let others ← tagTabs browserId rest
    pure ({ id := tab.id, windowId := tab.windowId, index := tab.index, url := tab.url,
            title := tab.title, active := tab.active, pinned := tab.pinned,
            discarded := tab.discarded, browserId := some browserId,
            lastUpdated := some lastUpdated } :: others)

/-- JavaScript `getCurrentBrowserState()` (lines 408-449). -/
def getCurrentBrowserState : Prog (Except String SyncPayload) := do
  let queried ← perform .tabsQuery
  match queried with
  | .error e => pure (.error e)
  | .ok tabs =>
    let tree ← perform .bookmarksGetTree
    match tree with
    | .error e => pure (.error e)
    | .ok bookmarkTreeNodes =>
      let idData ← perform (.storageGet ["syncBrowserId"])
      match idData with
      | .error e => pure (.error e)
      | .ok browserIdData =>
        let ensured ←
          (if optTruthy browserIdData.syncBrowserId then
            pure (Except.ok (browserIdData.syncBrowserId.getD ""))
          else do
            let now : Nat ← perform .dateNow
            let random : String ← perform .mathRandom
            let browserId := "browser_" ++ toString now ++ "_" ++ random
            let stored ← perform (.storageSet { syncBrowserId := some browserId })
            match stored with
            | .error e => pure (Except.error e)
            | .ok _ => pure (Except.ok browserId) : Prog (Except String String))
        match ensured with
        | .error e => pure (.error e)
        | .ok browserId =>
          let cached ← perform (.storageGet [REMOTE_TABS_STORAGE_KEY])
          match cached with
          | .error e => pure (.error e)
          | .ok remoteTabsData =>
            let existingRemoteTabs := remoteTabsData.syncedRemoteTabs.getD []
            let otherBrowsersTabs := existingRemoteTabs.filter
              (fun tab => optTruthy tab.browserId && decide (tab.browserId ≠ some browserId))
            let currentTabs ← tagTabs browserId tabs
            let mergedTabs := currentTabs ++ otherBrowsersTabs
            let currentBookmarks := flattenBookmarkNodes bookmarkTreeNodes
            pure (.ok { tabs := some mergedTabs, bookmarks := some currentBookmarks })

/-! ### The reconciler (lines 451-653) -/

/-- The fields of a tree node as they are, for a node that is kept as an object. -/
def BookmarkTreeNode.raw : BookmarkTreeNode → BookmarkItem
  | .mk id parentId index title dateAdded type url dateGroupModified _ =>
      { id := id, parentId := parentId, index := index, title := title, dateAdded := dateAdded,
        type := type, url := url, dateGroupModified := dateGroupModified }

/-- Truthiness of an identifier value: a built-in object is truthy. -/
def JsId.truthy : JsId → Bool
  | .str s => Syncius.truthy s
  | .builtin _ => true
  | _ => false

/-- The keys of the object built by `reduce((map, item) => { map[item.id] = item; ... })`,
in insertion order. -/
def insertionKeys : List String → List String → List String
  | seen, [] => seen.reverse
  | seen, k :: rest => if k ∈ seen then insertionKeys seen rest else insertionKeys (k :: seen) rest

/-- The position of the first element that satisfies `p` (`Array.prototype.find`). -/
def findFirstIdx {α : Type} (p : α → Bool) : List α → Option Nat
  | [] => none
  | a :: rest => if p a then some 0 else (findFirstIdx p rest).map (fun i => i + 1)

/-- The position of the last element that satisfies `p`. -/
def findLastIdx {α : Type} (p : α → Bool) : List α → Option Nat
  | [] => none
  | a :: rest =>
      match findLastIdx p rest with
      | some i => some (i + 1)
      | none => if p a then some 0 else none

/-- The list with the element at a position replaced. -/
def setAt {α : Type} : List α → Nat → α → List α
  | [], _, _ => []
  | _ :: rest, 0, b => b :: rest
  | a :: rest, i + 1, b => a :: setAt rest i b

/-- JavaScript `itemsToDelete` (lines 461-475): the local items under whose id the server map
has nothing, neither an own entry nor a property of `Object.prototype`, and that have a
parent. -/
def itemsToDelete (localBookmarks serverBookmarks : List BookmarkItem) : List BookmarkItem :=
  let idsToDelete := (jsKeyOrder (insertionKeys [] (localBookmarks.map (fun item => item.id)))).filter
    (fun id => !(serverBookmarks.any (fun item => item.id = id) || decide (id ∈ objectPrototypeKeys)))
  (idsToDelete.filterMap
    (fun id => (findLastIdx (fun item : BookmarkItem => item.id = id) localBookmarks).bind
      (fun i => localBookmarks.get? i))).filter (fun item => item.parentId.truthy)

/-- The variables of the reconcile loop. `currentLocalBookmarks` is the array of the pass,
whose objects the loop mutates; `createdItems` are the objects that creation added to
`currentLocalMapById`, oldest first; every other entry of that map is the last object of the
array with that id. -/
structure ReconcileState where
  createdIdMap : JsObj
  processedServerIds : List String
  changedInPass : Bool
  pass : Nat
  currentLocalBookmarks : List BookmarkItem
  createdItems : List BookmarkItem
deriving DecidableEq

/-- A reference to an object of the pass. -/
inductive ItemRef where
  | snapshot (i : Nat) : ItemRef
  | created (i : Nat) : ItemRef
deriving DecidableEq

/-- The own entry of `currentLocalMapById` under a key, as a reference. -/
def ReconcileState.mapRef (st : ReconcileState) (key : String) : Option ItemRef :=
  match findLastIdx (fun item : BookmarkItem => item.id = key) st.createdItems with
  | some i => some (.created i)
  | none =>
    match findLastIdx (fun item : BookmarkItem => item.id = key) st.currentLocalBookmarks with
    | some i => some (.snapshot i)
    | none => none

/-- The object a reference points to. -/
def ReconcileState.deref (st : ReconcileState) : ItemRef → Option BookmarkItem
  | .snapshot i => st.currentLocalBookmarks.get? i
  | .created i => st.createdItems.get? i

/-- Assignment to the fields of the object a reference points to. -/
def ReconcileState.assign (st : ReconcileState) (ref : ItemRef) (item : BookmarkItem) :
    ReconcileState :=
  match ref with
  | .snapshot i => { st with currentLocalBookmarks := setAt st.currentLocalBookmarks i item }
  | .created i => { st with createdItems := setAt st.createdItems i item }

/-- JavaScript `processedServerIds.add(id)`. -/
def setAdd (set : List String) (id : String) : List String :=
  if id ∈ set then set else set ++ [id]

/-- The predicate of the attribute search (lines 541-553). -/
def matchesAttributes (targetParentId : JsId) (serverItem item : BookmarkItem) : Bool :=
  if item.parentId ≠ targetParentId ∨ item.type ≠ serverItem.type then false
  else if item.type = some "bookmark" then
    decide (item.title = serverItem.title) && decide (item.url = serverItem.url)
  else if item.type = some "folder" then decide (item.title = serverItem.title)
  else if item.type = some "separator" then decide (item.index = serverItem.index)
  else false

/-- JavaScript `targetParentId` (line 530): `createdIdMap[serverItem.parentId]` when that is
truthy, be it a mapped local id or a built-in object, and else the parent id itself. -/
def targetParentIdOf (createdIdMap : JsObj) (serverItem : BookmarkItem) : JsId :=
  if (createdIdMap.read serverItem.parentId.key).truthy then
    createdIdMap.read serverItem.parentId.key
  else serverItem.parentId

/-- JavaScript `parentExistsLocally` (line 531). `currentLocalMapById` is created with `{}` as
well: besides its own entries it has the properties of `Object.prototype`; under the key of
a built-in object it has nothing. -/
def parentExistsLocallyIn (st : ReconcileState) (targetParentId : JsId) : Bool :=
  match targetParentId with
  | .builtin _ => false
  | _ =>
    (st.mapRef targetParentId.key).isSome || decide (targetParentId.key ∈ objectPrototypeKeys)
      || decide (targetParentId = .str "0") || decide (targetParentId = .null)

/-- The local item chosen for a server item (lines 533-562): the mapped one, or else the
result of the attribute search when the disambiguation guard lets it through. The mapped
one is looked up under the own entry of the server id: without an own entry
`createdIdMap[serverItem.id]` is `undefined` or a built-in object, under whose key
`currentLocalMapById` has nothing. A mapped id that names a property of `Object.prototype`
and is the id of no local item would find the built-in object; the loop asks for the local
item of unprocessed server items only, which have no own entry, and the case is left as
nothing found. The guard reads `createdIdMap` at its own keys only. -/
def findLocalItem (st : ReconcileState) (serverItem : BookmarkItem) (targetParentId : JsId)
    (parentExistsLocally : Bool) : Option ItemRef :=
  let mapped : Option ItemRef :=
    match st.createdIdMap.get serverItem.id with
    | some mappedLocalId => if truthy mappedLocalId then st.mapRef mappedLocalId else none
    | none => none
  match mapped with
  | some ref => some ref
  | none =>
    if parentExistsLocally then
      match findFirstIdx (matchesAttributes targetParentId serverItem) st.currentLocalBookmarks
      with
      | none => none
      | some i =>
        match st.currentLocalBookmarks.get? i with
        | none => none
        | some localItem =>
          let conflictingServerId :=
            st.createdIdMap.keys.find? (fun sId => st.createdIdMap.get sId = some localItem.id)
          if optTruthy conflictingServerId && decide (conflictingServerId ≠ some serverItem.id)
              && decide (conflictingServerId.getD "" ∈ st.processedServerIds) then none
          else some (.snapshot i)
    else none

/-- The `catch` of line 605: the mapping of the item is taken back. Only an own entry can be
equal to the id of the local item. -/
def rollbackMapping (st : ReconcileState) (serverItem localItem : BookmarkItem) :
    ReconcileState :=
  if st.createdIdMap.get serverItem.id = some localItem.id then
    { st with createdIdMap := st.createdIdMap.delete serverItem.id }
  else st

/-- The mapping of the server item to the local item is recorded unless
`createdIdMap[serverItem.id]` is truthy (lines 565-567), which it is with a non-empty own
entry and also when the server id names a property of `Object.prototype`. -/
def recordMapping (st : ReconcileState) (serverItem localItem : BookmarkItem) : ReconcileState :=
  if !(st.createdIdMap.read serverItem.id).truthy then
    { st with createdIdMap := st.createdIdMap.set serverItem.id localItem.id }
  else st

/-- The `changes` object (lines 569-581): the title when it differs, the url of a bookmark
when it differs. -/
def changesFor (serverItem localItem : BookmarkItem) : Changes :=
  { title := if localItem.title ≠ serverItem.title then some serverItem.title else none,
    url := if localItem.type = some "bookmark" ∧ localItem.url ≠ serverItem.url
           then some serverItem.url else none }

/-- JavaScript `needsUpdate` (lines 571-581). -/
def needsUpdateFor (serverItem localItem : BookmarkItem) : Bool :=
  decide (localItem.title ≠ serverItem.title) ||
    (decide (localItem.type = some "bookmark") && decide (localItem.url ≠ serverItem.url))

/-- The move of a matched item (lines 583-595): the new loop variables and the local object
after the move, or the error of the call. -/
def moveMatched (st : ReconcileState) (serverItem : BookmarkItem) (targetParentId : JsId)
    (ref : ItemRef) (localItem : BookmarkItem) :
    Prog (Except String (ReconcileState × BookmarkItem)) :=
  if localItem.index ≠ serverItem.index then do
    let res ← perform (.bookmarksMove localItem.id
      { parentId := targetParentId, index := serverItem.index })
    match res with
    | .error e => pure (.error e)
    | .ok _ =>
      let moved := { localItem with parentId := targetParentId, index := serverItem.index }
      pure (.ok (({ st with changedInPass := true }).assign ref moved, moved))
  else pure (.ok (st, localItem))

/-- The update of a matched item (lines 596-601): the new loop variables, or the error of
the call. -/
def updateChanged (st : ReconcileState) (ref : ItemRef) (localItem : BookmarkItem)
    (changes : Changes) (needsUpdate : Bool) : Prog (Except String ReconcileState) :=
  if needsUpdate then do
    let res ← perform (.bookmarksUpdate localItem.id changes)
    match res with
    | .error e => pure (.error e)
    | .ok _ =>
      let retitled :=
        if optTruthy changes.title then { localItem with title := changes.title.getD "" }
        else localItem
      let retargeted :=
        match changes.url with
        | some (some url) => if truthy url then { retitled with url := some url } else retitled
        | _ => retitled
      pure (.ok (({ st with changedInPass := true }).assign ref retargeted))
  else pure (.ok st)

/-- The branch for a server item with a local item (lines 564-610). -/
def updateMatched (st : ReconcileState) (serverItem : BookmarkItem) (targetParentId : JsId)
    (ref : ItemRef) (localItem : BookmarkItem) : Prog ReconcileState := do
  let moved ← moveMatched (recordMapping st serverItem localItem) serverItem targetParentId ref
    localItem
  match moved with
  | .error _ => pure (rollbackMapping (recordMapping st serverItem localItem) serverItem localItem)
  | .ok (st2, localItem1) =>
    let updated ← updateChanged st2 ref localItem1 (changesFor serverItem localItem)
      (needsUpdateFor serverItem localItem)
    match updated with
    | .error _ => pure (rollbackMapping st2 serverItem localItem1)
    | .ok st3 =>
      pure { st3 with processedServerIds := setAdd st3.processedServerIds serverItem.id }

/-- The branch for a server item without a local item whose parent exists (lines 618-637). -/
def createMissing (st : ReconcileState) (serverItem : BookmarkItem) (targetParentId : JsId) :
    Prog ReconcileState := do
  let createProperties : CreateDetails :=
    { parentId := targetParentId, index := serverItem.index, title := serverItem.title,
      type := serverItem.type,
      url := if serverItem.type = some "bookmark" then some serverItem.url else none }
  let res ← perform (.bookmarksCreate createProperties)
  match res with
  | .error _ => pure st
  | .ok newItem =>
    pure { st with
      createdIdMap := st.createdIdMap.set serverItem.id newItem.raw.id,
      createdItems := st.createdItems ++ [newItem.raw],
      processedServerIds := setAdd st.processedServerIds serverItem.id,
      changedInPass := true }

/-- The body of the inner loop for one server item (lines 525-639). -/
def reconcileItem (st : ReconcileState) (serverItem : BookmarkItem) : Prog ReconcileState :=
  if serverItem.id ∈ st.processedServerIds then pure st
  else
    let targetParentId := targetParentIdOf st.createdIdMap serverItem
    let parentExistsLocally := parentExistsLocallyIn st targetParentId
    match findLocalItem st serverItem targetParentId parentExistsLocally with
    | some ref =>
      match st.deref ref with
      | some localItem => updateMatched st serverItem targetParentId ref localItem
      | none => pure st
    | none =>
      if !parentExistsLocally then pure st
      else createMissing st serverItem targetParentId

/-- The inner loop `for (const serverItem of serverBookmarks)`. -/
def reconcilePass : List BookmarkItem → ReconcileState → Prog ReconcileState
  | [], st => pure st
  | serverItem :: rest, st => do
    let st1 ← reconcileItem st serverItem
    reconcilePass rest st1

/-- The bound on the number of passes (line 509). -/
def maxPasses : Nat := 5

/-- The outer loop (lines 514-645) with the given number of passes left; a failure of
`getTree` is an exception. -/
def reconcileLoop (serverBookmarks : List BookmarkItem) :
    Nat → ReconcileState → Prog (Except String ReconcileState)
  | 0, st => pure (.ok st)
  | remaining + 1, st =>
    if !st.changedInPass then pure (.ok st)
    else do
      let tree ← perform .bookmarksGetTree
      match tree with
      | .error e => pure (.error e)
      | .ok currentLocalTree =>
        let st1 : ReconcileState :=
          { st with changedInPass := false, pass := st.pass + 1,
                    currentLocalBookmarks := flattenBookmarkNodes currentLocalTree,
                    createdItems := [] }
        let st2 ← reconcilePass serverBookmarks st1
        if !st2.changedInPass && decide (st2.processedServerIds.length < serverBookmarks.length)
        then pure (.ok st2)
        else reconcileLoop serverBookmarks remaining st2

/-- What a call of `applyServerStateToBrowser` computed: the deletion candidates it only
logs, the loop variables at the end and the count of unprocessed server items. -/
structure ApplyReport where
  itemsToDelete : List BookmarkItem
  final : ReconcileState
  unprocessedCount : Nat
deriving DecidableEq

/-- JavaScript `applyServerStateToBrowser({ bookmarks })` (lines 451-653); `none` is the early return
of line 454. -/
def applyServerStateToBrowser (bookmarks : Option (List BookmarkItem)) :
    Prog (Except String (Option ApplyReport)) :=
  match bookmarks with
  | none => pure (.ok none)
  | some serverBookmarks => do
    let tree ← perform .bookmarksGetTree
    match tree with
    | .error e => pure (.error e)
    | .ok localTree =>
      let localBookmarks := flattenBookmarkNodes localTree
      let toDelete := itemsToDelete localBookmarks serverBookmarks
      let looped ← reconcileLoop serverBookmarks maxPasses
        { createdIdMap := [], processedServerIds := [], changedInPass := true, pass := 0,
          currentLocalBookmarks := [], createdItems := [] }
      match looped with
      | .error e => pure (.error e)
      | .ok final =>
        pure (.ok (some { itemsToDelete := toDelete, final := final,
                          unprocessedCount := serverBookmarks.length - final.processedServerIds.length }))

/-! ### The sync cycle (lines 668-748) -/

/-- JavaScript `new Date(a) > new Date(b)`: false when either date is invalid. -/
def dateAfter {P : Type} (R : Runtime P) (a b : String) : Bool :=
  match R.dateValue a, R.dateValue b with
  | some x, some y => decide (y < x)
  | _, _ => false

/-- The condition of line 697: the remote state is to be applied. -/
def remoteIsNewer {P : Type} (R : Runtime P) (remoteTimestamp lastKnownServerTimestamp : Option String) :
    Bool :=
  optTruthy remoteTimestamp &&
    (!optTruthy lastKnownServerTimestamp ||
      dateAfter R (remoteTimestamp.getD "") (lastKnownServerTimestamp.getD ""))

/-- JavaScript `remoteData?.payload` (line 700). -/
def RemoteData.payloadField : RemoteData PlainEnvelope → Option SyncPayload
  | .emptyState => none
  | .decrypted envelope => envelope.payload

/-- Steps 3 and 4 and the success report (lines 727-736). -/
def captureAndPush (R : Runtime PlainEnvelope) (syncState : SyncState) :
    Prog (Except String SyncState) := do
  let captured ← getCurrentBrowserState
  match captured with
  | .error e => pure (.error e)
  | .ok currentLocalStatePayload =>
    let sent ← sendDataToServer R syncState currentLocalStatePayload
    match sent with
    | .error e => pure (.error e)
    | .ok _ =>
      let now : String ← perform .isoNow
      let syncState1 := { syncState with lastSync := some now, status := "Sync successful" }
      sendStatusUpdateToPopup syncState1
      pure (.ok syncState1)

/-- Step 2b (lines 706-718): the remote tabs are stored when there are some; a storage
failure is logged only. -/
def storeRemoteTabs (actualPayload : Option SyncPayload) : Prog Unit :=
  match actualPayload with
  | none => pure ()
  | some payload =>
    match payload.tabs with
    | none => pure ()
    | some tabs =>
      if 0 < tabs.length then do
        let got ← perform (.storageGet [REMOTE_TABS_STORAGE_KEY])
        match got with
        | .error _ => pure ()
        | .ok _ =>
          let _ ← perform (.storageSet { syncedRemoteTabs := some tabs })
          pure ()
      else pure ()

/-- The apply step (lines 698-722). -/
def applyRemote (fetchedData : FetchedData PlainEnvelope) : Prog (Except String Unit) := do
  let actualPayload := fetchedData.payload.payloadField
  let applied ← applyServerStateToBrowser (actualPayload.bind (fun payload => payload.bookmarks))
  match applied with
  | .error e => pure (.error e)
  | .ok _ =>
    storeRemoteTabs actualPayload
    let stored ← perform (.storageSet { lastKnownServerTimestamp := fetchedData.lastModified })
    match stored with
    | .error e => pure (.error e)
    | .ok _ => pure (.ok ())

/-- The `try` block from line 692 on: what follows the fetch of the remote state. -/
def syncAfterFetch (R : Runtime PlainEnvelope) (syncState : SyncState)
    (lastKnownServerTimestamp : Option String) (fetchedData : FetchedData PlainEnvelope) :
    Prog (Except String SyncState) :=
  if remoteIsNewer R fetchedData.lastModified lastKnownServerTimestamp then do
    let applied ← applyRemote fetchedData
    match applied with
    | .error e => pure (.error e)
    | .ok _ => captureAndPush R syncState
  else captureAndPush R syncState

/-- The `try` block (lines 686-736). -/
def syncCycle (R : Runtime PlainEnvelope) (syncState : SyncState) :
    Prog (Except String SyncState) := do
  let got ← perform (.storageGet [LAST_KNOWN_SERVER_TIMESTAMP_KEY])
  match got with
  | .error e => pure (.error e)
  | .ok localTimestampData =>
    let lastKnownServerTimestamp := localTimestampData.lastKnownServerTimestamp
    let fetched ← fetchDataFromServer R syncState
    match fetched with
    | .error e => pure (.error e)
    | .ok fetchedData => syncAfterFetch R syncState lastKnownServerTimestamp fetchedData

/-- The `catch` and `finally` blocks of `performSync` (lines 738-747), given the state at
the start of the `try` block and its outcome. -/
def finishSync (syncing : SyncState) (outcome : Except String SyncState) : Prog SyncState := do
  let syncState2 ←
    (match outcome with
     | .ok done => pure done
     | .error e => do
       let failed := { syncing with status := "Error: " ++ e }
       sendStatusUpdateToPopup failed
       pure failed : Prog SyncState)
  if syncState2.status = "Syncing..." then do
    let idle := { syncState2 with status := "Idle (after error/timeout)" }
    sendStatusUpdateToPopup idle
    pure idle
  else pure syncState2

/-- JavaScript `performSync(reason)` (lines 668-748): the `syncState` it leaves. -/
def performSync (R : Runtime PlainEnvelope) (syncState : SyncState) : Prog SyncState :=
  if syncState.status = "Syncing..." then pure syncState
  else if !optTruthy syncState.serverUrl || syncState.encryptionKey.isNone then do
    let syncState1 := { syncState with status := "Configuration missing" }
    sendStatusUpdateToPopup syncState1
    pure syncState1
  else do
    let syncState1 := { syncState with status := "Syncing..." }
    sendStatusUpdateToPopup syncState1
    let outcome ← syncCycle R syncState1
    finishSync syncState1 outcome

/-! ### A reference host

An in-memory browser profile and a network that reaches the server above. The claims about
every behaviour of the collaborators quantify over all handlers; this host is the one the
concrete runs use. -/

/-- The children of a folder with their `index` set to their position. -/
def renumber : Nat → List BookmarkTreeNode → List BookmarkTreeNode
  | _, [] => []
  | i, .mk id parentId _ title dateAdded type url dateGroupModified children :: rest =>
      .mk id parentId (some i) title dateAdded type url dateGroupModified children
        :: renumber (i + 1) rest

/-- Insertion of a node among the children of a folder: at the end when no index is given
or when the index is beyond the end. -/
def insertAt (children : List BookmarkTreeNode) (index : Option Nat) (node : BookmarkTreeNode) :
    List BookmarkTreeNode :=
  match index with
  | none => children ++ [node]
  | some i => children.take i ++ node :: children.drop i

mutual
/-- Insertion of a node under the folder with the given id, within one tree. -/
def insertUnderNode (pid : String) (index : Option Nat) (node : BookmarkTreeNode) :
    BookmarkTreeNode → BookmarkTreeNode
  | .mk id parentId i title dateAdded type url dateGroupModified children =>
      if id = pid then
        .mk id parentId i title dateAdded type url dateGroupModified
          (renumber 0 (insertAt children index node))
      else
        .mk id parentId i title dateAdded type url dateGroupModified
          (insertUnderForest pid index node children)
/-- Insertion of a node under the folder with the given id, within a forest. -/
def insertUnderForest (pid : String) (index : Option Nat) (node : BookmarkTreeNode) :
    List BookmarkTreeNode → List BookmarkTreeNode
  | [] => []
  | tree :: rest => insertUnderNode pid index node tree :: insertUnderForest pid index node rest
end

mutual
/-- The tree with the title and url of the node of the given id changed. -/
def updateInNode (target : String) (changes : Changes) : BookmarkTreeNode → BookmarkTreeNode
  | .mk id parentId i title dateAdded type url dateGroupModified children =>
      if id = target then
        .mk id parentId i (changes.title.getD title) dateAdded type
          (match changes.url with
           | some (some newUrl) => some newUrl
           | _ => url)
          dateGroupModified (updateInForest target changes children)
      else
        .mk id parentId i title dateAdded type url dateGroupModified
          (updateInForest target changes children)
/-- The forest with the title and url of the node of the given id changed. -/
def updateInForest (target : String) (changes : Changes) :
    List BookmarkTreeNode → List BookmarkTreeNode
  | [] => []
  | tree :: rest => updateInNode target changes tree :: updateInForest target changes rest
end

mutual
/-- The first node of the given id below the root of a tree, in tree order, and the tree
without it. -/
def extractFromNode (target : String) : BookmarkTreeNode → Option (BookmarkTreeNode × BookmarkTreeNode)
  | .mk id parentId i title dateAdded type url dateGroupModified children =>
      match extractFromForest target children with
      | some (found, rest) =>
          some (found, .mk id parentId i title dateAdded type url dateGroupModified
                         (renumber 0 rest))
      | none => none
/-- The first node of the given id in a forest, in tree order, and the forest without it. -/
def extractFromForest (target : String) :
    List BookmarkTreeNode → Option (BookmarkTreeNode × List BookmarkTreeNode)
  | [] => none
  | .mk id parentId i title dateAdded type url dateGroupModified children :: rest =>
      if id = target then
        some (.mk id parentId i title dateAdded type url dateGroupModified children, rest)
      else
        match extractFromNode target
            (.mk id parentId i title dateAdded type url dateGroupModified children) with
        | some (found, tree) => some (found, tree :: rest)
        | none =>
          match extractFromForest target rest with
          | some (found, others) =>
              some (found, .mk id parentId i title dateAdded type url dateGroupModified children
                             :: others)
          | none => none
end

/-- The ids of the nodes of a forest, in tree order. -/
def forestIds (forest : List BookmarkTreeNode) : List String :=
  (flattenBookmarkNodes forest).map (fun item => item.id)

/-- The node with another parent id. -/
def BookmarkTreeNode.withParent (parent : JsId) : BookmarkTreeNode → BookmarkTreeNode
  | .mk id _ i title dateAdded type url dateGroupModified children =>
      .mk id parent i title dateAdded type url dateGroupModified children

/-- The bookmark part of the reference profile: the tree and the counter that names new
nodes. -/
structure BookmarkStore where
  tree : List BookmarkTreeNode
  nextId : Nat

/-- The id given to the node created when the counter stands at `n`. -/
def freshId (n : Nat) : String := "new" ++ toString n

/-- The type of a created node: the one asked for, or else by the presence of a url. -/
def createdType (details : CreateDetails) : Option String :=
  match details.type with
  | some type => some type
  | none => if (details.url.getD none).isSome then some "bookmark" else some "folder"

/-- The call `browser.bookmarks.create` on the reference profile: the node is inserted under its
parent at the index asked for (at the end when there is none or when it is too large) and
returned as stored; the call is rejected when the parent is not a node of the tree. -/
def BookmarkStore.create (store : BookmarkStore) (details : CreateDetails) :
    Except String BookmarkTreeNode × BookmarkStore :=
  match details.parentId with
  | .str pid =>
    if pid ∈ forestIds store.tree then
      let node := BookmarkTreeNode.mk (freshId store.nextId) (.str pid) details.index
        details.title none (createdType details) (details.url.getD none) none []
      let tree := insertUnderForest pid details.index node store.tree
      (.ok (((extractFromForest (freshId store.nextId) tree).map Prod.fst).getD node),
       { tree := tree, nextId := store.nextId + 1 })
    else (.error "No bookmark with that parent id", store)
  | _ => (.error "Invalid parent id", store)

/-- The call `browser.bookmarks.update` on the reference profile. -/
def BookmarkStore.update (store : BookmarkStore) (id : String) (changes : Changes) :
    Except String Unit × BookmarkStore :=
  if id ∈ forestIds store.tree then
    (.ok (), { store with tree := updateInForest id changes store.tree })
  else (.error "No bookmark with that id", store)

/-- The call `browser.bookmarks.move` on the reference profile: the subtree is taken out and put
under the destination, which has to be a node of the rest of the tree. -/
def BookmarkStore.move (store : BookmarkStore) (id : String) (destination : MoveInfo) :
    Except String Unit × BookmarkStore :=
  match extractFromForest id store.tree, destination.parentId with
  | some (node, rest), .str pid =>
    if pid ∈ forestIds rest then
      (.ok (), { store with tree := insertUnderForest pid destination.index
                                      (node.withParent (.str pid)) rest })
    else (.error "Invalid destination", store)
  | _, _ => (.error "No bookmark with that id", store)

/-- The call `storage.local.get(keys)`: the entries of the given keys. -/
def StorageItems.select (s : StorageItems) (keys : List String) : StorageItems :=
  { serverUrl := if "serverUrl" ∈ keys then s.serverUrl else none,
    cryptoSalt := if "cryptoSalt" ∈ keys then s.cryptoSalt else none,
    passphrase := if "passphrase" ∈ keys then s.passphrase else none,
    cryptoKeyJWK := if "cryptoKeyJWK" ∈ keys then s.cryptoKeyJWK else none,
    lastKnownServerTimestamp :=
      if "lastKnownServerTimestamp" ∈ keys then s.lastKnownServerTimestamp else none,
    syncedRemoteTabs := if "syncedRemoteTabs" ∈ keys then s.syncedRemoteTabs else none,
    syncBrowserId := if "syncBrowserId" ∈ keys then s.syncBrowserId else none }

/-- The call `storage.local.set(items)`: the given entries replace the stored ones. -/
def StorageItems.merge (s items : StorageItems) : StorageItems :=
  { serverUrl := items.serverUrl.orElse (fun _ => s.serverUrl),
    cryptoSalt := items.cryptoSalt.orElse (fun _ => s.cryptoSalt),
    passphrase := items.passphrase.orElse (fun _ => s.passphrase),
    cryptoKeyJWK := items.cryptoKeyJWK.orElse (fun _ => s.cryptoKeyJWK),
    lastKnownServerTimestamp :=
      items.lastKnownServerTimestamp.orElse (fun _ => s.lastKnownServerTimestamp),
    syncedRemoteTabs := items.syncedRemoteTabs.orElse (fun _ => s.syncedRemoteTabs),
    syncBrowserId := items.syncBrowserId.orElse (fun _ => s.syncBrowserId) }

/-- The call `storage.local.remove(keys)`. -/
def StorageItems.erase (s : StorageItems) (keys : List String) : StorageItems :=
  { serverUrl := if "serverUrl" ∈ keys then none else s.serverUrl,
    cryptoSalt := if "cryptoSalt" ∈ keys then none else s.cryptoSalt,
    passphrase := if "passphrase" ∈ keys then none else s.passphrase,
    cryptoKeyJWK := if "cryptoKeyJWK" ∈ keys then none else s.cryptoKeyJWK,
    lastKnownServerTimestamp :=
      if "lastKnownServerTimestamp" ∈ keys then none else s.lastKnownServerTimestamp,
    syncedRemoteTabs := if "syncedRemoteTabs" ∈ keys then none else s.syncedRemoteTabs,
    syncBrowserId := if "syncBrowserId" ∈ keys then none else s.syncBrowserId }

/-- The reference profile of one browser: local storage, bookmarks, open tabs, a clock that
advances at every reading and the bytes the random source will yield. -/
structure Device where
  storage : StorageItems
  bookmarks : BookmarkStore
  tabs : List Tab
  clock : Nat
  entropy : List Byte

/-- The handler of the reference host over a profile and a network of state `ν`. -/
def deviceHandler {ν : Type} (net : HttpRequest → ν → Except String HttpResponse × ν) :
    Handler (Device × ν)
  | .storageGet keys, (d, n) => (.ok (d.storage.select keys), (d, n))
  | .storageSet items, (d, n) => (.ok (), ({ d with storage := d.storage.merge items }, n))
  | .storageRemove keys, (d, n) => (.ok (), ({ d with storage := d.storage.erase keys }, n))
  | .fetch request, (d, n) => ((net request n).1, (d, (net request n).2))
  | .getRandomValues length, (d, n) =>
      (fun i => d.entropy.getD i.val 0, ({ d with entropy := d.entropy.drop length }, n))
  | .isoNow, (d, n) => (toString d.clock, ({ d with clock := d.clock + 1 }, n))
  | .dateNow, (d, n) => (d.clock, ({ d with clock := d.clock + 1 }, n))
  | .mathRandom, (d, n) => ("r4nd0m", (d, n))
  | .tabsQuery, (d, n) => (.ok d.tabs, (d, n))
  | .bookmarksGetTree, (d, n) => (.ok d.bookmarks.tree, (d, n))
  | .bookmarksCreate details, (d, n) =>
      ((d.bookmarks.create details).1, ({ d with bookmarks := (d.bookmarks.create details).2 }, n))
  | .bookmarksMove id destination, (d, n) =>
      ((d.bookmarks.move id destination).1,
       ({ d with bookmarks := (d.bookmarks.move id destination).2 }, n))
  | .bookmarksUpdate id changes, (d, n) =>
      ((d.bookmarks.update id changes).1,
       ({ d with bookmarks := (d.bookmarks.update id changes).2 }, n))
  | .bookmarksRemove _, (d, n) => (.error "not permitted", (d, n))
  | .bookmarksRemoveTree _, (d, n) => (.error "not permitted", (d, n))
  | .sendMessage _ _, (d, n) => ((), (d, n))

/-- A network without a server: every request fails. -/
def offline : HttpRequest → Unit → Except String HttpResponse × Unit :=
  fun _ _ => (.error "NetworkError when attempting to fetch resource.", ())

/-- The request the server sees for a call of `fetch`, given the origin it listens on:
the path is what follows the origin up to `?`, and `force` is read from a query that is
exactly `force=true`. -/
def routeRequest (origin : String) (request : HttpRequest) : Option Request :=
  if origin.data.isPrefixOf request.url.data then
    let rest := request.url.data.drop origin.data.length
    let path := rest.takeWhile (fun c => c ≠ '?')
    let query := (rest.dropWhile (fun c => c ≠ '?')).drop 1
    some { method := request.method, pathname := String.mk path,
           force := if query = "force=true".data then some "true" else none,
           body := request.body }
  else none

/-- The network that reaches the server at the given origin; the server clock advances at
every request and each request is handled without interruption. -/
def serverNet (origin : String) : HttpRequest → Fs × Nat → Except String HttpResponse × (Fs × Nat) :=
  fun request (fs, clock) =>
    match routeRequest origin request with
    | none => (.error "NetworkError when attempting to fetch resource.", (fs, clock))
    | some req =>
      (.ok (handle { now := toString clock } fs req).2,
       ((handle { now := toString clock } fs req).1, clock + 1))

/-- A runtime for plaintexts that are strings: the text is its own serialisation, a
character is encoded as its code modulo 256, the cipher prepends the key and the IV to the
data and decryption checks them. -/
def textRuntime : Runtime String :=
  { jsonStringify := fun s => s,
    jsonParse := fun s => .ok s,
    textEncode := fun s => s.data.map (fun c => Fin.ofNat (c.toNat % 256)),
    textDecode := fun bytes => String.mk (bytes.map (fun b => Char.ofNat b.val)),
    subtleEncrypt := fun key iv data => .ok (key.raw ++ iv ++ data),
    subtleDecrypt := fun key iv data =>
      if (key.raw ++ iv).isPrefixOf data then .ok (data.drop (key.raw ++ iv).length)
      else .error "OperationError",
    deriveKey := fun material salt _ => .ok { raw := material ++ salt },
    exportKey := fun key => .ok { k := binaryString key.raw },
    importKey := fun jwk => .ok { raw := jwk.k.data.map (fun c => Fin.ofNat (c.toNat % 256)) },
    dateValue := fun s => s.toNat?.map Int.ofNat }

/-- A runtime for envelopes whose serialisation is given by a table of the envelopes in
use; the other functions are those of `textRuntime`. -/
def tableRuntime (table : List (PlainEnvelope × String)) : Runtime PlainEnvelope :=
  { jsonStringify := fun envelope => (table.lookup envelope).getD "null",
    jsonParse := fun text =>
      match table.find? (fun entry => entry.2 = text) with
      | some entry => .ok entry.1
      | none => .error "SyntaxError",
    textEncode := textRuntime.textEncode,
    textDecode := textRuntime.textDecode,
    subtleEncrypt := textRuntime.subtleEncrypt,
    subtleDecrypt := textRuntime.subtleDecrypt,
    deriveKey := textRuntime.deriveKey,
    exportKey := textRuntime.exportKey,
    importKey := textRuntime.importKey,
    dateValue := textRuntime.dateValue }

/-! ### Predicates and sample data used in the statements -/

/-- The requests the reconciler is entitled to: reading the tree, creating, moving and
updating a node. -/
def reconcilerOp : Op → Prop
  | .bookmarksGetTree => True
  | .bookmarksCreate _ => True
  | .bookmarksMove _ _ => True
  | .bookmarksUpdate _ _ => True
  | _ => False

instance (op : Op) : Decidable (reconcilerOp op) := by
  cases op <;> unfold reconcilerOp <;> exact inferInstance

/-- The ids of the local tree in a state of the collaborators: those of the tree that
`getTree` returns there. -/
def localIds {ω : Type} (h : Handler ω) (w : ω) : List String :=
  match (h .bookmarksGetTree w).1 with
  | .ok tree => forestIds tree
  | .error _ => []

/-- Whether an answer is a rejected promise. -/
def Op.failed : (op : Op) → Op.Resp op → Bool
  | .storageGet _, .error _ => true
  | .storageSet _, .error _ => true
  | .storageRemove _, .error _ => true
  | .fetch _, .error _ => true
  | .tabsQuery, .error _ => true
  | .bookmarksGetTree, .error _ => true
  | .bookmarksCreate _, .error _ => true
  | .bookmarksMove _ _, .error _ => true
  | .bookmarksUpdate _ _, .error _ => true
  | .bookmarksRemove _, .error _ => true
  | .bookmarksRemoveTree _, .error _ => true
  | _, _ => false

/-- The number of requests of an execution that were answered by a rejection. -/
def Prog.failures {α ω : Type} (h : Handler ω) : Prog α → ω → Nat
  | .pure _, _ => 0
  | .step op k, w =>
      (if Op.failed op (h op w).1 then 1 else 0) + (k (h op w).1).failures h (h op w).2

/-- A folder node. -/
def folderNode (id : String) (parentId : JsId) (index : Nat) (title : String)
    (children : List BookmarkTreeNode) : BookmarkTreeNode :=
  .mk id parentId (some index) title none (some "folder") none none children

/-- A server record of a folder. -/
def folderItem (id : String) (parentId : String) (index : Nat) (title : String) : BookmarkItem :=
  { id := id, parentId := .str parentId, index := some index, title := title, dateAdded := none,
    type := some "folder", url := none, dateGroupModified := none }

/-- A server record of a bookmark. -/
def bookmarkItem (id : String) (parentId : String) (index : Nat) (title url : String) :
    BookmarkItem :=
  { id := id, parentId := .str parentId, index := some index, title := title, dateAdded := none,
    type := some "bookmark", url := some url, dateGroupModified := none }

/-- A profile with the given bookmark tree and nothing else, off line. -/
def profileWith (tree : List BookmarkTreeNode) : Device × Unit :=
  ({ storage := {}, bookmarks := { tree := tree, nextId := 1 }, tabs := [], clock := 0,
     entropy := [] }, ())

/-- The tree of a profile whose toolbar folder is empty. -/
def emptyToolbar : List BookmarkTreeNode :=
  [folderNode "root" .undefined 0 "" [folderNode "tb" (.str "root") 0 "Toolbar" []]]

/-- A server list with two bookmarks of the same parent, type, title and url. -/
def twinBookmarks : List BookmarkItem :=
  [bookmarkItem "a1" "tb" 0 "Lean" "https://lean-lang.org",
   bookmarkItem "a2" "tb" 1 "Lean" "https://lean-lang.org"]

/-- A request that changes the bookmark tree. -/
def bookmarkMutation : Op → Prop
  | .bookmarksCreate _ => True
  | .bookmarksMove _ _ => True
  | .bookmarksUpdate _ _ => True
  | .bookmarksRemove _ => True
  | .bookmarksRemoveTree _ => True
  | _ => False

instance (op : Op) : Decidable (bookmarkMutation op) := by
  cases op <;> unfold bookmarkMutation <;> exact inferInstance

/-- A request that writes or removes the cached remote tabs or the stored last server
timestamp. -/
def writesTabsOrTimestamp : Op → Prop
  | .storageSet items => items.syncedRemoteTabs ≠ none ∨ items.lastKnownServerTimestamp ≠ none
  | .storageRemove keys => REMOTE_TABS_STORAGE_KEY ∈ keys ∨ LAST_KNOWN_SERVER_TIMESTAMP_KEY ∈ keys
  | _ => False

instance (op : Op) : Decidable (writesTabsOrTimestamp op) := by
  cases op <;> unfold writesTabsOrTimestamp <;> exact inferInstance

/-- The remote timestamp is absent, or there is a stored timestamp and both are dates of
which the remote one is not the later one. -/
def staleRemote {P : Type} (R : Runtime P) (remoteTimestamp lastKnownServerTimestamp : Option String) :
    Prop :=
  optTruthy remoteTimestamp = false ∨
    (optTruthy lastKnownServerTimestamp = true ∧
      match R.dateValue (remoteTimestamp.getD ""), R.dateValue (lastKnownServerTimestamp.getD "") with
      | some remote, some known => remote ≤ known
      | _, _ => False)

instance {P : Type} (R : Runtime P) (remoteTimestamp lastKnownServerTimestamp : Option String) :
    Decidable (staleRemote R remoteTimestamp lastKnownServerTimestamp) := by
  unfold staleRemote
  cases R.dateValue (remoteTimestamp.getD "") <;>
    cases R.dateValue (lastKnownServerTimestamp.getD "") <;> exact inferInstance

/-- The origin of the sample server. -/
def sampleOrigin : String := "http://sync.example"

/-- A key for the sample runs. -/
def sampleKey : CryptoKey := { raw := [7, 7, 7] }

/-- A configured and idle `syncState`. -/
def sampleState : SyncState :=
  { lastSync := none, status := "Idle", serverUrl := some sampleOrigin,
    encryptionKey := some sampleKey }

/-- A profile with an empty toolbar and no stored timestamp, and a server without data. -/
def freshWorld : Device × (Fs × Nat) :=
  ({ storage := { serverUrl := some sampleOrigin },
     bookmarks := { tree := emptyToolbar, nextId := 1 }, tabs := [], clock := 100,
     entropy := [] }, (none, 0))

/-- The base64 characters of a list of codes, without the padding. -/
def b64Body : List Nat → List Char
  | [] => []
  | [a] => [b64Char (a / 4), b64Char (a % 4 * 16)]
  | [a, b] => [b64Char (a / 4), b64Char (a % 4 * 16 + b / 16), b64Char (b % 16 * 4)]
  | a :: b :: c :: rest =>
      b64Char (a / 4) :: b64Char (a % 4 * 16 + b / 16) :: b64Char (b % 16 * 4 + c / 64)
        :: b64Char (c % 64) :: b64Body rest

/-- The padding of the base64 encoding of a list of codes. -/
def b64Padding : List Nat → List Char
  | [] => []
  | [_] => ['=', '=']
  | [_, _] => ['=']
  | _ :: _ :: _ :: rest => b64Padding rest

/-- A profile like `profileWith emptyToolbar` whose random source yields the given bytes. -/
def profileWithEntropy (entropy : List Byte) : Device × Unit :=
  ({ storage := {}, bookmarks := { tree := emptyToolbar, nextId := 1 }, tabs := [], clock := 0,
     entropy := entropy }, ())

/-- A request that is a forced salt upload: `POST /sync/salt?force=true`. -/
def isForcedSaltPost (req : Request) : Prop :=
  req.method = "POST" ∧ req.pathname = "/sync/salt" ∧ req.force = some "true"

instance (req : Request) : Decidable (isForcedSaltPost req) := by
  unfold isForcedSaltPost
  exact inferInstance

/-- The salt a file system stores, if any. -/
def storedSalt (fs : Fs) : Option String := fs.bind (fun dir => dir.salt)

/-- The envelope a file system stores, if any. -/
def storedData (fs : Fs) : Option Envelope := fs.bind (fun dir => dir.data)

/-- A server environment at a fixed time in which the file system works. -/
def sampleEnv : ServerEnv := { now := "2026-01-01T00:00:00.000Z" }

/-- A data directory with a salt and an envelope. -/
def sampleDir : DataDir :=
  { salt := some "c2FsdA==", data := some { payload := "b2xk", lastModified := "2025-12-31T00:00:00.000Z" } }

/-- The request `POST /sync/data` with the given body. -/
def postData (body : ReqBody) : Request :=
  { method := "POST", pathname := "/sync/data", force := none, body := body }

/-- The request `GET /sync/data`. -/
def getData : Request :=
  { method := "GET", pathname := "/sync/data", force := none, body := .invalid }

/-! ### Two clients and one server

A client runs its program on its own profile up to its next call of `fetch`. The server
handles that request up to its `await req.json()`, where the handlers of other requests may
run, and finishes it at a later step. -/

/-- Where a client stands: running its program, waiting for the server to finish the request
whose handler is suspended, or done. -/
inductive ClientPhase (α : Type) where
  | running (program : Prog α) : ClientPhase α
  | awaiting (pending : Pending) (body : ReqBody) (k : Except String HttpResponse → Prog α) :
      ClientPhase α
  | finished (result : α) : ClientPhase α

/-- A client: its profile and where it stands. -/
structure RaceClient (α : Type) where
  device : Device
  phase : ClientPhase α

/-- The program run on the profile up to its end or to its next call of `fetch`. -/
def localRun {α : Type} : Prog α → Device →
    Device × (α ⊕ (HttpRequest × (Except String HttpResponse → Prog α)))
  | .pure a, d => (d, .inl a)
  | .step (.fetch request) k, d => (d, .inr (request, k))
  | .step (.storageGet keys) k, d =>
      localRun (k (deviceHandler offline (.storageGet keys) (d, ())).1)
        (deviceHandler offline (.storageGet keys) (d, ())).2.1
  | .step (.storageSet items) k, d =>
      localRun (k (deviceHandler offline (.storageSet items) (d, ())).1)
        (deviceHandler offline (.storageSet items) (d, ())).2.1
  | .step (.storageRemove keys) k, d =>
      localRun (k (deviceHandler offline (.storageRemove keys) (d, ())).1)
        (deviceHandler offline (.storageRemove keys) (d, ())).2.1
  | .step (.getRandomValues length) k, d =>
      localRun (k (deviceHandler offline (.getRandomValues length) (d, ())).1)
        (deviceHandler offline (.getRandomValues length) (d, ())).2.1
  | .step .isoNow k, d =>
      localRun (k (deviceHandler offline .isoNow (d, ())).1)
        (deviceHandler offline .isoNow (d, ())).2.1
  | .step .dateNow k, d =>
      localRun (k (deviceHandler offline .dateNow (d, ())).1)
        (deviceHandler offline .dateNow (d, ())).2.1
  | .step .mathRandom k, d =>
      localRun (k (deviceHandler offline .mathRandom (d, ())).1)
        (deviceHandler offline .mathRandom (d, ())).2.1
  | .step .tabsQuery k, d =>
      localRun (k (deviceHandler offline .tabsQuery (d, ())).1)
        (deviceHandler offline .tabsQuery (d, ())).2.1
  | .step .bookmarksGetTree k, d =>
      localRun (k (deviceHandler offline .bookmarksGetTree (d, ())).1)
        (deviceHandler offline .bookmarksGetTree (d, ())).2.1
  | .step (.bookmarksCreate details) k, d =>
      localRun (k (deviceHandler offline (.bookmarksCreate details) (d, ())).1)
        (deviceHandler offline (.bookmarksCreate details) (d, ())).2.1
  | .step (.bookmarksMove id destination) k, d =>
      localRun (k (deviceHandler offline (.bookmarksMove id destination) (d, ())).1)
        (deviceHandler offline (.bookmarksMove id destination) (d, ())).2.1
  | .step (.bookmarksUpdate id changes) k, d =>
      localRun (k (deviceHandler offline (.bookmarksUpdate id changes) (d, ())).1)
        (deviceHandler offline (.bookmarksUpdate id changes) (d, ())).2.1
  | .step (.bookmarksRemove id) k, d =>
      localRun (k (deviceHandler offline (.bookmarksRemove id) (d, ())).1)
        (deviceHandler offline (.bookmarksRemove id) (d, ())).2.1
  | .step (.bookmarksRemoveTree id) k, d =>
      localRun (k (deviceHandler offline (.bookmarksRemoveTree id) (d, ())).1)
        (deviceHandler offline (.bookmarksRemoveTree id) (d, ())).2.1
  | .step (.sendMessage status lastSync) k, d =>
      localRun (k (deviceHandler offline (.sendMessage status lastSync) (d, ())).1)
        (deviceHandler offline (.sendMessage status lastSync) (d, ())).2.1

/-- One step of a client against the server: a running client goes on to its next request,
which the server handles up to its `await`; a waiting client has its request finished. -/
def raceStep {α : Type} (origin : String) (env : ServerEnv) (fs : Fs) (client : RaceClient α) :
    Fs × RaceClient α :=
  match client.phase with
  | .finished _ => (fs, client)
  | .awaiting pending body k =>
      ((handleResume env fs pending body).1,
       { client with phase := .running (k (.ok (handleResume env fs pending body).2)) })
  | .running program =>
      match localRun program client.device with
      | (device, .inl result) => (fs, { device := device, phase := .finished result })
      | (device, .inr (request, k)) =>
          match routeRequest origin request with
          | none =>
              (fs, { device := device,
                     phase := .running (k (.error "NetworkError when attempting to fetch resource.")) })
          | some req =>
              match handleStart env fs req with
              | (fs1, .inl response) =>
                  (fs1, { device := device, phase := .running (k (.ok response)) })
              | (fs1, .inr pending) =>
                  (fs1, { device := device, phase := .awaiting pending req.body k })

/-- One step of a client when the server handles each request without interruption. -/
def raceStepAtomic {α : Type} (origin : String) (env : ServerEnv) (fs : Fs)
    (client : RaceClient α) : Fs × RaceClient α :=
  match client.phase with
  | .finished _ => (fs, client)
  | .awaiting pending body k =>
      ((handleResume env fs pending body).1,
       { client with phase := .running (k (.ok (handleResume env fs pending body).2)) })
  | .running program =>
      match localRun program client.device with
      | (device, .inl result) => (fs, { device := device, phase := .finished result })
      | (device, .inr (request, k)) =>
          match routeRequest origin request with
          | none =>
              (fs, { device := device,
                     phase := .running (k (.error "NetworkError when attempting to fetch resource.")) })
          | some req =>
              ((handle env fs req).1,
               { device := device, phase := .running (k (.ok (handle env fs req).2)) })

/-- The state of a race of two clients: the file system of the server, every value the
salt store took, oldest first, and the clients. -/
structure Race (α : Type) where
  fs : Fs
  saltWrites : List String
  first : RaceClient α
  second : RaceClient α

/-- The salt store after a step, appended to the values it took when the step changed it. -/
def recordSalt (writes : List String) (before after : Fs) : List String :=
  match storedSalt after with
  | some salt => if storedSalt before = some salt then writes else writes ++ [salt]
  | none => writes

/-- The race along a schedule: `false` lets the first client take a step, `true` the
second; `step` is the step function. -/
def runRace {α : Type} (step : Fs → RaceClient α → Fs × RaceClient α) :
    List Bool → Race α → Race α
  | [], race => race
  | false :: rest, race =>
      runRace step rest
        { race with fs := (step race.fs race.first).1,
                    saltWrites := recordSalt race.saltWrites race.fs (step race.fs race.first).1,
                    first := (step race.fs race.first).2 }
  | true :: rest, race =>
      runRace step rest
        { race with fs := (step race.fs race.second).1,
                    saltWrites := recordSalt race.saltWrites race.fs (step race.fs race.second).1,
                    second := (step race.fs race.second).2 }

/-- The `syncState` a finished client is left with. -/
def RaceClient.result {α : Type} (client : RaceClient α) : Option α :=
  match client.phase with
  | .finished result => some result
  | _ => none

/-- The `syncState` of a freshly started extension (lines 8-13). -/
def initialState : SyncState :=
  { lastSync := none, status := "Idle", serverUrl := none, encryptionKey := none }

/-- A first-time client: configured with the sample origin and a passphrase, no salt
cached, about to run `loadConfiguration`; its random source yields the given bytes. -/
def firstTimeClient (entropy : List Byte) : RaceClient SyncState :=
  { device := { storage := { serverUrl := some sampleOrigin, passphrase := some "correct horse" },
                bookmarks := { tree := emptyToolbar, nextId := 1 }, tabs := [], clock := 0,
                entropy := entropy },
    phase := .running (loadConfiguration textRuntime initialState) }

/-- Two first-time clients, whose random sources differ, and a server without a salt. -/
def saltRace : Race SyncState :=
  { fs := none, saltWrites := [],
    first := firstTimeClient (List.replicate 16 1),
    second := firstTimeClient (List.replicate 16 2) }

/-- All schedules of the given length. -/
def allSchedules : Nat → List (List Bool)
  | 0 => [[]]
  | n + 1 => (allSchedules n).map (fun s => false :: s) ++ (allSchedules n).map (fun s => true :: s)

/-- The schedule that lets each client in turn take four more steps. -/
def drain : List Bool := [false, false, false, false, true, true, true, true]

/-- Both clients are done, one salt value was ever stored, and it is the cached salt of
both clients, whose keys are the same. -/
def converged (race : Race SyncState) : Bool :=
  match race.first.result, race.second.result, race.saltWrites with
  | some a, some b, [salt] =>
      decide (race.first.device.storage.cryptoSalt = some salt) &&
      decide (race.second.device.storage.cryptoSalt = some salt) &&
      decide (a.encryptionKey = b.encryptionKey) && a.encryptionKey.isSome
  | _, _, _ => false

/-- The server id of the folder at the given level of the sample chain. -/
def chainId (level : Nat) : String := "s" ++ toString level

/-- The server list of a chain of nested new folders below the toolbar, every folder
listed before its parent: the deepest first, the one at level 1 last. -/
def reversedChain : Nat → List BookmarkItem
  | 0 => []
  | level + 1 =>
      folderItem (chainId (level + 1)) (if level = 0 then "tb" else chainId level) 0
        ("Level " ++ toString (level + 1)) :: reversedChain level

/-- The id, parent id and title of every node of a forest, in tree order. -/
def outline (forest : List BookmarkTreeNode) : List (String × JsId × String) :=
  (flattenBookmarkNodes forest).map (fun item => (item.id, item.parentId, item.title))

/-- The outline of the sample profile after the first `depth` levels of the chain were
created one after the other. -/
def chainOutline (depth : Nat) : List (String × JsId × String) :=
  [("root", .undefined, ""), ("tb", .str "root", "Toolbar")] ++
    (List.range depth).map (fun i =>
      (freshId (i + 1), .str (if i = 0 then "tb" else freshId i), "Level " ++ toString (i + 1)))

/-- The report of a run that returned one. -/
def reportOf (result : Except String (Option ApplyReport)) : Option ApplyReport :=
  match result with
  | .ok report => report
  | .error _ => none

/-! ### Sample data of the sync cycle -/

/-- A request that writes or removes the stored last server timestamp. -/
def writesTimestamp : Op → Prop
  | .storageSet items => items.lastKnownServerTimestamp ≠ none
  | .storageRemove keys => LAST_KNOWN_SERVER_TIMESTAMP_KEY ∈ keys
  | _ => False

instance (op : Op) : Decidable (writesTimestamp op) := by
  cases op <;> unfold writesTimestamp <;> exact inferInstance

/-- A request that writes or removes the cached remote tabs. -/
def writesTabs : Op → Prop
  | .storageSet items => items.syncedRemoteTabs ≠ none
  | .storageRemove keys => REMOTE_TABS_STORAGE_KEY ∈ keys
  | _ => False

instance (op : Op) : Decidable (writesTabs op) := by
  cases op <;> unfold writesTabs <;> exact inferInstance

/-- The network that reaches a server at the given origin whose disk rejects every write:
`writeFileSync` throws. -/
def readOnlyServerNet (origin : String) :
    HttpRequest → Fs × Nat → Except String HttpResponse × (Fs × Nat) :=
  fun request (fs, clock) =>
    match routeRequest origin request with
    | none => (.error "NetworkError when attempting to fetch resource.", (fs, clock))
    | some req =>
      (.ok (handle { now := toString clock, writeFails := true } fs req).2,
       ((handle { now := toString clock, writeFails := true } fs req).1, clock + 1))

/-- A tab record of another device. -/
def remoteTab (id : Nat) (url : String) : TabRecord :=
  { id := id, windowId := 1, index := 0, url := url, title := url, active := false,
    pinned := false, discarded := false, browserId := some "browser_A",
    lastUpdated := some "2" }

/-- The envelope another device pushed: no bookmarks and the given tabs. -/
def envelopeWith (tabs : List TabRecord) : PlainEnvelope :=
  { payload := some { tabs := some tabs, bookmarks := some [] }, lastModified := some "3" }

/-- The serialisations of the sample envelopes. -/
def sampleTable : List (PlainEnvelope × String) :=
  [(envelopeWith [], "E0"), (envelopeWith [remoteTab 4 "https://a.example"], "E1")]

/-- The ciphertext of a text under the sample key, the cipher of `textRuntime` and an IV of
twelve zero bytes, in base64. -/
def sampleCiphertext (text : String) : String :=
  match bufferToBase64 (List.replicate 12 0 ++ (sampleKey.raw ++ List.replicate 12 0
      ++ textRuntime.textEncode text)) with
  | .ok s => s
  | .error _ => ""

/-- A server that stores the ciphertext of the given text, stamped `"5"`, and whose clock
stands at 6. -/
def serverWith (text : String) : Fs × Nat :=
  (some { salt := none, data := some { payload := sampleCiphertext text, lastModified := "5" } }, 6)

/-- A configured profile with an empty toolbar, the given cache of remote tabs and the given
stored timestamp. -/
def deviceWith (cached : Option (List TabRecord)) (known : Option String) : Device :=
  { storage := { serverUrl := some sampleOrigin, syncedRemoteTabs := cached,
                 lastKnownServerTimestamp := known, syncBrowserId := some "browser_B" },
    bookmarks := { tree := emptyToolbar, nextId := 1 }, tabs := [], clock := 100, entropy := [] }

/-! ### Definitions for the state capture -/

/-- The device id of `getCurrentBrowserState` (lines 413-420): the stored `syncBrowserId`, or
else a new id that is stored; this is the block of `getCurrentBrowserState` that yields
`browserId`, under a name. -/
def ensureBrowserId (browserIdData : StorageItems) : Prog (Except String String) :=
  if optTruthy browserIdData.syncBrowserId then
    pure (Except.ok (browserIdData.syncBrowserId.getD ""))
  else do
    let now : Nat ← perform .dateNow
    let random : String ← perform .mathRandom
    let browserId := "browser_" ++ toString now ++ "_" ++ random
    let stored ← perform (.storageSet { syncBrowserId := some browserId })
    match stored with
    | .error e => pure (Except.error e)
    | .ok _ => pure (Except.ok browserId)

/-- The fields of a tab record that come from the live tab. -/
def TabRecord.tab (record : TabRecord) : Tab :=
  { id := record.id, windowId := record.windowId, index := record.index, url := record.url,
    title := record.title, active := record.active, pinned := record.pinned,
    discarded := record.discarded }

/-- A live tab of the first window. -/
def liveTab (id : Nat) (url : String) : Tab :=
  { id := id, windowId := 1, index := id, url := url, title := url, active := false,
    pinned := false, discarded := false }

/-- A profile with the device id `browser_B`, two live tabs and a cache that holds a tab of
another device, an old record of this device and a record without a device id. -/
def captureProfile : Device × Unit :=
  ({ storage := { syncBrowserId := some "browser_B",
                  syncedRemoteTabs := some [remoteTab 9 "https://a.example",
                    { remoteTab 3 "https://stale.example" with browserId := some "browser_B" },
                    { remoteTab 5 "https://anon.example" with browserId := none }] },
     bookmarks := { tree := emptyToolbar, nextId := 1 },
     tabs := [liveTab 1 "https://one.example", liveTab 2 "https://two.example"],
     clock := 100, entropy := [] }, ())

/-! ### Trees, paths and pre-order -/

mutual
/-- The number of nodes of a tree. -/
def nodeCount : BookmarkTreeNode → Nat
  | .mk _ _ _ _ _ _ _ _ children => 1 + forestCount children
/-- The number of nodes of a forest. -/
def forestCount : List BookmarkTreeNode → Nat
  | [] => 0
  | tree :: rest => nodeCount tree + forestCount rest
end

/-- The descendant of a node at a path of child positions; the empty path is the node
itself. -/
def descend : BookmarkTreeNode → List Nat → Option BookmarkTreeNode
  | node, [] => some node
  | node, i :: path =>
      match node.children.get? i with
      | some child => descend child path
      | none => none

/-- The number of nodes of the tree of a node that pre-order visits before its descendant at
a path: the node itself, the trees of the children to the left of the first position, and so
on below. -/
def rankIn : BookmarkTreeNode → List Nat → Nat
  | _, [] => 0
  | node, i :: path =>
      1 + forestCount (node.children.take i) +
        (match node.children.get? i with
         | some child => rankIn child path
         | none => 0)

/-- The node of a forest at a path: the first position picks a tree of the forest, the
others lead down from its root. -/
def nodeAt (forest : List BookmarkTreeNode) : List Nat → Option BookmarkTreeNode
  | [] => none
  | i :: path =>
      match forest.get? i with
      | some tree => descend tree path
      | none => none

/-- The number of nodes of a forest that pre-order visits before the node at a path: the
trees to the left of the first position and what comes before the node in its own tree. -/
def preorderRank (forest : List BookmarkTreeNode) : List Nat → Nat
  | [] => 0
  | i :: path =>
      forestCount (forest.take i) +
        (match forest.get? i with
         | some tree => rankIn tree path
         | none => 0)

/-! ### Predicates and sample data of the configuration load -/

/-- A request that stores a passphrase. -/
def writesPassphrase : Op → Prop
  | .storageSet items => items.passphrase ≠ none
  | _ => False

instance (op : Op) : Decidable (writesPassphrase op) := by
  cases op <;> unfold writesPassphrase <;> exact inferInstance

/-- A request that writes or removes the cached salt. -/
def writesSalt : Op → Prop
  | .storageSet items => items.cryptoSalt ≠ none
  | .storageRemove keys => SALT_STORAGE_KEY ∈ keys
  | _ => False

instance (op : Op) : Decidable (writesSalt op) := by
  cases op <;> unfold writesSalt <;> exact inferInstance

/-- A call of `fetch`. -/
def isFetch : Op → Prop
  | .fetch _ => True
  | _ => False

instance (op : Op) : Decidable (isFetch op) := by
  cases op <;> unfold isFetch <;> exact inferInstance

/-- The runtime `textRuntime` with a key export that fails. -/
def noExportRuntime : Runtime String :=
  { textRuntime with exportKey := fun _ => .error "NotSupportedError" }

/-- A first-time profile (server URL and passphrase stored, no salt cached) whose random
source yields sixteen bytes `1`, and a server without a salt. -/
def firstTimeWorld : Device × (Fs × Nat) :=
  ((firstTimeClient (List.replicate 16 1)).device, (none, 0))

/-- A profile with a server URL, a passphrase and the cached salt `AQID`, and a server that
stores the salt `c2FsdA==` (the bytes of `salt`). -/
def staleSaltWorld : Device × (Fs × Nat) :=
  ({ storage := { serverUrl := some sampleOrigin, cryptoSalt := some "AQID",
                  passphrase := some "correct horse" },
     bookmarks := { tree := emptyToolbar, nextId := 1 }, tabs := [], clock := 0, entropy := [] },
   (some sampleDir, 0))

/-- A network that answers the calls of `fetch` from a script, one response per call in
order, whatever the request; a call beyond the script fails. -/
def scriptedNet : HttpRequest → List HttpResponse → Except String HttpResponse × List HttpResponse
  | _, [] => (.error "NetworkError when attempting to fetch resource.", [])
  | _, response :: rest => (.ok response, rest)

/-- The answers a client gets when another client stores the salt `c2FsdA==` between its
first fetch and its upload: 404, 409, then the salt. -/
def conflictScript : List HttpResponse :=
  [errorResponse "Salt not found" 404, errorResponse "Salt already exists" 409,
   { status := 200, statusText := "", json := .ok { salt := some "c2FsdA==" } }]

/-- The answers when the salt is gone again at the refetch: 404, 409, 404. -/
def lostSaltScript : List HttpResponse :=
  [errorResponse "Salt not found" 404, errorResponse "Salt already exists" 409,
   errorResponse "Salt not found" 404]

/-- A profile with a server URL, a passphrase and the given cached salt, whose random source
yields sixteen bytes `1`. -/
def profileWithSalt (cached : Option String) : Device :=
  { storage := { serverUrl := some sampleOrigin, cryptoSalt := cached,
                 passphrase := some "correct horse" },
    bookmarks := { tree := emptyToolbar, nextId := 1 }, tabs := [], clock := 0,
    entropy := List.replicate 16 1 }

/-- The request `POST /sync/salt` with the given `force` parameter and body. -/
def postSalt (force : Option String) (body : ReqBody) : Request :=
  { method := "POST", pathname := "/sync/salt", force := force, body := body }

/-- A data directory without files. -/
def emptyDir : DataDir := { salt := none, data := none }

/-! ### The reconcile loop, item by item -/

/-- The loop variables before the first pass (lines 507-510). -/
def loopStart : ReconcileState :=
  { createdIdMap := [], processedServerIds := [], changedInPass := true, pass := 0,
    currentLocalBookmarks := [], createdItems := [] }

/-- The loop variables at the start of a pass that read the given tree (lines 515-523). -/
def passStart (st : ReconcileState) (currentLocalTree : List BookmarkTreeNode) : ReconcileState :=
  { st with changedInPass := false, pass := st.pass + 1,
            currentLocalBookmarks := flattenBookmarkNodes currentLocalTree,
            createdItems := [] }

/-- The handlings of server items in an execution of `reconcilePass`, in order: the loop
variables at the start of the handling, the server item and the state of the collaborators
at that moment. -/
def passVisits {ω : Type} (h : Handler ω) :
    List BookmarkItem → ReconcileState → ω → List (ReconcileState × BookmarkItem × ω)
  | [], _, _ => []
  | serverItem :: rest, st, w =>
      (st, serverItem, w) ::
        passVisits h rest ((reconcileItem st serverItem).run h w).1
          ((reconcileItem st serverItem).run h w).2.1

/-- The handlings of server items in an execution of `reconcileLoop`, pass after pass. -/
def loopVisits {ω : Type} (h : Handler ω) (serverBookmarks : List BookmarkItem) :
    Nat → ReconcileState → ω → List (ReconcileState × BookmarkItem × ω)
  | 0, _, _ => []
  | remaining + 1, st, w =>
    if !st.changedInPass then []
    else
      match (h .bookmarksGetTree w).1 with
      | .error _ => []
      | .ok currentLocalTree =>
        let st1 := passStart st currentLocalTree
        let w1 := (h .bookmarksGetTree w).2
        let st2 := ((reconcilePass serverBookmarks st1).run h w1).1
        let w2 := ((reconcilePass serverBookmarks st1).run h w1).2.1
        passVisits h serverBookmarks st1 w1 ++
          (if !st2.changedInPass && decide (st2.processedServerIds.length < serverBookmarks.length)
           then []
           else loopVisits h serverBookmarks remaining st2 w2)

/-- The handlings of server items in an execution of `applyServerStateToBrowser` on a server
list. -/
def applyVisits {ω : Type} (h : Handler ω) (serverBookmarks : List BookmarkItem) (w : ω) :
    List (ReconcileState × BookmarkItem × ω) :=
  match (h .bookmarksGetTree w).1 with
  | .error _ => []
  | .ok _ => loopVisits h serverBookmarks maxPasses loopStart (h .bookmarksGetTree w).2

/-- The requests of one handling of a server item. -/
def visitTrace {ω : Type} (h : Handler ω) (visit : ReconcileState × BookmarkItem × ω) : List Op :=
  ((reconcileItem visit.1 visit.2.1).run h visit.2.2).2.2

/-- The loop variables after one handling of a server item. -/
def visitResult {ω : Type} (h : Handler ω) (visit : ReconcileState × BookmarkItem × ω) :
    ReconcileState :=
  ((reconcileItem visit.1 visit.2.1).run h visit.2.2).1

/-- Every server id with an entry in `createdIdMap` is processed. -/
def entriesProcessed (st : ReconcileState) : Prop :=
  ∀ id ∈ st.createdIdMap.map Prod.fst, id ∈ st.processedServerIds

instance (st : ReconcileState) : Decidable (entriesProcessed st) := by
  unfold entriesProcessed
  exact inferInstance

/-- The server ids with an entry in `createdIdMap` are the processed ones. -/
def mappedIsProcessed (st : ReconcileState) : Prop :=
  (∀ id ∈ st.createdIdMap.map Prod.fst, id ∈ st.processedServerIds) ∧
  (∀ id ∈ st.processedServerIds, id ∈ st.createdIdMap.map Prod.fst)

instance (st : ReconcileState) : Decidable (mappedIsProcessed st) := by
  unfold mappedIsProcessed
  exact inferInstance

/-- The request reads the bookmark tree. -/
def isGetTree : Op → Bool
  | .bookmarksGetTree => true
  | _ => false

/-- The processed set is a set of ids of server items, and the entries of `createdIdMap`
are for processed ids. -/
def processedWithin (serverBookmarks : List BookmarkItem) (st : ReconcileState) : Prop :=
  entriesProcessed st ∧ st.processedServerIds.Nodup ∧
    ∀ id ∈ st.processedServerIds, ∃ item ∈ serverBookmarks, item.id = id


instance (serverBookmarks : List BookmarkItem) (st : ReconcileState) :
    Decidable (processedWithin serverBookmarks st) := by
  unfold processedWithin
  exact inferInstance

/-- A server list with a bookmark whose parent is the id `0`, which the reference profile
does not have, and a bookmark of the toolbar. -/
def orphanList : List BookmarkItem :=
  [bookmarkItem "x1" "0" 0 "Orphan" "https://orphan.example",
   bookmarkItem "y1" "tb" 0 "Lean" "https://lean-lang.org"]


/-- Every processed id is the id of a server item that has a parent id, and the processed
set holds no id twice. -/
def processedHaveParent (serverBookmarks : List BookmarkItem) (st : ReconcileState) : Prop :=
  st.processedServerIds.Nodup ∧
    ∀ id ∈ st.processedServerIds,
      ∃ item ∈ serverBookmarks, item.parentId ≠ .undefined ∧ item.id = id

instance (serverBookmarks : List BookmarkItem) (st : ReconcileState) :
    Decidable (processedHaveParent serverBookmarks st) := by
  unfold processedHaveParent
  exact inferInstance

/-- A bookmark node. -/
def bookmarkNode (id : String) (parentId : JsId) (index : Nat) (title url : String) :
    BookmarkTreeNode :=
  .mk id parentId (some index) title none (some "bookmark") (some url) none []

/-- The tree of another device of the same make, whose root and toolbar have the ids they
have on the reference profile: a root, its toolbar and one bookmark in it. -/
def otherDeviceTree : List BookmarkTreeNode :=
  [folderNode "root" .undefined 0 ""
    [folderNode "tb" (.str "root") 0 "Toolbar"
      [bookmarkNode "b0" (.str "tb") 0 "Lean" "https://lean-lang.org"]]]

/-- A local tree in which a folder has the id `undefined`. -/
def oddTree : List BookmarkTreeNode :=
  [folderNode "root" .undefined 0 ""
    [folderNode "undefined" (.str "root") 0 "Odd" [],
     folderNode "tb" (.str "root") 1 "Toolbar" []]]


/-- A local tree whose toolbar holds one bookmark. -/
def oneTwinTree : List BookmarkTreeNode :=
  [folderNode "root" .undefined 0 ""
    [folderNode "tb" (.str "root") 0 "Toolbar"
      [bookmarkNode "b1" (.str "tb") 0 "Lean" "https://lean-lang.org"]]]

/-- The loop variables of the first pass over `oneTwinTree` after the first of the twin
bookmarks was matched with the local bookmark. -/
def claimedTwinState : ReconcileState :=
  { createdIdMap := [("a1", "b1")], processedServerIds := ["a1"], changedInPass := false,
    pass := 1, currentLocalBookmarks := flattenBookmarkNodes oneTwinTree, createdItems := [] }


/-- A local tree whose toolbar holds the folder `Docs`. -/
def docsTree : List BookmarkTreeNode :=
  [folderNode "root" .undefined 0 ""
    [folderNode "tb" (.str "root") 0 "Toolbar"
      [folderNode "d1" (.str "tb") 0 "Docs" []]]]

/-- A server list with a bookmark of the folder `Docs` listed before the folder. -/
def childFirstList : List BookmarkItem :=
  [bookmarkItem "c1" "f1" 0 "Guide" "https://guide.example", folderItem "f1" "tb" 0 "Docs"]

/-- A server list whose first item, a folder `Docs` of the toolbar, has the id `constructor`,
followed by a bookmark of the toolbar. -/
def constructorList : List BookmarkItem :=
  [folderItem "constructor" "tb" 0 "Docs",
   bookmarkItem "y1" "tb" 1 "Lean" "https://lean-lang.org"]

/-! ### Order tolerance -/

/-- The local item chosen for the server item lies at the server's index and needs no
update: the branch for a matched item then issues no request and leaves `changedInPass` as
it is. -/
def matchedUnchanged (st : ReconcileState) (serverItem : BookmarkItem) : Bool :=
  match findLocalItem st serverItem (targetParentIdOf st.createdIdMap serverItem)
      (parentExistsLocallyIn st (targetParentIdOf st.createdIdMap serverItem)) with
  | some ref =>
    match st.deref ref with
    | some localItem =>
        decide (localItem.index = serverItem.index) && !needsUpdateFor serverItem localItem
    | none => false
  | none => false

/-- Every local id that `createdIdMap` maps to is a non-empty string and the id of an object
of the pass: the tree read at the start of the pass shows the nodes matched or created in
earlier passes. -/
def mappedNodesPresent (st : ReconcileState) : Prop :=
  ∀ entry ∈ st.createdIdMap, truthy entry.2 = true ∧ (st.mapRef entry.2).isSome = true

instance (st : ReconcileState) : Decidable (mappedNodesPresent st) := by
  unfold mappedNodesPresent
  exact inferInstance

/-- What order tolerance asks of one handling of a server item, given the levels of the
server items: no call of the handling is rejected; the collaborator shows the nodes mapped
so far; and when the item is unprocessed, it is not matched with a local item that needs
no change, and if its level is 1 its resolved parent exists locally. -/
def cooperative {ω : Type} (h : Handler ω) (level : BookmarkItem → Nat)
    (visit : ReconcileState × BookmarkItem × ω) : Prop :=
  (reconcileItem visit.1 visit.2.1).failures h visit.2.2 = 0 ∧
  mappedNodesPresent visit.1 ∧
  (visit.2.1.id ∉ visit.1.processedServerIds →
    matchedUnchanged visit.1 visit.2.1 = false ∧
    (level visit.2.1 = 1 →
      parentExistsLocallyIn visit.1 (targetParentIdOf visit.1.createdIdMap visit.2.1) = true))

instance {ω : Type} (h : Handler ω) (level : BookmarkItem → Nat)
    (visit : ReconcileState × BookmarkItem × ω) : Decidable (cooperative h level visit) := by
  unfold cooperative
  exact inferInstance

/-- The parent of the server item is resolved at the loop variables: the item is of level 1,
or its parent is a processed item of the server list. -/
def parentResolved (serverBookmarks : List BookmarkItem) (level : BookmarkItem → Nat)
    (st : ReconcileState) (item : BookmarkItem) : Prop :=
  level item = 1 ∨
    ∃ parent ∈ serverBookmarks, item.parentId = .str parent.id ∧
      parent.id ∈ st.processedServerIds

/-- The level of a folder of the sample chain: its depth below the toolbar. -/
def chainLevel (item : BookmarkItem) : Nat :=
  ((List.range 6).find? (fun level => decide (chainId level = item.id))).getD 0

/-- The loop variables at the end of a run that returned a report. -/
def finalOf (result : Except String (Option ApplyReport)) : ReconcileState :=
  match reportOf result with
  | some report => report.final
  | none => loopStart


/-! ### The reset command (lines 838-902) -/

/-- The end of the `try` block of the `resetAndOverwrite` command, after the push (lines
884-891): `lastSync` and the stored timestamp are set from the clock. -/
def stampReset (syncState : SyncState) : Prog (Except (String × SyncState) SyncState) := do
  let now : String ← perform .isoNow
  let syncState4 := { syncState with lastSync := some now }
  let approxTimestamp : String ← perform .isoNow
  let storedTimestamp ← perform (.storageSet { lastKnownServerTimestamp := some approxTimestamp })
  match storedTimestamp with
  | .error e => pure (.error (e, syncState4))
  | .ok _ =>
    let syncState5 := { syncState4 with status := "Sync reset complete" }
    sendStatusUpdateToPopup syncState5
    pure (.ok syncState5)

/-- The `try` block of the `resetAndOverwrite` command (lines 848-891): the result is the new
`syncState`, an error is an exception that reaches the `catch` of line 893 together with the
`syncState` at the time of the throw. -/
def resetSteps (R : Runtime PlainEnvelope) (syncState : SyncState) (serverUrl passphrase : String) :
    Prog (Except (String × SyncState) SyncState) := do
  let syncState1 := { syncState with encryptionKey := none }
  let removed ← perform (.storageRemove ["cryptoKeyJWK", "cryptoSalt", "lastKnownServerTimestamp"])
  match removed with
  | .error e => pure (.error (e, syncState1))
  | .ok _ =>
    let newSaltArray ← perform (.getRandomValues 16)
    let newSaltBuffer := List.ofFn newSaltArray
    match bufferToBase64 newSaltBuffer with
    | .error e => pure (.error (e, syncState1))
    | .ok newSaltBase64 =>
      let uploaded ← uploadSaltToServer syncState1 newSaltBase64 true
      match uploaded with
      | .error e => pure (.error (e, syncState1))
      | .ok false => pure (.error ("Failed to force-upload new salt to server.", syncState1))
      | .ok true =>
        let storedSalt ← perform (.storageSet { cryptoSalt := some newSaltBase64 })
        match storedSalt with
        | .error e => pure (.error (e, syncState1))
        | .ok _ =>
          match deriveEncryptionKey R passphrase newSaltBuffer with
          | .error e => pure (.error (e, syncState1))
          | .ok newKey =>
            let syncState2 := { syncState1 with encryptionKey := some newKey }
            match R.exportKey newKey with
            | .error e => pure (.error (e, syncState2))
            | .ok newJwk =>
              let storedKey ← perform (.storageSet { cryptoKeyJWK := some newJwk })
              match storedKey with
              | .error e => pure (.error (e, syncState2))
              | .ok _ =>
                let syncState3 := { syncState2 with serverUrl := some serverUrl }
                let captured ← getCurrentBrowserState
                match captured with
                | .error e => pure (.error (e, syncState3))
                | .ok currentState =>
                  let sent ← sendDataToServer R syncState3 currentState
                  match sent with
                  | .error e => pure (.error (e, syncState3))
                  | .ok _ => stampReset syncState3

/-- The `resetAndOverwrite` branch of the message listener (lines 838-902), for the `config`
of the request: the `syncState` it leaves and the argument of `sendResponse`, an error
standing for `{ success: false, error }`. -/
def resetAndOverwrite (R : Runtime PlainEnvelope) (syncState : SyncState)
    (serverUrl passphrase : Option String) : Prog (SyncState × Except String Unit) :=
  if !optTruthy serverUrl || !optTruthy passphrase then
    pure (syncState, .error "Missing serverUrl or passphrase for reset")
  else do
    let outcome ← resetSteps R syncState (serverUrl.getD "") (passphrase.getD "")
    match outcome with
    | .ok done => pure (done, .ok ())
    | .error (e, thrownAt) =>
      let failed := { thrownAt with status := "Reset failed: " ++ e, encryptionKey := none }
      sendStatusUpdateToPopup failed
      pure (failed, .error e)

/-- The request is a call of `fetch` for the salt of some server URL, without a query. -/
def unforcedSaltRequest (op : Op) : Prop :=
  ∀ request, op = .fetch request →
    ∃ serverUrl, (request.method = "GET" ∨ request.method = "POST") ∧
      request.url = stripTrailingSlashes serverUrl ++ "/sync/salt"

/-- A configured profile that caches the salt `c2FsdA==` and holds no timestamp, with a random
source that yields sixteen bytes `1` and then zeros, and a server that stores that salt. -/
def resetWorld : Device × (Fs × Nat) :=
  ({ storage := { serverUrl := some sampleOrigin, cryptoSalt := some "c2FsdA==",
                  syncBrowserId := some "browser_B" },
     bookmarks := { tree := emptyToolbar, nextId := 1 }, tabs := [], clock := 100,
     entropy := List.replicate 16 1 }, (some sampleDir, 6))

/-- Every request of every execution of a program against a handler satisfies `Q`. -/
structure Prog.TraceAll {α ω : Type} (h : Handler ω) (Q : Op → Prop) (x : Prog α) : Prop where
  all : ∀ w, ∀ op ∈ (x.run h w).2.2, Q op

/-- A request that touches the stored timestamp in the way the reset command does: it removes
it with the keys of the reset, or it stores a reading of the clock of the device. Requests
that do not write the stored timestamp qualify. -/
def resetStamp {ω : Type} (h : Handler ω) (op : Op) : Prop :=
  writesTimestamp op →
    op = .storageRemove ["cryptoKeyJWK", "cryptoSalt", "lastKnownServerTimestamp"] ∨
    ∃ w, op = .storageSet { lastKnownServerTimestamp := some (h .isoNow w).1 }

/-- A call of `fetch` with the method `GET`. -/
def isGet : Op → Prop
  | .fetch request => request.method = "GET"
  | _ => False

instance (op : Op) : Decidable (isGet op) := by
  cases op <;> unfold isGet <;> exact inferInstance

/-! ## Part II: lemmas and theorems -/

/-! ### Programs -/

theorem Prog.bind_eq {α β : Type} (x : Prog α) (f : α → Prog β) : (x >>= f) = x.bind f := rfl

theorem Prog.pure_eq {α : Type} (a : α) : (Pure.pure a : Prog α) = Prog.pure a := rfl

theorem Prog.OnlyOps.bind {α β : Type} {allowed : Op → Prop} {x : Prog α} {f : α → Prog β}
    (hx : x.OnlyOps allowed) (hf : ∀ a, (f a).OnlyOps allowed) : (x >>= f).OnlyOps allowed := by
  rw [Prog.bind_eq]
  induction hx with
  | pure a => exact hf a
  | step op k hop _ ih => exact Prog.OnlyOps.step op _ hop ih

theorem Prog.OnlyOps.ret {α : Type} {allowed : Op → Prop} (a : α) :
    (Pure.pure a : Prog α).OnlyOps allowed := Prog.OnlyOps.pure a

theorem Prog.OnlyOps.perform {allowed : Op → Prop} (op : Op) (hop : allowed op) :
    (perform op).OnlyOps allowed :=
  Prog.OnlyOps.step op _ hop (fun r => Prog.OnlyOps.pure r)

theorem Prog.OnlyOps.mono {α : Type} {p q : Op → Prop} {x : Prog α} (hx : x.OnlyOps p)
    (hpq : ∀ op, p op → q op) : x.OnlyOps q := by
  induction hx with
  | pure a => exact Prog.OnlyOps.pure a
  | step op k hop _ ih => exact Prog.OnlyOps.step op k (hpq op hop) ih

theorem Prog.OnlyOps.trace {α ω : Type} {allowed : Op → Prop} {x : Prog α}
    (hx : x.OnlyOps allowed) (h : Handler ω) (w : ω) : ∀ op ∈ (x.run h w).2.2, allowed op := by
  induction hx generalizing w with
  | pure a => intro op hop; simp [Prog.run] at hop
  | step op k hop _ ih =>
    intro op2 hop2
    simp only [Prog.run, List.mem_cons] at hop2
    rcases hop2 with rfl | hmem
    · exact hop
    · exact ih _ _ op2 hmem

theorem Prog.OnlyOps.preserves {α ω : Type} {allowed : Op → Prop} {x : Prog α}
    (hx : x.OnlyOps allowed) (h : Handler ω) (inv : ω → Prop)
    (hinv : ∀ op w, allowed op → inv w → inv (h op w).2) (w : ω) (hw : inv w) :
    inv (x.run h w).2.1 := by
  induction hx generalizing w with
  | pure a => simpa [Prog.run] using hw
  | step op k hop _ ih =>
    simp only [Prog.run]
    exact ih _ _ (hinv op w hop hw)

theorem updateMatched_onlyOps (st : ReconcileState) (serverItem : BookmarkItem)
    (targetParentId : JsId) (ref : ItemRef) (localItem : BookmarkItem) :
    (updateMatched st serverItem targetParentId ref localItem).OnlyOps reconcilerOp := by
  unfold updateMatched moveMatched updateChanged
  repeat (first
    | exact Prog.OnlyOps.ret _
    | exact Prog.OnlyOps.perform _ trivial
    | apply Prog.OnlyOps.bind
    | intro _
    | split)

theorem createMissing_onlyOps (st : ReconcileState) (serverItem : BookmarkItem)
    (targetParentId : JsId) :
    (createMissing st serverItem targetParentId).OnlyOps reconcilerOp := by
  unfold createMissing
  repeat (first
    | exact Prog.OnlyOps.ret _
    | exact Prog.OnlyOps.perform _ trivial
    | apply Prog.OnlyOps.bind
    | intro _
    | split)

theorem reconcileItem_onlyOps (st : ReconcileState) (serverItem : BookmarkItem) :
    (reconcileItem st serverItem).OnlyOps reconcilerOp := by
  unfold reconcileItem
  split
  · exact Prog.OnlyOps.ret _
  dsimp only
  repeat (first
    | exact Prog.OnlyOps.ret _
    | exact updateMatched_onlyOps _ _ _ _ _
    | exact createMissing_onlyOps _ _ _
    | intro _
    | split)

theorem reconcilePass_onlyOps (items : List BookmarkItem) (st : ReconcileState) :
    (reconcilePass items st).OnlyOps reconcilerOp := by
  induction items generalizing st with
  | nil => exact Prog.OnlyOps.ret _
  | cons item rest ih =>
    unfold reconcilePass
    exact Prog.OnlyOps.bind (reconcileItem_onlyOps _ _) (fun st1 => ih st1)

theorem reconcileLoop_onlyOps (serverBookmarks : List BookmarkItem) (n : Nat)
    (st : ReconcileState) : (reconcileLoop serverBookmarks n st).OnlyOps reconcilerOp := by
  induction n generalizing st with
  | zero => exact Prog.OnlyOps.ret _
  | succ n ih =>
    unfold reconcileLoop
    repeat (first
      | exact Prog.OnlyOps.ret _
      | exact Prog.OnlyOps.perform _ trivial
      | exact reconcilePass_onlyOps _ _
      | exact ih _
      | apply Prog.OnlyOps.bind
      | intro _
      | split)

theorem applyServerStateToBrowser_onlyOps (bookmarks : Option (List BookmarkItem)) :
    (applyServerStateToBrowser bookmarks).OnlyOps reconcilerOp := by
  unfold applyServerStateToBrowser
  repeat (first
    | exact Prog.OnlyOps.ret _
    | exact Prog.OnlyOps.perform _ trivial
    | exact reconcileLoop_onlyOps _ _ _
    | apply Prog.OnlyOps.bind
    | intro _
    | split)

theorem Prog.run_bind {α β ω : Type} (h : Handler ω) (x : Prog α) (f : α → Prog β) (w : ω) :
    (x >>= f).run h w =
      (((f (x.run h w).1).run h (x.run h w).2.1).1,
       ((f (x.run h w).1).run h (x.run h w).2.1).2.1,
       (x.run h w).2.2 ++ ((f (x.run h w).1).run h (x.run h w).2.1).2.2) := by
  rw [Prog.bind_eq]
  induction x generalizing w with
  | pure a => simp [Prog.bind, Prog.run]
  | step op k ih => simp [Prog.bind, Prog.run, ih]

theorem Prog.run_pure {α ω : Type} (h : Handler ω) (a : α) (w : ω) :
    (Pure.pure a : Prog α).run h w = (a, w, []) := rfl

theorem Prog.run_perform {ω : Type} (h : Handler ω) (op : Op) (w : ω) :
    (perform op).run h w = ((h op w).1, (h op w).2, [op]) := rfl

/-! ### The reference bookmark store keeps ids -/

theorem forestIds_nil : forestIds [] = [] := rfl

theorem forestIds_cons (tree : BookmarkTreeNode) (rest : List BookmarkTreeNode) :
    forestIds (tree :: rest) = forestIds [tree] ++ forestIds rest := by
  simp [forestIds, flattenBookmarkNodes]

theorem forestIds_append (xs ys : List BookmarkTreeNode) :
    forestIds (xs ++ ys) = forestIds xs ++ forestIds ys := by
  induction xs with
  | nil => simp [forestIds_nil]
  | cons x xs ih => rw [List.cons_append, forestIds_cons, ih, forestIds_cons x xs, List.append_assoc]

theorem forestIds_mk (id : String) (parentId : JsId) (i : Option Nat) (title : String)
    (dateAdded : Option Nat) (type url : Option String) (dateGroupModified : Option Nat)
    (children : List BookmarkTreeNode) :
    forestIds [.mk id parentId i title dateAdded type url dateGroupModified children]
      = id :: forestIds children := by
  simp [forestIds, flattenBookmarkNodes, flattenNode, BookmarkTreeNode.item]

theorem forestIds_renumber (i : Nat) (children : List BookmarkTreeNode) :
    forestIds (renumber i children) = forestIds children := by
  induction children generalizing i with
  | nil => rfl
  | cons tree rest ih =>
    cases tree with
    | mk id parentId j title dateAdded type url dateGroupModified children =>
      rw [renumber, forestIds_cons, forestIds_mk, ih, forestIds_cons _ rest, forestIds_mk]

theorem mem_forestIds_insertAt (children : List BookmarkTreeNode) (index : Option Nat)
    (node : BookmarkTreeNode) (x : String) :
    x ∈ forestIds (insertAt children index node) ↔ x ∈ forestIds children ∨ x ∈ forestIds [node] := by
  cases index with
  | none => simp [insertAt, forestIds_append]
  | some i =>
    simp only [insertAt]
    rw [forestIds_append, forestIds_cons node]
    conv_rhs => rw [← List.take_append_drop i children, forestIds_append]
    simp only [List.mem_append]
    tauto

mutual
theorem mem_insertUnderNode (pid : String) (index : Option Nat) (node : BookmarkTreeNode)
    (x : String) : ∀ tree : BookmarkTreeNode,
      x ∈ forestIds [tree] → x ∈ forestIds [insertUnderNode pid index node tree]
  | .mk id parentId i title dateAdded type url dateGroupModified children => by
    intro hx
    rw [forestIds_mk] at hx
    rw [insertUnderNode]
    split
    · rw [forestIds_mk, forestIds_renumber, List.mem_cons, mem_forestIds_insertAt]
      rcases List.mem_cons.1 hx with h | h
      · exact Or.inl h
      · exact Or.inr (Or.inl h)
    · rw [forestIds_mk, List.mem_cons]
      rcases List.mem_cons.1 hx with h | h
      · exact Or.inl h
      · exact Or.inr (mem_insertUnderForest pid index node x children h)
theorem mem_insertUnderForest (pid : String) (index : Option Nat) (node : BookmarkTreeNode)
    (x : String) : ∀ forest : List BookmarkTreeNode,
      x ∈ forestIds forest → x ∈ forestIds (insertUnderForest pid index node forest)
  | [] => by intro hx; simp [forestIds_nil] at hx
  | tree :: rest => by
    intro hx
    rw [forestIds_cons, List.mem_append] at hx
    rw [insertUnderForest, forestIds_cons, List.mem_append]
    rcases hx with h | h
    · exact Or.inl (mem_insertUnderNode pid index node x tree h)
    · exact Or.inr (mem_insertUnderForest pid index node x rest h)
end

mutual
theorem forestIds_updateInNode (target : String) (changes : Changes) :
    ∀ tree : BookmarkTreeNode, forestIds [updateInNode target changes tree] = forestIds [tree]
  | .mk id parentId i title dateAdded type url dateGroupModified children => by
    rw [updateInNode]
    split
    · rw [forestIds_mk, forestIds_mk, forestIds_updateInForest target changes children]
    · rw [forestIds_mk, forestIds_mk, forestIds_updateInForest target changes children]
theorem forestIds_updateInForest (target : String) (changes : Changes) :
    ∀ forest : List BookmarkTreeNode, forestIds (updateInForest target changes forest) = forestIds forest
  | [] => rfl
  | tree :: rest => by
    rw [updateInForest, forestIds_cons, forestIds_updateInNode target changes tree,
      forestIds_updateInForest target changes rest, ← forestIds_cons]
end

mutual
theorem mem_extractFromNode (target : String) (x : String) :
    ∀ (tree found remaining : BookmarkTreeNode),
      extractFromNode target tree = some (found, remaining) → x ∈ forestIds [tree] →
      x ∈ forestIds [found] ∨ x ∈ forestIds [remaining]
  | .mk id parentId i title dateAdded type url dateGroupModified children, found, remaining => by
    intro hex hx
    rw [extractFromNode] at hex
    split at hex
    · rename_i f r heq
      simp only [Option.some.injEq, Prod.mk.injEq] at hex
      obtain ⟨rfl, rfl⟩ := hex
      rw [forestIds_mk] at hx
      rw [forestIds_mk, forestIds_renumber, List.mem_cons]
      rcases List.mem_cons.1 hx with h | h
      · exact Or.inr (Or.inl h)
      · rcases mem_extractFromForest target x children f r heq h with h2 | h2
        · exact Or.inl h2
        · exact Or.inr (Or.inr h2)
    · simp at hex
theorem mem_extractFromForest (target : String) (x : String) :
    ∀ (forest : List BookmarkTreeNode) (found : BookmarkTreeNode) (remaining : List BookmarkTreeNode),
      extractFromForest target forest = some (found, remaining) → x ∈ forestIds forest →
      x ∈ forestIds [found] ∨ x ∈ forestIds remaining
  | [], _, _ => by intro hex; simp [extractFromForest] at hex
  | .mk id parentId i title dateAdded type url dateGroupModified children :: rest, found,
      remaining => by
    intro hex hx
    rw [forestIds_cons, List.mem_append] at hx
    rw [extractFromForest] at hex
    split at hex
    · simp only [Option.some.injEq, Prod.mk.injEq] at hex
      obtain ⟨rfl, rfl⟩ := hex
      exact hx
    · split at hex
      · rename_i f t heq
        simp only [Option.some.injEq, Prod.mk.injEq] at hex
        obtain ⟨rfl, rfl⟩ := hex
        rw [forestIds_cons t rest, List.mem_append]
        rcases hx with h | h
        · rcases mem_extractFromNode target x _ f t heq h with h2 | h2
          · exact Or.inl h2
          · exact Or.inr (Or.inl h2)
        · exact Or.inr (Or.inr h)
      · split at hex
        · rename_i f o heq
          simp only [Option.some.injEq, Prod.mk.injEq] at hex
          obtain ⟨rfl, rfl⟩ := hex
          rw [forestIds_cons _ o, List.mem_append]
          rcases hx with h | h
          · exact Or.inr (Or.inl h)
          · rcases mem_extractFromForest target x rest f o heq h with h2 | h2
            · exact Or.inl h2
            · exact Or.inr (Or.inr h2)
        · simp at hex
end

mutual
theorem mem_insertUnderNode_new (pid : String) (index : Option Nat) (node : BookmarkTreeNode)
    (x : String) (hx : x ∈ forestIds [node]) : ∀ tree : BookmarkTreeNode,
      pid ∈ forestIds [tree] → x ∈ forestIds [insertUnderNode pid index node tree]
  | .mk id parentId i title dateAdded type url dateGroupModified children => by
    intro hp
    rw [forestIds_mk] at hp
    rw [insertUnderNode]
    split
    · rw [forestIds_mk, forestIds_renumber, List.mem_cons, mem_forestIds_insertAt]
      exact Or.inr (Or.inr hx)
    · rename_i hne
      rw [forestIds_mk, List.mem_cons]
      rcases List.mem_cons.1 hp with h | h
      · exact absurd h.symm hne
      · exact Or.inr (mem_insertUnderForest_new pid index node x hx children h)
theorem mem_insertUnderForest_new (pid : String) (index : Option Nat) (node : BookmarkTreeNode)
    (x : String) (hx : x ∈ forestIds [node]) : ∀ forest : List BookmarkTreeNode,
      pid ∈ forestIds forest → x ∈ forestIds (insertUnderForest pid index node forest)
  | [] => by intro hp; simp [forestIds_nil] at hp
  | tree :: rest => by
    intro hp
    rw [forestIds_cons, List.mem_append] at hp
    rw [insertUnderForest, forestIds_cons, List.mem_append]
    rcases hp with h | h
    · exact Or.inl (mem_insertUnderNode_new pid index node x hx tree h)
    · exact Or.inr (mem_insertUnderForest_new pid index node x hx rest h)
end

theorem forestIds_withParent (parent : JsId) (node : BookmarkTreeNode) :
    forestIds [node.withParent parent] = forestIds [node] := by
  cases node with
  | mk id parentId i title dateAdded type url dateGroupModified children =>
    rw [BookmarkTreeNode.withParent, forestIds_mk, forestIds_mk]

theorem BookmarkStore.create_keeps (store : BookmarkStore) (details : CreateDetails) (x : String)
    (hx : x ∈ forestIds store.tree) : x ∈ forestIds (store.create details).2.tree := by
  unfold BookmarkStore.create
  split
  · split
    · exact mem_insertUnderForest _ _ _ x _ hx
    · exact hx
  · exact hx

theorem BookmarkStore.update_keeps (store : BookmarkStore) (id : String) (changes : Changes)
    (x : String) (hx : x ∈ forestIds store.tree) : x ∈ forestIds (store.update id changes).2.tree := by
  unfold BookmarkStore.update
  split
  · simpa [forestIds_updateInForest] using hx
  · exact hx

theorem BookmarkStore.move_keeps (store : BookmarkStore) (id : String) (destination : MoveInfo)
    (x : String) (hx : x ∈ forestIds store.tree) :
    x ∈ forestIds (store.move id destination).2.tree := by
  unfold BookmarkStore.move
  split
  · rename_i node rest pid heq _
    split
    · rename_i hp
      rcases mem_extractFromForest id x store.tree node rest heq hx with h | h
      · exact mem_insertUnderForest_new pid _ _ x (by rw [forestIds_withParent]; exact h) rest hp
      · exact mem_insertUnderForest _ _ _ x _ h
    · exact hx
  · exact hx

theorem deviceHandler_frame {ν : Type} (net : HttpRequest → ν → Except String HttpResponse × ν)
    (op : Op) (w : Device × ν) (x : String) (hop : reconcilerOp op)
    (hx : x ∈ localIds (deviceHandler net) w) :
    x ∈ localIds (deviceHandler net) ((deviceHandler net) op w).2 := by
  obtain ⟨d, n⟩ := w
  cases op <;> simp only [reconcilerOp] at hop
  · exact hx
  · simp only [localIds, deviceHandler] at hx ⊢
    exact BookmarkStore.create_keeps _ _ x hx
  · simp only [localIds, deviceHandler] at hx ⊢
    exact BookmarkStore.move_keeps _ _ _ x hx
  · simp only [localIds, deviceHandler] at hx ⊢
    exact BookmarkStore.update_keeps _ _ _ x hx

/-! ### The reconciler -/

/-- C1: `applyServerStateToBrowser` never removes a local bookmark node. Whatever the
collaborators answer, every request it issues is a tree read, a create, a move or an update;
and when these requests keep the ids of the local tree, every id present before the call
is present after it. -/
theorem applyServerStateToBrowser_never_removes {ω : Type} (h : Handler ω) (w : ω)
    (bookmarks : Option (List BookmarkItem)) :
    (∀ op ∈ ((applyServerStateToBrowser bookmarks).run h w).2.2,
        op = .bookmarksGetTree ∨ (∃ details, op = .bookmarksCreate details) ∨
        (∃ id destination, op = .bookmarksMove id destination) ∨
        (∃ id changes, op = .bookmarksUpdate id changes)) ∧
    ((∀ op w id, reconcilerOp op → id ∈ localIds h w → id ∈ localIds h (h op w).2) →
      ∀ id ∈ localIds h w,
        id ∈ localIds h ((applyServerStateToBrowser bookmarks).run h w).2.1) := by
  constructor
  · intro op hop
    have hallowed := (applyServerStateToBrowser_onlyOps bookmarks).trace h w op hop
    cases op <;> simp [reconcilerOp] at hallowed ⊢
  · intro hframe id hid
    exact (applyServerStateToBrowser_onlyOps bookmarks).preserves h
      (fun w => id ∈ localIds h w) (fun op w hop hw => hframe op w id hop hw) w hid

/-- Witness of C1: on the reference profile with an empty toolbar, applying the list of
two twin bookmarks keeps every id of the tree. -/
theorem applyServerStateToBrowser_never_removes_witness :
    (∀ op w id, reconcilerOp op → id ∈ localIds (deviceHandler offline) w →
        id ∈ localIds (deviceHandler offline) ((deviceHandler offline) op w).2) ∧
    ∀ id ∈ localIds (deviceHandler offline) (profileWith emptyToolbar),
      id ∈ localIds (deviceHandler offline)
        ((applyServerStateToBrowser (some twinBookmarks)).run (deviceHandler offline)
          (profileWith emptyToolbar)).2.1 :=
  ⟨fun op w id hop hid => deviceHandler_frame offline op w id hop hid,
   (applyServerStateToBrowser_never_removes (deviceHandler offline) (profileWith emptyToolbar)
      (some twinBookmarks)).2
     (fun op w id hop hid => deviceHandler_frame offline op w id hop hid)⟩

/-! ### The sync cycle -/

theorem remoteIsNewer_of_stale {P : Type} (R : Runtime P) (remoteTimestamp known : Option String)
    (hstale : staleRemote R remoteTimestamp known) : remoteIsNewer R remoteTimestamp known = false := by
  rcases hstale with h | ⟨hk, hdates⟩
  · simp [remoteIsNewer, h]
  · unfold remoteIsNewer dateAfter
    cases hx : R.dateValue (remoteTimestamp.getD "") with
    | none => simp [hk]
    | some x =>
      cases hy : R.dateValue (known.getD "") with
      | none => simp [hk]
      | some y =>
        rw [hx, hy] at hdates
        simp only at hdates
        simp [hk]
        omega

theorem tagTabs_onlyOps (browserId : String) (tabs : List Tab) :
    (tagTabs browserId tabs).OnlyOps (fun op => ¬ bookmarkMutation op ∧ ¬ writesTabsOrTimestamp op) := by
  induction tabs with
  | nil => exact Prog.OnlyOps.ret _
  | cons tab rest ih =>
    unfold tagTabs
    refine Prog.OnlyOps.bind (Prog.OnlyOps.perform _ ?_) (fun _ => Prog.OnlyOps.bind ih (fun _ => Prog.OnlyOps.ret _))
    simp [bookmarkMutation, writesTabsOrTimestamp]

theorem getCurrentBrowserState_onlyOps :
    getCurrentBrowserState.OnlyOps (fun op => ¬ bookmarkMutation op ∧ ¬ writesTabsOrTimestamp op) := by
  unfold getCurrentBrowserState
  repeat (first
    | exact Prog.OnlyOps.ret _
    | exact tagTabs_onlyOps _ _
    | exact Prog.OnlyOps.perform _ (by simp [bookmarkMutation, writesTabsOrTimestamp])
    | apply Prog.OnlyOps.bind
    | intro _
    | split
    | dsimp only)

theorem encryptData_onlyOps {P : Type} (R : Runtime P) (syncState : SyncState) (data : P) :
    (encryptData R syncState data).OnlyOps (fun op => ¬ bookmarkMutation op ∧ ¬ writesTabsOrTimestamp op) := by
  unfold encryptData
  repeat (first
    | exact Prog.OnlyOps.ret _
    | exact Prog.OnlyOps.perform _ (by simp [bookmarkMutation, writesTabsOrTimestamp])
    | apply Prog.OnlyOps.bind
    | intro _
    | split
    | dsimp only)

theorem sendDataToServer_onlyOps (R : Runtime PlainEnvelope) (syncState : SyncState)
    (dataPayload : SyncPayload) :
    (sendDataToServer R syncState dataPayload).OnlyOps
      (fun op => ¬ bookmarkMutation op ∧ ¬ writesTabsOrTimestamp op) := by
  unfold sendDataToServer
  repeat (first
    | exact Prog.OnlyOps.ret _
    | exact encryptData_onlyOps _ _ _
    | exact Prog.OnlyOps.perform _ (by simp [bookmarkMutation, writesTabsOrTimestamp])
    | apply Prog.OnlyOps.bind
    | intro _
    | split
    | dsimp only)

theorem captureAndPush_onlyOps (R : Runtime PlainEnvelope) (syncState : SyncState) :
    (captureAndPush R syncState).OnlyOps
      (fun op => ¬ bookmarkMutation op ∧ ¬ writesTabsOrTimestamp op) := by
  unfold captureAndPush sendStatusUpdateToPopup
  repeat (first
    | exact Prog.OnlyOps.ret _
    | exact getCurrentBrowserState_onlyOps
    | exact sendDataToServer_onlyOps _ _ _
    | exact Prog.OnlyOps.perform _ (by simp [bookmarkMutation, writesTabsOrTimestamp])
    | apply Prog.OnlyOps.bind
    | intro _
    | split
    | dsimp only)

theorem fetchDataFromServer_onlyOps {P : Type} (R : Runtime P) (syncState : SyncState) :
    (fetchDataFromServer R syncState).OnlyOps
      (fun op => ¬ bookmarkMutation op ∧ ¬ writesTabsOrTimestamp op) := by
  unfold fetchDataFromServer
  repeat (first
    | exact Prog.OnlyOps.ret _
    | exact Prog.OnlyOps.perform _ (by simp [bookmarkMutation, writesTabsOrTimestamp])
    | apply Prog.OnlyOps.bind
    | intro _
    | split
    | dsimp only)

theorem finishSync_onlyOps (syncing : SyncState) (outcome : Except String SyncState) :
    (finishSync syncing outcome).OnlyOps
      (fun op => ¬ bookmarkMutation op ∧ ¬ writesTabsOrTimestamp op) := by
  unfold finishSync sendStatusUpdateToPopup
  repeat (first
    | exact Prog.OnlyOps.ret _
    | exact Prog.OnlyOps.perform _ (by simp [bookmarkMutation, writesTabsOrTimestamp])
    | apply Prog.OnlyOps.bind
    | intro _
    | split
    | dsimp only)

theorem run_sendStatusUpdateToPopup {ω : Type} (h : Handler ω) (syncState : SyncState) (w : ω) :
    (sendStatusUpdateToPopup syncState).run h w
      = ((), (h (.sendMessage syncState.status syncState.lastSync) w).2,
         [.sendMessage syncState.status syncState.lastSync]) := rfl

theorem captureAndPush_trace {ω : Type} (R : Runtime PlainEnvelope) (h : Handler ω) (w : ω)
    (syncState : SyncState) :
    ∃ rest, ((captureAndPush R syncState).run h w).2.2 = (getCurrentBrowserState.run h w).2.2 ++ rest ∧
      ∀ payload, (getCurrentBrowserState.run h w).1 = .ok payload →
        ∃ rest2, rest = ((sendDataToServer R syncState payload).run h
                          (getCurrentBrowserState.run h w).2.1).2.2 ++ rest2 := by
  unfold captureAndPush
  rw [Prog.run_bind]
  refine ⟨_, rfl, ?_⟩
  intro payload hpayload
  simp only [hpayload]
  rw [Prog.run_bind]
  exact ⟨_, rfl⟩

/-- C4: the staleness guard of `performSync`. In a cycle that passed the guards, read the
stored timestamp and fetched a remote state whose timestamp is absent, or not later than
the stored one, no request changes the bookmark tree or writes the cached remote tabs or
the stored timestamp; after the fetch the cycle captures the local state and, when the
capture succeeds, goes on with `sendDataToServer` on the captured payload. -/
theorem performSync_staleness_guard {ω : Type} (R : Runtime PlainEnvelope) (h : Handler ω) (w : ω)
    (syncState : SyncState) (localTimestampData : StorageItems)
    (fetchedData : FetchedData PlainEnvelope)
    (hstatus : syncState.status ≠ "Syncing...")
    (hurl : optTruthy syncState.serverUrl = true) (hkey : syncState.encryptionKey ≠ none)
    (hget : (h (.storageGet [LAST_KNOWN_SERVER_TIMESTAMP_KEY])
              (h (.sendMessage "Syncing..." syncState.lastSync) w).2).1 = .ok localTimestampData)
    (hfetch : ((fetchDataFromServer R { syncState with status := "Syncing..." }).run h
                (h (.storageGet [LAST_KNOWN_SERVER_TIMESTAMP_KEY])
                  (h (.sendMessage "Syncing..." syncState.lastSync) w).2).2).1 = .ok fetchedData)
    (hstale : staleRemote R fetchedData.lastModified localTimestampData.lastKnownServerTimestamp) :
    let syncing : SyncState := { syncState with status := "Syncing..." }
    let fetched := (fetchDataFromServer R syncing).run h
      (h (.storageGet [LAST_KNOWN_SERVER_TIMESTAMP_KEY])
        (h (.sendMessage "Syncing..." syncState.lastSync) w).2).2
    let capture := getCurrentBrowserState.run h fetched.2.1
    let cycle := (performSync R syncState).run h w
    (∀ op ∈ cycle.2.2, ¬ bookmarkMutation op ∧ ¬ writesTabsOrTimestamp op) ∧
    ∃ rest, cycle.2.2 = Op.sendMessage "Syncing..." syncState.lastSync
        :: Op.storageGet [LAST_KNOWN_SERVER_TIMESTAMP_KEY] :: (fetched.2.2 ++ (capture.2.2 ++ rest)) ∧
      ∀ payload, capture.1 = .ok payload →
        ∃ rest2, rest = ((sendDataToServer R syncing payload).run h capture.2.1).2.2 ++ rest2 := by
  intro syncing fetched capture cycle
  have hnewer := remoteIsNewer_of_stale R _ _ hstale
  have hcycle : (syncCycle R syncing).run h (h (.sendMessage "Syncing..." syncState.lastSync) w).2
      = (((captureAndPush R syncing).run h fetched.2.1).1,
         ((captureAndPush R syncing).run h fetched.2.1).2.1,
         Op.storageGet [LAST_KNOWN_SERVER_TIMESTAMP_KEY]
           :: (fetched.2.2 ++ ((captureAndPush R syncing).run h fetched.2.1).2.2)) := by
    unfold syncCycle
    rw [Prog.run_bind, Prog.run_perform]
    simp only [hget]
    rw [Prog.run_bind]
    simp only [syncing] at *
    simp only [hfetch, syncAfterFetch, hnewer]
    simp
  have hkey2 : syncState.encryptionKey.isNone = false := by
    cases hk : syncState.encryptionKey with
    | none => exact absurd hk hkey
    | some _ => rfl
  have hperform : cycle.2.2 = Op.sendMessage "Syncing..." syncState.lastSync
      :: Op.storageGet [LAST_KNOWN_SERVER_TIMESTAMP_KEY]
      :: (fetched.2.2 ++ (((captureAndPush R syncing).run h fetched.2.1).2.2
          ++ ((finishSync syncing ((captureAndPush R syncing).run h fetched.2.1).1).run h
                ((captureAndPush R syncing).run h fetched.2.1).2.1).2.2)) := by
    simp only [cycle, performSync, hstatus, hurl, hkey2, if_false, Bool.not_true, Bool.or_false,
      Bool.false_eq_true]
    rw [Prog.run_bind, Prog.run_bind]
    simp only [run_sendStatusUpdateToPopup]
    rw [hcycle]
    simp
  obtain ⟨rest, hrest, hpush⟩ := captureAndPush_trace R h fetched.2.1 syncing
  constructor
  · intro op hop
    rw [hperform] at hop
    simp only [List.mem_cons, List.mem_append] at hop
    rcases hop with rfl | rfl | hop | hop | hop
    · simp [bookmarkMutation, writesTabsOrTimestamp]
    · simp [bookmarkMutation, writesTabsOrTimestamp]
    · exact (fetchDataFromServer_onlyOps R syncing).trace h _ op hop
    · exact (captureAndPush_onlyOps R syncing).trace h _ op hop
    · exact (finishSync_onlyOps syncing _).trace h _ op hop
  · refine ⟨rest ++ ((finishSync syncing ((captureAndPush R syncing).run h fetched.2.1).1).run h
        ((captureAndPush R syncing).run h fetched.2.1).2.1).2.2, ?_, ?_⟩
    · rw [hperform, hrest]
      simp only [List.append_assoc]
    · intro payload hpayload
      obtain ⟨rest2, hrest2⟩ := hpush payload hpayload
      exact ⟨rest2 ++ _, by rw [hrest2, List.append_assoc]⟩

/-- Witness of C4: a configured profile without a stored timestamp against a server
without data (the fetch is answered 404, so the remote timestamp is absent). -/
theorem performSync_staleness_guard_witness :
    (sampleState.status ≠ "Syncing..." ∧ optTruthy sampleState.serverUrl = true ∧
      sampleState.encryptionKey ≠ none ∧
      staleRemote (tableRuntime []) (none : Option String) (none : Option String)) ∧
    ((∀ op ∈ ((performSync (tableRuntime []) sampleState).run
          (deviceHandler (serverNet sampleOrigin)) freshWorld).2.2,
        ¬ bookmarkMutation op ∧ ¬ writesTabsOrTimestamp op) ∧
     ∃ rest, ((performSync (tableRuntime []) sampleState).run
          (deviceHandler (serverNet sampleOrigin)) freshWorld).2.2
        = Op.sendMessage "Syncing..." none :: Op.storageGet [LAST_KNOWN_SERVER_TIMESTAMP_KEY]
            :: (((fetchDataFromServer (tableRuntime []) { sampleState with status := "Syncing..." }).run
                  (deviceHandler (serverNet sampleOrigin)) freshWorld).2.2
                ++ ((getCurrentBrowserState.run (deviceHandler (serverNet sampleOrigin))
                      ((fetchDataFromServer (tableRuntime [])
                          { sampleState with status := "Syncing..." }).run
                        (deviceHandler (serverNet sampleOrigin)) freshWorld).2.1).2.2 ++ rest)) ∧
        ∀ payload, (getCurrentBrowserState.run (deviceHandler (serverNet sampleOrigin))
                      ((fetchDataFromServer (tableRuntime [])
                          { sampleState with status := "Syncing..." }).run
                        (deviceHandler (serverNet sampleOrigin)) freshWorld).2.1).1 = .ok payload →
          ∃ rest2, rest = ((sendDataToServer (tableRuntime [])
                              { sampleState with status := "Syncing..." } payload).run
                            (deviceHandler (serverNet sampleOrigin))
                            (getCurrentBrowserState.run (deviceHandler (serverNet sampleOrigin))
                              ((fetchDataFromServer (tableRuntime [])
                                  { sampleState with status := "Syncing..." }).run
                                (deviceHandler (serverNet sampleOrigin)) freshWorld).2.1).2.1).2.2
                          ++ rest2) :=
  ⟨⟨by decide, by decide, by decide, Or.inl rfl⟩,
   performSync_staleness_guard (tableRuntime []) (deviceHandler (serverNet sampleOrigin))
     freshWorld sampleState {} { payload := .emptyState, lastModified := none }
     (by decide) (by decide) (by decide) rfl (by decide!) (Or.inl rfl)⟩

/-! ### Base64 and encryption -/

theorem b64Val_b64Char_fin (n : Fin 64) : b64Val (b64Char n.val) = some n.val := by
  revert n; decide

theorem b64Val_b64Char (n : Nat) (h : n < 64) : b64Val (b64Char n) = some n :=
  b64Val_b64Char_fin ⟨n, h⟩

theorem b64Char_plain_fin (n : Fin 64) :
    b64Char n.val ≠ '=' ∧ isAsciiWhitespace (b64Char n.val) = false := by
  revert n; decide

theorem b64Char_ne_pad (n : Nat) (h : n < 64) : b64Char n ≠ '=' :=
  (b64Char_plain_fin ⟨n, h⟩).1

theorem b64Char_not_space (n : Nat) (h : n < 64) : isAsciiWhitespace (b64Char n) = false :=
  (b64Char_plain_fin ⟨n, h⟩).2

theorem byte_charCode_fin (b : Fin 256) : (Char.ofNat b.val).toNat = b.val := by
  revert b; decide!

theorem btoaCore_eq (codes : List Nat) : btoaCore codes = b64Body codes ++ b64Padding codes := by
  induction codes using btoaCore.induct with
  | case1 => rfl
  | case2 a => rfl
  | case3 a b => rfl
  | case4 a b c rest ih => simp [btoaCore, b64Body, b64Padding, ih]

theorem b64Body_plain (codes : List Nat) (hcodes : ∀ n ∈ codes, n < 256) :
    ∀ ch ∈ b64Body codes, ch ≠ '=' ∧ isAsciiWhitespace ch = false := by
  induction codes using btoaCore.induct with
  | case1 => intro ch hch; simp [b64Body] at hch
  | case2 a =>
    have ha : a < 256 := hcodes a (by simp)
    intro ch hch
    simp only [b64Body, List.mem_cons, List.mem_singleton, List.not_mem_nil, or_false] at hch
    rcases hch with rfl | rfl
    · exact ⟨b64Char_ne_pad _ (by omega), b64Char_not_space _ (by omega)⟩
    · exact ⟨b64Char_ne_pad _ (by omega), b64Char_not_space _ (by omega)⟩
  | case3 a b =>
    have ha : a < 256 := hcodes a (by simp)
    have hb : b < 256 := hcodes b (by simp)
    intro ch hch
    simp only [b64Body, List.mem_cons, List.mem_singleton, List.not_mem_nil, or_false] at hch
    rcases hch with rfl | rfl | rfl
    · exact ⟨b64Char_ne_pad _ (by omega), b64Char_not_space _ (by omega)⟩
    · exact ⟨b64Char_ne_pad _ (by omega), b64Char_not_space _ (by omega)⟩
    · exact ⟨b64Char_ne_pad _ (by omega), b64Char_not_space _ (by omega)⟩
  | case4 a b c rest ih =>
    have ha : a < 256 := hcodes a (by simp)
    have hb : b < 256 := hcodes b (by simp)
    have hc : c < 256 := hcodes c (by simp)
    intro ch hch
    simp only [b64Body, List.mem_cons] at hch
    rcases hch with rfl | rfl | rfl | rfl | hch
    · exact ⟨b64Char_ne_pad _ (by omega), b64Char_not_space _ (by omega)⟩
    · exact ⟨b64Char_ne_pad _ (by omega), b64Char_not_space _ (by omega)⟩
    · exact ⟨b64Char_ne_pad _ (by omega), b64Char_not_space _ (by omega)⟩
    · exact ⟨b64Char_ne_pad _ (by omega), b64Char_not_space _ (by omega)⟩
    · exact ih (fun n hn => hcodes n (by simp [hn])) ch hch

theorem b64Padding_cases (codes : List Nat) :
    b64Padding codes = [] ∨ b64Padding codes = ['='] ∨ b64Padding codes = ['=', '='] := by
  induction codes using btoaCore.induct with
  | case1 => exact Or.inl rfl
  | case2 a => exact Or.inr (Or.inr rfl)
  | case3 a b => exact Or.inr (Or.inl rfl)
  | case4 a b c rest ih => simpa [b64Padding] using ih

theorem btoaCore_length (codes : List Nat) : (btoaCore codes).length % 4 = 0 := by
  induction codes using btoaCore.induct with
  | case1 => rfl
  | case2 a => simp [btoaCore]
  | case3 a b => simp [btoaCore]
  | case4 a b c rest ih => simp only [btoaCore, List.length_cons]; omega

theorem atobCore_b64Body (codes : List Nat) (hcodes : ∀ n ∈ codes, n < 256) :
    atobCore (b64Body codes) = some codes := by
  induction codes using btoaCore.induct with
  | case1 => rfl
  | case2 a =>
    have ha : a < 256 := hcodes a (by simp)
    simp only [b64Body, atobCore, b64Val_b64Char (a / 4) (by omega),
      b64Val_b64Char (a % 4 * 16) (by omega)]
    congr 2
    omega
  | case3 a b =>
    have ha : a < 256 := hcodes a (by simp)
    have hb : b < 256 := hcodes b (by simp)
    simp only [b64Body, atobCore, b64Val_b64Char (a / 4) (by omega),
      b64Val_b64Char (a % 4 * 16 + b / 16) (by omega), b64Val_b64Char (b % 16 * 4) (by omega)]
    have h1 : (a / 4 * 4 + (a % 4 * 16 + b / 16) / 16) % 256 = a := by omega
    have h2 : ((a % 4 * 16 + b / 16) % 16 * 16 + b % 16 * 4 / 4) % 256 = b := by omega
    rw [h1, h2]
  | case4 a b c rest ih =>
    have ha : a < 256 := hcodes a (by simp)
    have hb : b < 256 := hcodes b (by simp)
    have hc : c < 256 := hcodes c (by simp)
    have hrest := ih (fun n hn => hcodes n (by simp [hn]))
    simp only [b64Body, atobCore, b64Val_b64Char (a / 4) (by omega),
      b64Val_b64Char (a % 4 * 16 + b / 16) (by omega),
      b64Val_b64Char (b % 16 * 4 + c / 64) (by omega), b64Val_b64Char (c % 64) (by omega), hrest]
    have h1 : (a / 4 * 4 + (a % 4 * 16 + b / 16) / 16) % 256 = a := by omega
    have h2 : ((a % 4 * 16 + b / 16) % 16 * 16 + (b % 16 * 4 + c / 64) / 4) % 256 = b := by omega
    have h3 : ((b % 16 * 4 + c / 64) % 4 * 64 + c % 64) % 256 = c := by omega
    rw [h1, h2, h3]

theorem stripPadding_btoaCore (codes : List Nat) (hcodes : ∀ n ∈ codes, n < 256) :
    stripPadding (btoaCore codes) = b64Body codes := by
  have hplain := b64Body_plain codes hcodes
  have hlen := btoaCore_length codes
  unfold stripPadding
  rw [if_pos hlen, btoaCore_eq, List.reverse_append]
  have hhead : ∀ r, (b64Body codes).reverse ≠ '=' :: r := by
    intro r hr
    have hmem : '=' ∈ (b64Body codes).reverse := by rw [hr]; simp
    exact (hplain '=' (List.mem_reverse.1 hmem)).1 rfl
  rcases b64Padding_cases codes with hp | hp | hp
  · rw [hp]
    simp only [List.reverse_nil, List.nil_append, List.append_nil]
    split
    · rename_i r heq; exact absurd heq (hhead _)
    · rename_i r _ heq; exact absurd heq (hhead _)
    · rfl
  · rw [hp]
    simp only [List.reverse_cons, List.reverse_nil, List.nil_append, List.singleton_append]
    exact List.reverse_reverse _
  · rw [hp]
    simp only [List.reverse_cons, List.reverse_nil, List.nil_append, List.singleton_append,
      List.cons_append]
    exact List.reverse_reverse _

theorem byte_of_charCode (b : Byte) : (Fin.ofNat ((Char.ofNat b.val).toNat % 256) : Byte) = b := by
  revert b; decide!

theorem btoaCore_not_space (codes : List Nat) (hcodes : ∀ n ∈ codes, n < 256) :
    (btoaCore codes).filter (fun c => !isAsciiWhitespace c) = btoaCore codes := by
  rw [List.filter_eq_self]
  intro ch hch
  rw [btoaCore_eq, List.mem_append] at hch
  rcases hch with h | h
  · simp [(b64Body_plain codes hcodes ch h).2]
  · rcases b64Padding_cases codes with hp | hp | hp <;> rw [hp] at h <;> simp at h <;> subst h <;> decide

theorem atob_btoaCore (codes : List Nat) (hcodes : ∀ n ∈ codes, n < 256) :
    atob (String.mk (btoaCore codes)) = .ok (String.mk (codes.map Char.ofNat)) := by
  unfold atob
  simp only [btoaCore_not_space codes hcodes, stripPadding_btoaCore codes hcodes,
    atobCore_b64Body codes hcodes]

theorem bufferToBase64_eq (buffer : List Byte) :
    bufferToBase64 buffer = .ok (String.mk (btoaCore (buffer.map (fun b => b.val)))) := by
  unfold bufferToBase64 btoa binaryString
  have hall : (buffer.map (fun b => Char.ofNat b.val)).all (fun c => decide (c.toNat ≤ 255)) = true := by
    rw [List.all_eq_true]
    intro c hc
    obtain ⟨b, _, rfl⟩ := List.mem_map.1 hc
    rw [byte_charCode_fin]
    exact decide_eq_true (by omega)
  have hcodes : (buffer.map (fun b => Char.ofNat b.val)).map Char.toNat = buffer.map (fun b => b.val) := by
    rw [List.map_map]
    exact List.map_congr_left (fun b _ => byte_charCode_fin b)
  simp only [hall, hcodes, if_true]

theorem base64ToBuffer_bufferToBase64 (buffer : List Byte) :
    ∃ base64, bufferToBase64 buffer = .ok base64 ∧ base64ToBuffer base64 = .ok buffer := by
  refine ⟨_, bufferToBase64_eq buffer, ?_⟩
  have hcodes : ∀ n ∈ buffer.map (fun b => b.val), n < 256 := by
    intro n hn
    obtain ⟨b, _, rfl⟩ := List.mem_map.1 hn
    exact b.isLt
  unfold base64ToBuffer
  rw [atob_btoaCore _ hcodes]
  simp only [List.map_map]
  congr 1
  conv_rhs => rw [← List.map_id buffer]
  exact List.map_congr_left (fun b _ => byte_of_charCode b)

theorem bufferToBase64_injective (a b : List Byte) (h : bufferToBase64 a = bufferToBase64 b) :
    a = b := by
  obtain ⟨sa, hsa, hba⟩ := base64ToBuffer_bufferToBase64 a
  obtain ⟨sb, hsb, hbb⟩ := base64ToBuffer_bufferToBase64 b
  rw [hsa, hsb] at h
  cases h
  rw [hba] at hbb
  cases hbb
  rfl

theorem run_encryptData {P ω : Type} (R : Runtime P) (h : Handler ω) (w : ω)
    (syncState : SyncState) (key : CryptoKey) (data : P)
    (hkey : syncState.encryptionKey = some key) :
    (encryptData R syncState data).run h w =
      ((match R.subtleEncrypt key (List.ofFn (h (.getRandomValues 12) w).1)
                (R.textEncode (R.jsonStringify data)) with
        | .error e => .error e
        | .ok encryptedContent =>
            bufferToBase64 (List.ofFn (h (.getRandomValues 12) w).1 ++ encryptedContent)),
       (h (.getRandomValues 12) w).2, [.getRandomValues 12]) := by
  unfold encryptData
  rw [hkey]
  simp only [Prog.run_bind, Prog.run_perform]
  cases R.subtleEncrypt key (List.ofFn (h (.getRandomValues 12) w).1)
      (R.textEncode (R.jsonStringify data)) <;> rfl

theorem take_drop_iv (iv content : List Byte) (hiv : iv.length = 12) :
    (iv ++ content).take 12 = iv ∧ (iv ++ content).drop 12 = content := by
  constructor
  · rw [← hiv, List.take_left]
  · rw [← hiv, List.drop_left]

/-- C5: the encryption round trip. For a value that `JSON` and the text codec bring back
and a key under which the AES-GCM primitive encrypts and decrypts back with a 12-byte IV,
`encryptData` returns a ciphertext and `decryptData` of it is the value; `base64ToBuffer`
inverts `bufferToBase64` on every byte buffer; and the split at 12 bytes gives back the IV
and the encrypted content that were concatenated. -/
theorem decryptData_encryptData {P ω : Type} (R : Runtime P) (h : Handler ω) (w : ω)
    (syncState : SyncState) (key : CryptoKey) (data : P)
    (hkey : syncState.encryptionKey = some key)
    (hjson : R.jsonParse (R.jsonStringify data) = .ok data)
    (htext : R.textDecode (R.textEncode (R.jsonStringify data)) = R.jsonStringify data)
    (haes : ∀ iv plaintext, iv.length = 12 →
      ∃ c, R.subtleEncrypt key iv plaintext = .ok c ∧ R.subtleDecrypt key iv c = .ok plaintext) :
    (∃ encrypted, ((encryptData R syncState data).run h w).1 = .ok encrypted ∧
        decryptData R syncState encrypted = .ok data) ∧
    (∀ buffer, ∃ base64, bufferToBase64 buffer = .ok base64 ∧ base64ToBuffer base64 = .ok buffer) ∧
    (∀ iv content : List Byte, iv.length = 12 →
        (iv ++ content).take 12 = iv ∧ (iv ++ content).drop 12 = content) := by
  refine ⟨?_, base64ToBuffer_bufferToBase64, take_drop_iv⟩
  have hlen : (List.ofFn (h (.getRandomValues 12) w).1).length = 12 := List.length_ofFn _
  obtain ⟨c, henc, hdec⟩ := haes (List.ofFn (h (.getRandomValues 12) w).1)
    (R.textEncode (R.jsonStringify data)) hlen
  obtain ⟨base64, hto, hfrom⟩ :=
    base64ToBuffer_bufferToBase64 (List.ofFn (h (.getRandomValues 12) w).1 ++ c)
  refine ⟨base64, ?_, ?_⟩
  · rw [run_encryptData R h w syncState key data hkey]
    simp only [henc, hto]
  · unfold decryptData
    rw [hkey]
    simp only [hfrom, (take_drop_iv _ c hlen).1, (take_drop_iv _ c hlen).2, hdec, htext, hjson]

theorem textRuntime_aes (key : CryptoKey) (iv plaintext : List Byte) :
    ∃ c, textRuntime.subtleEncrypt key iv plaintext = .ok c ∧
      textRuntime.subtleDecrypt key iv c = .ok plaintext := by
  refine ⟨key.raw ++ iv ++ plaintext, rfl, ?_⟩
  simp [textRuntime]

/-- Witness of C5: the text `bookmarks` under the sample key and the text runtime. -/
theorem decryptData_encryptData_witness :
    (sampleState.encryptionKey = some sampleKey ∧
      textRuntime.jsonParse (textRuntime.jsonStringify "bookmarks") = .ok "bookmarks" ∧
      textRuntime.textDecode (textRuntime.textEncode (textRuntime.jsonStringify "bookmarks"))
        = textRuntime.jsonStringify "bookmarks") ∧
    ((∃ encrypted, ((encryptData textRuntime sampleState "bookmarks").run (deviceHandler offline)
          (profileWithEntropy [])).1 = .ok encrypted ∧
        decryptData textRuntime sampleState encrypted = .ok "bookmarks") ∧
     (∀ buffer, ∃ base64, bufferToBase64 buffer = .ok base64 ∧ base64ToBuffer base64 = .ok buffer) ∧
     (∀ iv content : List Byte, iv.length = 12 →
        (iv ++ content).take 12 = iv ∧ (iv ++ content).drop 12 = content)) :=
  ⟨⟨rfl, rfl, by decide⟩,
   decryptData_encryptData textRuntime (deviceHandler offline) (profileWithEntropy []) sampleState
     sampleKey "bookmarks" rfl rfl (by decide)
     (fun iv plaintext _ => textRuntime_aes sampleKey iv plaintext)⟩

/-- C6: a fresh IV per encryption. A call of `encryptData` issues one request, for 12
random bytes; its output decodes to a buffer that starts with the bytes drawn; and two
calls on the same payload under the same key whose drawn bytes differ return different
strings. -/
theorem encryptData_fresh_iv {P ω₁ ω₂ : Type} (R : Runtime P) (syncState : SyncState)
    (key : CryptoKey) (data : P) (h₁ : Handler ω₁) (w₁ : ω₁) (h₂ : Handler ω₂) (w₂ : ω₂)
    (c₁ c₂ : String)
    (hkey : syncState.encryptionKey = some key)
    (hiv : (h₁ (.getRandomValues 12) w₁).1 ≠ (h₂ (.getRandomValues 12) w₂).1)
    (hc₁ : ((encryptData R syncState data).run h₁ w₁).1 = .ok c₁)
    (hc₂ : ((encryptData R syncState data).run h₂ w₂).1 = .ok c₂) :
    ((encryptData R syncState data).run h₁ w₁).2.2 = [.getRandomValues 12] ∧
    (∃ buffer, base64ToBuffer c₁ = .ok buffer ∧
        buffer.take 12 = List.ofFn (h₁ (.getRandomValues 12) w₁).1) ∧
    c₁ ≠ c₂ := by
  rw [run_encryptData R h₁ w₁ syncState key data hkey] at hc₁ ⊢
  rw [run_encryptData R h₂ w₂ syncState key data hkey] at hc₂
  simp only at hc₁ hc₂
  have hlen₁ : (List.ofFn (h₁ (.getRandomValues 12) w₁).1).length = 12 := List.length_ofFn _
  have hlen₂ : (List.ofFn (h₂ (.getRandomValues 12) w₂).1).length = 12 := List.length_ofFn _
  cases he₁ : R.subtleEncrypt key (List.ofFn (h₁ (.getRandomValues 12) w₁).1)
      (R.textEncode (R.jsonStringify data)) with
  | error e => rw [he₁] at hc₁; cases hc₁
  | ok ct₁ =>
    cases he₂ : R.subtleEncrypt key (List.ofFn (h₂ (.getRandomValues 12) w₂).1)
        (R.textEncode (R.jsonStringify data)) with
    | error e => rw [he₂] at hc₂; cases hc₂
    | ok ct₂ =>
      rw [he₁] at hc₁
      rw [he₂] at hc₂
      simp only at hc₁ hc₂
      refine ⟨rfl, ?_, ?_⟩
      · obtain ⟨base64, hto, hfrom⟩ :=
          base64ToBuffer_bufferToBase64 (List.ofFn (h₁ (.getRandomValues 12) w₁).1 ++ ct₁)
        rw [hto] at hc₁
        cases hc₁
        exact ⟨_, hfrom, (take_drop_iv _ ct₁ hlen₁).1⟩
      · intro heq
        subst heq
        have hbuf := bufferToBase64_injective _ _ (hc₁.trans hc₂.symm)
        have htake := congrArg (List.take 12) hbuf
        rw [(take_drop_iv _ ct₁ hlen₁).1, (take_drop_iv _ ct₂ hlen₂).1] at htake
        exact hiv (List.ofFn_injective htake)

/-- Witness of C6: two profiles whose random sources yield different bytes. -/
theorem encryptData_fresh_iv_witness :
    (sampleState.encryptionKey = some sampleKey ∧
      ((deviceHandler offline) (.getRandomValues 12) (profileWithEntropy [1])).1
        ≠ ((deviceHandler offline) (.getRandomValues 12) (profileWithEntropy [2])).1 ∧
      ((encryptData textRuntime sampleState "bookmarks").run (deviceHandler offline)
          (profileWithEntropy [1])).1 = .ok "AQAAAAAAAAAAAAAABwcHAQAAAAAAAAAAAAAAYm9va21hcmtz" ∧
      ((encryptData textRuntime sampleState "bookmarks").run (deviceHandler offline)
          (profileWithEntropy [2])).1 = .ok "AgAAAAAAAAAAAAAABwcHAgAAAAAAAAAAAAAAYm9va21hcmtz") ∧
    (((encryptData textRuntime sampleState "bookmarks").run (deviceHandler offline)
          (profileWithEntropy [1])).2.2 = [.getRandomValues 12] ∧
     (∃ buffer, base64ToBuffer "AQAAAAAAAAAAAAAABwcHAQAAAAAAAAAAAAAAYm9va21hcmtz" = .ok buffer ∧
        buffer.take 12 = List.ofFn ((deviceHandler offline) (.getRandomValues 12)
          (profileWithEntropy [1])).1) ∧
     "AQAAAAAAAAAAAAAABwcHAQAAAAAAAAAAAAAAYm9va21hcmtz"
       ≠ "AgAAAAAAAAAAAAAABwcHAgAAAAAAAAAAAAAAYm9va21hcmtz") :=
  ⟨⟨rfl, fun heq => absurd (congrFun heq 0) (by decide), by decide!, by decide!⟩,
   encryptData_fresh_iv textRuntime sampleState sampleKey "bookmarks" (deviceHandler offline)
     (profileWithEntropy [1]) (deviceHandler offline) (profileWithEntropy [2]) _ _ rfl
     (fun heq => absurd (congrFun heq 0) (by decide)) (by decide!) (by decide!)⟩

/-! ### The server -/

theorem handleStart_fst (env : ServerEnv) (dir : DataDir) (req : Request) :
    (handleStart env (some dir) req).1 = some dir := by
  unfold handleStart
  simp only
  repeat (first | rfl | split)

theorem handleStart_pending_salt (env : ServerEnv) (dir : DataDir) (req : Request)
    (forceOverwrite : Bool)
    (h : (handleStart env (some dir) req).2 = .inr (.salt forceOverwrite)) :
    req.method = "POST" ∧ req.pathname = "/sync/salt" ∧
      forceOverwrite = decide (req.force = some "true") ∧
      (forceOverwrite = true ∨ dir.salt = none) := by
  unfold handleStart at h
  simp only at h
  split at h
  · cases h
  · split at h
    · split at h
      · cases h
      · split at h <;> cases h
    · split at h
      · rename_i hpost
        split at h
        · cases h
        · rename_i hcond
          simp only [Sum.inr.injEq, Pending.salt.injEq] at h
          refine ⟨hpost.1, hpost.2, h.symm, ?_⟩
          rw [← h]
          cases hd : decide (req.force = some "true")
          · right
            cases hs : dir.salt with
            | none => rfl
            | some s => simp [hd, hs] at hcond
          · left; rfl
      · split at h
        · split at h
          · cases h
          · split at h <;> cases h
        · split at h <;> cases h

theorem handleResume_data_keeps_salt (env : ServerEnv) (dir : DataDir) (body : ReqBody) :
    ∃ dir2, (handleResume env (some dir) .data body).1 = some dir2 ∧ dir2.salt = dir.salt := by
  cases body with
  | invalid => exact ⟨dir, rfl, rfl⟩
  | jsonNull => exact ⟨dir, rfl, rfl⟩
  | object salt payload lastModified =>
    cases payload with
    | absent => exact ⟨dir, rfl, rfl⟩
    | other => exact ⟨dir, rfl, rfl⟩
    | str p =>
      simp only [handleResume]
      split
      · split
        · exact ⟨dir, rfl, rfl⟩
        · exact ⟨_, rfl, rfl⟩
      · exact ⟨dir, rfl, rfl⟩

theorem handle_keeps_salt (env : ServerEnv) (dir : DataDir) (salt : String) (req : Request)
    (hsalt : dir.salt = some salt) (hreq : ¬ isForcedSaltPost req) :
    ∃ dir2, (handle env (some dir) req).1 = some dir2 ∧ dir2.salt = some salt := by
  have hfst := handleStart_fst env dir req
  unfold handle
  cases hs : handleStart env (some dir) req with
  | mk fs1 outcome =>
    rw [hs] at hfst
    simp only at hfst
    subst hfst
    cases outcome with
    | inl response => exact ⟨dir, rfl, hsalt⟩
    | inr pending =>
      cases pending with
      | data =>
        obtain ⟨dir2, h1, h2⟩ := handleResume_data_keeps_salt env dir req.body
        exact ⟨dir2, h1, h2.trans hsalt⟩
      | salt forceOverwrite =>
        have hp := handleStart_pending_salt env dir req forceOverwrite (by rw [hs])
        rcases hp.2.2.2 with hf | hnone
        · exfalso
          apply hreq
          refine ⟨hp.1, hp.2.1, ?_⟩
          have := hp.2.2.1
          rw [hf] at this
          exact of_decide_eq_true this.symm
        · rw [hnone] at hsalt; cases hsalt

theorem handleAll_keeps_salt (requests : List (ServerEnv × Request)) (dir : DataDir)
    (salt : String) (hsalt : dir.salt = some salt)
    (hreqs : ∀ r ∈ requests, ¬ isForcedSaltPost r.2) :
    storedSalt (handleAll (some dir) requests) = some salt := by
  induction requests generalizing dir with
  | nil => simpa [handleAll, storedSalt] using hsalt
  | cons r rest ih =>
    obtain ⟨env, req⟩ := r
    obtain ⟨dir2, h1, h2⟩ := handle_keeps_salt env dir salt req hsalt
      (hreqs (env, req) (List.mem_cons_self _ _))
    simp only [handleAll]
    rw [h1]
    exact ih dir2 h2 (fun r hr => hreqs r (List.mem_cons_of_mem _ hr))

/-- C8 (evaluation at the failing input): a stored salt is replaced by an upload without
`force`. A `POST /sync/salt` whose query has no `force=true` and that starts when a salt is
stored is answered 409 before its body is read and leaves the file system as it was,
whatever its body and whatever the environment. But the check is made before
`await req.json()` (line 66) and not again before the write (line 77): two uploads without
`force` that start against a server without a salt both pass the check and are suspended;
the first to resume stores its salt and is answered 201, and the second, resuming when that
salt is stored, is answered 201 as well and replaces it. -/
theorem suspended_upload_replaces_stored_salt :
    (∀ (env : ServerEnv) (dir : DataDir) (salt : String) (req : Request),
      req.method = "POST" → req.pathname = "/sync/salt" → req.force ≠ some "true" →
      dir.salt = some salt →
      handleStart env (some dir) req
        = (some dir, .inl (errorResponse "Salt already exists" 409))) ∧
    ¬ isForcedSaltPost (postSalt none (.object (.str "Zmlyc3Q=") .absent .absent)) ∧
    ¬ isForcedSaltPost (postSalt none (.object (.str "c2Vjb25k") .absent .absent)) ∧
    handleStart sampleEnv none (postSalt none (.object (.str "Zmlyc3Q=") .absent .absent))
      = (some emptyDir, .inr (.salt false)) ∧
    handleStart sampleEnv (some emptyDir)
        (postSalt none (.object (.str "c2Vjb25k") .absent .absent))
      = (some emptyDir, .inr (.salt false)) ∧
    handleResume sampleEnv (some emptyDir) (.salt false)
        (.object (.str "Zmlyc3Q=") .absent .absent)
      = (some { salt := some "Zmlyc3Q=", data := none }, successResponse 201) ∧
    storedSalt (some { salt := some "Zmlyc3Q=", data := none }) = some "Zmlyc3Q=" ∧
    handleResume sampleEnv (some { salt := some "Zmlyc3Q=", data := none }) (.salt false)
        (.object (.str "c2Vjb25k") .absent .absent)
      = (some { salt := some "c2Vjb25k", data := none }, successResponse 201) ∧
    storedSalt (some { salt := some "c2Vjb25k", data := none }) = some "c2Vjb25k" := by
  refine ⟨?_, by decide, by decide, by decide, by decide, by decide, rfl, by decide, rfl⟩
  intro env dir salt req hmethod hpath hforce hsalt
  simp [handleStart, hmethod, hpath, hforce, hsalt]

theorem postData_stores (env : ServerEnv) (dir : DataDir) (p : String) (salt lastModified : JsField)
    (hp : truthy p = true) (hwrite : env.writeFails = false) :
    handle env (some dir) (postData (.object salt (.str p) lastModified))
      = (some { dir with data := some { payload := p, lastModified := env.now } },
         successResponse 200) := by
  simp [handle, handleStart, postData, handleResume, hp, hwrite]

theorem getData_returns (env : ServerEnv) (dir : DataDir) (envelope : Envelope)
    (hdata : dir.data = some envelope) (hread : env.readFails = false) :
    handle env (some dir) getData
      = (some dir, { status := 200, statusText := "",
                     json := .ok { payload := some envelope.payload,
                                   lastModified := some envelope.lastModified } }) := by
  simp [handle, handleStart, getData, hdata, hread]

theorem postData_rejects (env : ServerEnv) (dir : DataDir) (body : ReqBody)
    (hbody : body = .invalid ∨ ∃ salt payload lastModified,
      body = .object salt payload lastModified ∧ ∀ p, payload = .str p → truthy p = false) :
    (handle env (some dir) (postData body)).2.status = 400 ∧
    (handle env (some dir) (postData body)).1 = some dir := by
  rcases hbody with rfl | ⟨salt, payload, lastModified, rfl, hpayload⟩
  · simp [handle, handleStart, postData, handleResume, errorResponse]
  · cases payload with
    | absent => simp [handle, handleStart, postData, handleResume, errorResponse]
    | other => simp [handle, handleStart, postData, handleResume, errorResponse]
    | str p => simp [handle, handleStart, postData, handleResume, errorResponse, hpayload p rfl]

/-- C9 (evaluation at the failing input): a `POST /sync/data` whose body is the JSON value
`null`, which has no `payload`, is answered 500 `Error saving data` and not 400; the stored
envelope is left as it was. -/
theorem postData_null_body :
    handle sampleEnv (some sampleDir) (postData .jsonNull)
      = (some sampleDir, errorResponse "Error saving data" 500) := by
  decide

/-! ### Fetching the remote state -/

/-- C10: `fetchDataFromServer` treats absence as an empty state. With a server URL
configured, whatever the runtime and whether or not a key is available: when the request is
answered 404 the result is `{ payload: { bookmarks: [], tabs: [] }, lastModified: null }`;
when it is answered with another status that is not a success the call fails; in both cases
the fetch is the only request issued, so nothing is decrypted. -/
theorem fetchDataFromServer_absence {P ω : Type} (R : Runtime P) (h : Handler ω) (w : ω)
    (syncState : SyncState) (serverUrl : String) (response : HttpResponse)
    (hurl : syncState.serverUrl = some serverUrl) (htruthy : truthy serverUrl = true)
    (hresponse : (h (.fetch { method := "GET",
                               url := stripTrailingSlashes serverUrl ++ "/sync/data",
                               body := .invalid }) w).1 = .ok response) :
    (response.status = 404 →
      ((fetchDataFromServer R syncState).run h w).1
        = .ok { payload := .emptyState, lastModified := none }) ∧
    (response.ok = false → response.status ≠ 404 →
      ∃ message, ((fetchDataFromServer R syncState).run h w).1 = .error message) ∧
    (response.ok = false →
      ((fetchDataFromServer R syncState).run h w).2.2
        = [.fetch { method := "GET", url := stripTrailingSlashes serverUrl ++ "/sync/data",
                    body := .invalid }]) := by
  have hrun : (fetchDataFromServer R syncState).run h w
      = ((match (h (.fetch { method := "GET",
                               url := stripTrailingSlashes serverUrl ++ "/sync/data",
                               body := .invalid }) w).1 with
          | .error e => .error ("Network or fetch error: " ++ e)
          | .ok response =>
            if !response.ok then
              if response.status = 404 then .ok { payload := .emptyState, lastModified := none }
              else .error ("Network or fetch error: " ++ ("Server error: "
                ++ toString response.status ++ " " ++ response.statusText))
            else
              match response.json with
              | .error e => .error ("Network or fetch error: " ++ e)
              | .ok responseJson =>
                if !optTruthy responseJson.payload then
                  .ok { payload := .emptyState,
                        lastModified := if optTruthy responseJson.lastModified
                          then responseJson.lastModified else none }
                else
                  match decryptData R syncState (responseJson.payload.getD "") with
                  | .error e => .error ("Network or fetch error: " ++ e)
                  | .ok decryptedPayload =>
                    .ok { payload := .decrypted decryptedPayload,
                          lastModified := responseJson.lastModified }),
         (h (.fetch { method := "GET", url := stripTrailingSlashes serverUrl ++ "/sync/data",
                      body := .invalid }) w).2,
         [.fetch { method := "GET", url := stripTrailingSlashes serverUrl ++ "/sync/data",
                   body := .invalid }]) := by
    unfold fetchDataFromServer
    simp only [hurl, htruthy, Bool.not_true, Bool.false_eq_true, if_false]
    rw [Prog.run_bind, Prog.run_perform]
    simp only
    cases (h (.fetch { method := "GET", url := stripTrailingSlashes serverUrl ++ "/sync/data",
                       body := .invalid }) w).1 with
    | error e => rfl
    | ok response =>
      simp only
      split
      · split <;> rfl
      · cases response.json with
        | error e => rfl
        | ok responseJson =>
          simp only
          split
          · rfl
          · cases decryptData R syncState (responseJson.payload.getD "") <;> rfl
  rw [hrun, hresponse]
  refine ⟨?_, ?_, ?_⟩
  · intro h404
    have hnot : response.ok = false := by simp [HttpResponse.ok, h404]
    simp [hnot, h404]
  · intro hnot hne
    refine ⟨"Network or fetch error: " ++ ("Server error: "
      ++ toString response.status ++ " " ++ response.statusText), ?_⟩
    simp [hnot, hne]
  · intro _
    rfl

/-- Witness of C10: the sample state, with and without its key, against a server without
data. -/
theorem fetchDataFromServer_absence_witness :
    (sampleState.serverUrl = some sampleOrigin ∧ truthy sampleOrigin = true ∧
      ((deviceHandler (serverNet sampleOrigin))
          (.fetch { method := "GET", url := stripTrailingSlashes sampleOrigin ++ "/sync/data",
                    body := .invalid }) freshWorld).1 = .ok (errorResponse "No data found" 404)) ∧
    (((errorResponse "No data found" 404).status = 404 →
      ((fetchDataFromServer (tableRuntime []) { sampleState with encryptionKey := none }).run
          (deviceHandler (serverNet sampleOrigin)) freshWorld).1
        = .ok { payload := .emptyState, lastModified := none }) ∧
     ((errorResponse "No data found" 404).ok = false →
        (errorResponse "No data found" 404).status ≠ 404 →
      ∃ message,
        ((fetchDataFromServer (tableRuntime []) { sampleState with encryptionKey := none }).run
          (deviceHandler (serverNet sampleOrigin)) freshWorld).1 = .error message) ∧
     ((errorResponse "No data found" 404).ok = false →
      ((fetchDataFromServer (tableRuntime []) { sampleState with encryptionKey := none }).run
          (deviceHandler (serverNet sampleOrigin)) freshWorld).2.2
        = [.fetch { method := "GET", url := stripTrailingSlashes sampleOrigin ++ "/sync/data",
                    body := .invalid }])) :=
  ⟨⟨rfl, by decide, by show @Eq (Except String HttpResponse) _ _; decide!⟩,
   fetchDataFromServer_absence (tableRuntime []) (deviceHandler (serverNet sampleOrigin))
     freshWorld { sampleState with encryptionKey := none } sampleOrigin
     (errorResponse "No data found" 404) rfl (by decide)
     (by show @Eq (Except String HttpResponse) _ _; decide!)⟩

/-! ### The salt bootstrap of two racing clients -/

theorem salt_race_converges_when_atomic :
    ∀ schedule ∈ allSchedules 8,
      converged (runRace (raceStepAtomic sampleOrigin sampleEnv) (schedule ++ drain) saltRace)
        = true := by
  decide!

/-- C7 (evaluation at the failing input): two first-time clients against a server without a
salt, each taking a step in turn. Both uploads pass the existence check of the server before
either is written, both are answered 201, two salt values are stored one after the other,
and the clients end with different cached salts and different keys. -/
theorem salt_race_diverges :
    (runRace (raceStep sampleOrigin sampleEnv)
        [false, true, false, true, false, true, false, true] saltRace).saltWrites
      = ["AQEBAQEBAQEBAQEBAQEBAQ==", "AgICAgICAgICAgICAgICAg=="] ∧
    (runRace (raceStep sampleOrigin sampleEnv)
        [false, true, false, true, false, true, false, true] saltRace).first.device.storage.cryptoSalt
      = some "AQEBAQEBAQEBAQEBAQEBAQ==" ∧
    (runRace (raceStep sampleOrigin sampleEnv)
        [false, true, false, true, false, true, false, true] saltRace).second.device.storage.cryptoSalt
      = some "AgICAgICAgICAgICAgICAg==" ∧
    ((runRace (raceStep sampleOrigin sampleEnv)
        [false, true, false, true, false, true, false, true] saltRace).first.result.map
          (fun s => (s.status, s.encryptionKey.isSome)) = some ("Idle", true)) ∧
    ((runRace (raceStep sampleOrigin sampleEnv)
        [false, true, false, true, false, true, false, true] saltRace).second.result.map
          (fun s => (s.status, s.encryptionKey.isSome)) = some ("Idle", true)) ∧
    (runRace (raceStep sampleOrigin sampleEnv)
        [false, true, false, true, false, true, false, true] saltRace).first.result.map
          (fun s => s.encryptionKey)
      ≠ (runRace (raceStep sampleOrigin sampleEnv)
        [false, true, false, true, false, true, false, true] saltRace).second.result.map
          (fun s => s.encryptionKey) := by
  decide!

/-! ### The reconciler on concrete lists -/

/-- C2 (evaluation at the failing input): on the reference profile with an empty toolbar,
the list of two twin bookmarks is applied twice. The first application creates both
bookmarks. The second one matches the first server item with the first local twin, finds
the same local twin for the second server item, drops it as already claimed and then creates
a third bookmark; the tree ends with three twins. -/
theorem second_application_creates_duplicate :
    ((applyServerStateToBrowser (some twinBookmarks)).run (deviceHandler offline)
        (profileWith emptyToolbar)).2.2
      = [.bookmarksGetTree, .bookmarksGetTree,
         .bookmarksCreate { parentId := .str "tb", index := some 0, title := "Lean",
                            type := some "bookmark", url := some (some "https://lean-lang.org") },
         .bookmarksCreate { parentId := .str "tb", index := some 1, title := "Lean",
                            type := some "bookmark", url := some (some "https://lean-lang.org") },
         .bookmarksGetTree] ∧
    ((applyServerStateToBrowser (some twinBookmarks)).run (deviceHandler offline)
        ((applyServerStateToBrowser (some twinBookmarks)).run (deviceHandler offline)
          (profileWith emptyToolbar)).2.1).2.2
      = [.bookmarksGetTree, .bookmarksGetTree,
         .bookmarksCreate { parentId := .str "tb", index := some 1, title := "Lean",
                            type := some "bookmark", url := some (some "https://lean-lang.org") },
         .bookmarksGetTree] ∧
    forestIds ((applyServerStateToBrowser (some twinBookmarks)).run (deviceHandler offline)
        ((applyServerStateToBrowser (some twinBookmarks)).run (deviceHandler offline)
          (profileWith emptyToolbar)).2.1).2.1.1.bookmarks.tree
      = ["root", "tb", "new1", "new3", "new2"] := by
  decide!

/-! ### Order tolerance of the reconciler -/

theorem Prog.failures_bind {α β ω : Type} (h : Handler ω) (x : Prog α) (f : α → Prog β) (w : ω) :
    (x >>= f).failures h w
      = x.failures h w + (f (x.run h w).1).failures h (x.run h w).2.1 := by
  rw [Prog.bind_eq]
  induction x generalizing w with
  | pure a => simp [Prog.bind, Prog.run, Prog.failures]
  | step op k ih => simp [Prog.bind, Prog.run, Prog.failures, ih, Nat.add_assoc]

theorem Prog.failures_pure {α ω : Type} (h : Handler ω) (a : α) (w : ω) :
    (Pure.pure a : Prog α).failures h w = 0 := rfl

theorem JsObj.get_set_self (o : JsObj) (key value : String) :
    (o.set key value).get key = some value := by
  induction o with
  | nil => simp [JsObj.set, JsObj.get, List.lookup]
  | cons e rest ih =>
    obtain ⟨k, v⟩ := e
    unfold JsObj.set
    split
    · rename_i hk
      subst hk
      simp [JsObj.get, List.lookup]
    · rename_i hk
      have hne : (key == k) = false := by
        rw [beq_eq_false_iff_ne]
        exact fun h => hk h.symm
      simp only [JsObj.get, List.lookup, hne]
      exact ih

theorem mem_setAdd_self (set : List String) (id : String) : id ∈ setAdd set id := by
  unfold setAdd
  split
  · assumption
  · simp

theorem assign_createdIdMap (st : ReconcileState) (ref : ItemRef) (item : BookmarkItem) :
    (st.assign ref item).createdIdMap = st.createdIdMap := by
  cases ref <;> rfl

theorem assign_processedServerIds (st : ReconcileState) (ref : ItemRef) (item : BookmarkItem) :
    (st.assign ref item).processedServerIds = st.processedServerIds := by
  cases ref <;> rfl

theorem run_move {ω : Type} (h : Handler ω) (w : ω) (id : String) (destination : MoveInfo) :
    (perform (.bookmarksMove id destination)).run h w
      = ((h (.bookmarksMove id destination) w).1, (h (.bookmarksMove id destination) w).2,
         [.bookmarksMove id destination]) := rfl

theorem moveMatched_ok {ω : Type} (h : Handler ω) (w : ω) (st : ReconcileState)
    (serverItem : BookmarkItem) (targetParentId : JsId) (ref : ItemRef) (localItem : BookmarkItem)
    (hok : (moveMatched st serverItem targetParentId ref localItem).failures h w = 0) :
    ∃ st2 moved, ((moveMatched st serverItem targetParentId ref localItem).run h w).1 = .ok (st2, moved) ∧
      st2.createdIdMap = st.createdIdMap ∧ st2.processedServerIds = st.processedServerIds ∧
      ∀ details, Op.bookmarksCreate details ∉
        ((moveMatched st serverItem targetParentId ref localItem).run h w).2.2 := by
  unfold moveMatched at hok ⊢
  split
  · rename_i hmove
    rw [if_pos hmove] at hok
    simp only [Prog.bind_eq, perform, Prog.bind, Prog.run, Prog.failures] at hok ⊢
    cases hres : (h (.bookmarksMove localItem.id
        { parentId := targetParentId, index := serverItem.index }) w).1 with
    | error e =>
      rw [hres] at hok
      simp [Op.failed] at hok
    | ok u =>
      simp only [hres]
      refine ⟨_, _, rfl, ?_, ?_, ?_⟩
      · rw [assign_createdIdMap]
      · rw [assign_processedServerIds]
      · intro details hmem
        simp [Prog.run] at hmem
  · exact ⟨st, localItem, rfl, rfl, rfl, by intro details hmem; simp [Prog.run_pure] at hmem⟩

theorem updateChanged_ok {ω : Type} (h : Handler ω) (w : ω) (st : ReconcileState)
    (ref : ItemRef) (localItem : BookmarkItem) (changes : Changes) (needsUpdate : Bool)
    (hok : (updateChanged st ref localItem changes needsUpdate).failures h w = 0) :
    ∃ st3, ((updateChanged st ref localItem changes needsUpdate).run h w).1 = .ok st3 ∧
      st3.createdIdMap = st.createdIdMap ∧ st3.processedServerIds = st.processedServerIds ∧
      ∀ details, Op.bookmarksCreate details ∉
        ((updateChanged st ref localItem changes needsUpdate).run h w).2.2 := by
  unfold updateChanged at hok ⊢
  split
  · rename_i hupdate
    rw [if_pos hupdate] at hok
    simp only [Prog.bind_eq, perform, Prog.bind, Prog.run, Prog.failures] at hok ⊢
    cases hres : (h (.bookmarksUpdate localItem.id changes) w).1 with
    | error e =>
      rw [hres] at hok
      simp [Op.failed] at hok
    | ok u =>
      simp only [hres]
      refine ⟨_, rfl, ?_, ?_, ?_⟩
      · rw [assign_createdIdMap]
      · rw [assign_processedServerIds]
      · intro details hmem
        simp [Prog.run] at hmem
  · exact ⟨st, rfl, rfl, rfl, by intro details hmem; simp [Prog.run_pure] at hmem⟩

theorem updateMatched_processes {ω : Type} (h : Handler ω) (w : ω) (st : ReconcileState)
    (serverItem : BookmarkItem) (targetParentId : JsId) (ref : ItemRef) (localItem : BookmarkItem)
    (hok : (updateMatched st serverItem targetParentId ref localItem).failures h w = 0) :
    serverItem.id ∈
        ((updateMatched st serverItem targetParentId ref localItem).run h w).1.processedServerIds ∧
    ((updateMatched st serverItem targetParentId ref localItem).run h w).1.createdIdMap
        = (recordMapping st serverItem localItem).createdIdMap ∧
    ∀ details, Op.bookmarksCreate details ∉
        ((updateMatched st serverItem targetParentId ref localItem).run h w).2.2 := by
  unfold updateMatched at hok ⊢
  rw [Prog.failures_bind] at hok
  rw [Prog.run_bind]
  obtain ⟨st2, moved, hmoved, hmap2, _, hcreate2⟩ :=
    moveMatched_ok h w (recordMapping st serverItem localItem) serverItem targetParentId ref
      localItem (by omega)
  rw [hmoved] at hok ⊢
  simp only at hok ⊢
  rw [Prog.failures_bind] at hok
  rw [Prog.run_bind]
  obtain ⟨st3, hupdated, hmap3, _, hcreate3⟩ :=
    updateChanged_ok h ((moveMatched (recordMapping st serverItem localItem) serverItem
        targetParentId ref localItem).run h w).2.1 st2 ref moved (changesFor serverItem localItem)
      (needsUpdateFor serverItem localItem) (by omega)
  rw [hupdated]
  simp only [Prog.run_pure, List.append_nil]
  refine ⟨mem_setAdd_self _ _, ?_, ?_⟩
  · rw [hmap3, hmap2]
  · intro details hmem
    rcases List.mem_append.1 hmem with hm | hm
    · exact hcreate2 details hm
    · exact hcreate3 details hm

theorem findFirstIdx_spec {α : Type} (p : α → Bool) (l : List α) (i : Nat)
    (hi : findFirstIdx p l = some i) : ∃ a, l.get? i = some a ∧ p a = true := by
  induction l generalizing i with
  | nil => simp [findFirstIdx] at hi
  | cons b rest ih =>
    unfold findFirstIdx at hi
    split at hi
    · rename_i hb
      cases hi
      exact ⟨b, rfl, hb⟩
    · cases hrest : findFirstIdx p rest with
      | none => rw [hrest] at hi; cases hi
      | some j =>
        rw [hrest] at hi
        cases hi
        obtain ⟨a, ha, hpa⟩ := ih j hrest
        exact ⟨a, by simpa using ha, hpa⟩

theorem matchesAttributes_parent (targetParentId : JsId) (serverItem item : BookmarkItem)
    (hm : matchesAttributes targetParentId serverItem item = true) :
    item.parentId = targetParentId := by
  unfold matchesAttributes at hm
  split at hm
  · cases hm
  · rename_i hne
    by_contra hp
    exact hne (Or.inl hp)

theorem findLocalItem_unmapped (st : ReconcileState) (serverItem : BookmarkItem)
    (targetParentId : JsId) (parentExistsLocally : Bool) (ref : ItemRef)
    (hmap : st.createdIdMap.get serverItem.id = none)
    (hfound : findLocalItem st serverItem targetParentId parentExistsLocally = some ref) :
    parentExistsLocally = true ∧
    ∃ i localItem, ref = .snapshot i ∧ st.currentLocalBookmarks.get? i = some localItem ∧
      localItem.parentId = targetParentId := by
  unfold findLocalItem at hfound
  simp only [hmap] at hfound
  split at hfound
  · rename_i hp
    refine ⟨hp, ?_⟩
    split at hfound
    · cases hfound
    · rename_i i hi
      obtain ⟨a, ha, hpa⟩ := findFirstIdx_spec _ _ i hi
      rw [ha] at hfound
      simp only at hfound
      split at hfound
      · cases hfound
      · cases hfound
        exact ⟨i, a, rfl, ha, matchesAttributes_parent _ _ _ hpa⟩
  · cases hfound

theorem findLocalItem_none_of_no_parent (st : ReconcileState) (serverItem : BookmarkItem)
    (targetParentId : JsId) (hmap : st.createdIdMap.get serverItem.id = none) :
    findLocalItem st serverItem targetParentId false = none := by
  unfold findLocalItem
  simp [hmap]

theorem createMissing_processes {ω : Type} (h : Handler ω) (w : ω) (st : ReconcileState)
    (serverItem : BookmarkItem) (targetParentId : JsId)
    (hok : (createMissing st serverItem targetParentId).failures h w = 0) :
    ∃ details newItem,
      details.parentId = targetParentId ∧ details.title = serverItem.title ∧
      details.type = serverItem.type ∧ details.index = serverItem.index ∧
      (h (.bookmarksCreate details) w).1 = .ok newItem ∧
      ((createMissing st serverItem targetParentId).run h w).2.2 = [.bookmarksCreate details] ∧
      serverItem.id ∈ ((createMissing st serverItem targetParentId).run h w).1.processedServerIds ∧
      ((createMissing st serverItem targetParentId).run h w).1.createdIdMap.get serverItem.id
        = some newItem.raw.id := by
  unfold createMissing at hok ⊢
  simp only [Prog.bind_eq, perform, Prog.bind, Prog.run, Prog.failures] at hok ⊢
  cases hres : (h (.bookmarksCreate
      { parentId := targetParentId, index := serverItem.index, title := serverItem.title,
        type := serverItem.type,
        url := if serverItem.type = some "bookmark" then some serverItem.url else none }) w).1 with
  | error e =>
    rw [hres] at hok
    simp [Op.failed] at hok
  | ok newItem =>
    refine ⟨_, newItem, rfl, rfl, rfl, rfl, hres, ?_, ?_, ?_⟩
    · simp [hres, Prog.run]
    · simp only [hres]
      exact mem_setAdd_self _ _
    · simp only [hres]
      exact JsObj.get_set_self _ _ _

theorem reversedChain_materialised :
    ∀ depth, depth ≤ 5 →
      (reportOf ((applyServerStateToBrowser (some (reversedChain depth))).run
          (deviceHandler offline) (profileWith emptyToolbar)).1).map
        (fun report => (report.unprocessedCount, report.final.processedServerIds.length))
        = some (0, depth) ∧
      (applyServerStateToBrowser (some (reversedChain depth))).failures
          (deviceHandler offline) (profileWith emptyToolbar) = 0 ∧
      outline ((applyServerStateToBrowser (some (reversedChain depth))).run
          (deviceHandler offline) (profileWith emptyToolbar)).2.1.1.bookmarks.tree
        = chainOutline depth := by
  decide!

/-- Counterexample to C3: a chain of 6 nested new folders, every folder listed before its
parent. No request fails, the loop stops after its 5 passes, and the folder of level 6 is
neither processed nor present in the local tree. -/
theorem reversedChain_beyond_pass_limit :
    (applyServerStateToBrowser (some (reversedChain 6))).failures
        (deviceHandler offline) (profileWith emptyToolbar) = 0 ∧
    (reportOf ((applyServerStateToBrowser (some (reversedChain 6))).run
        (deviceHandler offline) (profileWith emptyToolbar)).1).map
      (fun report => (report.unprocessedCount, report.final.pass, report.final.processedServerIds))
      = some (1, 5, ["s1", "s2", "s3", "s4", "s5"]) ∧
    outline ((applyServerStateToBrowser (some (reversedChain 6))).run
        (deviceHandler offline) (profileWith emptyToolbar)).2.1.1.bookmarks.tree
      = chainOutline 5 := by
  decide!


/-! ### The guards of the sync cycle -/

/-- C11: the re-entrancy guard of `performSync`. A call made while the status is
`'Syncing...'` returns at once: whatever the collaborators would answer, it issues no request
(no storage access, no fetch, no bookmark call, no push, no status message), leaves the state
of the collaborators as it is and leaves every field of `syncState` as it is. -/
theorem performSync_reentrancy_guard {ω : Type} (R : Runtime PlainEnvelope) (h : Handler ω) (w : ω)
    (syncState : SyncState) (hstatus : syncState.status = "Syncing...") :
    (performSync R syncState).run h w = (syncState, w, []) := by
  unfold performSync
  rw [if_pos hstatus]
  rfl

/-- Witness of C11: a second call on the sample profile while a cycle is in progress. -/
theorem performSync_reentrancy_guard_witness :
    ({ sampleState with status := "Syncing..." } : SyncState).status = "Syncing..." ∧
    (performSync (tableRuntime []) { sampleState with status := "Syncing..." }).run
        (deviceHandler (serverNet sampleOrigin)) freshWorld
      = ({ sampleState with status := "Syncing..." }, freshWorld, []) :=
  ⟨rfl, performSync_reentrancy_guard (tableRuntime []) (deviceHandler (serverNet sampleOrigin))
    freshWorld { sampleState with status := "Syncing..." } rfl⟩

/-- C12 (counterexample): a profile with a server URL and neither passphrase nor stored key.
The call `loadConfiguration` leaves the status `'Passphrase needed'`, the URL set and no key; the
`performSync` that follows, as in the alarm and `syncNow` handlers, leaves the status
`'Configuration missing'`, not `'Passphrase needed'`, after one status message. -/
theorem performSync_missing_key_status :
    ((loadConfiguration (tableRuntime []) initialState).run
        (deviceHandler (serverNet sampleOrigin)) freshWorld).1
      = { lastSync := none, status := "Passphrase needed", serverUrl := some sampleOrigin,
          encryptionKey := none } ∧
    ((performSync (tableRuntime [])
        ((loadConfiguration (tableRuntime []) initialState).run
          (deviceHandler (serverNet sampleOrigin)) freshWorld).1).run
        (deviceHandler (serverNet sampleOrigin))
        ((loadConfiguration (tableRuntime []) initialState).run
          (deviceHandler (serverNet sampleOrigin)) freshWorld).2.1).1.status
      = "Configuration missing" ∧
    ((performSync (tableRuntime [])
        ((loadConfiguration (tableRuntime []) initialState).run
          (deviceHandler (serverNet sampleOrigin)) freshWorld).1).run
        (deviceHandler (serverNet sampleOrigin))
        ((loadConfiguration (tableRuntime []) initialState).run
          (deviceHandler (serverNet sampleOrigin)) freshWorld).2.1).1.status
      ≠ "Passphrase needed" ∧
    ((performSync (tableRuntime [])
        ((loadConfiguration (tableRuntime []) initialState).run
          (deviceHandler (serverNet sampleOrigin)) freshWorld).1).run
        (deviceHandler (serverNet sampleOrigin))
        ((loadConfiguration (tableRuntime []) initialState).run
          (deviceHandler (serverNet sampleOrigin)) freshWorld).2.1).2.2
      = [.sendMessage "Configuration missing" none] := by
  decide!

/-- C12 (amended): the configuration guard of `performSync`. When the call is not stopped by
the re-entrancy guard and the server URL is missing or no key is available, the cycle stops
with the status `'Configuration missing'` in both cases: the other fields of `syncState` are
kept and the one request issued is the status message, so the status never becomes
`'Syncing...'` and there is no storage access, no fetch and no push. -/
theorem performSync_configuration_guard {ω : Type} (R : Runtime PlainEnvelope) (h : Handler ω)
    (w : ω) (syncState : SyncState) (hstatus : syncState.status ≠ "Syncing...")
    (hmissing : optTruthy syncState.serverUrl = false ∨ syncState.encryptionKey = none) :
    (performSync R syncState).run h w
      = ({ syncState with status := "Configuration missing" },
         (h (.sendMessage "Configuration missing" syncState.lastSync) w).2,
         [.sendMessage "Configuration missing" syncState.lastSync]) := by
  have hguard : (!optTruthy syncState.serverUrl || syncState.encryptionKey.isNone) = true := by
    rcases hmissing with hurl | hkey
    · simp [hurl]
    · simp [hkey]
  unfold performSync
  rw [if_neg hstatus, if_pos hguard]
  rfl

/-- Witness of C12: the sample state without its key, and the sample state without its URL. -/
theorem performSync_configuration_guard_witness :
    (({ sampleState with encryptionKey := none } : SyncState).status ≠ "Syncing..." ∧
      (optTruthy ({ sampleState with encryptionKey := none } : SyncState).serverUrl = false ∨
        ({ sampleState with encryptionKey := none } : SyncState).encryptionKey = none)) ∧
    (performSync (tableRuntime []) { sampleState with encryptionKey := none }).run
        (deviceHandler (serverNet sampleOrigin)) freshWorld
      = ({ sampleState with encryptionKey := none, status := "Configuration missing" },
         ((deviceHandler (serverNet sampleOrigin))
            (.sendMessage "Configuration missing" none) freshWorld).2,
         [.sendMessage "Configuration missing" none]) :=
  ⟨⟨by decide, Or.inr rfl⟩,
   performSync_configuration_guard (tableRuntime []) (deviceHandler (serverNet sampleOrigin))
     freshWorld { sampleState with encryptionKey := none } (by decide) (Or.inr rfl)⟩

/-! ### Where the cycle writes the stored timestamp and the cached tabs -/

theorem writesTimestamp_sub (op : Op) (hop : writesTimestamp op) : writesTabsOrTimestamp op := by
  cases op <;> simp only [writesTimestamp, writesTabsOrTimestamp] at hop ⊢
  · exact Or.inr hop
  · exact Or.inr hop

theorem writesTabs_sub (op : Op) (hop : writesTabs op) : writesTabsOrTimestamp op := by
  cases op <;> simp only [writesTabs, writesTabsOrTimestamp] at hop ⊢
  · exact Or.inl hop
  · exact Or.inl hop

theorem reconcilerOp_no_storage (op : Op) (hop : reconcilerOp op) : ¬ writesTabsOrTimestamp op := by
  cases op <;> simp [reconcilerOp, writesTabsOrTimestamp] at hop ⊢

theorem storeRemoteTabs_onlyOps (actualPayload : Option SyncPayload) :
    (storeRemoteTabs actualPayload).OnlyOps (fun op => ¬ bookmarkMutation op ∧ ¬ writesTimestamp op) := by
  unfold storeRemoteTabs
  repeat (first
    | exact Prog.OnlyOps.ret _
    | exact Prog.OnlyOps.perform _ (by simp [bookmarkMutation, writesTimestamp])
    | apply Prog.OnlyOps.bind
    | intro _
    | split
    | dsimp only)

theorem applyRemote_timestamp_write {ω : Type} (h : Handler ω) (w : ω)
    (fetchedData : FetchedData PlainEnvelope) (hts : fetchedData.lastModified ≠ none) :
    ((∃ op ∈ ((applyRemote fetchedData).run h w).2.2, writesTimestamp op) ↔
      ∃ report, ((applyServerStateToBrowser
          (fetchedData.payload.payloadField.bind (fun payload => payload.bookmarks))).run h w).1
            = .ok report) ∧
    (∀ op ∈ ((applyRemote fetchedData).run h w).2.2, writesTimestamp op →
      op = .storageSet { lastKnownServerTimestamp := fetchedData.lastModified }) := by
  have happly : ∀ op ∈ ((applyServerStateToBrowser
      (fetchedData.payload.payloadField.bind (fun payload => payload.bookmarks))).run h w).2.2,
      ¬ writesTimestamp op := fun op hop hw =>
    reconcilerOp_no_storage op ((applyServerStateToBrowser_onlyOps _).trace h w op hop)
      (writesTimestamp_sub op hw)
  unfold applyRemote
  simp only
  rw [Prog.run_bind]
  cases happlied : ((applyServerStateToBrowser
      (fetchedData.payload.payloadField.bind (fun payload => payload.bookmarks))).run h w).1 with
  | error e =>
    simp only [Prog.run_pure, List.append_nil]
    refine ⟨⟨fun ⟨op, hop, hw⟩ => absurd hw (happly op hop), fun ⟨_, hr⟩ => by cases hr⟩, ?_⟩
    exact fun op hop hw => absurd hw (happly op hop)
  | ok report =>
    simp only
    rw [Prog.run_bind, Prog.run_bind, Prog.run_perform]
    have hstore := fun op hop => ((storeRemoteTabs_onlyOps fetchedData.payload.payloadField).trace h
      ((applyServerStateToBrowser
        (fetchedData.payload.payloadField.bind (fun payload => payload.bookmarks))).run h w).2.1 op hop).2
    refine ⟨⟨fun _ => ⟨report, rfl⟩, fun _ =>
      ⟨.storageSet { lastKnownServerTimestamp := fetchedData.lastModified }, ?_, hts⟩⟩, ?_⟩
    · simp only [List.mem_append, List.mem_singleton, true_or, or_true]
    · intro op hop hw
      simp only [List.mem_append, List.mem_singleton] at hop
      rcases hop with hop | hop | rfl | hop
      · exact absurd hw (happly op hop)
      · exact absurd hw (hstore op hop)
      · rfl
      · exfalso
        revert hop
        split <;> simp [Prog.run_pure]

theorem remoteIsNewer_timestamp {P : Type} (R : Runtime P) (remoteTimestamp known : Option String)
    (hnewer : remoteIsNewer R remoteTimestamp known = true) : remoteTimestamp ≠ none := by
  intro hnone
  rw [hnone] at hnewer
  simp [remoteIsNewer, optTruthy] at hnewer

theorem syncAfterFetch_timestamp_write {ω : Type} (R : Runtime PlainEnvelope) (h : Handler ω)
    (w : ω) (syncing : SyncState) (known : Option String)
    (fetchedData : FetchedData PlainEnvelope) :
    ((∃ op ∈ ((syncAfterFetch R syncing known fetchedData).run h w).2.2, writesTimestamp op) ↔
      (remoteIsNewer R fetchedData.lastModified known = true ∧
        ∃ report, ((applyServerStateToBrowser
          (fetchedData.payload.payloadField.bind (fun payload => payload.bookmarks))).run h w).1
            = .ok report)) ∧
    (∀ op ∈ ((syncAfterFetch R syncing known fetchedData).run h w).2.2, writesTimestamp op →
      op = .storageSet { lastKnownServerTimestamp := fetchedData.lastModified }) := by
  have hpush : ∀ w2, ∀ op ∈ ((captureAndPush R syncing).run h w2).2.2, ¬ writesTimestamp op :=
    fun w2 op hop hw =>
      ((captureAndPush_onlyOps R syncing).trace h w2 op hop).2 (writesTimestamp_sub op hw)
  unfold syncAfterFetch
  cases hnewer : remoteIsNewer R fetchedData.lastModified known with
  | false =>
    simp only [Bool.false_eq_true, if_false, false_and, iff_false, not_exists, not_and]
    exact ⟨fun op hop => hpush w op hop, fun op hop hw => absurd hw (hpush w op hop)⟩
  | true =>
    obtain ⟨hiff, hval⟩ := applyRemote_timestamp_write h w fetchedData
      (remoteIsNewer_timestamp R _ _ hnewer)
    simp only [if_true, true_and]
    rw [Prog.run_bind]
    have htail : ∀ op ∈ ((match ((applyRemote fetchedData).run h w).1 with
        | .error e => (pure (.error e) : Prog (Except String SyncState))
        | .ok _ => captureAndPush R syncing).run h ((applyRemote fetchedData).run h w).2.1).2.2,
        ¬ writesTimestamp op := by
      intro op hop
      split at hop
      · simp [Prog.run_pure] at hop
      · exact hpush _ op hop
    constructor
    · rw [← hiff]
      constructor
      · rintro ⟨op, hop, hw⟩
        rcases List.mem_append.mp hop with hop | hop
        · exact ⟨op, hop, hw⟩
        · exact absurd hw (htail op hop)
      · rintro ⟨op, hop, hw⟩
        exact ⟨op, List.mem_append.mpr (Or.inl hop), hw⟩
    · intro op hop hw
      rcases List.mem_append.mp hop with hop | hop
      · exact hval op hop hw
      · exact absurd hw (htail op hop)

theorem syncCycle_timestamp_write {ω : Type} (R : Runtime PlainEnvelope) (h : Handler ω) (w : ω)
    (syncing : SyncState) :
    ((∃ op ∈ ((syncCycle R syncing).run h w).2.2, writesTimestamp op) ↔
      ∃ localTimestampData fetchedData report,
        (h (.storageGet [LAST_KNOWN_SERVER_TIMESTAMP_KEY]) w).1 = .ok localTimestampData ∧
        ((fetchDataFromServer R syncing).run h
          (h (.storageGet [LAST_KNOWN_SERVER_TIMESTAMP_KEY]) w).2).1 = .ok fetchedData ∧
        remoteIsNewer R fetchedData.lastModified localTimestampData.lastKnownServerTimestamp = true ∧
        ((applyServerStateToBrowser
            (fetchedData.payload.payloadField.bind (fun payload => payload.bookmarks))).run h
          ((fetchDataFromServer R syncing).run h
            (h (.storageGet [LAST_KNOWN_SERVER_TIMESTAMP_KEY]) w).2).2.1).1 = .ok report) ∧
    (∀ op ∈ ((syncCycle R syncing).run h w).2.2, writesTimestamp op →
      ∃ fetchedData,
        ((fetchDataFromServer R syncing).run h
          (h (.storageGet [LAST_KNOWN_SERVER_TIMESTAMP_KEY]) w).2).1 = .ok fetchedData ∧
        op = .storageSet { lastKnownServerTimestamp := fetchedData.lastModified }) := by
  have hfetch : ∀ op ∈ ((fetchDataFromServer R syncing).run h
      (h (.storageGet [LAST_KNOWN_SERVER_TIMESTAMP_KEY]) w).2).2.2, ¬ writesTimestamp op :=
    fun op hop hw =>
      ((fetchDataFromServer_onlyOps R syncing).trace h _ op hop).2 (writesTimestamp_sub op hw)
  have hread : ¬ writesTimestamp (.storageGet [LAST_KNOWN_SERVER_TIMESTAMP_KEY]) := by
    simp [writesTimestamp]
  unfold syncCycle
  rw [Prog.run_bind, Prog.run_perform]
  simp only
  cases hget : (h (.storageGet [LAST_KNOWN_SERVER_TIMESTAMP_KEY]) w).1 with
  | error e =>
    simp only [Prog.run_pure, List.append_nil, List.mem_singleton]
    constructor
    · constructor
      · rintro ⟨op, rfl, hw⟩
        exact absurd hw hread
      · rintro ⟨_, _, _, hr, _⟩
        cases hr
    · rintro op rfl hw
      exact absurd hw hread
  | ok localTimestampData =>
    simp only
    rw [Prog.run_bind]
    cases hf : ((fetchDataFromServer R syncing).run h
        (h (.storageGet [LAST_KNOWN_SERVER_TIMESTAMP_KEY]) w).2).1 with
    | error e =>
      simp only [Prog.run_pure, List.append_nil, List.singleton_append, List.mem_cons]
      constructor
      · constructor
        · rintro ⟨op, rfl | hop, hw⟩
          · exact absurd hw hread
          · exact absurd hw (hfetch op hop)
        · rintro ⟨_, _, _, _, hr, _⟩
          cases hr
      · rintro op (rfl | hop) hw
        · exact absurd hw hread
        · exact absurd hw (hfetch op hop)
    | ok fetchedData =>
      simp only
      obtain ⟨hiff, hval⟩ := syncAfterFetch_timestamp_write R h
        ((fetchDataFromServer R syncing).run h
          (h (.storageGet [LAST_KNOWN_SERVER_TIMESTAMP_KEY]) w).2).2.1 syncing
        localTimestampData.lastKnownServerTimestamp fetchedData
      simp only [List.singleton_append, List.mem_cons, List.mem_append]
      constructor
      · constructor
        · rintro ⟨op, (rfl | hop | hop), hw⟩
          · exact absurd hw hread
          · exact absurd hw (hfetch op hop)
          · obtain ⟨hn, report, hr⟩ := hiff.mp ⟨op, hop, hw⟩
            exact ⟨localTimestampData, fetchedData, report, rfl, rfl, hn, hr⟩
        · rintro ⟨ltd, fd, report, hl, hfd, hn, hr⟩
          cases hl
          cases hfd
          obtain ⟨op, hop, hw⟩ := hiff.mpr ⟨hn, report, hr⟩
          exact ⟨op, Or.inr (Or.inr hop), hw⟩
      · rintro op (rfl | hop | hop) hw
        · exact absurd hw hread
        · exact absurd hw (hfetch op hop)
        · exact ⟨fetchedData, rfl, hval op hop hw⟩

theorem error_status_ne_syncing (e : String) : "Error: " ++ e ≠ "Syncing..." := by
  intro heq
  have hdata := congrArg String.data heq
  simp [String.data_append] at hdata

theorem finishSync_error {ω : Type} (h : Handler ω) (w : ω) (syncing : SyncState) (e : String) :
    ((finishSync syncing (.error e)).run h w).1 = { syncing with status := "Error: " ++ e } ∧
    ((finishSync syncing (.error e)).run h w).2.2
      = [.sendMessage ("Error: " ++ e) syncing.lastSync] := by
  unfold finishSync
  simp only
  rw [Prog.run_bind, Prog.run_bind, run_sendStatusUpdateToPopup]
  simp only [Prog.run_pure, if_neg (error_status_ne_syncing e), List.append_nil, and_self]

theorem performSync_run {ω : Type} (R : Runtime PlainEnvelope) (h : Handler ω) (w : ω)
    (syncState : SyncState) (hstatus : syncState.status ≠ "Syncing...")
    (hurl : optTruthy syncState.serverUrl = true) (hkey : syncState.encryptionKey ≠ none) :
    (performSync R syncState).run h w
      = (((finishSync { syncState with status := "Syncing..." }
            ((syncCycle R { syncState with status := "Syncing..." }).run h
              (h (.sendMessage "Syncing..." syncState.lastSync) w).2).1).run h
            ((syncCycle R { syncState with status := "Syncing..." }).run h
              (h (.sendMessage "Syncing..." syncState.lastSync) w).2).2.1).1,
         ((finishSync { syncState with status := "Syncing..." }
            ((syncCycle R { syncState with status := "Syncing..." }).run h
              (h (.sendMessage "Syncing..." syncState.lastSync) w).2).1).run h
            ((syncCycle R { syncState with status := "Syncing..." }).run h
              (h (.sendMessage "Syncing..." syncState.lastSync) w).2).2.1).2.1,
         Op.sendMessage "Syncing..." syncState.lastSync
           :: (((syncCycle R { syncState with status := "Syncing..." }).run h
                  (h (.sendMessage "Syncing..." syncState.lastSync) w).2).2.2
               ++ ((finishSync { syncState with status := "Syncing..." }
                    ((syncCycle R { syncState with status := "Syncing..." }).run h
                      (h (.sendMessage "Syncing..." syncState.lastSync) w).2).1).run h
                    ((syncCycle R { syncState with status := "Syncing..." }).run h
                      (h (.sendMessage "Syncing..." syncState.lastSync) w).2).2.1).2.2)) := by
  have hkey2 : syncState.encryptionKey.isNone = false := by
    cases hk : syncState.encryptionKey with
    | none => exact absurd hk hkey
    | some _ => rfl
  simp only [performSync, hstatus, hurl, hkey2, if_false, Bool.not_true, Bool.or_false,
    Bool.false_eq_true]
  rw [Prog.run_bind, Prog.run_bind]
  simp only [run_sendStatusUpdateToPopup]
  rfl

theorem syncCycle_early_failure {ω : Type} (R : Runtime PlainEnvelope) (h : Handler ω) (w : ω)
    (syncing : SyncState) :
    (∀ e, (h (.storageGet [LAST_KNOWN_SERVER_TIMESTAMP_KEY]) w).1 = .error e →
      ((syncCycle R syncing).run h w).1 = .error e) ∧
    (∀ localTimestampData e,
      (h (.storageGet [LAST_KNOWN_SERVER_TIMESTAMP_KEY]) w).1 = .ok localTimestampData →
      ((fetchDataFromServer R syncing).run h
        (h (.storageGet [LAST_KNOWN_SERVER_TIMESTAMP_KEY]) w).2).1 = .error e →
      ((syncCycle R syncing).run h w).1 = .error e) ∧
    (∀ localTimestampData fetchedData e,
      (h (.storageGet [LAST_KNOWN_SERVER_TIMESTAMP_KEY]) w).1 = .ok localTimestampData →
      ((fetchDataFromServer R syncing).run h
        (h (.storageGet [LAST_KNOWN_SERVER_TIMESTAMP_KEY]) w).2).1 = .ok fetchedData →
      remoteIsNewer R fetchedData.lastModified localTimestampData.lastKnownServerTimestamp = true →
      ((applyServerStateToBrowser
          (fetchedData.payload.payloadField.bind (fun payload => payload.bookmarks))).run h
        ((fetchDataFromServer R syncing).run h
          (h (.storageGet [LAST_KNOWN_SERVER_TIMESTAMP_KEY]) w).2).2.1).1 = .error e →
      ((syncCycle R syncing).run h w).1 = .error e) := by
  refine ⟨?_, ?_, ?_⟩
  · intro e hget
    unfold syncCycle
    rw [Prog.run_bind, Prog.run_perform]
    simp only [hget, Prog.run_pure]
  · intro localTimestampData e hget hf
    unfold syncCycle
    rw [Prog.run_bind, Prog.run_perform]
    simp only [hget]
    rw [Prog.run_bind]
    simp only [hf, Prog.run_pure]
  · intro localTimestampData fetchedData e hget hf hnewer happly
    unfold syncCycle
    rw [Prog.run_bind, Prog.run_perform]
    simp only [hget]
    rw [Prog.run_bind]
    simp only [hf, syncAfterFetch, hnewer, if_true]
    rw [Prog.run_bind]
    unfold applyRemote
    simp only
    rw [Prog.run_bind]
    simp only [happly, Prog.run_pure]

/-- C13 (amended): where a cycle of `performSync` writes the stored last-known timestamp. In
a cycle that passed the guards, whatever the collaborators answer, a request writes or
removes the stored timestamp exactly when the timestamp was read, the remote state was
fetched, its timestamp passed the comparison and `applyServerStateToBrowser` ran to its end;
such a request is the `storage.local.set` of the remote timestamp (line 720), which comes
before the capture and the push. So a cycle in which the read, the fetch or the bookmark apply
fails ends with the status `'Error: <message>'` and the stored timestamp untouched, whereas a
failure of the capture or of the push after the apply finds the remote timestamp already
written. -/
theorem performSync_timestamp_written_iff_applied {ω : Type} (R : Runtime PlainEnvelope)
    (h : Handler ω) (w : ω) (syncState : SyncState) (hstatus : syncState.status ≠ "Syncing...")
    (hurl : optTruthy syncState.serverUrl = true) (hkey : syncState.encryptionKey ≠ none) :
    let syncing : SyncState := { syncState with status := "Syncing..." }
    let read := h (.storageGet [LAST_KNOWN_SERVER_TIMESTAMP_KEY])
      (h (.sendMessage "Syncing..." syncState.lastSync) w).2
    let fetched := (fetchDataFromServer R syncing).run h read.2
    let applied := fun (fetchedData : FetchedData PlainEnvelope) =>
      (applyServerStateToBrowser
        (fetchedData.payload.payloadField.bind (fun payload => payload.bookmarks))).run h
        fetched.2.1
    let cycle := (performSync R syncState).run h w
    ((∃ op ∈ cycle.2.2, writesTimestamp op) ↔
      ∃ localTimestampData fetchedData report,
        read.1 = .ok localTimestampData ∧ fetched.1 = .ok fetchedData ∧
        remoteIsNewer R fetchedData.lastModified localTimestampData.lastKnownServerTimestamp = true ∧
        (applied fetchedData).1 = .ok report) ∧
    (∀ op ∈ cycle.2.2, writesTimestamp op →
      ∃ fetchedData, fetched.1 = .ok fetchedData ∧
        op = .storageSet { lastKnownServerTimestamp := fetchedData.lastModified }) ∧
    (∀ e, read.1 = .error e → cycle.1 = { syncState with status := "Error: " ++ e }) ∧
    (∀ localTimestampData e, read.1 = .ok localTimestampData → fetched.1 = .error e →
      cycle.1 = { syncState with status := "Error: " ++ e }) ∧
    (∀ localTimestampData fetchedData e, read.1 = .ok localTimestampData →
      fetched.1 = .ok fetchedData →
      remoteIsNewer R fetchedData.lastModified localTimestampData.lastKnownServerTimestamp = true →
      (applied fetchedData).1 = .error e →
      cycle.1 = { syncState with status := "Error: " ++ e }) := by
  intro syncing read fetched applied cycle
  have hrun := performSync_run R h w syncState hstatus hurl hkey
  obtain ⟨hiff, hval⟩ := syncCycle_timestamp_write R h
    (h (.sendMessage "Syncing..." syncState.lastSync) w).2 syncing
  obtain ⟨hread, hfetch, happly⟩ := syncCycle_early_failure R h
    (h (.sendMessage "Syncing..." syncState.lastSync) w).2 syncing
  have hfinish : ∀ op ∈ ((finishSync syncing ((syncCycle R syncing).run h
      (h (.sendMessage "Syncing..." syncState.lastSync) w).2).1).run h
      ((syncCycle R syncing).run h (h (.sendMessage "Syncing..." syncState.lastSync) w).2).2.1).2.2,
      ¬ writesTimestamp op := fun op hop hw =>
    ((finishSync_onlyOps syncing _).trace h _ op hop).2 (writesTimestamp_sub op hw)
  have hmsg : ¬ writesTimestamp (.sendMessage "Syncing..." syncState.lastSync) := by
    simp [writesTimestamp]
  have hstatus_of : ∀ e, ((syncCycle R syncing).run h
      (h (.sendMessage "Syncing..." syncState.lastSync) w).2).1 = .error e →
      cycle.1 = { syncState with status := "Error: " ++ e } := by
    intro e he
    simp only [cycle]
    rw [hrun]
    simp only [syncing] at he
    simp only [he]
    exact (finishSync_error h _ _ e).1
  refine ⟨?_, ?_, ?_, ?_, ?_⟩
  · rw [← hiff]
    simp only [cycle]
    rw [hrun]
    simp only [List.mem_cons, List.mem_append]
    constructor
    · rintro ⟨op, (rfl | hop | hop), hw⟩
      · exact absurd hw hmsg
      · exact ⟨op, hop, hw⟩
      · exact absurd hw (hfinish op hop)
    · rintro ⟨op, hop, hw⟩
      exact ⟨op, Or.inr (Or.inl hop), hw⟩
  · intro op hop hw
    simp only [cycle] at hop
    rw [hrun] at hop
    simp only [List.mem_cons, List.mem_append] at hop
    rcases hop with rfl | hop | hop
    · exact absurd hw hmsg
    · exact hval op hop hw
    · exact absurd hw (hfinish op hop)
  · exact fun e he => hstatus_of e (hread e he)
  · exact fun ltd e hl he => hstatus_of e (hfetch ltd e hl he)
  · exact fun ltd fd e hl hf hn ha => hstatus_of e (happly ltd fd e hl hf hn ha)

/-- C13 (counterexample): a configured profile without a stored timestamp against a server
that holds an envelope stamped `"5"` and whose disk rejects writes. The fetch succeeds, the
remote state is applied and its timestamp stored, then the push is answered 500: the cycle
ends with the status `'Error: ...'` and the stored timestamp is `"5"`, where there was none
before the cycle. -/
theorem push_failure_keeps_new_timestamp :
    ((fetchDataFromServer (tableRuntime sampleTable) { sampleState with status := "Syncing..." }).run
        (deviceHandler (readOnlyServerNet sampleOrigin)) (deviceWith none none, serverWith "E0")).1
      = .ok { payload := .decrypted (envelopeWith []), lastModified := some "5" } ∧
    ((performSync (tableRuntime sampleTable) sampleState).run
        (deviceHandler (readOnlyServerNet sampleOrigin)) (deviceWith none none, serverWith "E0")).1.status
      = "Error: Network or fetch error: Server error: 500 " ∧
    (deviceWith none none).storage.lastKnownServerTimestamp = none ∧
    ((performSync (tableRuntime sampleTable) sampleState).run
        (deviceHandler (readOnlyServerNet sampleOrigin))
        (deviceWith none none, serverWith "E0")).2.1.1.storage.lastKnownServerTimestamp
      = some "5" := by
  decide!

/-- Witness of C13: the sample state on the profile and server of the counterexample. -/
theorem performSync_timestamp_written_iff_applied_witness :
    (sampleState.status ≠ "Syncing..." ∧ optTruthy sampleState.serverUrl = true ∧
      sampleState.encryptionKey ≠ none) ∧
    (let syncing : SyncState := { sampleState with status := "Syncing..." }
     let read := (deviceHandler (readOnlyServerNet sampleOrigin))
       (.storageGet [LAST_KNOWN_SERVER_TIMESTAMP_KEY])
       ((deviceHandler (readOnlyServerNet sampleOrigin))
         (.sendMessage "Syncing..." sampleState.lastSync)
         (deviceWith none none, serverWith "E0")).2
     let fetched := (fetchDataFromServer (tableRuntime sampleTable) syncing).run
       (deviceHandler (readOnlyServerNet sampleOrigin)) read.2
     let applied := fun (fetchedData : FetchedData PlainEnvelope) =>
       (applyServerStateToBrowser
         (fetchedData.payload.payloadField.bind (fun payload => payload.bookmarks))).run
         (deviceHandler (readOnlyServerNet sampleOrigin)) fetched.2.1
     let cycle := (performSync (tableRuntime sampleTable) sampleState).run
       (deviceHandler (readOnlyServerNet sampleOrigin)) (deviceWith none none, serverWith "E0")
     ((∃ op ∈ cycle.2.2, writesTimestamp op) ↔
       ∃ localTimestampData fetchedData report,
         read.1 = .ok localTimestampData ∧ fetched.1 = .ok fetchedData ∧
         remoteIsNewer (tableRuntime sampleTable) fetchedData.lastModified
           localTimestampData.lastKnownServerTimestamp = true ∧
         (applied fetchedData).1 = .ok report) ∧
     (∀ op ∈ cycle.2.2, writesTimestamp op →
       ∃ fetchedData, fetched.1 = .ok fetchedData ∧
         op = .storageSet { lastKnownServerTimestamp := fetchedData.lastModified }) ∧
     (∀ e, read.1 = .error e → cycle.1 = { sampleState with status := "Error: " ++ e }) ∧
     (∀ localTimestampData e, read.1 = .ok localTimestampData → fetched.1 = .error e →
       cycle.1 = { sampleState with status := "Error: " ++ e }) ∧
     (∀ localTimestampData fetchedData e, read.1 = .ok localTimestampData →
       fetched.1 = .ok fetchedData →
       remoteIsNewer (tableRuntime sampleTable) fetchedData.lastModified
         localTimestampData.lastKnownServerTimestamp = true →
       (applied fetchedData).1 = .error e →
       cycle.1 = { sampleState with status := "Error: " ++ e })) :=
  ⟨⟨by decide, by decide, by decide⟩,
   performSync_timestamp_written_iff_applied (tableRuntime sampleTable)
     (deviceHandler (readOnlyServerNet sampleOrigin)) (deviceWith none none, serverWith "E0")
     sampleState (by decide) (by decide) (by decide)⟩

theorem storeRemoteTabs_writes {ω : Type} (h : Handler ω) (w : ω)
    (actualPayload : Option SyncPayload) :
    (∀ op ∈ ((storeRemoteTabs actualPayload).run h w).2.2, writesTabs op →
      ∃ tabs, actualPayload.bind (fun payload => payload.tabs) = some tabs ∧ tabs ≠ [] ∧
        op = .storageSet { syncedRemoteTabs := some tabs }) ∧
    (∀ tabs items, actualPayload.bind (fun payload => payload.tabs) = some tabs → tabs ≠ [] →
      (h (.storageGet [REMOTE_TABS_STORAGE_KEY]) w).1 = .ok items →
      ((storeRemoteTabs actualPayload).run h w).2.2
        = [.storageGet [REMOTE_TABS_STORAGE_KEY], .storageSet { syncedRemoteTabs := some tabs }]) := by
  have hread : ¬ writesTabs (.storageGet [REMOTE_TABS_STORAGE_KEY]) := by simp [writesTabs]
  cases actualPayload with
  | none =>
    refine ⟨fun op hop => ?_, fun tabs items ht => ?_⟩
    · simp [storeRemoteTabs, Prog.run_pure] at hop
    · simp at ht
  | some payload =>
    cases htabs : payload.tabs with
    | none =>
      refine ⟨fun op hop => ?_, fun tabs items ht => ?_⟩
      · simp [storeRemoteTabs, htabs, Prog.run_pure] at hop
      · simp [htabs] at ht
    | some tabs =>
      by_cases hlen : 0 < tabs.length
      · have hne : tabs ≠ [] := by
          intro hnil
          rw [hnil] at hlen
          exact absurd hlen (by decide)
        have hrun : ((storeRemoteTabs (some payload)).run h w).2.2
            = .storageGet [REMOTE_TABS_STORAGE_KEY] ::
              (match (h (.storageGet [REMOTE_TABS_STORAGE_KEY]) w).1 with
               | .error _ => []
               | .ok _ => [.storageSet { syncedRemoteTabs := some tabs }]) := by
          simp only [storeRemoteTabs, htabs, hlen, if_true]
          rw [Prog.run_bind, Prog.run_perform]
          simp only
          cases (h (.storageGet [REMOTE_TABS_STORAGE_KEY]) w).1 with
          | error e => rfl
          | ok items => rfl
        refine ⟨fun op hop hw => ?_, fun tabs2 items ht hne2 hget => ?_⟩
        · rw [hrun] at hop
          rcases List.mem_cons.mp hop with rfl | hop
          · exact absurd hw hread
          · refine ⟨tabs, by simp [htabs], hne, ?_⟩
            revert hop
            split <;> simp
        · simp only [Option.bind, htabs, Option.some.injEq] at ht
          subst ht
          rw [hrun, hget]
      · have hnil : tabs = [] := by
          cases tabs with
          | nil => rfl
          | cons a rest => exact absurd (Nat.succ_pos _) hlen
        refine ⟨fun op hop => ?_, fun tabs2 items ht hne2 => ?_⟩
        · simp [storeRemoteTabs, htabs, hnil, Prog.run_pure] at hop
        · simp only [Option.bind, htabs, Option.some.injEq] at ht
          exact absurd (ht ▸ hnil) hne2

theorem applyRemote_trace {ω : Type} (h : Handler ω) (w : ω)
    (fetchedData : FetchedData PlainEnvelope) :
    ((applyRemote fetchedData).run h w).2.2
      = ((applyServerStateToBrowser
            (fetchedData.payload.payloadField.bind (fun payload => payload.bookmarks))).run h w).2.2
        ++ (match ((applyServerStateToBrowser
              (fetchedData.payload.payloadField.bind (fun payload => payload.bookmarks))).run h w).1
            with
            | .error _ => []
            | .ok _ =>
              ((storeRemoteTabs fetchedData.payload.payloadField).run h
                ((applyServerStateToBrowser
                  (fetchedData.payload.payloadField.bind
                    (fun payload => payload.bookmarks))).run h w).2.1).2.2
              ++ [.storageSet { lastKnownServerTimestamp := fetchedData.lastModified }]) := by
  unfold applyRemote
  simp only
  rw [Prog.run_bind]
  cases ((applyServerStateToBrowser
      (fetchedData.payload.payloadField.bind (fun payload => payload.bookmarks))).run h w).1 with
  | error e => rfl
  | ok report =>
    simp only
    rw [Prog.run_bind, Prog.run_bind, Prog.run_perform]
    simp only
    congr 2
    split <;> simp [Prog.run_pure]

theorem performSync_applied_trace {ω : Type} (R : Runtime PlainEnvelope) (h : Handler ω) (w : ω)
    (syncState : SyncState) (localTimestampData : StorageItems)
    (fetchedData : FetchedData PlainEnvelope)
    (hstatus : syncState.status ≠ "Syncing...")
    (hurl : optTruthy syncState.serverUrl = true) (hkey : syncState.encryptionKey ≠ none)
    (hget : (h (.storageGet [LAST_KNOWN_SERVER_TIMESTAMP_KEY])
              (h (.sendMessage "Syncing..." syncState.lastSync) w).2).1 = .ok localTimestampData)
    (hfetch : ((fetchDataFromServer R { syncState with status := "Syncing..." }).run h
                (h (.storageGet [LAST_KNOWN_SERVER_TIMESTAMP_KEY])
                  (h (.sendMessage "Syncing..." syncState.lastSync) w).2).2).1 = .ok fetchedData)
    (hnewer : remoteIsNewer R fetchedData.lastModified
                localTimestampData.lastKnownServerTimestamp = true) :
    ∃ tail, ((performSync R syncState).run h w).2.2
        = Op.sendMessage "Syncing..." syncState.lastSync
          :: Op.storageGet [LAST_KNOWN_SERVER_TIMESTAMP_KEY]
          :: (((fetchDataFromServer R { syncState with status := "Syncing..." }).run h
                (h (.storageGet [LAST_KNOWN_SERVER_TIMESTAMP_KEY])
                  (h (.sendMessage "Syncing..." syncState.lastSync) w).2).2).2.2
              ++ (((applyRemote fetchedData).run h
                    ((fetchDataFromServer R { syncState with status := "Syncing..." }).run h
                      (h (.storageGet [LAST_KNOWN_SERVER_TIMESTAMP_KEY])
                        (h (.sendMessage "Syncing..." syncState.lastSync) w).2).2).2.1).2.2
                  ++ tail)) ∧
      ∀ op ∈ tail, ¬ bookmarkMutation op ∧ ¬ writesTabsOrTimestamp op := by
  have hcycle : ∃ tail1, ((syncCycle R { syncState with status := "Syncing..." }).run h
      (h (.sendMessage "Syncing..." syncState.lastSync) w).2).2.2
        = Op.storageGet [LAST_KNOWN_SERVER_TIMESTAMP_KEY]
          :: (((fetchDataFromServer R { syncState with status := "Syncing..." }).run h
                (h (.storageGet [LAST_KNOWN_SERVER_TIMESTAMP_KEY])
                  (h (.sendMessage "Syncing..." syncState.lastSync) w).2).2).2.2
              ++ (((applyRemote fetchedData).run h
                    ((fetchDataFromServer R { syncState with status := "Syncing..." }).run h
                      (h (.storageGet [LAST_KNOWN_SERVER_TIMESTAMP_KEY])
                        (h (.sendMessage "Syncing..." syncState.lastSync) w).2).2).2.1).2.2
                  ++ tail1)) ∧
      ∀ op ∈ tail1, ¬ bookmarkMutation op ∧ ¬ writesTabsOrTimestamp op := by
    unfold syncCycle
    rw [Prog.run_bind, Prog.run_perform]
    simp only [hget]
    rw [Prog.run_bind]
    simp only [hfetch, syncAfterFetch, hnewer, if_true]
    rw [Prog.run_bind]
    refine ⟨_, rfl, ?_⟩
    intro op hop
    split at hop
    · simp [Prog.run_pure] at hop
    · exact (captureAndPush_onlyOps R _).trace h _ op hop
  obtain ⟨tail1, htrace, htail⟩ := hcycle
  rw [performSync_run R h w syncState hstatus hurl hkey]
  simp only
  rw [htrace]
  refine ⟨tail1 ++ ((finishSync { syncState with status := "Syncing..." }
      ((syncCycle R { syncState with status := "Syncing..." }).run h
        (h (.sendMessage "Syncing..." syncState.lastSync) w).2).1).run h
      ((syncCycle R { syncState with status := "Syncing..." }).run h
        (h (.sendMessage "Syncing..." syncState.lastSync) w).2).2.1).2.2,
    by simp [List.append_assoc], ?_⟩
  intro op hop
  rcases List.mem_append.mp hop with hop | hop
  · exact htail op hop
  · exact (finishSync_onlyOps _ _).trace h _ op hop

/-- C14 (amended): the cached remote tabs in a cycle that applies the remote state. In a
cycle that passed the guards, read the stored timestamp and fetched a remote state whose
timestamp passed the comparison, whatever the collaborators answer: a request writes or
removes the cache `syncedRemoteTabs` only when the remote tab list is non-empty, and it is
then the `storage.local.set` of that list, whole; with an empty or absent remote tab list
the cache is not written and keeps what it held. When the remote list is non-empty, the
bookmark apply ran to its end and the read of line 708 succeeded, that `set` is issued, and
it is the one write of the cache in the cycle. -/
theorem performSync_tab_cache {ω : Type} (R : Runtime PlainEnvelope) (h : Handler ω) (w : ω)
    (syncState : SyncState) (localTimestampData : StorageItems)
    (fetchedData : FetchedData PlainEnvelope)
    (hstatus : syncState.status ≠ "Syncing...")
    (hurl : optTruthy syncState.serverUrl = true) (hkey : syncState.encryptionKey ≠ none)
    (hget : (h (.storageGet [LAST_KNOWN_SERVER_TIMESTAMP_KEY])
              (h (.sendMessage "Syncing..." syncState.lastSync) w).2).1 = .ok localTimestampData)
    (hfetch : ((fetchDataFromServer R { syncState with status := "Syncing..." }).run h
                (h (.storageGet [LAST_KNOWN_SERVER_TIMESTAMP_KEY])
                  (h (.sendMessage "Syncing..." syncState.lastSync) w).2).2).1 = .ok fetchedData)
    (hnewer : remoteIsNewer R fetchedData.lastModified
                localTimestampData.lastKnownServerTimestamp = true) :
    let fetched := (fetchDataFromServer R { syncState with status := "Syncing..." }).run h
      (h (.storageGet [LAST_KNOWN_SERVER_TIMESTAMP_KEY])
        (h (.sendMessage "Syncing..." syncState.lastSync) w).2).2
    let applied := (applyServerStateToBrowser
      (fetchedData.payload.payloadField.bind (fun payload => payload.bookmarks))).run h fetched.2.1
    let remoteTabs := fetchedData.payload.payloadField.bind (fun payload => payload.tabs)
    let cycle := (performSync R syncState).run h w
    (∀ op ∈ cycle.2.2, writesTabs op →
      ∃ tabs, remoteTabs = some tabs ∧ tabs ≠ [] ∧
        op = .storageSet { syncedRemoteTabs := some tabs }) ∧
    (∀ tabs report items, remoteTabs = some tabs → tabs ≠ [] → applied.1 = .ok report →
      (h (.storageGet [REMOTE_TABS_STORAGE_KEY]) applied.2.1).1 = .ok items →
      ∃ before after,
        cycle.2.2 = before ++ Op.storageSet { syncedRemoteTabs := some tabs } :: after ∧
        (∀ op ∈ before, ¬ writesTabs op) ∧ (∀ op ∈ after, ¬ writesTabs op)) := by
  intro fetched applied remoteTabs cycle
  obtain ⟨tail, htrace, htail⟩ := performSync_applied_trace R h w syncState localTimestampData
    fetchedData hstatus hurl hkey hget hfetch hnewer
  obtain ⟨hwrites, hstored⟩ := storeRemoteTabs_writes h applied.2.1 fetchedData.payload.payloadField
  have hmsg : ¬ writesTabs (.sendMessage "Syncing..." syncState.lastSync) := by simp [writesTabs]
  have hread : ¬ writesTabs (.storageGet [LAST_KNOWN_SERVER_TIMESTAMP_KEY]) := by
    simp [writesTabs]
  have hcache : ¬ writesTabs (.storageGet [REMOTE_TABS_STORAGE_KEY]) := by simp [writesTabs]
  have hstamp : ¬ writesTabs (.storageSet { lastKnownServerTimestamp := fetchedData.lastModified }) := by
    simp [writesTabs]
  have hfetched : ∀ op ∈ fetched.2.2, ¬ writesTabs op := fun op hop hw =>
    ((fetchDataFromServer_onlyOps R _).trace h _ op hop).2 (writesTabs_sub op hw)
  have happlied : ∀ op ∈ applied.2.2, ¬ writesTabs op := fun op hop hw =>
    reconcilerOp_no_storage op ((applyServerStateToBrowser_onlyOps _).trace h _ op hop)
      (writesTabs_sub op hw)
  have htail2 : ∀ op ∈ tail, ¬ writesTabs op := fun op hop hw =>
    (htail op hop).2 (writesTabs_sub op hw)
  have hcycle : cycle.2.2 = Op.sendMessage "Syncing..." syncState.lastSync
      :: Op.storageGet [LAST_KNOWN_SERVER_TIMESTAMP_KEY]
      :: (fetched.2.2 ++ ((applied.2.2 ++ (match applied.1 with
            | .error _ => []
            | .ok _ =>
              ((storeRemoteTabs fetchedData.payload.payloadField).run h applied.2.1).2.2
              ++ [.storageSet { lastKnownServerTimestamp := fetchedData.lastModified }]))
          ++ tail)) := by
    simp only [cycle]
    rw [htrace, applyRemote_trace]
  constructor
  · intro op hop hw
    rw [hcycle] at hop
    simp only [List.mem_cons, List.mem_append] at hop
    rcases hop with rfl | rfl | hop | (hop | hop) | hop
    · exact absurd hw hmsg
    · exact absurd hw hread
    · exact absurd hw (hfetched op hop)
    · exact absurd hw (happlied op hop)
    · split at hop
      · simp at hop
      · simp only [List.mem_append, List.mem_singleton] at hop
        rcases hop with hop | rfl
        · exact hwrites op hop hw
        · exact absurd hw hstamp
    · exact absurd hw (htail2 op hop)
  · intro tabs report items htabs hne hok hitems
    refine ⟨Op.sendMessage "Syncing..." syncState.lastSync
        :: Op.storageGet [LAST_KNOWN_SERVER_TIMESTAMP_KEY]
        :: (fetched.2.2 ++ (applied.2.2 ++ [.storageGet [REMOTE_TABS_STORAGE_KEY]])),
      .storageSet { lastKnownServerTimestamp := fetchedData.lastModified } :: tail, ?_, ?_, ?_⟩
    · rw [hcycle, hok]
      simp only
      rw [hstored tabs items htabs hne hitems]
      simp [List.append_assoc]
    · intro op hop
      simp only [List.mem_cons, List.mem_append, List.not_mem_nil, or_false] at hop
      rcases hop with rfl | rfl | hop | hop | rfl
      · exact hmsg
      · exact hread
      · exact hfetched op hop
      · exact happlied op hop
      · exact hcache
    · intro op hop
      rcases List.mem_cons.mp hop with rfl | hop
      · exact hstamp
      · exact htail2 op hop

/-- C14 (counterexample): a profile whose cache holds one tab of another device, no stored
timestamp, and a server whose envelope, stamped `"5"`, has an empty tab list. The cycle
applies the remote state (the stored timestamp becomes `"5"`) and succeeds, and the cache
still holds the old tab: it does not equal the empty remote list. -/
theorem empty_remote_tabs_keep_cache :
    ((fetchDataFromServer (tableRuntime sampleTable) { sampleState with status := "Syncing..." }).run
        (deviceHandler (serverNet sampleOrigin))
        (deviceWith (some [remoteTab 9 "https://old.example"]) none, serverWith "E0")).1
      = .ok { payload := .decrypted (envelopeWith []), lastModified := some "5" } ∧
    ((performSync (tableRuntime sampleTable) sampleState).run
        (deviceHandler (serverNet sampleOrigin))
        (deviceWith (some [remoteTab 9 "https://old.example"]) none, serverWith "E0")).1.status
      = "Sync successful" ∧
    ((performSync (tableRuntime sampleTable) sampleState).run
        (deviceHandler (serverNet sampleOrigin))
        (deviceWith (some [remoteTab 9 "https://old.example"]) none,
          serverWith "E0")).2.1.1.storage.lastKnownServerTimestamp
      = some "5" ∧
    ((performSync (tableRuntime sampleTable) sampleState).run
        (deviceHandler (serverNet sampleOrigin))
        (deviceWith (some [remoteTab 9 "https://old.example"]) none,
          serverWith "E0")).2.1.1.storage.syncedRemoteTabs
      = some [remoteTab 9 "https://old.example"] ∧
    ((performSync (tableRuntime sampleTable) sampleState).run
        (deviceHandler (serverNet sampleOrigin))
        (deviceWith (some [remoteTab 9 "https://old.example"]) none,
          serverWith "E0")).2.1.1.storage.syncedRemoteTabs
      ≠ some [] := by
  decide!

/-- Witness of C14: the profile of the counterexample against a server whose envelope has one
tab; after the cycle the cache holds that tab and nothing of what it held before. -/
theorem performSync_tab_cache_witness :
    (sampleState.status ≠ "Syncing..." ∧ optTruthy sampleState.serverUrl = true ∧
      sampleState.encryptionKey ≠ none ∧
      ((deviceHandler (serverNet sampleOrigin)) (.storageGet [LAST_KNOWN_SERVER_TIMESTAMP_KEY])
          ((deviceHandler (serverNet sampleOrigin)) (.sendMessage "Syncing..." sampleState.lastSync)
            (deviceWith (some [remoteTab 9 "https://old.example"]) none, serverWith "E1")).2).1
        = .ok {} ∧
      ((fetchDataFromServer (tableRuntime sampleTable) { sampleState with status := "Syncing..." }).run
          (deviceHandler (serverNet sampleOrigin))
          ((deviceHandler (serverNet sampleOrigin)) (.storageGet [LAST_KNOWN_SERVER_TIMESTAMP_KEY])
            ((deviceHandler (serverNet sampleOrigin))
              (.sendMessage "Syncing..." sampleState.lastSync)
              (deviceWith (some [remoteTab 9 "https://old.example"]) none,
                serverWith "E1")).2).2).1
        = .ok { payload := .decrypted (envelopeWith [remoteTab 4 "https://a.example"]),
                lastModified := some "5" } ∧
      remoteIsNewer (tableRuntime sampleTable) (some "5") none = true) ∧
    (let fetched :=
       (fetchDataFromServer (tableRuntime sampleTable) { sampleState with status := "Syncing..." }).run
         (deviceHandler (serverNet sampleOrigin))
         ((deviceHandler (serverNet sampleOrigin)) (.storageGet [LAST_KNOWN_SERVER_TIMESTAMP_KEY])
           ((deviceHandler (serverNet sampleOrigin))
             (.sendMessage "Syncing..." sampleState.lastSync)
             (deviceWith (some [remoteTab 9 "https://old.example"]) none, serverWith "E1")).2).2
     let applied := (applyServerStateToBrowser (some [])).run
       (deviceHandler (serverNet sampleOrigin)) fetched.2.1
     let cycle := (performSync (tableRuntime sampleTable) sampleState).run
       (deviceHandler (serverNet sampleOrigin))
       (deviceWith (some [remoteTab 9 "https://old.example"]) none, serverWith "E1")
     (∀ op ∈ cycle.2.2, writesTabs op →
       ∃ tabs, some [remoteTab 4 "https://a.example"] = some tabs ∧ tabs ≠ [] ∧
         op = .storageSet { syncedRemoteTabs := some tabs }) ∧
     (∀ tabs report items, some [remoteTab 4 "https://a.example"] = some tabs → tabs ≠ [] →
       applied.1 = .ok report →
       ((deviceHandler (serverNet sampleOrigin)) (.storageGet [REMOTE_TABS_STORAGE_KEY])
          applied.2.1).1 = .ok items →
       ∃ before after,
         cycle.2.2 = before ++ Op.storageSet { syncedRemoteTabs := some tabs } :: after ∧
         (∀ op ∈ before, ¬ writesTabs op) ∧ (∀ op ∈ after, ¬ writesTabs op))) ∧
    ((performSync (tableRuntime sampleTable) sampleState).run
        (deviceHandler (serverNet sampleOrigin))
        (deviceWith (some [remoteTab 9 "https://old.example"]) none,
          serverWith "E1")).2.1.1.storage.syncedRemoteTabs
      = some [remoteTab 4 "https://a.example"] :=
  ⟨⟨by decide, by decide, by decide, rfl,
     by show @Eq (Except String (FetchedData PlainEnvelope)) _ _; decide!, by decide!⟩,
   performSync_tab_cache (tableRuntime sampleTable) (deviceHandler (serverNet sampleOrigin))
     (deviceWith (some [remoteTab 9 "https://old.example"]) none, serverWith "E1") sampleState {}
     { payload := .decrypted (envelopeWith [remoteTab 4 "https://a.example"]),
       lastModified := some "5" }
     (by decide) (by decide) (by decide) rfl
     (by show @Eq (Except String (FetchedData PlainEnvelope)) _ _; decide!) (by decide!),
   by decide!⟩

/-! ### The state capture -/

theorem tagTabs_spec {ω : Type} (h : Handler ω) (browserId : String) (tabs : List Tab) (w : ω) :
    ((tagTabs browserId tabs).run h w).1.map TabRecord.tab = tabs ∧
    (∀ record ∈ ((tagTabs browserId tabs).run h w).1,
      record.browserId = some browserId ∧ record.lastUpdated ≠ none) := by
  induction tabs generalizing w with
  | nil => exact ⟨rfl, fun record hrecord => by simp [tagTabs, Prog.run_pure] at hrecord⟩
  | cons tab rest ih =>
    unfold tagTabs
    rw [Prog.run_bind, Prog.run_perform]
    simp only
    rw [Prog.run_bind]
    simp only [Prog.run_pure, List.map_cons, List.mem_cons]
    obtain ⟨hmap, hall⟩ := ih (h .isoNow w).2
    refine ⟨by rw [hmap]; rfl, ?_⟩
    rintro record (rfl | hrecord)
    · exact ⟨rfl, by simp⟩
    · exact hall record hrecord

theorem getCurrentBrowserState_run {ω : Type} (h : Handler ω) (w : ω) (tabs : List Tab)
    (bookmarkTreeNodes : List BookmarkTreeNode) (browserIdData remoteTabsData : StorageItems)
    (browserId : String)
    (hquery : (h .tabsQuery w).1 = .ok tabs)
    (htree : (h .bookmarksGetTree (h .tabsQuery w).2).1 = .ok bookmarkTreeNodes)
    (hid : (h (.storageGet ["syncBrowserId"]) (h .bookmarksGetTree (h .tabsQuery w).2).2).1
      = .ok browserIdData)
    (hensured : ((ensureBrowserId browserIdData).run h
      (h (.storageGet ["syncBrowserId"]) (h .bookmarksGetTree (h .tabsQuery w).2).2).2).1
        = .ok browserId)
    (hcached : (h (.storageGet [REMOTE_TABS_STORAGE_KEY])
      ((ensureBrowserId browserIdData).run h
        (h (.storageGet ["syncBrowserId"]) (h .bookmarksGetTree (h .tabsQuery w).2).2).2).2.1).1
        = .ok remoteTabsData) :
    (getCurrentBrowserState.run h w).1
      = .ok { tabs := some (((tagTabs browserId tabs).run h
                (h (.storageGet [REMOTE_TABS_STORAGE_KEY])
                  ((ensureBrowserId browserIdData).run h
                    (h (.storageGet ["syncBrowserId"])
                      (h .bookmarksGetTree (h .tabsQuery w).2).2).2).2.1).2).1
              ++ (remoteTabsData.syncedRemoteTabs.getD []).filter
                   (fun tab => optTruthy tab.browserId && decide (tab.browserId ≠ some browserId))),
              bookmarks := some (flattenBookmarkNodes bookmarkTreeNodes) } := by
  unfold getCurrentBrowserState
  rw [Prog.run_bind, Prog.run_perform]
  simp only [hquery]
  rw [Prog.run_bind, Prog.run_perform]
  simp only [htree]
  rw [Prog.run_bind, Prog.run_perform]
  simp only [hid]
  rw [Prog.run_bind]
  erw [hensured]
  simp only
  rw [Prog.run_bind, Prog.run_perform]
  erw [hcached]
  simp only
  rw [Prog.run_bind]
  rfl

theorem ensureBrowserId_stored {ω : Type} (h : Handler ω) (w : ω) (browserIdData : StorageItems)
    (browserId : String)
    (hensured : ((ensureBrowserId browserIdData).run h w).1 = .ok browserId) :
    (optTruthy browserIdData.syncBrowserId = true → browserIdData.syncBrowserId = some browserId) ∧
    (optTruthy browserIdData.syncBrowserId = false →
      browserId = (fun (now : Nat) (random : String) => "browser_" ++ toString now ++ "_" ++ random)
        (h .dateNow w).1 (h .mathRandom (h .dateNow w).2).1 ∧
      ((ensureBrowserId browserIdData).run h w).2.2
        = [.dateNow, .mathRandom, .storageSet { syncBrowserId := some browserId }]) := by
  constructor
  · intro hstored
    cases hsome : browserIdData.syncBrowserId with
    | none => simp [hsome, optTruthy] at hstored
    | some id =>
      rw [hsome] at hstored
      simp only [ensureBrowserId, hsome, hstored, if_true, Prog.run_pure, Option.getD_some,
        Except.ok.injEq] at hensured
      rw [hensured]
  · intro hnone
    simp only [ensureBrowserId, hnone, Bool.false_eq_true, if_false] at hensured ⊢
    rw [Prog.run_bind, Prog.run_perform] at hensured ⊢
    simp only at hensured ⊢
    rw [Prog.run_bind, Prog.run_perform] at hensured ⊢
    simp only at hensured ⊢
    rw [Prog.run_bind, Prog.run_perform] at hensured ⊢
    simp only at hensured ⊢
    revert hensured
    split
    · intro hensured
      simp [Prog.run_pure] at hensured
    · intro hensured
      simp only [Prog.run_pure, Except.ok.injEq] at hensured
      rw [← hensured]
      exact ⟨rfl, rfl⟩

/-- C15: the tab capture of `getCurrentBrowserState`. When the tab query, the tree read and
the storage accesses are answered, the call returns a payload whose tab list is: one record
per live tab, in the order of the query, with the fields of the tab and this device's
`browserId` (the stored `syncBrowserId`, or the id generated and stored when there is none),
followed by the cached records whose `browserId` is non-empty and differs from this device's,
in their cached order. So no cached record with this device's id is in the result and no
cached record with another, non-empty id is missing. -/
theorem getCurrentBrowserState_tabs {ω : Type} (h : Handler ω) (w : ω) (tabs : List Tab)
    (bookmarkTreeNodes : List BookmarkTreeNode) (browserIdData remoteTabsData : StorageItems)
    (browserId : String)
    (hquery : (h .tabsQuery w).1 = .ok tabs)
    (htree : (h .bookmarksGetTree (h .tabsQuery w).2).1 = .ok bookmarkTreeNodes)
    (hid : (h (.storageGet ["syncBrowserId"]) (h .bookmarksGetTree (h .tabsQuery w).2).2).1
      = .ok browserIdData)
    (hensured : ((ensureBrowserId browserIdData).run h
      (h (.storageGet ["syncBrowserId"]) (h .bookmarksGetTree (h .tabsQuery w).2).2).2).1
        = .ok browserId)
    (hcached : (h (.storageGet [REMOTE_TABS_STORAGE_KEY])
      ((ensureBrowserId browserIdData).run h
        (h (.storageGet ["syncBrowserId"]) (h .bookmarksGetTree (h .tabsQuery w).2).2).2).2.1).1
        = .ok remoteTabsData) :
    ∃ currentTabs otherBrowsersTabs,
      (getCurrentBrowserState.run h w).1
        = .ok { tabs := some (currentTabs ++ otherBrowsersTabs),
                bookmarks := some (flattenBookmarkNodes bookmarkTreeNodes) } ∧
      currentTabs.map TabRecord.tab = tabs ∧
      (∀ record ∈ currentTabs, record.browserId = some browserId) ∧
      otherBrowsersTabs = (remoteTabsData.syncedRemoteTabs.getD []).filter
        (fun tab => optTruthy tab.browserId && decide (tab.browserId ≠ some browserId)) ∧
      (∀ record ∈ otherBrowsersTabs, record.browserId ≠ some browserId) ∧
      (∀ record ∈ remoteTabsData.syncedRemoteTabs.getD [], optTruthy record.browserId = true →
        record.browserId ≠ some browserId → record ∈ otherBrowsersTabs) ∧
      (optTruthy browserIdData.syncBrowserId = true →
        browserIdData.syncBrowserId = some browserId) ∧
      (optTruthy browserIdData.syncBrowserId = false →
        Op.storageSet { syncBrowserId := some browserId } ∈ (getCurrentBrowserState.run h w).2.2) := by
  obtain ⟨hstored, hgenerated⟩ := ensureBrowserId_stored h _ browserIdData browserId hensured
  obtain ⟨hmap, hall⟩ := tagTabs_spec h browserId tabs
    (h (.storageGet [REMOTE_TABS_STORAGE_KEY])
      ((ensureBrowserId browserIdData).run h
        (h (.storageGet ["syncBrowserId"]) (h .bookmarksGetTree (h .tabsQuery w).2).2).2).2.1).2
  refine ⟨_, _, getCurrentBrowserState_run h w tabs bookmarkTreeNodes browserIdData remoteTabsData
    browserId hquery htree hid hensured hcached, hmap, fun record hrecord => (hall record hrecord).1,
    rfl, ?_, ?_, hstored, ?_⟩
  · intro record hrecord
    simp only [List.mem_filter, Bool.and_eq_true, decide_eq_true_eq] at hrecord
    exact hrecord.2.2
  · intro record hrecord htruthy hother
    simp only [List.mem_filter, Bool.and_eq_true, decide_eq_true_eq]
    exact ⟨hrecord, htruthy, hother⟩
  · intro hnone
    have htrace := (hgenerated hnone).2
    unfold getCurrentBrowserState
    rw [Prog.run_bind, Prog.run_perform]
    simp only [hquery]
    rw [Prog.run_bind, Prog.run_perform]
    simp only [htree]
    rw [Prog.run_bind, Prog.run_perform]
    simp only [hid]
    rw [Prog.run_bind]
    erw [htrace]
    simp

/-- Witness of C15: a profile with two live tabs whose cache holds a tab of another device, an
old record of this device and a record without a device id; the capture yields the two live
tabs, tagged `browser_B`, and then the tab of the other device. -/
theorem getCurrentBrowserState_tabs_witness :
    ((deviceHandler offline .tabsQuery captureProfile).1
        = .ok [liveTab 1 "https://one.example", liveTab 2 "https://two.example"] ∧
      (deviceHandler offline .bookmarksGetTree captureProfile).1 = .ok emptyToolbar ∧
      (deviceHandler offline (.storageGet ["syncBrowserId"]) captureProfile).1
        = .ok { syncBrowserId := some "browser_B" } ∧
      ((ensureBrowserId { syncBrowserId := some "browser_B" }).run (deviceHandler offline)
          captureProfile).1 = .ok "browser_B" ∧
      (deviceHandler offline (.storageGet [REMOTE_TABS_STORAGE_KEY]) captureProfile).1
        = .ok { syncedRemoteTabs := captureProfile.1.storage.syncedRemoteTabs }) ∧
    (∃ currentTabs otherBrowsersTabs,
      (getCurrentBrowserState.run (deviceHandler offline) captureProfile).1
        = .ok { tabs := some (currentTabs ++ otherBrowsersTabs),
                bookmarks := some (flattenBookmarkNodes emptyToolbar) } ∧
      currentTabs.map TabRecord.tab
        = [liveTab 1 "https://one.example", liveTab 2 "https://two.example"] ∧
      (∀ record ∈ currentTabs, record.browserId = some "browser_B") ∧
      otherBrowsersTabs
        = (({ syncedRemoteTabs := captureProfile.1.storage.syncedRemoteTabs } :
              StorageItems).syncedRemoteTabs.getD []).filter
            (fun tab => optTruthy tab.browserId && decide (tab.browserId ≠ some "browser_B")) ∧
      (∀ record ∈ otherBrowsersTabs, record.browserId ≠ some "browser_B") ∧
      (∀ record ∈ ({ syncedRemoteTabs := captureProfile.1.storage.syncedRemoteTabs } :
            StorageItems).syncedRemoteTabs.getD [],
        optTruthy record.browserId = true → record.browserId ≠ some "browser_B" →
        record ∈ otherBrowsersTabs) ∧
      (optTruthy ({ syncBrowserId := some "browser_B" } : StorageItems).syncBrowserId = true →
        ({ syncBrowserId := some "browser_B" } : StorageItems).syncBrowserId = some "browser_B") ∧
      (optTruthy ({ syncBrowserId := some "browser_B" } : StorageItems).syncBrowserId = false →
        Op.storageSet { syncBrowserId := some "browser_B" }
          ∈ (getCurrentBrowserState.run (deviceHandler offline) captureProfile).2.2)) ∧
    ((getCurrentBrowserState.run (deviceHandler offline) captureProfile).1.toOption.bind
        (fun payload => payload.tabs)).map
        (fun records => records.map (fun record => (record.url, record.browserId)))
      = some [("https://one.example", some "browser_B"), ("https://two.example", some "browser_B"),
              ("https://a.example", some "browser_A")] :=
  ⟨⟨rfl, rfl, rfl, rfl, rfl⟩,
   getCurrentBrowserState_tabs (deviceHandler offline) captureProfile
     [liveTab 1 "https://one.example", liveTab 2 "https://two.example"] emptyToolbar
     { syncBrowserId := some "browser_B" }
     { syncedRemoteTabs := captureProfile.1.storage.syncedRemoteTabs } "browser_B"
     rfl rfl rfl rfl rfl,
   by decide!⟩

/-! ### `flattenBookmarkNodes` is the pre-order traversal -/

theorem flattenNode_eq (tree : BookmarkTreeNode) :
    flattenNode tree = tree.item :: flattenBookmarkNodes tree.children := by
  cases tree
  rfl

theorem flattenBookmarkNodes_cons (tree : BookmarkTreeNode) (rest : List BookmarkTreeNode) :
    flattenBookmarkNodes (tree :: rest) = flattenNode tree ++ flattenBookmarkNodes rest := by
  rw [flattenBookmarkNodes]

theorem nodeCount_eq (tree : BookmarkTreeNode) :
    nodeCount tree = 1 + forestCount tree.children := by
  cases tree
  rw [nodeCount, BookmarkTreeNode.children]

mutual
theorem flattenNode_length : ∀ tree : BookmarkTreeNode, (flattenNode tree).length = nodeCount tree
  | .mk id parentId index title dateAdded type url dateGroupModified children => by
    rw [flattenNode, nodeCount, List.length_cons, flattenBookmarkNodes_length children]
    omega
theorem flattenBookmarkNodes_length :
    ∀ forest : List BookmarkTreeNode, (flattenBookmarkNodes forest).length = forestCount forest
  | [] => rfl
  | tree :: rest => by
    rw [flattenBookmarkNodes, forestCount, List.length_append, flattenNode_length tree,
      flattenBookmarkNodes_length rest]
end

theorem entry_in_forest (forest : List BookmarkTreeNode) (i : Nat) (tree : BookmarkTreeNode)
    (r : Nat) (entry : BookmarkItem) (htree : forest.get? i = some tree)
    (hentry : (flattenNode tree).get? r = some entry) :
    (flattenBookmarkNodes forest).get? (forestCount (forest.take i) + r) = some entry := by
  induction forest generalizing i with
  | nil => simp at htree
  | cons first rest ih =>
    rw [flattenBookmarkNodes_cons]
    cases i with
    | zero =>
      simp only [List.get?_cons_zero, Option.some.injEq] at htree
      subst htree
      simp only [List.take_zero, forestCount, Nat.zero_add]
      have hlt : r < (flattenNode first).length := by
        rcases List.get?_eq_some.mp hentry with ⟨hlt, _⟩
        exact hlt
      rw [List.get?_eq_getElem?, List.getElem?_append_left hlt, ← List.get?_eq_getElem?]
      exact hentry
    | succ i =>
      simp only [List.get?_cons_succ] at htree
      simp only [List.take_succ_cons, forestCount]
      have hge : (flattenNode first).length ≤ nodeCount first + forestCount (rest.take i) + r := by
        rw [flattenNode_length]
        omega
      rw [List.get?_eq_getElem?, List.getElem?_append_right hge, ← List.get?_eq_getElem?,
        flattenNode_length]
      have hidx : nodeCount first + forestCount (rest.take i) + r - nodeCount first
          = forestCount (rest.take i) + r := by omega
      rw [hidx]
      exact ih i htree

theorem entry_of_descendant (path : List Nat) :
    ∀ (tree node : BookmarkTreeNode), descend tree path = some node →
      (flattenNode tree).get? (rankIn tree path) = some node.item := by
  induction path with
  | nil =>
    intro tree node hnode
    simp only [descend, Option.some.injEq] at hnode
    subst hnode
    rw [flattenNode_eq]
    rfl
  | cons i path ih =>
    intro tree node hnode
    cases hchild : tree.children.get? i with
    | none =>
      rw [descend, hchild] at hnode
      exact Option.noConfusion hnode
    | some child =>
      rw [descend, hchild] at hnode
      simp only at hnode
      rw [rankIn, hchild, flattenNode_eq]
      simp only
      have hidx : 1 + forestCount (tree.children.take i) + rankIn child path
          = (forestCount (tree.children.take i) + rankIn child path) + 1 := by omega
      rw [hidx, List.get?_cons_succ]
      exact entry_in_forest tree.children i child _ _ hchild (ih child node hnode)

theorem rankIn_lt (path : List Nat) (tree node : BookmarkTreeNode)
    (hnode : descend tree path = some node) : rankIn tree path < nodeCount tree := by
  rcases List.get?_eq_some.mp (entry_of_descendant path tree node hnode) with ⟨hlt, _⟩
  rw [flattenNode_length] at hlt
  exact hlt

theorem forestCount_take_lt (forest : List BookmarkTreeNode) (i j : Nat) (tree : BookmarkTreeNode)
    (htree : forest.get? i = some tree) (hij : i < j) :
    forestCount (forest.take i) + nodeCount tree ≤ forestCount (forest.take j) := by
  induction forest generalizing i j with
  | nil => simp at htree
  | cons first rest ih =>
    cases j with
    | zero => omega
    | succ j =>
      cases i with
      | zero =>
        simp only [List.get?_cons_zero, Option.some.injEq] at htree
        subst htree
        simp only [List.take_zero, List.take_succ_cons, forestCount]
        omega
      | succ i =>
        simp only [List.get?_cons_succ] at htree
        simp only [List.take_succ_cons, forestCount]
        have := ih i j htree (by omega)
        omega

theorem rankIn_ancestor (path : List Nat) :
    ∀ (tree node : BookmarkTreeNode) (below : List Nat), below ≠ [] →
      descend tree (path ++ below) = some node →
      rankIn tree path < rankIn tree (path ++ below) := by
  induction path with
  | nil =>
    intro tree node below hbelow _
    cases below with
    | nil => exact absurd rfl hbelow
    | cons i rest =>
      rw [List.nil_append, rankIn, rankIn]
      omega
  | cons a path ih =>
    intro tree node below hbelow hnode
    rw [List.cons_append] at hnode ⊢
    cases hchild : tree.children.get? a with
    | none =>
      rw [descend, hchild] at hnode
      exact Option.noConfusion hnode
    | some child =>
      rw [descend, hchild] at hnode
      simp only at hnode
      rw [rankIn, rankIn, hchild]
      simp only
      have := ih child node below hbelow hnode
      omega

theorem rankIn_siblings (path : List Nat) :
    ∀ (tree later earlier : BookmarkTreeNode) (i j : Nat) (below : List Nat), i < j →
      descend tree (path ++ [j]) = some later →
      descend tree (path ++ i :: below) = some earlier →
      rankIn tree (path ++ i :: below) < rankIn tree (path ++ [j]) := by
  induction path with
  | nil =>
    intro tree later earlier i j below hij hlater hearlier
    rw [List.nil_append] at hlater hearlier ⊢
    cases hi : tree.children.get? i with
    | none =>
      rw [descend, hi] at hearlier
      exact Option.noConfusion hearlier
    | some ci =>
      rw [descend, hi] at hearlier
      simp only at hearlier
      simp only [rankIn, hi]
      have hbound := rankIn_lt below ci earlier hearlier
      have hleft := forestCount_take_lt tree.children i j ci hi hij
      have hzero : (match tree.children.get? j with
          | some _ => 0
          | none => 0) = 0 := by
        split <;> rfl
      rw [hzero]
      omega
  | cons a path ih =>
    intro tree later earlier i j below hij hlater hearlier
    simp only [List.cons_append] at hlater hearlier ⊢
    cases hchild : tree.children.get? a with
    | none =>
      rw [descend, hchild] at hlater
      exact Option.noConfusion hlater
    | some child =>
      rw [descend, hchild] at hlater hearlier
      simp only at hlater hearlier
      simp only [rankIn, hchild]
      have := ih child later earlier i j below hij hlater hearlier
      omega

theorem rankIn_injective (p : List Nat) :
    ∀ (tree first second : BookmarkTreeNode) (q : List Nat), descend tree p = some first →
      descend tree q = some second → rankIn tree p = rankIn tree q → p = q := by
  induction p with
  | nil =>
    intro tree first second q _ _ hrank
    cases q with
    | nil => rfl
    | cons j q =>
      rw [rankIn, rankIn] at hrank
      omega
  | cons i p ih =>
    intro tree first second q hfirst hsecond hrank
    cases q with
    | nil =>
      rw [rankIn, rankIn] at hrank
      omega
    | cons j q =>
      cases hi : tree.children.get? i with
      | none =>
        rw [descend, hi] at hfirst
        exact Option.noConfusion hfirst
      | some ci =>
        cases hj : tree.children.get? j with
        | none =>
          rw [descend, hj] at hsecond
          exact Option.noConfusion hsecond
        | some cj =>
          rw [descend, hi] at hfirst
          rw [descend, hj] at hsecond
          simp only at hfirst hsecond
          rw [rankIn, rankIn, hi, hj] at hrank
          simp only at hrank
          have hbi := rankIn_lt p ci first hfirst
          have hbj := rankIn_lt q cj second hsecond
          rcases Nat.lt_trichotomy i j with hlt | heq | hgt
          · have := forestCount_take_lt tree.children i j ci hi hlt
            omega
          · subst heq
            rw [hi] at hj
            cases hj
            have hpq := ih ci first second q hfirst hsecond (by omega)
            rw [hpq]
          · have := forestCount_take_lt tree.children j i cj hj hgt
            omega

mutual
theorem rank_onto_node :
    ∀ (tree : BookmarkTreeNode) (k : Nat), k < nodeCount tree →
      ∃ path node, descend tree path = some node ∧ rankIn tree path = k
  | .mk id parentId index title dateAdded type url dateGroupModified children, k, hk => by
    cases k with
    | zero => exact ⟨[], _, rfl, rfl⟩
    | succ k =>
      have hk2 : k < forestCount children := by
        rw [nodeCount] at hk
        omega
      obtain ⟨i, child, path, node, hchild, hnode, hrank⟩ := rank_onto_forest children k hk2
      refine ⟨i :: path, node, ?_, ?_⟩
      · rw [descend, BookmarkTreeNode.children, hchild]
        exact hnode
      · rw [rankIn, BookmarkTreeNode.children, hchild]
        simp only
        omega
theorem rank_onto_forest :
    ∀ (forest : List BookmarkTreeNode) (k : Nat), k < forestCount forest →
      ∃ i tree path node, forest.get? i = some tree ∧ descend tree path = some node ∧
        forestCount (forest.take i) + rankIn tree path = k
  | [], k, hk => by
    rw [forestCount] at hk
    omega
  | tree :: rest, k, hk => by
    by_cases hlt : k < nodeCount tree
    · obtain ⟨path, node, hnode, hrank⟩ := rank_onto_node tree k hlt
      exact ⟨0, tree, path, node, rfl, hnode, by rw [List.take_zero, forestCount]; omega⟩
    · have hk2 : k - nodeCount tree < forestCount rest := by
        rw [forestCount] at hk
        omega
      obtain ⟨i, found, path, node, hfound, hnode, hrank⟩ :=
        rank_onto_forest rest (k - nodeCount tree) hk2
      refine ⟨i + 1, found, path, node, ?_, hnode, ?_⟩
      · rw [List.get?_cons_succ]
        exact hfound
      · rw [List.take_succ_cons, forestCount]
        omega
end

theorem item_fields (node : BookmarkTreeNode) :
    node.item.id = node.raw.id ∧ node.item.parentId = node.raw.parentId ∧
    node.item.index = node.raw.index ∧ node.item.title = node.raw.title ∧
    node.item.dateAdded = node.raw.dateAdded ∧ node.item.type = node.raw.type ∧
    (node.item.url = if optTruthy node.raw.url then node.raw.url else none) ∧
    (node.item.dateGroupModified ≠ none →
      node.raw.type = some "folder" ∧ node.item.dateGroupModified = node.raw.dateGroupModified) := by
  cases node with
  | mk id parentId index title dateAdded type url dateGroupModified children =>
    refine ⟨rfl, rfl, rfl, rfl, rfl, rfl, rfl, ?_⟩
    simp only [BookmarkTreeNode.item, BookmarkTreeNode.raw]
    split
    · rename_i hfolder
      exact fun _ => ⟨hfolder.1, rfl⟩
    · exact fun hsome => absurd rfl hsome

/-- C16: `flattenBookmarkNodes` is the pre-order traversal of the forest it is given. Nodes are
named by their paths of child positions. The output has as many entries as the forest has
nodes; the entry of the node at a path stands at the pre-order rank of the path and is the
record of that node; every position of the output is the rank of a node, and two nodes with
the same rank are the same node, so there is exactly one entry per node. The entry of a node
comes before the entries of its descendants, and a child with everything below it comes
before every later child of the same parent, so children appear in tree order. The record of
a node carries its id, parentId, index, title, dateAdded and type; it has the url of the node
when that is non-empty and no url otherwise, and a dateGroupModified only on a folder. -/
theorem flattenBookmarkNodes_preorder (nodes : List BookmarkTreeNode) :
    (flattenBookmarkNodes nodes).length = forestCount nodes ∧
    (∀ path node, nodeAt nodes path = some node →
      (flattenBookmarkNodes nodes).get? (preorderRank nodes path) = some node.item) ∧
    (∀ k, k < (flattenBookmarkNodes nodes).length →
      ∃ path node, nodeAt nodes path = some node ∧ preorderRank nodes path = k) ∧
    (∀ p q first second, nodeAt nodes p = some first → nodeAt nodes q = some second →
      preorderRank nodes p = preorderRank nodes q → p = q) ∧
    (∀ path below node, path ≠ [] → below ≠ [] → nodeAt nodes (path ++ below) = some node →
      preorderRank nodes path < preorderRank nodes (path ++ below)) ∧
    (∀ path i j below earlier later, i < j → nodeAt nodes (path ++ [j]) = some later →
      nodeAt nodes (path ++ i :: below) = some earlier →
      preorderRank nodes (path ++ i :: below) < preorderRank nodes (path ++ [j])) ∧
    (∀ node : BookmarkTreeNode,
      node.item.id = node.raw.id ∧ node.item.parentId = node.raw.parentId ∧
      node.item.index = node.raw.index ∧ node.item.title = node.raw.title ∧
      node.item.dateAdded = node.raw.dateAdded ∧ node.item.type = node.raw.type ∧
      (node.item.url = if optTruthy node.raw.url then node.raw.url else none) ∧
      (node.item.dateGroupModified ≠ none →
        node.raw.type = some "folder" ∧
          node.item.dateGroupModified = node.raw.dateGroupModified)) := by
  refine ⟨flattenBookmarkNodes_length nodes, ?_, ?_, ?_, ?_, ?_, item_fields⟩
  · intro path node hnode
    cases path with
    | nil => exact Option.noConfusion hnode
    | cons i path =>
      cases htree : nodes.get? i with
      | none =>
        rw [nodeAt, htree] at hnode
        exact Option.noConfusion hnode
      | some tree =>
        rw [nodeAt, htree] at hnode
        simp only at hnode
        rw [preorderRank, htree]
        exact entry_in_forest nodes i tree _ _ htree (entry_of_descendant path tree node hnode)
  · intro k hk
    rw [flattenBookmarkNodes_length] at hk
    obtain ⟨i, tree, path, node, htree, hnode, hrank⟩ := rank_onto_forest nodes k hk
    refine ⟨i :: path, node, ?_, ?_⟩
    · rw [nodeAt, htree]
      exact hnode
    · rw [preorderRank, htree]
      exact hrank
  · intro p q first second hfirst hsecond hrank
    cases p with
    | nil => exact Option.noConfusion hfirst
    | cons i p =>
      cases q with
      | nil => exact Option.noConfusion hsecond
      | cons j q =>
        cases hi : nodes.get? i with
        | none =>
          rw [nodeAt, hi] at hfirst
          exact Option.noConfusion hfirst
        | some ti =>
          cases hj : nodes.get? j with
          | none =>
            rw [nodeAt, hj] at hsecond
            exact Option.noConfusion hsecond
          | some tj =>
            rw [nodeAt, hi] at hfirst
            rw [nodeAt, hj] at hsecond
            simp only at hfirst hsecond
            rw [preorderRank, preorderRank, hi, hj] at hrank
            simp only at hrank
            have hbi := rankIn_lt p ti first hfirst
            have hbj := rankIn_lt q tj second hsecond
            rcases Nat.lt_trichotomy i j with hlt | heq | hgt
            · have := forestCount_take_lt nodes i j ti hi hlt
              omega
            · subst heq
              rw [hi] at hj
              cases hj
              rw [rankIn_injective p ti first second q hfirst hsecond (by omega)]
            · have := forestCount_take_lt nodes j i tj hj hgt
              omega
  · intro path below node hpath hbelow hnode
    cases path with
    | nil => exact absurd rfl hpath
    | cons i path =>
      simp only [List.cons_append] at hnode ⊢
      cases htree : nodes.get? i with
      | none =>
        rw [nodeAt, htree] at hnode
        exact Option.noConfusion hnode
      | some tree =>
        rw [nodeAt, htree] at hnode
        simp only at hnode
        simp only [preorderRank, htree]
        have := rankIn_ancestor path tree node below hbelow hnode
        omega
  · intro path i j below earlier later hij hlater hearlier
    cases path with
    | nil =>
      simp only [List.nil_append] at hlater hearlier ⊢
      cases hi : nodes.get? i with
      | none =>
        rw [nodeAt, hi] at hearlier
        exact Option.noConfusion hearlier
      | some ti =>
        rw [nodeAt, hi] at hearlier
        simp only at hearlier
        simp only [preorderRank, hi, rankIn]
        have hbound := rankIn_lt below ti earlier hearlier
        have hleft := forestCount_take_lt nodes i j ti hi hij
        have hzero : (match nodes.get? j with
            | some _ => 0
            | none => 0) = 0 := by
          split <;> rfl
        rw [hzero]
        omega
    | cons a path =>
      simp only [List.cons_append] at hlater hearlier ⊢
      cases htree : nodes.get? a with
      | none =>
        rw [nodeAt, htree] at hlater
        exact Option.noConfusion hlater
      | some tree =>
        rw [nodeAt, htree] at hlater hearlier
        simp only at hlater hearlier
        simp only [preorderRank, htree]
        have := rankIn_siblings path tree later earlier i j below hij hlater hearlier
        omega

/-! ### The configuration load -/

theorem fetchSaltFromServer_onlyOps (syncState : SyncState) :
    (fetchSaltFromServer syncState).OnlyOps (fun op => ¬ writesPassphrase op ∧ ¬ writesSalt op) := by
  unfold fetchSaltFromServer
  repeat (first
    | exact Prog.OnlyOps.ret _
    | exact Prog.OnlyOps.perform _ (by simp [writesPassphrase, writesSalt])
    | apply Prog.OnlyOps.bind
    | intro _
    | split
    | dsimp only)

theorem uploadSaltToServer_onlyOps (syncState : SyncState) (saltBase64 : String) (force : Bool) :
    (uploadSaltToServer syncState saltBase64 force).OnlyOps
      (fun op => ¬ writesPassphrase op ∧ ¬ writesSalt op) := by
  unfold uploadSaltToServer
  repeat (first
    | exact Prog.OnlyOps.ret _
    | exact Prog.OnlyOps.perform _ (by simp [writesPassphrase, writesSalt])
    | apply Prog.OnlyOps.bind
    | intro _
    | split
    | dsimp only)

theorem resolveSaltConflict_onlyOps (syncState : SyncState) (message : String) :
    (resolveSaltConflict syncState message).OnlyOps (fun op => ¬ writesPassphrase op) := by
  unfold resolveSaltConflict
  repeat (first
    | exact Prog.OnlyOps.ret _
    | exact (fetchSaltFromServer_onlyOps _).mono (fun _ hop => hop.1)
    | exact Prog.OnlyOps.perform _ (by simp [writesPassphrase])
    | apply Prog.OnlyOps.bind
    | intro _
    | split
    | dsimp only)

theorem saltBootstrap_onlyOps (syncState : SyncState) (localSaltBase64 : Option String) :
    (saltBootstrap syncState localSaltBase64).OnlyOps (fun op => ¬ writesPassphrase op) := by
  unfold saltBootstrap
  repeat (first
    | exact Prog.OnlyOps.ret _
    | exact (fetchSaltFromServer_onlyOps _).mono (fun _ hop => hop.1)
    | exact (uploadSaltToServer_onlyOps _ _ _).mono (fun _ hop => hop.1)
    | exact resolveSaltConflict_onlyOps _ _
    | exact Prog.OnlyOps.perform _ (by simp [writesPassphrase])
    | apply Prog.OnlyOps.bind
    | intro _
    | split
    | dsimp only)

theorem keySetup_onlyOps {P : Type} (R : Runtime P) (syncState : SyncState) (saltToUse : List Byte) :
    (keySetup R syncState saltToUse).OnlyOps
      (fun op => ¬ writesPassphrase op ∧ ¬ writesSalt op ∧ ¬ isFetch op) := by
  unfold keySetup sendStatusUpdateToPopup
  repeat (first
    | exact Prog.OnlyOps.ret _
    | exact Prog.OnlyOps.perform _ (by simp [writesPassphrase, writesSalt, isFetch, SALT_STORAGE_KEY])
    | apply Prog.OnlyOps.bind
    | intro _
    | split
    | dsimp only)

theorem loadConfigurationFailed_onlyOps (syncState : SyncState) (message : String) :
    (loadConfigurationFailed syncState message).OnlyOps
      (fun op => ¬ writesPassphrase op ∧ ¬ writesSalt op ∧ ¬ isFetch op) := by
  unfold loadConfigurationFailed sendStatusUpdateToPopup
  repeat (first
    | exact Prog.OnlyOps.ret _
    | exact Prog.OnlyOps.perform _ (by simp [writesPassphrase, writesSalt, isFetch])
    | apply Prog.OnlyOps.bind
    | intro _
    | split
    | dsimp only)

theorem loadConfiguration_onlyOps {P : Type} (R : Runtime P) (syncState : SyncState) :
    (loadConfiguration R syncState).OnlyOps (fun op => ¬ writesPassphrase op) := by
  unfold loadConfiguration sendStatusUpdateToPopup
  repeat (first
    | exact Prog.OnlyOps.ret _
    | exact (loadConfigurationFailed_onlyOps _ _).mono (fun _ hop => hop.1)
    | exact (keySetup_onlyOps _ _ _).mono (fun _ hop => hop.1)
    | exact saltBootstrap_onlyOps _ _
    | exact Prog.OnlyOps.perform _ (by simp [writesPassphrase])
    | apply Prog.OnlyOps.bind
    | intro _
    | split
    | dsimp only)

theorem keySetup_passphrase_run {P ω : Type} (R : Runtime P) (h : Handler ω) (w : ω)
    (syncState : SyncState) (saltToUse : List Byte) (storedData : StorageItems)
    (derivedKey : CryptoKey)
    (hstored : (h (.storageGet ["passphrase", "cryptoKeyJWK"]) w).1 = .ok storedData)
    (hpass : optTruthy storedData.passphrase = true)
    (hderive : deriveEncryptionKey R (storedData.passphrase.getD "") saltToUse = .ok derivedKey) :
    ∃ before,
      (((keySetup R syncState saltToUse).run h w).1
          = .ok { syncState with encryptionKey := some derivedKey } ∧
        ((keySetup R syncState saltToUse).run h w).2.2
          = before ++ [.storageRemove ["passphrase"],
                       .sendMessage syncState.status syncState.lastSync]) ∨
       ((∃ e, ((keySetup R syncState saltToUse).run h w).1
          = .error (e, { syncState with encryptionKey := some derivedKey })) ∧
        ((keySetup R syncState saltToUse).run h w).2.2 = before ++ [.storageRemove ["passphrase"]]) := by
  unfold keySetup
  rw [Prog.run_bind, Prog.run_perform]
  simp only [hstored, hpass, if_true, hderive]
  cases hexport : R.exportKey derivedKey with
  | error e =>
    simp only
    rw [Prog.run_bind, Prog.run_pure]
    simp only
    rw [Prog.run_bind, Prog.run_perform]
    simp only
    cases (h (.storageRemove ["passphrase"]) (h (.storageGet ["passphrase", "cryptoKeyJWK"]) w).2).1 with
    | error e2 =>
      exact ⟨[.storageGet ["passphrase", "cryptoKeyJWK"]], Or.inr ⟨⟨e2, rfl⟩, rfl⟩⟩
    | ok _ =>
      exact ⟨[.storageGet ["passphrase", "cryptoKeyJWK"]], Or.inl ⟨rfl, rfl⟩⟩
  | ok jwk =>
    simp only
    rw [Prog.run_bind, Prog.run_perform]
    simp only
    rw [Prog.run_bind, Prog.run_pure]
    simp only
    rw [Prog.run_bind, Prog.run_perform]
    simp only
    cases (h (.storageRemove ["passphrase"])
        (h (.storageSet { cryptoKeyJWK := some jwk })
          (h (.storageGet ["passphrase", "cryptoKeyJWK"]) w).2).2).1 with
    | error e2 =>
      exact ⟨[.storageGet ["passphrase", "cryptoKeyJWK"], .storageSet { cryptoKeyJWK := some jwk }],
        Or.inr ⟨⟨e2, rfl⟩, rfl⟩⟩
    | ok _ =>
      exact ⟨[.storageGet ["passphrase", "cryptoKeyJWK"], .storageSet { cryptoKeyJWK := some jwk }],
        Or.inl ⟨rfl, rfl⟩⟩

/-- C17: the passphrase is erased once the key is derived from it. In a run of
`loadConfiguration` in which the configuration was read with a server URL, the salt bootstrap
yielded a salt, the stored passphrase was read and the key was derived from it, whatever the
collaborators answer and whether or not the export of the key and the storing of its JWK
succeed: the request `storage.local.remove('passphrase')` is issued, it is the last storage request
of the run (one status message follows it), and no request of the run stores a passphrase. The
run ends with the derived key, or, when the removal itself was rejected, with the status
`'Error: <message>'` and no key. -/
theorem loadConfiguration_erases_passphrase {P ω : Type} (R : Runtime P) (h : Handler ω) (w : ω)
    (syncState : SyncState) (result storedData : StorageItems) (saltToUse : List Byte)
    (derivedKey : CryptoKey)
    (hget : (h (.storageGet ["serverUrl", SALT_STORAGE_KEY]) w).1 = .ok result)
    (hurl : optTruthy result.serverUrl = true)
    (hsalt : ((saltBootstrap { lastSync := syncState.lastSync, status := syncState.status,
                               serverUrl := result.serverUrl, encryptionKey := none }
                result.cryptoSalt).run h
              (h (.storageGet ["serverUrl", SALT_STORAGE_KEY]) w).2).1 = .ok saltToUse)
    (hstored : (h (.storageGet ["passphrase", "cryptoKeyJWK"])
                ((saltBootstrap { lastSync := syncState.lastSync, status := syncState.status,
                                  serverUrl := result.serverUrl, encryptionKey := none }
                    result.cryptoSalt).run h
                  (h (.storageGet ["serverUrl", SALT_STORAGE_KEY]) w).2).2.1).1 = .ok storedData)
    (hpass : optTruthy storedData.passphrase = true)
    (hderive : deriveEncryptionKey R (storedData.passphrase.getD "") saltToUse = .ok derivedKey) :
    (∃ before status lastSync, ((loadConfiguration R syncState).run h w).2.2
        = before ++ [.storageRemove ["passphrase"], .sendMessage status lastSync]) ∧
    (∀ op ∈ ((loadConfiguration R syncState).run h w).2.2, ¬ writesPassphrase op) ∧
    (((loadConfiguration R syncState).run h w).1
        = { lastSync := syncState.lastSync, status := syncState.status,
            serverUrl := result.serverUrl, encryptionKey := some derivedKey } ∨
      ∃ e, ((loadConfiguration R syncState).run h w).1
        = { lastSync := syncState.lastSync, status := "Error: " ++ e,
            serverUrl := result.serverUrl, encryptionKey := none }) := by
  refine ⟨?_, (loadConfiguration_onlyOps R syncState).trace h w, ?_⟩
  all_goals
    obtain ⟨before, hcase⟩ := keySetup_passphrase_run R h
      ((saltBootstrap { lastSync := syncState.lastSync, status := syncState.status,
                        serverUrl := result.serverUrl, encryptionKey := none }
          result.cryptoSalt).run h (h (.storageGet ["serverUrl", SALT_STORAGE_KEY]) w).2).2.1
      { lastSync := syncState.lastSync, status := syncState.status,
        serverUrl := result.serverUrl, encryptionKey := none }
      saltToUse storedData derivedKey hstored hpass hderive
    unfold loadConfiguration
    rw [Prog.run_bind, Prog.run_perform]
    simp only [hget, hurl, Bool.not_true, Bool.false_eq_true, if_false]
    rw [Prog.run_bind]
    simp only [hsalt]
    rw [Prog.run_bind]
    rcases hcase with ⟨hok, htrace⟩ | ⟨⟨e, herr⟩, htrace⟩
  · simp only [hok, htrace, Prog.run_pure, List.append_nil]
    exact ⟨Op.storageGet ["serverUrl", SALT_STORAGE_KEY]
        :: (((saltBootstrap { lastSync := syncState.lastSync, status := syncState.status,
                              serverUrl := result.serverUrl, encryptionKey := none }
                result.cryptoSalt).run h
              (h (.storageGet ["serverUrl", SALT_STORAGE_KEY]) w).2).2.2 ++ before),
      syncState.status, syncState.lastSync, by simp [List.append_assoc]⟩
  · simp only [herr, htrace]
    unfold loadConfigurationFailed
    simp only
    rw [Prog.run_bind, run_sendStatusUpdateToPopup]
    simp only [Prog.run_pure, List.append_nil]
    exact ⟨Op.storageGet ["serverUrl", SALT_STORAGE_KEY]
        :: (((saltBootstrap { lastSync := syncState.lastSync, status := syncState.status,
                              serverUrl := result.serverUrl, encryptionKey := none }
                result.cryptoSalt).run h
              (h (.storageGet ["serverUrl", SALT_STORAGE_KEY]) w).2).2.2 ++ before),
      "Error: " ++ e, syncState.lastSync, by simp [List.append_assoc]⟩
  · simp only [hok, Prog.run_pure, true_or]
  · simp only [herr]
    unfold loadConfigurationFailed
    simp only
    rw [Prog.run_bind, run_sendStatusUpdateToPopup]
    simp only [Prog.run_pure]
    exact Or.inr ⟨e, rfl⟩

/-- Witness of C17: a first-time profile with a stored passphrase, a runtime whose key
export fails and a server without a salt; after the run the storage holds no passphrase. -/
theorem loadConfiguration_erases_passphrase_witness :
    (((deviceHandler (serverNet sampleOrigin)) (.storageGet ["serverUrl", SALT_STORAGE_KEY])
          firstTimeWorld).1 = .ok { serverUrl := some sampleOrigin } ∧
      optTruthy (some sampleOrigin) = true ∧
      ((saltBootstrap { lastSync := none, status := "Idle", serverUrl := some sampleOrigin,
                        encryptionKey := none } none).run (deviceHandler (serverNet sampleOrigin))
          ((deviceHandler (serverNet sampleOrigin)) (.storageGet ["serverUrl", SALT_STORAGE_KEY])
            firstTimeWorld).2).1 = .ok (List.replicate 16 1) ∧
      ((deviceHandler (serverNet sampleOrigin)) (.storageGet ["passphrase", "cryptoKeyJWK"])
          ((saltBootstrap { lastSync := none, status := "Idle", serverUrl := some sampleOrigin,
                            encryptionKey := none } none).run (deviceHandler (serverNet sampleOrigin))
            ((deviceHandler (serverNet sampleOrigin)) (.storageGet ["serverUrl", SALT_STORAGE_KEY])
              firstTimeWorld).2).2.1).1 = .ok { passphrase := some "correct horse" } ∧
      optTruthy (some "correct horse") = true ∧
      deriveEncryptionKey noExportRuntime "correct horse" (List.replicate 16 1)
        = .ok { raw := textRuntime.textEncode "correct horse" ++ List.replicate 16 1 }) ∧
    ((∃ before status lastSync,
        ((loadConfiguration noExportRuntime initialState).run
          (deviceHandler (serverNet sampleOrigin)) firstTimeWorld).2.2
          = before ++ [.storageRemove ["passphrase"], .sendMessage status lastSync]) ∧
     (∀ op ∈ ((loadConfiguration noExportRuntime initialState).run
          (deviceHandler (serverNet sampleOrigin)) firstTimeWorld).2.2, ¬ writesPassphrase op) ∧
     (((loadConfiguration noExportRuntime initialState).run
          (deviceHandler (serverNet sampleOrigin)) firstTimeWorld).1
        = { lastSync := none, status := "Idle", serverUrl := some sampleOrigin,
            encryptionKey :=
              some { raw := textRuntime.textEncode "correct horse" ++ List.replicate 16 1 } } ∨
      ∃ e, ((loadConfiguration noExportRuntime initialState).run
          (deviceHandler (serverNet sampleOrigin)) firstTimeWorld).1
        = { lastSync := none, status := "Error: " ++ e, serverUrl := some sampleOrigin,
            encryptionKey := none })) ∧
    (firstTimeWorld.1.storage.passphrase = some "correct horse" ∧
      ((loadConfiguration noExportRuntime initialState).run
        (deviceHandler (serverNet sampleOrigin)) firstTimeWorld).2.1.1.storage.passphrase = none ∧
      ((loadConfiguration noExportRuntime initialState).run
        (deviceHandler (serverNet sampleOrigin)) firstTimeWorld).2.1.1.storage.cryptoKeyJWK = none) :=
  ⟨⟨rfl, by decide, by show @Eq (Except String (List Byte)) _ _; decide!,
     by show @Eq (Except String StorageItems) _ _; decide!, by decide, by decide!⟩,
   loadConfiguration_erases_passphrase noExportRuntime (deviceHandler (serverNet sampleOrigin))
     firstTimeWorld initialState { serverUrl := some sampleOrigin }
     { passphrase := some "correct horse" } (List.replicate 16 1)
     { raw := textRuntime.textEncode "correct horse" ++ List.replicate 16 1 }
     rfl (by decide) (by show @Eq (Except String (List Byte)) _ _; decide!)
     (by show @Eq (Except String StorageItems) _ _; decide!) (by decide) (by decide!),
   by decide!⟩

/-! ### The salt bootstrap -/

theorem fetchSaltFromServer_found {ω : Type} (h : Handler ω) (w : ω) (syncState : SyncState)
    (serverUrl : String) (response : HttpResponse) (data : RespJson) (salt : String)
    (hurl : syncState.serverUrl = some serverUrl) (htruthy : truthy serverUrl = true)
    (hfetch : (h (.fetch { method := "GET", url := stripTrailingSlashes serverUrl ++ "/sync/salt",
                           body := .invalid }) w).1 = .ok response)
    (hstatus : response.status ≠ 404) (hok : response.ok = true)
    (hjson : response.json = .ok data) (hsalt : data.salt = some salt)
    (hnonempty : truthy salt = true) :
    (fetchSaltFromServer syncState).run h w
      = (.ok (some salt),
         (h (.fetch { method := "GET", url := stripTrailingSlashes serverUrl ++ "/sync/salt",
                      body := .invalid }) w).2,
         [.fetch { method := "GET", url := stripTrailingSlashes serverUrl ++ "/sync/salt",
                   body := .invalid }]) := by
  unfold fetchSaltFromServer
  simp only [hurl, htruthy, Bool.not_true, Bool.false_eq_true, if_false]
  rw [Prog.run_bind, Prog.run_perform]
  simp only [hfetch, hstatus, hok, hjson, hsalt, optTruthy, hnonempty, Bool.not_true,
    Bool.false_eq_true, if_false, Prog.run_pure, List.append_nil]

theorem fetchSaltFromServer_absent {ω : Type} (h : Handler ω) (w : ω) (syncState : SyncState)
    (serverUrl : String) (response : HttpResponse)
    (hurl : syncState.serverUrl = some serverUrl) (htruthy : truthy serverUrl = true)
    (hfetch : (h (.fetch { method := "GET", url := stripTrailingSlashes serverUrl ++ "/sync/salt",
                           body := .invalid }) w).1 = .ok response)
    (hstatus : response.status = 404) :
    (fetchSaltFromServer syncState).run h w
      = (.ok none,
         (h (.fetch { method := "GET", url := stripTrailingSlashes serverUrl ++ "/sync/salt",
                      body := .invalid }) w).2,
         [.fetch { method := "GET", url := stripTrailingSlashes serverUrl ++ "/sync/salt",
                   body := .invalid }]) := by
  unfold fetchSaltFromServer
  simp only [hurl, htruthy, Bool.not_true, Bool.false_eq_true, if_false]
  rw [Prog.run_bind, Prog.run_perform]
  simp only [hfetch, hstatus, if_true, Prog.run_pure, List.append_nil]

theorem uploadSaltToServer_conflict {ω : Type} (h : Handler ω) (w : ω) (syncState : SyncState)
    (serverUrl saltBase64 : String) (response : HttpResponse)
    (hurl : syncState.serverUrl = some serverUrl) (htruthy : truthy serverUrl = true)
    (hfetch : (h (.fetch { method := "POST", url := stripTrailingSlashes serverUrl ++ "/sync/salt",
                           body := .object (.str saltBase64) .absent .absent }) w).1 = .ok response)
    (hstatus : response.status = 409) :
    (uploadSaltToServer syncState saltBase64 false).run h w
      = (.ok false,
         (h (.fetch { method := "POST", url := stripTrailingSlashes serverUrl ++ "/sync/salt",
                      body := .object (.str saltBase64) .absent .absent }) w).2,
         [.fetch { method := "POST", url := stripTrailingSlashes serverUrl ++ "/sync/salt",
                   body := .object (.str saltBase64) .absent .absent }]) := by
  unfold uploadSaltToServer
  simp only [hurl, htruthy, Bool.not_true, Bool.false_eq_true, if_false]
  rw [show (stripTrailingSlashes serverUrl ++ "/sync/salt"
      ++ (if false = true then "?force=true" else ""))
    = stripTrailingSlashes serverUrl ++ "/sync/salt" from by simp]
  rw [Prog.run_bind, Prog.run_perform]
  simp only [hfetch, hstatus, Bool.not_false, Bool.true_and, decide_True, if_true, Prog.run_pure,
    List.append_nil]

theorem loadConfiguration_after_bootstrap {P ω : Type} (R : Runtime P) (h : Handler ω) (w : ω)
    (syncState : SyncState) (result : StorageItems)
    (hget : (h (.storageGet ["serverUrl", SALT_STORAGE_KEY]) w).1 = .ok result)
    (hurl : optTruthy result.serverUrl = true) :
    (∀ saltToUse,
      ((saltBootstrap { lastSync := syncState.lastSync, status := syncState.status,
                        serverUrl := result.serverUrl, encryptionKey := none }
          result.cryptoSalt).run h (h (.storageGet ["serverUrl", SALT_STORAGE_KEY]) w).2).1
        = .ok saltToUse →
      ∃ tail, ((loadConfiguration R syncState).run h w).2.2
          = Op.storageGet ["serverUrl", SALT_STORAGE_KEY]
            :: (((saltBootstrap { lastSync := syncState.lastSync, status := syncState.status,
                                  serverUrl := result.serverUrl, encryptionKey := none }
                    result.cryptoSalt).run h
                  (h (.storageGet ["serverUrl", SALT_STORAGE_KEY]) w).2).2.2
                ++ (((keySetup R { lastSync := syncState.lastSync, status := syncState.status,
                                   serverUrl := result.serverUrl, encryptionKey := none }
                       saltToUse).run h
                     ((saltBootstrap { lastSync := syncState.lastSync, status := syncState.status,
                                       serverUrl := result.serverUrl, encryptionKey := none }
                         result.cryptoSalt).run h
                       (h (.storageGet ["serverUrl", SALT_STORAGE_KEY]) w).2).2.1).2.2
                    ++ tail)) ∧
        ∀ op ∈ tail, ¬ writesPassphrase op ∧ ¬ writesSalt op ∧ ¬ isFetch op) ∧
    (∀ e,
      ((saltBootstrap { lastSync := syncState.lastSync, status := syncState.status,
                        serverUrl := result.serverUrl, encryptionKey := none }
          result.cryptoSalt).run h (h (.storageGet ["serverUrl", SALT_STORAGE_KEY]) w).2).1
        = .error e →
      ((loadConfiguration R syncState).run h w).1
        = { lastSync := syncState.lastSync, status := "Error: " ++ e,
            serverUrl := result.serverUrl, encryptionKey := none } ∧
      ((loadConfiguration R syncState).run h w).2.2
        = Op.storageGet ["serverUrl", SALT_STORAGE_KEY]
          :: (((saltBootstrap { lastSync := syncState.lastSync, status := syncState.status,
                                serverUrl := result.serverUrl, encryptionKey := none }
                  result.cryptoSalt).run h
                (h (.storageGet ["serverUrl", SALT_STORAGE_KEY]) w).2).2.2
              ++ [.sendMessage ("Error: " ++ e) syncState.lastSync])) := by
  constructor
  · intro saltToUse hsalt
    unfold loadConfiguration
    rw [Prog.run_bind, Prog.run_perform]
    simp only [hget, hurl, Bool.not_true, Bool.false_eq_true, if_false]
    rw [Prog.run_bind]
    simp only [hsalt]
    rw [Prog.run_bind]
    refine ⟨_, rfl, ?_⟩
    intro op hop
    split at hop
    · exact (loadConfigurationFailed_onlyOps _ _).trace h _ op hop
    · simp [Prog.run_pure] at hop
  · intro e hsalt
    unfold loadConfiguration
    rw [Prog.run_bind, Prog.run_perform]
    simp only [hget, hurl, Bool.not_true, Bool.false_eq_true, if_false]
    rw [Prog.run_bind]
    simp only [hsalt]
    unfold loadConfigurationFailed
    simp only
    rw [Prog.run_bind, run_sendStatusUpdateToPopup]
    simp only [Prog.run_pure, List.append_nil, List.singleton_append, and_self]

theorem saltBootstrap_remote_found {ω : Type} (h : Handler ω) (w : ω) (syncState : SyncState)
    (localSaltBase64 : Option String) (serverUrl : String) (response : HttpResponse)
    (data : RespJson) (fetchedSaltBase64 : String) (saltToUse : List Byte)
    (hurl : syncState.serverUrl = some serverUrl) (htruthy : truthy serverUrl = true)
    (hfetch : (h (.fetch { method := "GET", url := stripTrailingSlashes serverUrl ++ "/sync/salt",
                           body := .invalid }) w).1 = .ok response)
    (hstatus : response.status ≠ 404) (hok : response.ok = true)
    (hjson : response.json = .ok data) (hsalt : data.salt = some fetchedSaltBase64)
    (hnonempty : truthy fetchedSaltBase64 = true)
    (hdecode : base64ToBuffer fetchedSaltBase64 = .ok saltToUse) :
    ((saltBootstrap syncState localSaltBase64).run h w).2.2
      = Op.fetch { method := "GET", url := stripTrailingSlashes serverUrl ++ "/sync/salt",
                   body := .invalid }
        :: (if some fetchedSaltBase64 ≠ localSaltBase64
            then [.storageSet { cryptoSalt := some fetchedSaltBase64 }] else []) ∧
    (localSaltBase64 = some fetchedSaltBase64 →
      ((saltBootstrap syncState localSaltBase64).run h w).1 = .ok saltToUse) ∧
    (localSaltBase64 ≠ some fetchedSaltBase64 →
      ((saltBootstrap syncState localSaltBase64).run h w).1
        = match (h (.storageSet { cryptoSalt := some fetchedSaltBase64 })
                  (h (.fetch { method := "GET",
                               url := stripTrailingSlashes serverUrl ++ "/sync/salt",
                               body := .invalid }) w).2).1 with
          | .ok _ => .ok saltToUse
          | .error e => .error e) := by
  have hfound := fetchSaltFromServer_found h w syncState serverUrl response data fetchedSaltBase64
    hurl htruthy hfetch hstatus hok hjson hsalt hnonempty
  unfold saltBootstrap
  rw [Prog.run_bind, hfound]
  simp only [optTruthy, hnonempty, if_true, Option.getD_some, hdecode]
  by_cases hsame : some fetchedSaltBase64 = localSaltBase64
  · simp [hsame, Prog.run_pure]
  · simp only [ne_eq, hsame, not_false_eq_true, if_true]
    rw [Prog.run_bind, Prog.run_perform]
    simp only
    refine ⟨?_, fun heq => absurd heq.symm hsame, fun _ => ?_⟩
    · cases (h (.storageSet { cryptoSalt := some fetchedSaltBase64 })
          (h (.fetch { method := "GET", url := stripTrailingSlashes serverUrl ++ "/sync/salt",
                       body := .invalid }) w).2).1 <;> rfl
    · cases (h (.storageSet { cryptoSalt := some fetchedSaltBase64 })
          (h (.fetch { method := "GET", url := stripTrailingSlashes serverUrl ++ "/sync/salt",
                       body := .invalid }) w).2).1 <;> rfl

/-- C18: the remote salt is authoritative. In a run of `loadConfiguration` in which the
configuration was read with a server URL and `GET /sync/salt` is answered with a salt that
decodes, whatever the cached salt and whatever the collaborators answer: the only call of
`fetch` in the run is that `GET`, so no upload is attempted; the cache of the salt is written
only when it differs from the fetched salt, and then with the fetched salt, right after the
fetch; and when that write is not rejected the bootstrap yields the decoding of the fetched
salt, which is the salt the key setup is run with. -/
theorem loadConfiguration_remote_salt_authoritative {P ω : Type} (R : Runtime P) (h : Handler ω)
    (w : ω) (syncState : SyncState) (result : StorageItems) (serverUrl : String)
    (response : HttpResponse) (data : RespJson) (fetchedSaltBase64 : String)
    (saltToUse : List Byte)
    (hget : (h (.storageGet ["serverUrl", SALT_STORAGE_KEY]) w).1 = .ok result)
    (hurl : result.serverUrl = some serverUrl) (htruthy : truthy serverUrl = true)
    (hfetch : (h (.fetch { method := "GET", url := stripTrailingSlashes serverUrl ++ "/sync/salt",
                           body := .invalid })
                (h (.storageGet ["serverUrl", SALT_STORAGE_KEY]) w).2).1 = .ok response)
    (hstatus : response.status ≠ 404) (hok : response.ok = true)
    (hjson : response.json = .ok data) (hsalt : data.salt = some fetchedSaltBase64)
    (hnonempty : truthy fetchedSaltBase64 = true)
    (hdecode : base64ToBuffer fetchedSaltBase64 = .ok saltToUse) :
    let configured : SyncState :=
      { lastSync := syncState.lastSync, status := syncState.status,
        serverUrl := result.serverUrl, encryptionKey := none }
    let fetchSalt : Op :=
      .fetch { method := "GET", url := stripTrailingSlashes serverUrl ++ "/sync/salt",
               body := .invalid }
    let bootstrap := (saltBootstrap configured result.cryptoSalt).run h
      (h (.storageGet ["serverUrl", SALT_STORAGE_KEY]) w).2
    let run := (loadConfiguration R syncState).run h w
    (∃ rest, run.2.2
        = Op.storageGet ["serverUrl", SALT_STORAGE_KEY] :: fetchSalt
          :: ((if some fetchedSaltBase64 ≠ result.cryptoSalt
               then [.storageSet { cryptoSalt := some fetchedSaltBase64 }] else []) ++ rest) ∧
      ∀ op ∈ rest, ¬ writesSalt op ∧ ¬ isFetch op) ∧
    ((result.cryptoSalt = some fetchedSaltBase64 ∨
        (h (.storageSet { cryptoSalt := some fetchedSaltBase64 })
          (h fetchSalt (h (.storageGet ["serverUrl", SALT_STORAGE_KEY]) w).2).2).1 = .ok ()) →
      bootstrap.1 = .ok saltToUse ∧
      ∃ tail, run.2.2
        = Op.storageGet ["serverUrl", SALT_STORAGE_KEY]
          :: (bootstrap.2.2 ++ (((keySetup R configured saltToUse).run h bootstrap.2.1).2.2 ++ tail))) := by
  intro configured fetchSalt bootstrap run
  have hopt : optTruthy result.serverUrl = true := by
    rw [hurl]
    exact htruthy
  obtain ⟨htrace, hsame, hdiffer⟩ := saltBootstrap_remote_found h
    (h (.storageGet ["serverUrl", SALT_STORAGE_KEY]) w).2 configured result.cryptoSalt serverUrl
    response data fetchedSaltBase64 saltToUse hurl htruthy hfetch hstatus hok hjson hsalt
    hnonempty hdecode
  obtain ⟨hafter, hfailed⟩ := loadConfiguration_after_bootstrap R h w syncState result hget hopt
  constructor
  · cases hboot : bootstrap.1 with
    | error e =>
      refine ⟨[.sendMessage ("Error: " ++ e) syncState.lastSync], ?_, ?_⟩
      · simp only [run]
        rw [(hfailed e hboot).2, htrace]
        simp
      · intro op hop
        rw [List.mem_singleton] at hop
        subst hop
        simp [writesSalt, isFetch]
    | ok salt =>
      obtain ⟨tail, hrun, htail⟩ := hafter salt hboot
      refine ⟨((keySetup R configured salt).run h bootstrap.2.1).2.2 ++ tail, ?_, ?_⟩
      · simp only [run]
        rw [hrun, htrace]
        simp
      · intro op hop
        rcases List.mem_append.mp hop with hop | hop
        · exact ((keySetup_onlyOps R configured salt).trace h _ op hop).2
        · exact (htail op hop).2
  · intro hwritten
    have hboot : bootstrap.1 = .ok saltToUse := by
      by_cases hsameSalt : result.cryptoSalt = some fetchedSaltBase64
      · exact hsame hsameSalt
      · rcases hwritten with hw | hw
        · exact absurd hw hsameSalt
        · simp only [bootstrap]
          rw [hdiffer hsameSalt]
          simp only [fetchSalt] at hw
          rw [hw]
    obtain ⟨tail, hrun, _⟩ := hafter saltToUse hboot
    exact ⟨hboot, tail, hrun⟩

/-- Witness of C18: a profile whose cached salt differs from the salt of the server; after
the run the cache holds the salt of the server and the key is derived from its decoding. -/
theorem loadConfiguration_remote_salt_authoritative_witness :
    (((deviceHandler (serverNet sampleOrigin)) (.storageGet ["serverUrl", SALT_STORAGE_KEY])
          staleSaltWorld).1 = .ok { serverUrl := some sampleOrigin, cryptoSalt := some "AQID" } ∧
      truthy sampleOrigin = true ∧
      ((deviceHandler (serverNet sampleOrigin))
          (.fetch { method := "GET", url := stripTrailingSlashes sampleOrigin ++ "/sync/salt",
                    body := .invalid })
          ((deviceHandler (serverNet sampleOrigin)) (.storageGet ["serverUrl", SALT_STORAGE_KEY])
            staleSaltWorld).2).1
        = .ok { status := 200, statusText := "", json := .ok { salt := some "c2FsdA==" } } ∧
      (200 : Nat) ≠ 404 ∧
      ({ status := 200, statusText := "", json := .ok { salt := some "c2FsdA==" } } :
        HttpResponse).ok = true ∧
      truthy "c2FsdA==" = true ∧
      base64ToBuffer "c2FsdA==" = .ok [115, 97, 108, 116]) ∧
    ((∃ rest, ((loadConfiguration textRuntime initialState).run
          (deviceHandler (serverNet sampleOrigin)) staleSaltWorld).2.2
        = Op.storageGet ["serverUrl", SALT_STORAGE_KEY]
          :: Op.fetch { method := "GET", url := stripTrailingSlashes sampleOrigin ++ "/sync/salt",
                        body := .invalid }
          :: ((if some "c2FsdA==" ≠ (some "AQID" : Option String)
               then [.storageSet { cryptoSalt := some "c2FsdA==" }] else []) ++ rest) ∧
      ∀ op ∈ rest, ¬ writesSalt op ∧ ¬ isFetch op) ∧
     (((some "AQID" : Option String) = some "c2FsdA==" ∨
        ((deviceHandler (serverNet sampleOrigin)) (.storageSet { cryptoSalt := some "c2FsdA==" })
          ((deviceHandler (serverNet sampleOrigin))
            (.fetch { method := "GET", url := stripTrailingSlashes sampleOrigin ++ "/sync/salt",
                      body := .invalid })
            ((deviceHandler (serverNet sampleOrigin))
              (.storageGet ["serverUrl", SALT_STORAGE_KEY]) staleSaltWorld).2).2).1 = .ok ()) →
      ((saltBootstrap { lastSync := none, status := "Idle", serverUrl := some sampleOrigin,
                        encryptionKey := none } (some "AQID")).run
          (deviceHandler (serverNet sampleOrigin))
          ((deviceHandler (serverNet sampleOrigin)) (.storageGet ["serverUrl", SALT_STORAGE_KEY])
            staleSaltWorld).2).1 = .ok [115, 97, 108, 116] ∧
      ∃ tail, ((loadConfiguration textRuntime initialState).run
          (deviceHandler (serverNet sampleOrigin)) staleSaltWorld).2.2
        = Op.storageGet ["serverUrl", SALT_STORAGE_KEY]
          :: (((saltBootstrap { lastSync := none, status := "Idle",
                                serverUrl := some sampleOrigin, encryptionKey := none }
                  (some "AQID")).run (deviceHandler (serverNet sampleOrigin))
                ((deviceHandler (serverNet sampleOrigin))
                  (.storageGet ["serverUrl", SALT_STORAGE_KEY]) staleSaltWorld).2).2.2
              ++ (((keySetup textRuntime
                      { lastSync := none, status := "Idle", serverUrl := some sampleOrigin,
                        encryptionKey := none } [115, 97, 108, 116]).run
                    (deviceHandler (serverNet sampleOrigin))
                    ((saltBootstrap { lastSync := none, status := "Idle",
                                      serverUrl := some sampleOrigin, encryptionKey := none }
                        (some "AQID")).run (deviceHandler (serverNet sampleOrigin))
                      ((deviceHandler (serverNet sampleOrigin))
                        (.storageGet ["serverUrl", SALT_STORAGE_KEY])
                        staleSaltWorld).2).2.1).2.2 ++ tail)))) ∧
    (((loadConfiguration textRuntime initialState).run
        (deviceHandler (serverNet sampleOrigin)) staleSaltWorld).2.1.1.storage.cryptoSalt
      = some "c2FsdA==" ∧
     ((loadConfiguration textRuntime initialState).run
        (deviceHandler (serverNet sampleOrigin)) staleSaltWorld).1.encryptionKey
      = (deriveEncryptionKey textRuntime "correct horse" [115, 97, 108, 116]).toOption) :=
  ⟨⟨rfl, by decide, by show @Eq (Except String HttpResponse) _ _; decide!, by decide, by decide,
     by decide, by decide!⟩,
   loadConfiguration_remote_salt_authoritative textRuntime (deviceHandler (serverNet sampleOrigin))
     staleSaltWorld initialState { serverUrl := some sampleOrigin, cryptoSalt := some "AQID" }
     sampleOrigin { status := 200, statusText := "", json := .ok { salt := some "c2FsdA==" } }
     { salt := some "c2FsdA==" } "c2FsdA==" [115, 97, 108, 116]
     rfl rfl (by decide) (by show @Eq (Except String HttpResponse) _ _; decide!) (by decide)
     (by decide) rfl rfl (by decide) (by decide!),
   by decide!⟩

theorem resolveSaltConflict_found {ω : Type} (h : Handler ω) (w : ω) (syncState : SyncState)
    (message serverUrl : String) (response : HttpResponse) (data : RespJson)
    (fetchedSaltBase64 : String) (saltToUse : List Byte)
    (hurl : syncState.serverUrl = some serverUrl) (htruthy : truthy serverUrl = true)
    (hfetch : (h (.fetch { method := "GET", url := stripTrailingSlashes serverUrl ++ "/sync/salt",
                           body := .invalid }) w).1 = .ok response)
    (hstatus : response.status ≠ 404) (hok : response.ok = true)
    (hjson : response.json = .ok data) (hsalt : data.salt = some fetchedSaltBase64)
    (hnonempty : truthy fetchedSaltBase64 = true)
    (hdecode : base64ToBuffer fetchedSaltBase64 = .ok saltToUse) :
    (resolveSaltConflict syncState message).run h w
      = ((match (h (.storageSet { cryptoSalt := some fetchedSaltBase64 })
                  (h (.fetch { method := "GET",
                               url := stripTrailingSlashes serverUrl ++ "/sync/salt",
                               body := .invalid }) w).2).1 with
          | .ok _ => .ok saltToUse
          | .error e => .error e),
         (h (.storageSet { cryptoSalt := some fetchedSaltBase64 })
           (h (.fetch { method := "GET", url := stripTrailingSlashes serverUrl ++ "/sync/salt",
                        body := .invalid }) w).2).2,
         [.fetch { method := "GET", url := stripTrailingSlashes serverUrl ++ "/sync/salt",
                   body := .invalid },
          .storageSet { cryptoSalt := some fetchedSaltBase64 }]) := by
  have hfound := fetchSaltFromServer_found h w syncState serverUrl response data fetchedSaltBase64
    hurl htruthy hfetch hstatus hok hjson hsalt hnonempty
  unfold resolveSaltConflict
  rw [Prog.run_bind, hfound]
  simp only [optTruthy, hnonempty, if_true, Option.getD_some, hdecode]
  rw [Prog.run_bind, Prog.run_perform]
  simp only
  cases (h (.storageSet { cryptoSalt := some fetchedSaltBase64 })
      (h (.fetch { method := "GET", url := stripTrailingSlashes serverUrl ++ "/sync/salt",
                   body := .invalid }) w).2).1 <;> rfl

theorem resolveSaltConflict_absent {ω : Type} (h : Handler ω) (w : ω) (syncState : SyncState)
    (message serverUrl : String) (response : HttpResponse)
    (hurl : syncState.serverUrl = some serverUrl) (htruthy : truthy serverUrl = true)
    (hfetch : (h (.fetch { method := "GET", url := stripTrailingSlashes serverUrl ++ "/sync/salt",
                           body := .invalid }) w).1 = .ok response)
    (hstatus : response.status = 404) :
    (resolveSaltConflict syncState message).run h w
      = (.error message,
         (h (.fetch { method := "GET", url := stripTrailingSlashes serverUrl ++ "/sync/salt",
                      body := .invalid }) w).2,
         [.fetch { method := "GET", url := stripTrailingSlashes serverUrl ++ "/sync/salt",
                   body := .invalid }]) := by
  have habsent := fetchSaltFromServer_absent h w syncState serverUrl response hurl htruthy hfetch
    hstatus
  unfold resolveSaltConflict
  rw [Prog.run_bind, habsent]
  simp only [optTruthy, Bool.false_eq_true, if_false, Prog.run_pure, List.append_nil]

theorem saltBootstrap_cached_conflict {ω : Type} (h : Handler ω) (w : ω) (syncState : SyncState)
    (serverUrl localSaltBase64 : String) (notFound conflict : HttpResponse) (cached : List Byte)
    (hurl : syncState.serverUrl = some serverUrl) (htruthy : truthy serverUrl = true)
    (hfirst : (h (.fetch { method := "GET", url := stripTrailingSlashes serverUrl ++ "/sync/salt",
                           body := .invalid }) w).1 = .ok notFound)
    (h404 : notFound.status = 404)
    (hlocal : truthy localSaltBase64 = true)
    (hdecode : base64ToBuffer localSaltBase64 = .ok cached)
    (hupload : (h (.fetch { method := "POST", url := stripTrailingSlashes serverUrl ++ "/sync/salt",
                            body := .object (.str localSaltBase64) .absent .absent })
                 (h (.fetch { method := "GET",
                              url := stripTrailingSlashes serverUrl ++ "/sync/salt",
                              body := .invalid }) w).2).1 = .ok conflict)
    (h409 : conflict.status = 409) :
    (saltBootstrap syncState (some localSaltBase64)).run h w
      = (((resolveSaltConflict syncState
              "Failed to resolve salt conflict: Could not fetch salt after 409.").run h
            (h (.fetch { method := "POST", url := stripTrailingSlashes serverUrl ++ "/sync/salt",
                         body := .object (.str localSaltBase64) .absent .absent })
              (h (.fetch { method := "GET",
                           url := stripTrailingSlashes serverUrl ++ "/sync/salt",
                           body := .invalid }) w).2).2).1,
         ((resolveSaltConflict syncState
              "Failed to resolve salt conflict: Could not fetch salt after 409.").run h
            (h (.fetch { method := "POST", url := stripTrailingSlashes serverUrl ++ "/sync/salt",
                         body := .object (.str localSaltBase64) .absent .absent })
              (h (.fetch { method := "GET",
                           url := stripTrailingSlashes serverUrl ++ "/sync/salt",
                           body := .invalid }) w).2).2).2.1,
         Op.fetch { method := "GET", url := stripTrailingSlashes serverUrl ++ "/sync/salt",
                    body := .invalid }
           :: Op.fetch { method := "POST", url := stripTrailingSlashes serverUrl ++ "/sync/salt",
                         body := .object (.str localSaltBase64) .absent .absent }
           :: ((resolveSaltConflict syncState
                  "Failed to resolve salt conflict: Could not fetch salt after 409.").run h
                (h (.fetch { method := "POST",
                             url := stripTrailingSlashes serverUrl ++ "/sync/salt",
                             body := .object (.str localSaltBase64) .absent .absent })
                  (h (.fetch { method := "GET",
                               url := stripTrailingSlashes serverUrl ++ "/sync/salt",
                               body := .invalid }) w).2).2).2.2) := by
  have habsent := fetchSaltFromServer_absent h w syncState serverUrl notFound hurl htruthy hfirst
    h404
  have hconflict := uploadSaltToServer_conflict h
    (h (.fetch { method := "GET", url := stripTrailingSlashes serverUrl ++ "/sync/salt",
                 body := .invalid }) w).2 syncState serverUrl localSaltBase64 conflict hurl
    htruthy hupload h409
  unfold saltBootstrap
  rw [Prog.run_bind, habsent]
  simp only [optTruthy, hlocal, Bool.false_eq_true, if_false, if_true, Option.getD_some, hdecode]
  rw [Prog.run_bind, hconflict]
  rfl

theorem saltBootstrap_generated_conflict {ω : Type} (h : Handler ω) (w : ω)
    (syncState : SyncState) (localSaltBase64 : Option String) (serverUrl newSaltBase64 : String)
    (notFound conflict : HttpResponse)
    (hurl : syncState.serverUrl = some serverUrl) (htruthy : truthy serverUrl = true)
    (hfirst : (h (.fetch { method := "GET", url := stripTrailingSlashes serverUrl ++ "/sync/salt",
                           body := .invalid }) w).1 = .ok notFound)
    (h404 : notFound.status = 404)
    (hlocal : optTruthy localSaltBase64 = false)
    (hnew : bufferToBase64 (List.ofFn (h (.getRandomValues 16)
              (h (.fetch { method := "GET",
                           url := stripTrailingSlashes serverUrl ++ "/sync/salt",
                           body := .invalid }) w).2).1) = .ok newSaltBase64)
    (hstored : (h (.storageSet { cryptoSalt := some newSaltBase64 })
                 (h (.getRandomValues 16)
                   (h (.fetch { method := "GET",
                                url := stripTrailingSlashes serverUrl ++ "/sync/salt",
                                body := .invalid }) w).2).2).1 = .ok ())
    (hupload : (h (.fetch { method := "POST", url := stripTrailingSlashes serverUrl ++ "/sync/salt",
                            body := .object (.str newSaltBase64) .absent .absent })
                 (h (.storageSet { cryptoSalt := some newSaltBase64 })
                   (h (.getRandomValues 16)
                     (h (.fetch { method := "GET",
                                  url := stripTrailingSlashes serverUrl ++ "/sync/salt",
                                  body := .invalid }) w).2).2).2).1 = .ok conflict)
    (h409 : conflict.status = 409) :
    (saltBootstrap syncState localSaltBase64).run h w
      = (((resolveSaltConflict syncState
              "Failed to resolve salt conflict: Could not fetch salt after 409 on initial upload.").run
            h
            (h (.fetch { method := "POST", url := stripTrailingSlashes serverUrl ++ "/sync/salt",
                         body := .object (.str newSaltBase64) .absent .absent })
              (h (.storageSet { cryptoSalt := some newSaltBase64 })
                (h (.getRandomValues 16)
                  (h (.fetch { method := "GET",
                               url := stripTrailingSlashes serverUrl ++ "/sync/salt",
                               body := .invalid }) w).2).2).2).2).1,
         ((resolveSaltConflict syncState
              "Failed to resolve salt conflict: Could not fetch salt after 409 on initial upload.").run
            h
            (h (.fetch { method := "POST", url := stripTrailingSlashes serverUrl ++ "/sync/salt",
                         body := .object (.str newSaltBase64) .absent .absent })
              (h (.storageSet { cryptoSalt := some newSaltBase64 })
                (h (.getRandomValues 16)
                  (h (.fetch { method := "GET",
                               url := stripTrailingSlashes serverUrl ++ "/sync/salt",
                               body := .invalid }) w).2).2).2).2).2.1,
         Op.fetch { method := "GET", url := stripTrailingSlashes serverUrl ++ "/sync/salt",
                    body := .invalid }
           :: Op.getRandomValues 16
           :: Op.storageSet { cryptoSalt := some newSaltBase64 }
           :: Op.fetch { method := "POST", url := stripTrailingSlashes serverUrl ++ "/sync/salt",
                         body := .object (.str newSaltBase64) .absent .absent }
           :: ((resolveSaltConflict syncState
                  "Failed to resolve salt conflict: Could not fetch salt after 409 on initial upload.").run
                h
                (h (.fetch { method := "POST",
                             url := stripTrailingSlashes serverUrl ++ "/sync/salt",
                             body := .object (.str newSaltBase64) .absent .absent })
                  (h (.storageSet { cryptoSalt := some newSaltBase64 })
                    (h (.getRandomValues 16)
                      (h (.fetch { method := "GET",
                                   url := stripTrailingSlashes serverUrl ++ "/sync/salt",
                                   body := .invalid }) w).2).2).2).2).2.2) := by
  have habsent := fetchSaltFromServer_absent h w syncState serverUrl notFound hurl htruthy hfirst
    h404
  have hconflict := uploadSaltToServer_conflict h
    (h (.storageSet { cryptoSalt := some newSaltBase64 })
      (h (.getRandomValues 16)
        (h (.fetch { method := "GET", url := stripTrailingSlashes serverUrl ++ "/sync/salt",
                     body := .invalid }) w).2).2).2 syncState serverUrl newSaltBase64 conflict hurl
    htruthy hupload h409
  unfold saltBootstrap
  rw [Prog.run_bind, habsent]
  simp only [hlocal, show optTruthy (none : Option String) = false from rfl, Bool.false_eq_true,
    if_false]
  rw [Prog.run_bind, Prog.run_perform]
  simp only [hnew]
  rw [Prog.run_bind, Prog.run_perform]
  simp only [hstored]
  rw [Prog.run_bind, hconflict]
  rfl

theorem salt_conflict_recovered {P ω : Type} (R : Runtime P) (h : Handler ω) (w : ω)
    (syncState : SyncState) (result : StorageItems) (serverUrl : String) (issued : List Op)
    (afterUpload : ω) (message : String)
    (hget : (h (.storageGet ["serverUrl", SALT_STORAGE_KEY]) w).1 = .ok result)
    (hurl : result.serverUrl = some serverUrl) (htruthy : truthy serverUrl = true)
    (hbootstrap :
      (saltBootstrap { lastSync := syncState.lastSync, status := syncState.status,
                       serverUrl := result.serverUrl, encryptionKey := none }
          result.cryptoSalt).run h (h (.storageGet ["serverUrl", SALT_STORAGE_KEY]) w).2
        = (((resolveSaltConflict { lastSync := syncState.lastSync, status := syncState.status,
                                   serverUrl := result.serverUrl, encryptionKey := none }
                message).run h afterUpload).1,
           ((resolveSaltConflict { lastSync := syncState.lastSync, status := syncState.status,
                                   serverUrl := result.serverUrl, encryptionKey := none }
                message).run h afterUpload).2.1,
           Op.fetch { method := "GET", url := stripTrailingSlashes serverUrl ++ "/sync/salt",
                      body := .invalid }
             :: (issued ++
                  ((resolveSaltConflict { lastSync := syncState.lastSync,
                                          status := syncState.status,
                                          serverUrl := result.serverUrl, encryptionKey := none }
                      message).run h afterUpload).2.2))) :
    (∀ found data fetchedSaltBase64 saltToUse,
      (h (.fetch { method := "GET", url := stripTrailingSlashes serverUrl ++ "/sync/salt",
                   body := .invalid }) afterUpload).1 = .ok found →
      found.status ≠ 404 → found.ok = true → found.json = .ok data →
      data.salt = some fetchedSaltBase64 → truthy fetchedSaltBase64 = true →
      base64ToBuffer fetchedSaltBase64 = .ok saltToUse →
      ((saltBootstrap { lastSync := syncState.lastSync, status := syncState.status,
                        serverUrl := result.serverUrl, encryptionKey := none }
          result.cryptoSalt).run h (h (.storageGet ["serverUrl", SALT_STORAGE_KEY]) w).2).2.2
        = Op.fetch { method := "GET", url := stripTrailingSlashes serverUrl ++ "/sync/salt",
                     body := .invalid }
          :: (issued ++
              [.fetch { method := "GET", url := stripTrailingSlashes serverUrl ++ "/sync/salt",
                        body := .invalid },
               .storageSet { cryptoSalt := some fetchedSaltBase64 }]) ∧
      ((h (.storageSet { cryptoSalt := some fetchedSaltBase64 })
          (h (.fetch { method := "GET", url := stripTrailingSlashes serverUrl ++ "/sync/salt",
                       body := .invalid }) afterUpload).2).1 = .ok () →
        ((saltBootstrap { lastSync := syncState.lastSync, status := syncState.status,
                          serverUrl := result.serverUrl, encryptionKey := none }
            result.cryptoSalt).run h (h (.storageGet ["serverUrl", SALT_STORAGE_KEY]) w).2).1
          = .ok saltToUse ∧
        ∃ rest, ((loadConfiguration R syncState).run h w).2.2
            = Op.storageGet ["serverUrl", SALT_STORAGE_KEY]
              :: (((saltBootstrap { lastSync := syncState.lastSync, status := syncState.status,
                                    serverUrl := result.serverUrl, encryptionKey := none }
                      result.cryptoSalt).run h
                    (h (.storageGet ["serverUrl", SALT_STORAGE_KEY]) w).2).2.2
                  ++ (((keySetup R { lastSync := syncState.lastSync, status := syncState.status,
                                     serverUrl := result.serverUrl, encryptionKey := none }
                         saltToUse).run h
                       ((saltBootstrap { lastSync := syncState.lastSync,
                                         status := syncState.status,
                                         serverUrl := result.serverUrl, encryptionKey := none }
                           result.cryptoSalt).run h
                         (h (.storageGet ["serverUrl", SALT_STORAGE_KEY]) w).2).2.1).2.2
                      ++ rest)) ∧
          ∀ op ∈ ((keySetup R { lastSync := syncState.lastSync, status := syncState.status,
                                serverUrl := result.serverUrl, encryptionKey := none }
                     saltToUse).run h
                   ((saltBootstrap { lastSync := syncState.lastSync, status := syncState.status,
                                     serverUrl := result.serverUrl, encryptionKey := none }
                       result.cryptoSalt).run h
                     (h (.storageGet ["serverUrl", SALT_STORAGE_KEY]) w).2).2.1).2.2 ++ rest,
            ¬ writesSalt op ∧ ¬ isFetch op)) ∧
    (∀ missing,
      (h (.fetch { method := "GET", url := stripTrailingSlashes serverUrl ++ "/sync/salt",
                   body := .invalid }) afterUpload).1 = .ok missing →
      missing.status = 404 →
      ((loadConfiguration R syncState).run h w).1
        = { lastSync := syncState.lastSync, status := "Error: " ++ message,
            serverUrl := result.serverUrl, encryptionKey := none }) := by
  have hopt : optTruthy result.serverUrl = true := by
    rw [hurl]
    exact htruthy
  obtain ⟨hafter, hfailed⟩ := loadConfiguration_after_bootstrap R h w syncState result hget hopt
  constructor
  · intro found data fetchedSaltBase64 saltToUse hfound hstatus hok hjson hsalt hnonempty hdecode
    have hresolve := resolveSaltConflict_found h afterUpload
      { lastSync := syncState.lastSync, status := syncState.status,
        serverUrl := result.serverUrl, encryptionKey := none }
      message serverUrl found data fetchedSaltBase64 saltToUse hurl htruthy hfound hstatus hok
      hjson hsalt hnonempty hdecode
    rw [hresolve] at hbootstrap
    refine ⟨by rw [hbootstrap], ?_⟩
    intro hstored
    have hboot : ((saltBootstrap { lastSync := syncState.lastSync, status := syncState.status,
                                   serverUrl := result.serverUrl, encryptionKey := none }
        result.cryptoSalt).run h (h (.storageGet ["serverUrl", SALT_STORAGE_KEY]) w).2).1
        = .ok saltToUse := by
      rw [hbootstrap]
      simp only [hstored]
    obtain ⟨rest, hrun, hrest⟩ := hafter saltToUse hboot
    refine ⟨hboot, rest, hrun, ?_⟩
    intro op hop
    rcases List.mem_append.mp hop with hop | hop
    · exact ((keySetup_onlyOps R _ saltToUse).trace h _ op hop).2
    · exact (hrest op hop).2
  · intro missing hmissing h404
    have hresolve := resolveSaltConflict_absent h afterUpload
      { lastSync := syncState.lastSync, status := syncState.status,
        serverUrl := result.serverUrl, encryptionKey := none }
      message serverUrl missing hurl htruthy hmissing h404
    rw [hresolve] at hbootstrap
    exact (hfailed message (by rw [hbootstrap])).1

/-- C19: recovery from a salt conflict. In a run of `loadConfiguration` in which the
configuration was read with a server URL and the first `GET /sync/salt` is answered 404, the
client uploads without force its cached salt or, when it has none, the base64 text of sixteen
bytes drawn from the random source, which it caches first. When that upload is answered 409
it fetches the salt again. If the refetch yields a salt that decodes, the cache is written with
that salt (the last write of the cache in the run, after the upload) and, when the write is not
rejected, the bootstrap yields its decoding, which is the salt the key setup is run with; no
further call of `fetch` follows. If the refetch is answered 404, the run ends with the status
`'Error: Failed to resolve salt conflict: ...'` and no key. -/
theorem loadConfiguration_salt_conflict_recovery {P ω : Type} (R : Runtime P) (h : Handler ω)
    (w : ω) (syncState : SyncState) (result : StorageItems) (serverUrl : String)
    (notFound : HttpResponse)
    (hget : (h (.storageGet ["serverUrl", SALT_STORAGE_KEY]) w).1 = .ok result)
    (hurl : result.serverUrl = some serverUrl) (htruthy : truthy serverUrl = true)
    (hfirst : (h (.fetch { method := "GET", url := stripTrailingSlashes serverUrl ++ "/sync/salt",
                           body := .invalid })
                (h (.storageGet ["serverUrl", SALT_STORAGE_KEY]) w).2).1 = .ok notFound)
    (h404 : notFound.status = 404) :
    let configured : SyncState :=
      { lastSync := syncState.lastSync, status := syncState.status,
        serverUrl := result.serverUrl, encryptionKey := none }
    let getSalt : Op :=
      .fetch { method := "GET", url := stripTrailingSlashes serverUrl ++ "/sync/salt",
               body := .invalid }
    let postSalt : String → Op := fun salt =>
      .fetch { method := "POST", url := stripTrailingSlashes serverUrl ++ "/sync/salt",
               body := .object (.str salt) .absent .absent }
    let afterFetch := (h getSalt (h (.storageGet ["serverUrl", SALT_STORAGE_KEY]) w).2).2
    let bootstrap := (saltBootstrap configured result.cryptoSalt).run h
      (h (.storageGet ["serverUrl", SALT_STORAGE_KEY]) w).2
    let run := (loadConfiguration R syncState).run h w
    let recovered : List Op → ω → String → Prop := fun issued afterUpload message =>
      (∀ found data fetchedSaltBase64 saltToUse,
        (h getSalt afterUpload).1 = .ok found → found.status ≠ 404 → found.ok = true →
        found.json = .ok data → data.salt = some fetchedSaltBase64 →
        truthy fetchedSaltBase64 = true → base64ToBuffer fetchedSaltBase64 = .ok saltToUse →
        bootstrap.2.2
          = getSalt :: (issued ++ [getSalt, .storageSet { cryptoSalt := some fetchedSaltBase64 }]) ∧
        ((h (.storageSet { cryptoSalt := some fetchedSaltBase64 })
            (h getSalt afterUpload).2).1 = .ok () →
          bootstrap.1 = .ok saltToUse ∧
          ∃ rest, run.2.2
              = Op.storageGet ["serverUrl", SALT_STORAGE_KEY]
                :: (bootstrap.2.2
                    ++ (((keySetup R configured saltToUse).run h bootstrap.2.1).2.2 ++ rest)) ∧
            ∀ op ∈ ((keySetup R configured saltToUse).run h bootstrap.2.1).2.2 ++ rest,
              ¬ writesSalt op ∧ ¬ isFetch op)) ∧
      (∀ missing, (h getSalt afterUpload).1 = .ok missing → missing.status = 404 →
        run.1 = { lastSync := syncState.lastSync, status := "Error: " ++ message,
                  serverUrl := result.serverUrl, encryptionKey := none })
    (∀ localSaltBase64 cached conflict,
      result.cryptoSalt = some localSaltBase64 → truthy localSaltBase64 = true →
      base64ToBuffer localSaltBase64 = .ok cached →
      (h (postSalt localSaltBase64) afterFetch).1 = .ok conflict → conflict.status = 409 →
      recovered [postSalt localSaltBase64] (h (postSalt localSaltBase64) afterFetch).2
        "Failed to resolve salt conflict: Could not fetch salt after 409.") ∧
    (∀ newSaltBase64 conflict,
      optTruthy result.cryptoSalt = false →
      bufferToBase64 (List.ofFn (h (.getRandomValues 16) afterFetch).1) = .ok newSaltBase64 →
      (h (.storageSet { cryptoSalt := some newSaltBase64 })
        (h (.getRandomValues 16) afterFetch).2).1 = .ok () →
      (h (postSalt newSaltBase64)
        (h (.storageSet { cryptoSalt := some newSaltBase64 })
          (h (.getRandomValues 16) afterFetch).2).2).1 = .ok conflict →
      conflict.status = 409 →
      recovered [.getRandomValues 16, .storageSet { cryptoSalt := some newSaltBase64 },
                 postSalt newSaltBase64]
        (h (postSalt newSaltBase64)
          (h (.storageSet { cryptoSalt := some newSaltBase64 })
            (h (.getRandomValues 16) afterFetch).2).2).2
        "Failed to resolve salt conflict: Could not fetch salt after 409 on initial upload.") := by
  intro configured getSalt postSalt afterFetch bootstrap run recovered
  constructor
  · intro localSaltBase64 cached conflict hsome hlocal hdecode hupload h409
    have hboot := saltBootstrap_cached_conflict h
      (h (.storageGet ["serverUrl", SALT_STORAGE_KEY]) w).2 configured serverUrl localSaltBase64
      notFound conflict cached hurl htruthy hfirst h404 hlocal hdecode hupload h409
    rw [← hsome] at hboot
    exact salt_conflict_recovered R h w syncState result serverUrl [postSalt localSaltBase64]
      (h (postSalt localSaltBase64) afterFetch).2
      "Failed to resolve salt conflict: Could not fetch salt after 409." hget hurl htruthy hboot
  · intro newSaltBase64 conflict hlocal hnew hstored hupload h409
    have hboot := saltBootstrap_generated_conflict h
      (h (.storageGet ["serverUrl", SALT_STORAGE_KEY]) w).2 configured result.cryptoSalt serverUrl
      newSaltBase64 notFound conflict hurl htruthy hfirst h404 hlocal hnew hstored hupload h409
    exact salt_conflict_recovered R h w syncState result serverUrl
      [.getRandomValues 16, .storageSet { cryptoSalt := some newSaltBase64 },
       postSalt newSaltBase64]
      (h (postSalt newSaltBase64)
        (h (.storageSet { cryptoSalt := some newSaltBase64 })
          (h (.getRandomValues 16) afterFetch).2).2).2
      "Failed to resolve salt conflict: Could not fetch salt after 409 on initial upload."
      hget hurl htruthy hboot

/-- Witness of C19: clients that are answered 404, then 409 to their upload. A client without
a cached salt whose refetch yields the salt `c2FsdA==` ends with that salt cached, not the
one it generated, and with the key derived from its decoding; a client with a cached salt
whose refetch is answered 404 ends with an error status and no key. -/
theorem loadConfiguration_salt_conflict_recovery_witness :
    (((deviceHandler scriptedNet) (.storageGet ["serverUrl", SALT_STORAGE_KEY])
          (profileWithSalt none, conflictScript)).1 = .ok { serverUrl := some sampleOrigin } ∧
      truthy sampleOrigin = true ∧
      ((deviceHandler scriptedNet)
          (.fetch { method := "GET", url := stripTrailingSlashes sampleOrigin ++ "/sync/salt",
                    body := .invalid })
          ((deviceHandler scriptedNet) (.storageGet ["serverUrl", SALT_STORAGE_KEY])
            (profileWithSalt none, conflictScript)).2).1
        = .ok (errorResponse "Salt not found" 404) ∧
      (errorResponse "Salt not found" 404).status = 404) ∧
    (((saltBootstrap { lastSync := none, status := "Idle", serverUrl := some sampleOrigin,
                       encryptionKey := none } none).run (deviceHandler scriptedNet)
          ((deviceHandler scriptedNet) (.storageGet ["serverUrl", SALT_STORAGE_KEY])
            (profileWithSalt none, conflictScript)).2).2.2
        = [.fetch { method := "GET", url := stripTrailingSlashes sampleOrigin ++ "/sync/salt",
                    body := .invalid },
           .getRandomValues 16,
           .storageSet { cryptoSalt := some "AQEBAQEBAQEBAQEBAQEBAQ==" },
           .fetch { method := "POST", url := stripTrailingSlashes sampleOrigin ++ "/sync/salt",
                    body := .object (.str "AQEBAQEBAQEBAQEBAQEBAQ==") .absent .absent },
           .fetch { method := "GET", url := stripTrailingSlashes sampleOrigin ++ "/sync/salt",
                    body := .invalid },
           .storageSet { cryptoSalt := some "c2FsdA==" }] ∧
     ((saltBootstrap { lastSync := none, status := "Idle", serverUrl := some sampleOrigin,
                       encryptionKey := none } none).run (deviceHandler scriptedNet)
          ((deviceHandler scriptedNet) (.storageGet ["serverUrl", SALT_STORAGE_KEY])
            (profileWithSalt none, conflictScript)).2).1 = .ok [115, 97, 108, 116]) ∧
    ((loadConfiguration textRuntime initialState).run (deviceHandler scriptedNet)
        (profileWithSalt (some "AQID"), lostSaltScript)).1
      = { lastSync := none,
          status := "Error: " ++ "Failed to resolve salt conflict: Could not fetch salt after 409.",
          serverUrl := some sampleOrigin, encryptionKey := none } ∧
    (((loadConfiguration textRuntime initialState).run (deviceHandler scriptedNet)
        (profileWithSalt none, conflictScript)).2.1.1.storage.cryptoSalt = some "c2FsdA==" ∧
     ((loadConfiguration textRuntime initialState).run (deviceHandler scriptedNet)
        (profileWithSalt none, conflictScript)).1.encryptionKey
      = (deriveEncryptionKey textRuntime "correct horse" [115, 97, 108, 116]).toOption ∧
     ((loadConfiguration textRuntime initialState).run (deviceHandler scriptedNet)
        (profileWithSalt (some "AQID"), conflictScript)).2.1.1.storage.cryptoSalt
      = some "c2FsdA==") :=
  ⟨⟨rfl, by decide, rfl, rfl⟩,
   ⟨(((loadConfiguration_salt_conflict_recovery textRuntime (deviceHandler scriptedNet)
        (profileWithSalt none, conflictScript) initialState { serverUrl := some sampleOrigin }
        sampleOrigin (errorResponse "Salt not found" 404) rfl rfl (by decide) rfl rfl).2
        "AQEBAQEBAQEBAQEBAQEBAQ==" (errorResponse "Salt already exists" 409) rfl (by decide!) rfl
        rfl rfl).1
        { status := 200, statusText := "", json := .ok { salt := some "c2FsdA==" } }
        { salt := some "c2FsdA==" } "c2FsdA==" [115, 97, 108, 116] rfl (by decide) (by decide)
        rfl rfl (by decide) (by decide!)).1,
    ((((loadConfiguration_salt_conflict_recovery textRuntime (deviceHandler scriptedNet)
        (profileWithSalt none, conflictScript) initialState { serverUrl := some sampleOrigin }
        sampleOrigin (errorResponse "Salt not found" 404) rfl rfl (by decide) rfl rfl).2
        "AQEBAQEBAQEBAQEBAQEBAQ==" (errorResponse "Salt already exists" 409) rfl (by decide!) rfl
        rfl rfl).1
        { status := 200, statusText := "", json := .ok { salt := some "c2FsdA==" } }
        { salt := some "c2FsdA==" } "c2FsdA==" [115, 97, 108, 116] rfl (by decide) (by decide)
        rfl rfl (by decide) (by decide!)).2 rfl).1⟩,
   ((loadConfiguration_salt_conflict_recovery textRuntime (deviceHandler scriptedNet)
        (profileWithSalt (some "AQID"), lostSaltScript) initialState
        { serverUrl := some sampleOrigin, cryptoSalt := some "AQID" }
        sampleOrigin (errorResponse "Salt not found" 404) rfl rfl (by decide) rfl rfl).1
        "AQID" [1, 2, 3] (errorResponse "Salt already exists" 409) rfl (by decide) (by decide!)
        rfl rfl).2 (errorResponse "Salt not found" 404) rfl rfl,
   by decide!⟩

/-! ### The status of a salt upload -/

theorem postSalt_new_created (env : ServerEnv) (dir : DataDir) (force : Option String)
    (s : String) (payload lastModified : JsField) (hnone : dir.salt = none)
    (hforce : force ≠ some "true") (hs : truthy s = true) (hwrite : env.writeFails = false) :
    handle env (some dir) (postSalt force (.object (.str s) payload lastModified))
      = (some { dir with salt := some s }, successResponse 201) := by
  simp [handle, handleStart, postSalt, handleResume, hnone, hforce, hs, hwrite]

theorem postSalt_forced_overwrite (env : ServerEnv) (dir : DataDir) (old s : String)
    (payload lastModified : JsField) (hold : dir.salt = some old) (hs : truthy s = true)
    (hwrite : env.writeFails = false) :
    handle env (some dir) (postSalt (some "true") (.object (.str s) payload lastModified))
      = (some { dir with salt := some s }, successResponse 200) := by
  simp [handle, handleStart, postSalt, handleResume, hold, hs, hwrite]

theorem postSalt_rejects (env : ServerEnv) (dir : DataDir) (force : Option String)
    (body : ReqBody) (hguard : force = some "true" ∨ dir.salt = none)
    (hbody : body = .invalid ∨ ∃ salt payload lastModified,
      body = .object salt payload lastModified ∧ ∀ s, salt = .str s → truthy s = false) :
    (handle env (some dir) (postSalt force body)).2.status = 400 ∧
    (handle env (some dir) (postSalt force body)).1 = some dir := by
  have hpass : (!decide (force = some "true") && dir.salt.isSome) = false := by
    rcases hguard with hforce | hnone
    · simp [hforce]
    · simp [hnone]
  rcases hbody with rfl | ⟨salt, payload, lastModified, rfl, hsalt⟩
  · simp [handle, handleStart, postSalt, handleResume, errorResponse, hpass]
  · cases salt with
    | absent => simp [handle, handleStart, postSalt, handleResume, errorResponse, hpass]
    | other => simp [handle, handleStart, postSalt, handleResume, errorResponse, hpass]
    | str s => simp [handle, handleStart, postSalt, handleResume, errorResponse, hpass, hsalt s rfl]

/-- C20 (evaluation at the failing input): a forced `POST /sync/salt` with a valid body to a
server that stores no salt. The salt is stored, as a new salt, and the answer is 200, not
201: the status follows the `force` parameter and not what was stored before. For
comparison, the same body without `force` is answered 201, and a forced upload over an
existing salt 200. Last, a body that is the JSON value `null` is answered 500 and not 400. -/
theorem postSalt_forced_new_status :
    handle sampleEnv (some emptyDir)
        (postSalt (some "true") (.object (.str "c2FsdA==") .absent .absent))
      = (some { salt := some "c2FsdA==", data := none }, successResponse 200) ∧
    storedSalt (some emptyDir) = none ∧
    handle sampleEnv none (postSalt (some "true") (.object (.str "c2FsdA==") .absent .absent))
      = (some { salt := some "c2FsdA==", data := none }, successResponse 200) ∧
    handle sampleEnv (some emptyDir) (postSalt none (.object (.str "c2FsdA==") .absent .absent))
      = (some { salt := some "c2FsdA==", data := none }, successResponse 201) ∧
    handle sampleEnv (some sampleDir)
        (postSalt (some "true") (.object (.str "b3RoZXI=") .absent .absent))
      = (some { sampleDir with salt := some "b3RoZXI=" }, successResponse 200) ∧
    handle sampleEnv (some emptyDir) (postSalt none .jsonNull)
      = (some emptyDir, errorResponse "Error saving salt" 500) := by
  decide

/-! ### The reconcile loop, item by item -/

theorem loopStart_eq :
    ({ createdIdMap := [], processedServerIds := [], changedInPass := true, pass := 0,
       currentLocalBookmarks := [], createdItems := [] } : ReconcileState) = loopStart := rfl

theorem reconcilePass_cons_run {ω : Type} (h : Handler ω) (serverItem : BookmarkItem)
    (rest : List BookmarkItem) (st : ReconcileState) (w : ω) :
    (reconcilePass (serverItem :: rest) st).run h w
      = (((reconcilePass rest ((reconcileItem st serverItem).run h w).1).run h
            ((reconcileItem st serverItem).run h w).2.1).1,
         ((reconcilePass rest ((reconcileItem st serverItem).run h w).1).run h
            ((reconcileItem st serverItem).run h w).2.1).2.1,
         ((reconcileItem st serverItem).run h w).2.2 ++
           ((reconcilePass rest ((reconcileItem st serverItem).run h w).1).run h
            ((reconcileItem st serverItem).run h w).2.1).2.2) := by
  rw [reconcilePass, Prog.run_bind]

theorem reconcilePass_nil_run {ω : Type} (h : Handler ω) (st : ReconcileState) (w : ω) :
    (reconcilePass [] st).run h w = (st, w, []) := rfl

theorem reconcileLoop_idle_run {ω : Type} (h : Handler ω) (serverBookmarks : List BookmarkItem)
    (remaining : Nat) (st : ReconcileState) (w : ω) (hchanged : st.changedInPass = false) :
    (reconcileLoop serverBookmarks (remaining + 1) st).run h w = (.ok st, w, []) := by
  rw [reconcileLoop]
  simp only [hchanged, Bool.not_false, if_true]
  rfl

theorem reconcileLoop_error_run {ω : Type} (h : Handler ω) (serverBookmarks : List BookmarkItem)
    (remaining : Nat) (st : ReconcileState) (w : ω) (hchanged : st.changedInPass = true)
    (e : String) (htree : (h .bookmarksGetTree w).1 = .error e) :
    (reconcileLoop serverBookmarks (remaining + 1) st).run h w
      = (.error e, (h .bookmarksGetTree w).2, [.bookmarksGetTree]) := by
  rw [reconcileLoop]
  simp only [hchanged, Bool.not_true, Bool.false_eq_true, if_false]
  rw [Prog.run_bind, Prog.run_perform]
  simp only [htree]
  rfl

theorem reconcileLoop_pass_run {ω : Type} (h : Handler ω) (serverBookmarks : List BookmarkItem)
    (remaining : Nat) (st : ReconcileState) (w : ω) (hchanged : st.changedInPass = true)
    (tree : List BookmarkTreeNode) (htree : (h .bookmarksGetTree w).1 = .ok tree)
    (st2 : ReconcileState) (w2 : ω) (trace : List Op)
    (hpass : (reconcilePass serverBookmarks (passStart st tree)).run h (h .bookmarksGetTree w).2
      = (st2, w2, trace)) :
    (reconcileLoop serverBookmarks (remaining + 1) st).run h w
      = if (!st2.changedInPass
              && decide (st2.processedServerIds.length < serverBookmarks.length)) = true
        then (.ok st2, w2, .bookmarksGetTree :: trace)
        else (((reconcileLoop serverBookmarks remaining st2).run h w2).1,
              ((reconcileLoop serverBookmarks remaining st2).run h w2).2.1,
              .bookmarksGetTree ::
                (trace ++ ((reconcileLoop serverBookmarks remaining st2).run h w2).2.2)) := by
  rw [reconcileLoop]
  simp only [hchanged, Bool.not_true, Bool.false_eq_true, if_false]
  rw [Prog.run_bind, Prog.run_perform]
  simp only [htree]
  rw [Prog.run_bind]
  unfold passStart at hpass
  simp only [hpass]
  split
  · simp only [Prog.run_pure, List.append_nil, List.singleton_append]
  · simp only [List.singleton_append]

theorem applyServerStateToBrowser_run {ω : Type} (h : Handler ω)
    (serverBookmarks : List BookmarkItem) (w : ω) (tree : List BookmarkTreeNode)
    (htree : (h .bookmarksGetTree w).1 = .ok tree) :
    (applyServerStateToBrowser (some serverBookmarks)).run h w
      = ((match ((reconcileLoop serverBookmarks maxPasses loopStart).run h
                  (h .bookmarksGetTree w).2).1 with
          | .error e => .error e
          | .ok final =>
            .ok (some { itemsToDelete := itemsToDelete (flattenBookmarkNodes tree) serverBookmarks,
                        final := final,
                        unprocessedCount :=
                          serverBookmarks.length - final.processedServerIds.length })),
         ((reconcileLoop serverBookmarks maxPasses loopStart).run h (h .bookmarksGetTree w).2).2.1,
         .bookmarksGetTree ::
           ((reconcileLoop serverBookmarks maxPasses loopStart).run h
              (h .bookmarksGetTree w).2).2.2) := by
  unfold applyServerStateToBrowser
  simp only
  rw [Prog.run_bind, Prog.run_perform]
  simp only [htree]
  rw [Prog.run_bind, loopStart_eq]
  cases hloop : ((reconcileLoop serverBookmarks maxPasses loopStart).run h
      (h .bookmarksGetTree w).2).1 with
  | error e => simp only [Prog.run_pure, List.append_nil, List.singleton_append]
  | ok final => simp only [Prog.run_pure, List.append_nil, List.singleton_append]

theorem applyServerStateToBrowser_error_run {ω : Type} (h : Handler ω)
    (serverBookmarks : List BookmarkItem) (w : ω) (e : String)
    (htree : (h .bookmarksGetTree w).1 = .error e) :
    (applyServerStateToBrowser (some serverBookmarks)).run h w
      = (.error e, (h .bookmarksGetTree w).2, [.bookmarksGetTree]) := by
  unfold applyServerStateToBrowser
  simp only
  rw [Prog.run_bind, Prog.run_perform]
  simp only [htree]
  rfl

theorem passVisits_invariant {ω : Type} (h : Handler ω) (I : ReconcileState → Prop)
    (P : BookmarkItem → Prop)
    (hitem : ∀ st serverItem w, P serverItem → I st →
      I ((reconcileItem st serverItem).run h w).1) :
    ∀ (items : List BookmarkItem) (st : ReconcileState) (w : ω),
      (∀ serverItem ∈ items, P serverItem) → I st →
      (∀ visit ∈ passVisits h items st w, I visit.1 ∧ P visit.2.1) ∧
      I ((reconcilePass items st).run h w).1 := by
  intro items
  induction items with
  | nil =>
    intro st w _ hst
    exact ⟨by intro visit hvisit; simp [passVisits] at hvisit, hst⟩
  | cons serverItem rest ih =>
    intro st w hP hst
    have hhead : P serverItem := hP serverItem (List.mem_cons_self _ _)
    have hrest := ih ((reconcileItem st serverItem).run h w).1
      ((reconcileItem st serverItem).run h w).2.1
      (fun x hx => hP x (List.mem_cons_of_mem _ hx)) (hitem st serverItem w hhead hst)
    rw [reconcilePass_cons_run]
    refine ⟨?_, hrest.2⟩
    intro visit hvisit
    rw [passVisits, List.mem_cons] at hvisit
    rcases hvisit with rfl | hmem
    · exact ⟨hst, hhead⟩
    · exact hrest.1 visit hmem

theorem loopVisits_invariant {ω : Type} (h : Handler ω) (I : ReconcileState → Prop)
    (serverBookmarks : List BookmarkItem)
    (hitem : ∀ st serverItem w, serverItem ∈ serverBookmarks → I st →
      I ((reconcileItem st serverItem).run h w).1)
    (hstart : ∀ st w tree, (h .bookmarksGetTree w).1 = .ok tree → I st → I (passStart st tree)) :
    ∀ (n : Nat) (st : ReconcileState) (w : ω), I st →
      (∀ visit ∈ loopVisits h serverBookmarks n st w, I visit.1 ∧ visit.2.1 ∈ serverBookmarks) ∧
      ∀ final, ((reconcileLoop serverBookmarks n st).run h w).1 = .ok final → I final := by
  intro n
  induction n with
  | zero =>
    intro st w hst
    refine ⟨by intro visit hvisit; simp [loopVisits] at hvisit, ?_⟩
    intro final hfinal
    have hrun : (reconcileLoop serverBookmarks 0 st).run h w = (.ok st, w, []) := rfl
    rw [hrun] at hfinal
    cases hfinal
    exact hst
  | succ remaining ih =>
    intro st w hst
    cases hchanged : st.changedInPass with
    | false =>
      rw [reconcileLoop_idle_run h serverBookmarks remaining st w hchanged]
      refine ⟨by intro visit hvisit; simp [loopVisits, hchanged] at hvisit, ?_⟩
      intro final hfinal
      cases hfinal
      exact hst
    | true =>
      cases htree : (h .bookmarksGetTree w).1 with
      | error e =>
        rw [reconcileLoop_error_run h serverBookmarks remaining st w hchanged e htree]
        refine ⟨by intro visit hvisit; simp [loopVisits, hchanged, htree] at hvisit, ?_⟩
        intro final hfinal
        cases hfinal
      | ok tree =>
        have hpassed := passVisits_invariant h I (fun x => x ∈ serverBookmarks) hitem
          serverBookmarks (passStart st tree) (h .bookmarksGetTree w).2 (fun x hx => hx)
          (hstart st w tree htree hst)
        rw [reconcileLoop_pass_run h serverBookmarks remaining st w hchanged tree htree _ _ _ rfl]
        have hnext := ih ((reconcilePass serverBookmarks (passStart st tree)).run h
          (h .bookmarksGetTree w).2).1 ((reconcilePass serverBookmarks (passStart st tree)).run h
          (h .bookmarksGetTree w).2).2.1 hpassed.2
        constructor
        · intro visit hvisit
          rw [loopVisits] at hvisit
          simp only [hchanged, Bool.not_true, Bool.false_eq_true, if_false, htree] at hvisit
          rcases List.mem_append.1 hvisit with hmem | hmem
          · exact hpassed.1 visit hmem
          · split at hmem
            · simp at hmem
            · exact hnext.1 visit hmem
        · intro final hfinal
          split at hfinal
          · cases hfinal
            exact hpassed.2
          · exact hnext.2 final hfinal

theorem applyVisits_invariant {ω : Type} (h : Handler ω) (I : ReconcileState → Prop)
    (serverBookmarks : List BookmarkItem) (hinit : I loopStart)
    (hitem : ∀ st serverItem w, serverItem ∈ serverBookmarks → I st →
      I ((reconcileItem st serverItem).run h w).1)
    (hstart : ∀ st w tree, (h .bookmarksGetTree w).1 = .ok tree → I st → I (passStart st tree))
    (w : ω) :
    (∀ visit ∈ applyVisits h serverBookmarks w, I visit.1 ∧ visit.2.1 ∈ serverBookmarks) ∧
    ∀ report, ((applyServerStateToBrowser (some serverBookmarks)).run h w).1 = .ok (some report) →
      I report.final ∧
      report.unprocessedCount = serverBookmarks.length - report.final.processedServerIds.length := by
  have hloop := loopVisits_invariant h I serverBookmarks hitem hstart maxPasses loopStart
    (h .bookmarksGetTree w).2 hinit
  cases htree : (h .bookmarksGetTree w).1 with
  | error e =>
    rw [applyServerStateToBrowser_error_run h serverBookmarks w e htree]
    refine ⟨by intro visit hvisit; simp [applyVisits, htree] at hvisit, ?_⟩
    intro report hreport
    cases hreport
  | ok tree =>
    rw [applyServerStateToBrowser_run h serverBookmarks w tree htree]
    constructor
    · intro visit hvisit
      simp only [applyVisits, htree] at hvisit
      exact hloop.1 visit hvisit
    · intro report hreport
      cases hfinal : ((reconcileLoop serverBookmarks maxPasses loopStart).run h
          (h .bookmarksGetTree w).2).1 with
      | error e =>
        rw [hfinal] at hreport
        cases hreport
      | ok final =>
        rw [hfinal] at hreport
        simp only [Except.ok.injEq, Option.some.injEq] at hreport
        subst hreport
        exact ⟨hloop.2 final hfinal, rfl⟩

theorem JsObj.mem_keys_set (o : JsObj) (key value x : String) :
    x ∈ (o.set key value).map Prod.fst ↔ x = key ∨ x ∈ o.map Prod.fst := by
  induction o with
  | nil => simp [JsObj.set]
  | cons e rest ih =>
    obtain ⟨k, v⟩ := e
    unfold JsObj.set
    split
    · rename_i hk
      subst hk
      simp
    · simp only [List.map_cons, List.mem_cons, ih]
      tauto

theorem JsObj.mem_keys_delete (o : JsObj) (key x : String) :
    x ∈ (o.delete key).map Prod.fst ↔ x ≠ key ∧ x ∈ o.map Prod.fst := by
  unfold JsObj.delete
  simp only [List.mem_map, List.mem_filter, decide_eq_true_eq, ne_eq]
  constructor
  · rintro ⟨e, ⟨he, hne⟩, rfl⟩
    exact ⟨hne, e, he, rfl⟩
  · rintro ⟨hne, e, he, rfl⟩
    exact ⟨e, ⟨he, hne⟩, rfl⟩

theorem JsObj.get_eq_none_iff (o : JsObj) (key : String) :
    o.get key = none ↔ key ∉ o.map Prod.fst := by
  induction o with
  | nil => simp [JsObj.get, List.lookup]
  | cons e rest ih =>
    obtain ⟨k, v⟩ := e
    by_cases hk : key = k
    · subst hk
      simp [JsObj.get, List.lookup]
    · have hne : (key == k) = false := by
        rw [beq_eq_false_iff_ne]
        exact hk
      simp only [JsObj.get, List.lookup, hne, List.map_cons, List.mem_cons, hk, false_or]
      exact ih

theorem mem_setAdd (set : List String) (id x : String) :
    x ∈ setAdd set id ↔ x = id ∨ x ∈ set := by
  unfold setAdd
  split
  · rename_i hmem
    constructor
    · exact Or.inr
    · rintro (rfl | hx)
      · exact hmem
      · exact hx
  · simp only [List.mem_append, List.mem_singleton]
    tauto

theorem mem_setAt {α : Type} (l : List α) (i : Nat) (b x : α) (hx : x ∈ setAt l i b) :
    x ∈ l ∨ x = b := by
  induction l generalizing i with
  | nil => simp [setAt] at hx
  | cons a rest ih =>
    cases i with
    | zero =>
      simp only [setAt, List.mem_cons] at hx
      rcases hx with rfl | hx
      · exact Or.inr rfl
      · exact Or.inl (List.mem_cons_of_mem _ hx)
    | succ j =>
      simp only [setAt, List.mem_cons] at hx
      rcases hx with rfl | hx
      · exact Or.inl (List.mem_cons_self _ _)
      · rcases ih j hx with hmem | rfl
        · exact Or.inl (List.mem_cons_of_mem _ hmem)
        · exact Or.inr rfl

theorem moveMatched_cases {ω : Type} (h : Handler ω) (w : ω) (st : ReconcileState)
    (serverItem : BookmarkItem) (targetParentId : JsId) (ref : ItemRef) (localItem : BookmarkItem) :
    (localItem.index = serverItem.index ∧
      (moveMatched st serverItem targetParentId ref localItem).run h w = (.ok (st, localItem), w, [])) ∨
    (localItem.index ≠ serverItem.index ∧
      ∃ e, (moveMatched st serverItem targetParentId ref localItem).run h w
        = (.error e,
           (h (.bookmarksMove localItem.id { parentId := targetParentId, index := serverItem.index })
              w).2,
           [.bookmarksMove localItem.id { parentId := targetParentId, index := serverItem.index }]) ∧
        (h (.bookmarksMove localItem.id { parentId := targetParentId, index := serverItem.index })
              w).1 = .error e) ∨
    (localItem.index ≠ serverItem.index ∧
      (moveMatched st serverItem targetParentId ref localItem).run h w
        = (.ok (({ st with changedInPass := true }).assign ref
                  { localItem with parentId := targetParentId, index := serverItem.index },
                { localItem with parentId := targetParentId, index := serverItem.index }),
           (h (.bookmarksMove localItem.id { parentId := targetParentId, index := serverItem.index })
              w).2,
           [.bookmarksMove localItem.id { parentId := targetParentId, index := serverItem.index }]) ∧
        (h (.bookmarksMove localItem.id { parentId := targetParentId, index := serverItem.index })
              w).1 = .ok ()) := by
  unfold moveMatched
  by_cases hindex : localItem.index = serverItem.index
  · left
    refine ⟨hindex, ?_⟩
    simp only [hindex, ne_eq, not_true_eq_false, if_false]
    rfl
  · right
    simp only [ne_eq, hindex, not_false_eq_true, if_true]
    rw [Prog.run_bind, Prog.run_perform]
    cases hres : (h (.bookmarksMove localItem.id
        { parentId := targetParentId, index := serverItem.index }) w).1 with
    | error e =>
      left
      exact ⟨trivial, e, rfl, rfl⟩
    | ok u =>
      right
      exact ⟨trivial, rfl, rfl⟩

theorem updateChanged_cases {ω : Type} (h : Handler ω) (w : ω) (st : ReconcileState)
    (ref : ItemRef) (localItem : BookmarkItem) (changes : Changes) (needsUpdate : Bool) :
    (needsUpdate = false ∧
      (updateChanged st ref localItem changes needsUpdate).run h w = (.ok st, w, [])) ∨
    (needsUpdate = true ∧
      ∃ e, (updateChanged st ref localItem changes needsUpdate).run h w
        = (.error e, (h (.bookmarksUpdate localItem.id changes) w).2,
           [.bookmarksUpdate localItem.id changes]) ∧
        (h (.bookmarksUpdate localItem.id changes) w).1 = .error e) ∨
    (needsUpdate = true ∧
      ∃ changed, changed.id = localItem.id ∧
        (updateChanged st ref localItem changes needsUpdate).run h w
        = (.ok (({ st with changedInPass := true }).assign ref changed),
           (h (.bookmarksUpdate localItem.id changes) w).2,
           [.bookmarksUpdate localItem.id changes]) ∧
        (h (.bookmarksUpdate localItem.id changes) w).1 = .ok ()) := by
  unfold updateChanged
  cases needsUpdate with
  | false =>
    left
    exact ⟨rfl, rfl⟩
  | true =>
    right
    simp only [if_true]
    rw [Prog.run_bind, Prog.run_perform]
    cases hres : (h (.bookmarksUpdate localItem.id changes) w).1 with
    | error e =>
      left
      exact ⟨trivial, e, rfl, rfl⟩
    | ok u =>
      right
      refine ⟨trivial, _, ?_, rfl, rfl⟩
      dsimp only
      split <;> split <;> (try split) <;> rfl

theorem moveMatched_failures {ω : Type} (h : Handler ω) (w : ω) (st : ReconcileState)
    (serverItem : BookmarkItem) (targetParentId : JsId) (ref : ItemRef) (localItem : BookmarkItem) :
    (moveMatched st serverItem targetParentId ref localItem).failures h w
      = match ((moveMatched st serverItem targetParentId ref localItem).run h w).1 with
        | .error _ => 1
        | .ok _ => 0 := by
  unfold moveMatched
  split
  · simp only [Prog.bind_eq, perform, Prog.bind, Prog.run, Prog.failures]
    cases hres : (h (.bookmarksMove localItem.id
        { parentId := targetParentId, index := serverItem.index }) w).1 with
    | error e => simp [Op.failed, Prog.failures, Prog.run]
    | ok u => simp [Op.failed, Prog.failures, Prog.run]
  · rfl

theorem updateChanged_failures {ω : Type} (h : Handler ω) (w : ω) (st : ReconcileState)
    (ref : ItemRef) (localItem : BookmarkItem) (changes : Changes) (needsUpdate : Bool) :
    (updateChanged st ref localItem changes needsUpdate).failures h w
      = match ((updateChanged st ref localItem changes needsUpdate).run h w).1 with
        | .error _ => 1
        | .ok _ => 0 := by
  unfold updateChanged
  split
  · simp only [Prog.bind_eq, perform, Prog.bind, Prog.run, Prog.failures]
    cases hres : (h (.bookmarksUpdate localItem.id changes) w).1 with
    | error e => simp [Op.failed, Prog.failures, Prog.run]
    | ok u => simp [Op.failed, Prog.failures, Prog.run]
  · rfl

theorem assign_items (st : ReconcileState) (ref : ItemRef) (b item : BookmarkItem)
    (hitem : item ∈ (st.assign ref b).currentLocalBookmarks ++ (st.assign ref b).createdItems) :
    item ∈ st.currentLocalBookmarks ++ st.createdItems ∨ item = b := by
  cases ref with
  | snapshot i =>
    simp only [ReconcileState.assign, List.mem_append] at hitem ⊢
    rcases hitem with hmem | hmem
    · rcases mem_setAt _ _ _ _ hmem with hold | rfl
      · exact Or.inl (Or.inl hold)
      · exact Or.inr rfl
    · exact Or.inl (Or.inr hmem)
  | created i =>
    simp only [ReconcileState.assign, List.mem_append] at hitem ⊢
    rcases hitem with hmem | hmem
    · exact Or.inl (Or.inl hmem)
    · rcases mem_setAt _ _ _ _ hmem with hold | rfl
      · exact Or.inl (Or.inr hold)
      · exact Or.inr rfl

theorem rollbackMapping_fields (st : ReconcileState) (serverItem localItem : BookmarkItem) :
    (rollbackMapping st serverItem localItem).processedServerIds = st.processedServerIds ∧
    (rollbackMapping st serverItem localItem).currentLocalBookmarks = st.currentLocalBookmarks ∧
    (rollbackMapping st serverItem localItem).createdItems = st.createdItems ∧
    (rollbackMapping st serverItem localItem).changedInPass = st.changedInPass := by
  unfold rollbackMapping
  split <;> exact ⟨rfl, rfl, rfl, rfl⟩

theorem recordMapping_fields (st : ReconcileState) (serverItem localItem : BookmarkItem) :
    (recordMapping st serverItem localItem).processedServerIds = st.processedServerIds ∧
    (recordMapping st serverItem localItem).currentLocalBookmarks = st.currentLocalBookmarks ∧
    (recordMapping st serverItem localItem).createdItems = st.createdItems ∧
    (recordMapping st serverItem localItem).changedInPass = st.changedInPass := by
  unfold recordMapping
  split <;> exact ⟨rfl, rfl, rfl, rfl⟩

theorem rollbackMapping_after_assign (st : ReconcileState) (ref : ItemRef)
    (b serverItem localItem other : BookmarkItem) (hid : other.id = localItem.id) :
    (rollbackMapping (({ st with changedInPass := true }).assign ref b) serverItem
        other).createdIdMap
      = (rollbackMapping st serverItem localItem).createdIdMap := by
  unfold rollbackMapping
  rw [hid, assign_createdIdMap]
  dsimp only
  split
  · rfl
  · exact assign_createdIdMap _ _ _

/-- The outcome of the branch for a matched item: either no call failed, the mapping is
the recorded one and the item is processed, or a call failed, the mapping was taken back and
the processed set is as before. The calls are at most a move and an update of the local
item, and the objects of the pass keep their ids. -/
theorem updateMatched_cases {ω : Type} (h : Handler ω) (w : ω) (st : ReconcileState)
    (serverItem : BookmarkItem) (targetParentId : JsId) (ref : ItemRef) (localItem : BookmarkItem) :
    (((updateMatched st serverItem targetParentId ref localItem).failures h w = 0 ∧
        ((updateMatched st serverItem targetParentId ref localItem).run h w).1.createdIdMap
          = (recordMapping st serverItem localItem).createdIdMap ∧
        ((updateMatched st serverItem targetParentId ref localItem).run h w).1.processedServerIds
          = setAdd st.processedServerIds serverItem.id) ∨
     (0 < (updateMatched st serverItem targetParentId ref localItem).failures h w ∧
        ((updateMatched st serverItem targetParentId ref localItem).run h w).1.createdIdMap
          = (rollbackMapping (recordMapping st serverItem localItem) serverItem
              localItem).createdIdMap ∧
        ((updateMatched st serverItem targetParentId ref localItem).run h w).1.processedServerIds
          = st.processedServerIds)) ∧
    (∀ item ∈ ((updateMatched st serverItem targetParentId ref localItem).run h w).1.currentLocalBookmarks
          ++ ((updateMatched st serverItem targetParentId ref localItem).run h w).1.createdItems,
        item ∈ st.currentLocalBookmarks ++ st.createdItems ∨ item.id = localItem.id) ∧
    (∀ op ∈ ((updateMatched st serverItem targetParentId ref localItem).run h w).2.2,
        (op = .bookmarksMove localItem.id { parentId := targetParentId, index := serverItem.index }
          ∧ localItem.index ≠ serverItem.index) ∨
        (op = .bookmarksUpdate localItem.id (changesFor serverItem localItem)
          ∧ needsUpdateFor serverItem localItem = true)) ∧
    ((updateMatched st serverItem targetParentId ref localItem).run h w).2.2.length ≤ 2 := by
  have hrecord := recordMapping_fields st serverItem localItem
  unfold updateMatched
  rw [Prog.failures_bind, Prog.run_bind, moveMatched_failures]
  rcases moveMatched_cases h w (recordMapping st serverItem localItem) serverItem targetParentId
      ref localItem with ⟨hindex, hrun⟩ | ⟨hindex, e, hrun, _⟩ | ⟨hindex, hrun, _⟩
  · -- no move
    rw [hrun]
    simp only
    rw [Prog.failures_bind, Prog.run_bind, updateChanged_failures]
    rcases updateChanged_cases h w (recordMapping st serverItem localItem) ref localItem
        (changesFor serverItem localItem) (needsUpdateFor serverItem localItem)
      with ⟨hneeds, hrun2⟩ | ⟨hneeds, e, hrun2, _⟩ | ⟨hneeds, changed, hid, hrun2, _⟩
    · rw [hrun2]
      simp only [Prog.run_pure, Prog.failures_pure, List.append_nil, List.nil_append]
      refine ⟨Or.inl ⟨by simp, by first | rfl | trivial, by rw [hrecord.1]⟩, ?_, ?_, ?_⟩
      · intro item hitem
        rw [hrecord.2.1, hrecord.2.2.1] at hitem
        exact Or.inl hitem
      · intro op hop
        simp at hop
      · simp
    · rw [hrun2]
      simp only [Prog.run_pure, Prog.failures_pure, List.append_nil, List.nil_append]
      have hroll := rollbackMapping_fields (recordMapping st serverItem localItem) serverItem
        localItem
      refine ⟨Or.inr ⟨by simp, by first | rfl | trivial, by rw [hroll.1, hrecord.1]⟩, ?_, ?_, ?_⟩
      · intro item hitem
        rw [hroll.2.1, hroll.2.2.1, hrecord.2.1, hrecord.2.2.1] at hitem
        exact Or.inl hitem
      · intro op hop
        simp only [List.mem_singleton] at hop
        exact Or.inr ⟨hop, hneeds⟩
      · simp
    · rw [hrun2]
      simp only [Prog.run_pure, Prog.failures_pure, List.append_nil, List.nil_append]
      refine ⟨Or.inl ⟨by simp, by rw [assign_createdIdMap], by
        rw [assign_processedServerIds, hrecord.1]⟩, ?_, ?_, ?_⟩
      · intro item hitem
        rcases assign_items _ _ _ _ hitem with hold | rfl
        · rw [hrecord.2.1, hrecord.2.2.1] at hold
          exact Or.inl hold
        · exact Or.inr hid
      · intro op hop
        simp only [List.mem_singleton] at hop
        exact Or.inr ⟨hop, hneeds⟩
      · simp
  · -- the move fails
    rw [hrun]
    simp only [Prog.run_pure, Prog.failures_pure, List.append_nil]
    have hroll := rollbackMapping_fields (recordMapping st serverItem localItem) serverItem
      localItem
    refine ⟨Or.inr ⟨by simp, by first | rfl | trivial, by rw [hroll.1, hrecord.1]⟩, ?_, ?_, ?_⟩
    · intro item hitem
      rw [hroll.2.1, hroll.2.2.1, hrecord.2.1, hrecord.2.2.1] at hitem
      exact Or.inl hitem
    · intro op hop
      simp only [List.mem_singleton] at hop
      exact Or.inl ⟨hop, hindex⟩
    · simp
  · -- the move succeeds
    rw [hrun]
    simp only
    rw [Prog.failures_bind, Prog.run_bind, updateChanged_failures]
    rcases updateChanged_cases h
        (h (.bookmarksMove localItem.id { parentId := targetParentId, index := serverItem.index })
          w).2
        (({ recordMapping st serverItem localItem with changedInPass := true }).assign ref
          { localItem with parentId := targetParentId, index := serverItem.index }) ref
        { localItem with parentId := targetParentId, index := serverItem.index }
        (changesFor serverItem localItem) (needsUpdateFor serverItem localItem)
      with ⟨hneeds, hrun2⟩ | ⟨hneeds, e, hrun2, _⟩ | ⟨hneeds, changed, hid, hrun2, _⟩
    · rw [hrun2]
      simp only [Prog.run_pure, Prog.failures_pure, List.append_nil]
      refine ⟨Or.inl ⟨by simp, by rw [assign_createdIdMap], by
        rw [assign_processedServerIds]; exact congrArg (fun s => setAdd s serverItem.id) hrecord.1⟩,
        ?_, ?_, ?_⟩
      · intro item hitem
        rcases assign_items _ _ _ _ hitem with hold | rfl
        · exact Or.inl (by simpa [hrecord.2.1, hrecord.2.2.1] using hold)
        · exact Or.inr rfl
      · intro op hop
        simp only [List.mem_singleton] at hop
        exact Or.inl ⟨hop, hindex⟩
      · simp
    · rw [hrun2]
      simp only [Prog.run_pure, Prog.failures_pure, List.append_nil]
      have hroll := rollbackMapping_fields
        (({ recordMapping st serverItem localItem with changedInPass := true }).assign ref
          { localItem with parentId := targetParentId, index := serverItem.index }) serverItem
        { localItem with parentId := targetParentId, index := serverItem.index }
      refine ⟨Or.inr ⟨by simp, ?_, ?_⟩, ?_, ?_, ?_⟩
      · exact rollbackMapping_after_assign (recordMapping st serverItem localItem) ref _
          serverItem localItem _ rfl
      · rw [hroll.1, assign_processedServerIds]
        exact hrecord.1
      · intro item hitem
        rw [hroll.2.1, hroll.2.2.1] at hitem
        rcases assign_items _ _ _ _ hitem with hold | rfl
        · exact Or.inl (by simpa [hrecord.2.1, hrecord.2.2.1] using hold)
        · exact Or.inr rfl
      · intro op hop
        simp only [List.singleton_append, List.mem_cons, List.mem_singleton, List.not_mem_nil,
          or_false] at hop
        rcases hop with hop | hop
        · exact Or.inl ⟨hop, hindex⟩
        · exact Or.inr ⟨hop, hneeds⟩
      · simp
    · rw [hrun2]
      simp only [Prog.run_pure, Prog.failures_pure, List.append_nil]
      refine ⟨Or.inl ⟨by simp, by rw [assign_createdIdMap, assign_createdIdMap], by
        rw [assign_processedServerIds, assign_processedServerIds]
        exact congrArg (fun s => setAdd s serverItem.id) hrecord.1⟩, ?_, ?_, ?_⟩
      · intro item hitem
        rcases assign_items _ _ _ _ hitem with hold | rfl
        · rcases assign_items _ _ _ _ hold with hold2 | rfl
          · exact Or.inl (by simpa [hrecord.2.1, hrecord.2.2.1] using hold2)
          · exact Or.inr rfl
        · exact Or.inr hid
      · intro op hop
        simp only [List.singleton_append, List.mem_cons, List.mem_singleton, List.not_mem_nil,
          or_false] at hop
        rcases hop with hop | hop
        · exact Or.inl ⟨hop, hindex⟩
        · exact Or.inr ⟨hop, hneeds⟩
      · simp

theorem createMissing_cases {ω : Type} (h : Handler ω) (w : ω) (st : ReconcileState)
    (serverItem : BookmarkItem) (targetParentId : JsId) :
    ((∃ e, (h (.bookmarksCreate
        { parentId := targetParentId, index := serverItem.index, title := serverItem.title,
          type := serverItem.type,
          url := if serverItem.type = some "bookmark" then some serverItem.url else none }) w).1
          = .error e) ∧
      ((createMissing st serverItem targetParentId).run h w).1 = st ∧
      (createMissing st serverItem targetParentId).failures h w = 1 ∨
     (∃ newItem, (h (.bookmarksCreate
        { parentId := targetParentId, index := serverItem.index, title := serverItem.title,
          type := serverItem.type,
          url := if serverItem.type = some "bookmark" then some serverItem.url else none }) w).1
          = .ok newItem ∧
        ((createMissing st serverItem targetParentId).run h w).1
          = { st with
              createdIdMap := st.createdIdMap.set serverItem.id newItem.raw.id,
              createdItems := st.createdItems ++ [newItem.raw],
              processedServerIds := setAdd st.processedServerIds serverItem.id,
              changedInPass := true }) ∧
      (createMissing st serverItem targetParentId).failures h w = 0) ∧
    ((createMissing st serverItem targetParentId).run h w).2.2
      = [.bookmarksCreate
          { parentId := targetParentId, index := serverItem.index, title := serverItem.title,
            type := serverItem.type,
            url := if serverItem.type = some "bookmark" then some serverItem.url else none }] ∧
    ((createMissing st serverItem targetParentId).run h w).2.1
      = (h (.bookmarksCreate
          { parentId := targetParentId, index := serverItem.index, title := serverItem.title,
            type := serverItem.type,
            url := if serverItem.type = some "bookmark" then some serverItem.url else none }) w).2 := by
  unfold createMissing
  simp only [Prog.bind_eq, perform, Prog.bind, Prog.run, Prog.failures]
  cases hres : (h (.bookmarksCreate
      { parentId := targetParentId, index := serverItem.index, title := serverItem.title,
        type := serverItem.type,
        url := if serverItem.type = some "bookmark" then some serverItem.url else none }) w).1 with
  | error e =>
    refine ⟨Or.inl ⟨⟨e, rfl⟩, ?_, ?_⟩, ?_, ?_⟩
    · simp [Prog.run, Prog.pure_eq]
    · simp [Op.failed, Prog.failures, Prog.pure_eq]
    · simp [Prog.run, Prog.pure_eq]
    · simp [Prog.run, Prog.pure_eq]
  | ok newItem =>
    refine ⟨Or.inr ⟨⟨newItem, rfl, ?_⟩, ?_⟩, ?_, ?_⟩
    · simp [Prog.run, Prog.pure_eq]
    · simp [Op.failed, Prog.failures, Prog.pure_eq]
    · simp [Prog.run, Prog.pure_eq]
    · simp [Prog.run, Prog.pure_eq]

theorem findLocalItem_matches (st : ReconcileState) (serverItem : BookmarkItem)
    (targetParentId : JsId) (parentExistsLocally : Bool) (ref : ItemRef)
    (hmap : st.createdIdMap.get serverItem.id = none)
    (hfound : findLocalItem st serverItem targetParentId parentExistsLocally = some ref) :
    parentExistsLocally = true ∧
    ∃ i localItem, ref = .snapshot i ∧ st.currentLocalBookmarks.get? i = some localItem ∧
      matchesAttributes targetParentId serverItem localItem = true := by
  unfold findLocalItem at hfound
  simp only [hmap] at hfound
  split at hfound
  · rename_i hp
    refine ⟨hp, ?_⟩
    split at hfound
    · cases hfound
    · rename_i i hi
      obtain ⟨a, ha, hpa⟩ := findFirstIdx_spec _ _ i hi
      rw [ha] at hfound
      simp only at hfound
      split at hfound
      · cases hfound
      · cases hfound
        exact ⟨i, a, rfl, ha, hpa⟩
  · cases hfound

/-- The handling of one server item that has no entry in `createdIdMap`: it is skipped, or
it goes through the branch for a local item found by the attribute search, or through the
creation branch. -/
theorem reconcileItem_cases (st : ReconcileState) (serverItem : BookmarkItem)
    (hmap : st.createdIdMap.get serverItem.id = none) :
    reconcileItem st serverItem = pure st ∨
    (serverItem.id ∉ st.processedServerIds ∧
      ∃ i localItem, st.currentLocalBookmarks.get? i = some localItem ∧
        matchesAttributes (targetParentIdOf st.createdIdMap serverItem) serverItem localItem = true ∧
        reconcileItem st serverItem
          = updateMatched st serverItem (targetParentIdOf st.createdIdMap serverItem) (.snapshot i)
              localItem) ∨
    (serverItem.id ∉ st.processedServerIds ∧
      parentExistsLocallyIn st (targetParentIdOf st.createdIdMap serverItem) = true ∧
      findLocalItem st serverItem (targetParentIdOf st.createdIdMap serverItem) true = none ∧
      reconcileItem st serverItem
        = createMissing st serverItem (targetParentIdOf st.createdIdMap serverItem)) := by
  unfold reconcileItem
  by_cases hprocessed : serverItem.id ∈ st.processedServerIds
  · left
    rw [if_pos hprocessed]
  · rw [if_neg hprocessed]
    simp only
    cases hfound : findLocalItem st serverItem (targetParentIdOf st.createdIdMap serverItem)
        (parentExistsLocallyIn st (targetParentIdOf st.createdIdMap serverItem)) with
    | some ref =>
      obtain ⟨_, i, localItem, href, hget, hmatch⟩ :=
        findLocalItem_matches st serverItem _ _ ref hmap hfound
      subst href
      right
      left
      refine ⟨hprocessed, i, localItem, hget, hmatch, ?_⟩
      simp only [ReconcileState.deref, hget]
    | none =>
      cases hparent : parentExistsLocallyIn st (targetParentIdOf st.createdIdMap serverItem) with
      | false =>
        left
        rfl
      | true =>
        right
        right
        rw [hparent] at hfound
        exact ⟨hprocessed, rfl, hfound, rfl⟩

theorem JsObj.read_of_get_none (o : JsObj) (key : String) (hget : o.get key = none) :
    o.read key = if key ∈ objectPrototypeKeys then .builtin key else .undefined := by
  unfold JsObj.read
  rw [hget]

theorem JsObj.read_of_get_some (o : JsObj) (key value : String) (hget : o.get key = some value) :
    o.read key = .str value := by
  unfold JsObj.read
  rw [hget]

theorem recordMapping_unmapped (st : ReconcileState) (serverItem localItem : BookmarkItem)
    (hmap : st.createdIdMap.get serverItem.id = none)
    (hid : serverItem.id ∉ objectPrototypeKeys) :
    (recordMapping st serverItem localItem).createdIdMap
      = st.createdIdMap.set serverItem.id localItem.id := by
  unfold recordMapping
  rw [JsObj.read_of_get_none _ _ hmap, if_neg hid]
  rfl

theorem recordMapping_inherited (st : ReconcileState) (serverItem localItem : BookmarkItem)
    (hmap : st.createdIdMap.get serverItem.id = none)
    (hid : serverItem.id ∈ objectPrototypeKeys) :
    recordMapping st serverItem localItem = st := by
  unfold recordMapping
  rw [JsObj.read_of_get_none _ _ hmap, if_pos hid]
  rfl

theorem rollbackMapping_unmapped (st : ReconcileState) (serverItem localItem : BookmarkItem)
    (hmap : st.createdIdMap.get serverItem.id = none)
    (hid : serverItem.id ∉ objectPrototypeKeys) :
    (rollbackMapping (recordMapping st serverItem localItem) serverItem localItem).createdIdMap
      = (st.createdIdMap.set serverItem.id localItem.id).delete serverItem.id := by
  unfold rollbackMapping
  rw [recordMapping_unmapped st serverItem localItem hmap hid, JsObj.get_set_self]
  simp

/-- The entries of `createdIdMap` after the mapping of an unmapped server item was recorded:
the entry of the item may have been added. -/
theorem recordMapping_keys (st : ReconcileState) (serverItem localItem : BookmarkItem)
    (hmap : st.createdIdMap.get serverItem.id = none) (id : String)
    (hmem : id ∈ (recordMapping st serverItem localItem).createdIdMap.map Prod.fst) :
    id = serverItem.id ∨ id ∈ st.createdIdMap.map Prod.fst := by
  by_cases hid : serverItem.id ∈ objectPrototypeKeys
  · rw [recordMapping_inherited st serverItem localItem hmap hid] at hmem
    exact Or.inr hmem
  · rw [recordMapping_unmapped st serverItem localItem hmap hid, JsObj.mem_keys_set] at hmem
    exact hmem

/-- The entries of `createdIdMap` after the mapping of an unmapped server item was recorded
and taken back are those it had, and the item has none. -/
theorem rollbackMapping_restores (st : ReconcileState) (serverItem localItem : BookmarkItem)
    (hmap : st.createdIdMap.get serverItem.id = none) :
    (rollbackMapping (recordMapping st serverItem localItem) serverItem
        localItem).createdIdMap.get serverItem.id = none ∧
    ∀ id, id ∈ (rollbackMapping (recordMapping st serverItem localItem) serverItem
        localItem).createdIdMap.map Prod.fst ↔ id ∈ st.createdIdMap.map Prod.fst := by
  have hkey : serverItem.id ∉ st.createdIdMap.map Prod.fst := (JsObj.get_eq_none_iff _ _).1 hmap
  by_cases hid : serverItem.id ∈ objectPrototypeKeys
  · rw [recordMapping_inherited st serverItem localItem hmap hid]
    have hroll : rollbackMapping st serverItem localItem = st := by
      unfold rollbackMapping
      rw [hmap]
      simp
    rw [hroll]
    exact ⟨hmap, fun id => Iff.rfl⟩
  · rw [rollbackMapping_unmapped st serverItem localItem hmap hid]
    constructor
    · rw [JsObj.get_eq_none_iff, JsObj.mem_keys_delete]
      exact fun hmem => hmem.1 rfl
    · intro id
      rw [JsObj.mem_keys_delete, JsObj.mem_keys_set]
      constructor
      · rintro ⟨hne, rfl | hold⟩
        · exact absurd rfl hne
        · exact hold
      · intro hold
        refine ⟨?_, Or.inr hold⟩
        rintro rfl
        exact hkey hold

/-- The handling of one server item keeps every entry of `createdIdMap` an entry of a
processed id. -/
theorem reconcileItem_entriesProcessed {ω : Type} (h : Handler ω) (st : ReconcileState)
    (serverItem : BookmarkItem) (w : ω) (hinv : entriesProcessed st) :
    entriesProcessed ((reconcileItem st serverItem).run h w).1 := by
  by_cases hprocessed : serverItem.id ∈ st.processedServerIds
  · unfold reconcileItem
    rw [if_pos hprocessed]
    exact hinv
  · have hkey : serverItem.id ∉ st.createdIdMap.map Prod.fst := fun hk => hprocessed (hinv _ hk)
    have hmap : st.createdIdMap.get serverItem.id = none :=
      (JsObj.get_eq_none_iff _ _).2 hkey
    rcases reconcileItem_cases st serverItem hmap with hskip | ⟨_, i, localItem, _, _, hrun⟩ |
      ⟨_, _, _, hrun⟩
    · rw [hskip]
      exact hinv
    · rw [hrun]
      obtain ⟨houtcome, _, _, _⟩ := updateMatched_cases h w st serverItem
        (targetParentIdOf st.createdIdMap serverItem) (.snapshot i) localItem
      rcases houtcome with ⟨_, hmapped, hdone⟩ | ⟨_, hmapped, hdone⟩
      · unfold entriesProcessed
        rw [hmapped, hdone]
        intro id hid
        rw [mem_setAdd]
        exact (recordMapping_keys st serverItem localItem hmap id hid).imp_right (hinv id)
      · unfold entriesProcessed
        rw [hmapped, hdone]
        intro id hid
        exact hinv id (((rollbackMapping_restores st serverItem localItem hmap).2 id).1 hid)
    · rw [hrun]
      obtain ⟨houtcome, _, _⟩ := createMissing_cases h w st serverItem
        (targetParentIdOf st.createdIdMap serverItem)
      rcases houtcome with ⟨_, hstate, _⟩ | ⟨⟨newItem, _, hstate⟩, _⟩
      · rw [hstate]
        exact hinv
      · rw [hstate]
        unfold entriesProcessed
        intro id hid
        rw [JsObj.mem_keys_set] at hid
        rw [mem_setAdd]
        exact hid.imp_right (hinv id)

/-- The handling of one server item whose id does not name a property of
`Object.prototype` keeps the entries of `createdIdMap` in step with the processed set. -/
theorem reconcileItem_mappedIsProcessed {ω : Type} (h : Handler ω) (st : ReconcileState)
    (serverItem : BookmarkItem) (w : ω) (hid : serverItem.id ∉ objectPrototypeKeys)
    (hinv : mappedIsProcessed st) :
    mappedIsProcessed ((reconcileItem st serverItem).run h w).1 := by
  by_cases hprocessed : serverItem.id ∈ st.processedServerIds
  · unfold reconcileItem
    rw [if_pos hprocessed]
    exact hinv
  · have hkey : serverItem.id ∉ st.createdIdMap.map Prod.fst := fun hk => hprocessed (hinv.1 _ hk)
    have hmap : st.createdIdMap.get serverItem.id = none :=
      (JsObj.get_eq_none_iff _ _).2 hkey
    rcases reconcileItem_cases st serverItem hmap with hskip | ⟨_, i, localItem, _, _, hrun⟩ |
      ⟨_, _, _, hrun⟩
    · rw [hskip]
      exact hinv
    · rw [hrun]
      obtain ⟨houtcome, _, _, _⟩ := updateMatched_cases h w st serverItem
        (targetParentIdOf st.createdIdMap serverItem) (.snapshot i) localItem
      rcases houtcome with ⟨_, hmapped, hdone⟩ | ⟨_, hmapped, hdone⟩
      · rw [recordMapping_unmapped st serverItem localItem hmap hid] at hmapped
        unfold mappedIsProcessed
        rw [hmapped, hdone]
        constructor
        · intro id hid
          rw [JsObj.mem_keys_set] at hid
          rw [mem_setAdd]
          exact hid.imp_right (hinv.1 id)
        · intro id hid
          rw [mem_setAdd] at hid
          rw [JsObj.mem_keys_set]
          exact hid.imp_right (hinv.2 id)
      · unfold mappedIsProcessed
        rw [hdone]
        constructor
        · intro id hid
          rw [hmapped] at hid
          exact hinv.1 id (((rollbackMapping_restores st serverItem localItem hmap).2 id).1 hid)
        · intro id hid
          rw [hmapped]
          exact ((rollbackMapping_restores st serverItem localItem hmap).2 id).2 (hinv.2 id hid)
    · rw [hrun]
      obtain ⟨houtcome, _, _⟩ := createMissing_cases h w st serverItem
        (targetParentIdOf st.createdIdMap serverItem)
      rcases houtcome with ⟨_, hstate, _⟩ | ⟨⟨newItem, _, hstate⟩, _⟩
      · rw [hstate]
        exact hinv
      · rw [hstate]
        unfold mappedIsProcessed
        constructor
        · intro id hid
          rw [JsObj.mem_keys_set] at hid
          rw [mem_setAdd]
          exact hid.imp_right (hinv.1 id)
        · intro id hid
          rw [mem_setAdd] at hid
          rw [JsObj.mem_keys_set]
          exact hid.imp_right (hinv.2 id)

theorem passStart_mappedIsProcessed (st : ReconcileState) (tree : List BookmarkTreeNode)
    (hinv : mappedIsProcessed st) : mappedIsProcessed (passStart st tree) := hinv

/-- At the start of every handling of a server item in `applyServerStateToBrowser`, every
entry of `createdIdMap` is the entry of a processed server id. -/
theorem applyVisits_entriesProcessed {ω : Type} (h : Handler ω)
    (serverBookmarks : List BookmarkItem) (w : ω) :
    (∀ visit ∈ applyVisits h serverBookmarks w,
      entriesProcessed visit.1 ∧ visit.2.1 ∈ serverBookmarks) ∧
    ∀ report, ((applyServerStateToBrowser (some serverBookmarks)).run h w).1 = .ok (some report) →
      entriesProcessed report.final ∧
      report.unprocessedCount = serverBookmarks.length - report.final.processedServerIds.length :=
  applyVisits_invariant h entriesProcessed serverBookmarks (by decide)
    (fun st serverItem w _ hst => reconcileItem_entriesProcessed h st serverItem w hst)
    (fun _ _ _ _ hst => hst) w

/-- At the start of every handling of a server item in `applyServerStateToBrowser` on a list
none of whose ids names a property of `Object.prototype`, the entries of `createdIdMap` are
those of the processed server ids. -/
theorem applyVisits_mappedIsProcessed {ω : Type} (h : Handler ω)
    (serverBookmarks : List BookmarkItem) (w : ω)
    (hids : ∀ item ∈ serverBookmarks, item.id ∉ objectPrototypeKeys) :
    (∀ visit ∈ applyVisits h serverBookmarks w,
      mappedIsProcessed visit.1 ∧ visit.2.1 ∈ serverBookmarks) ∧
    ∀ report, ((applyServerStateToBrowser (some serverBookmarks)).run h w).1 = .ok (some report) →
      mappedIsProcessed report.final ∧
      report.unprocessedCount = serverBookmarks.length - report.final.processedServerIds.length :=
  applyVisits_invariant h mappedIsProcessed serverBookmarks (by decide)
    (fun st serverItem w hitem hst =>
      reconcileItem_mappedIsProcessed h st serverItem w (hids serverItem hitem) hst)
    (fun st _ tree _ hst => passStart_mappedIsProcessed st tree hst) w

theorem isGetTree_getTree : isGetTree .bookmarksGetTree = true := rfl

theorem reconcileItem_no_getTree (st : ReconcileState) (serverItem : BookmarkItem) :
    (reconcileItem st serverItem).OnlyOps (fun op => isGetTree op = false) := by
  unfold reconcileItem
  split
  · exact Prog.OnlyOps.ret _
  dsimp only
  unfold updateMatched moveMatched updateChanged createMissing
  repeat (first
    | exact Prog.OnlyOps.ret _
    | exact Prog.OnlyOps.perform _ rfl
    | apply Prog.OnlyOps.bind
    | intro _
    | split)

theorem filter_eq_self_of_all {α : Type} (p : α → Bool) (l : List α) (hl : ∀ x ∈ l, p x = true) :
    l.filter p = l := List.filter_eq_self.2 hl

theorem visitTrace_filter {ω : Type} (h : Handler ω) (visit : ReconcileState × BookmarkItem × ω) :
    (visitTrace h visit).filter (fun op => !isGetTree op) = visitTrace h visit := by
  apply filter_eq_self_of_all
  intro op hop
  have hno := (reconcileItem_no_getTree visit.1 visit.2.1).trace h visit.2.2 op hop
  simp only [hno, Bool.not_false]

theorem bind_visitTrace_filter {ω : Type} (h : Handler ω)
    (visits : List (ReconcileState × BookmarkItem × ω)) :
    (visits.flatMap (visitTrace h)).filter (fun op => !isGetTree op) = visits.flatMap (visitTrace h) := by
  apply filter_eq_self_of_all
  intro op hop
  rw [List.mem_flatMap] at hop
  obtain ⟨visit, _, hmem⟩ := hop
  have hno := (reconcileItem_no_getTree visit.1 visit.2.1).trace h visit.2.2 op hmem
  simp only [hno, Bool.not_false]

theorem reconcilePass_trace {ω : Type} (h : Handler ω) (items : List BookmarkItem) :
    ∀ (st : ReconcileState) (w : ω),
      ((reconcilePass items st).run h w).2.2 = (passVisits h items st w).flatMap (visitTrace h) := by
  induction items with
  | nil => intro st w; rfl
  | cons serverItem rest ih =>
    intro st w
    rw [reconcilePass_cons_run, passVisits, List.flatMap_cons, ih]
    rfl

theorem passVisits_items {ω : Type} (h : Handler ω) (items : List BookmarkItem) :
    ∀ (st : ReconcileState) (w : ω),
      (passVisits h items st w).map (fun visit => visit.2.1) = items := by
  induction items with
  | nil => intro st w; rfl
  | cons serverItem rest ih =>
    intro st w
    rw [passVisits, List.map_cons, ih]

theorem reconcileLoop_trace {ω : Type} (h : Handler ω) (serverBookmarks : List BookmarkItem) :
    ∀ (n : Nat) (st : ReconcileState) (w : ω),
      (((reconcileLoop serverBookmarks n st).run h w).2.2.filter (fun op => !isGetTree op)
        = (loopVisits h serverBookmarks n st w).flatMap (visitTrace h)) ∧
      (((reconcileLoop serverBookmarks n st).run h w).2.2.filter isGetTree).length ≤ n ∧
      (loopVisits h serverBookmarks n st w).length ≤ n * serverBookmarks.length := by
  intro n
  induction n with
  | zero =>
    intro st w
    exact ⟨rfl, Nat.le_refl _, by simp [loopVisits]⟩
  | succ remaining ih =>
    intro st w
    cases hchanged : st.changedInPass with
    | false =>
      rw [reconcileLoop_idle_run h serverBookmarks remaining st w hchanged]
      simp [loopVisits, hchanged]
    | true =>
      cases htree : (h .bookmarksGetTree w).1 with
      | error e =>
        rw [reconcileLoop_error_run h serverBookmarks remaining st w hchanged e htree]
        simp [loopVisits, hchanged, htree, isGetTree]
      | ok tree =>
        rw [reconcileLoop_pass_run h serverBookmarks remaining st w hchanged tree htree _ _ _ rfl]
        have hpass := reconcilePass_trace h serverBookmarks (passStart st tree)
          (h .bookmarksGetTree w).2
        have hcount : (passVisits h serverBookmarks (passStart st tree)
            (h .bookmarksGetTree w).2).length = serverBookmarks.length := by
          rw [← List.length_map _ (fun visit => visit.2.1), passVisits_items]
        have hnone : (((passVisits h serverBookmarks (passStart st tree)
            (h .bookmarksGetTree w).2).flatMap (visitTrace h)).filter isGetTree) = [] := by
          rw [List.filter_eq_nil_iff]
          intro op hop
          rw [List.mem_flatMap] at hop
          obtain ⟨visit, _, hmem⟩ := hop
          have hno := (reconcileItem_no_getTree visit.1 visit.2.1).trace h visit.2.2 op hmem
          simp only [hno, Bool.false_eq_true, not_false_eq_true]
        obtain ⟨hnext1, hnext2, hnext3⟩ := ih
          ((reconcilePass serverBookmarks (passStart st tree)).run h (h .bookmarksGetTree w).2).1
          ((reconcilePass serverBookmarks (passStart st tree)).run h (h .bookmarksGetTree w).2).2.1
        rw [loopVisits]
        simp only [hchanged, Bool.not_true, Bool.false_eq_true, if_false, htree]
        split
        · rename_i hstop
          simp only [hstop, if_true, List.append_nil]
          rw [hpass]
          refine ⟨?_, ?_, ?_⟩
          · rw [List.filter_cons]
            simp only [isGetTree_getTree, Bool.not_true, Bool.false_eq_true, if_false]
            exact bind_visitTrace_filter h _
          · rw [List.filter_cons]
            simp only [isGetTree_getTree, if_true, List.length_cons, hnone, List.length_nil]
            omega
          · rw [hcount, Nat.succ_mul]
            omega
        · rename_i hgo
          simp only [hgo, if_false]
          rw [hpass]
          refine ⟨?_, ?_, ?_⟩
          · rw [List.filter_cons]
            simp only [isGetTree_getTree, Bool.not_true, Bool.false_eq_true, if_false]
            rw [List.filter_append, bind_visitTrace_filter, hnext1, List.flatMap_append]
          · rw [List.filter_cons, List.filter_append, hnone]
            simp only [isGetTree_getTree, if_true, List.length_cons, List.nil_append]
            exact Nat.succ_le_succ hnext2
          · rw [List.length_append, hcount, Nat.succ_mul]
            omega

theorem applyServerStateToBrowser_trace {ω : Type} (h : Handler ω)
    (serverBookmarks : List BookmarkItem) (w : ω) :
    (((applyServerStateToBrowser (some serverBookmarks)).run h w).2.2.filter
        (fun op => !isGetTree op) = (applyVisits h serverBookmarks w).flatMap (visitTrace h)) ∧
    (((applyServerStateToBrowser (some serverBookmarks)).run h w).2.2.filter isGetTree).length
      ≤ maxPasses + 1 ∧
    (applyVisits h serverBookmarks w).length ≤ maxPasses * serverBookmarks.length := by
  cases htree : (h .bookmarksGetTree w).1 with
  | error e =>
    rw [applyServerStateToBrowser_error_run h serverBookmarks w e htree]
    simp [applyVisits, htree, isGetTree]
  | ok tree =>
    rw [applyServerStateToBrowser_run h serverBookmarks w tree htree]
    obtain ⟨h1, h2, h3⟩ := reconcileLoop_trace h serverBookmarks maxPasses loopStart
      (h .bookmarksGetTree w).2
    simp only [applyVisits, htree]
    refine ⟨?_, ?_, h3⟩
    · rw [List.filter_cons]
      simp only [isGetTree_getTree, Bool.not_true, Bool.false_eq_true, if_false]
      exact h1
    · rw [List.filter_cons]
      simp only [isGetTree_getTree, if_true, List.length_cons]
      omega

/-- C26 (amended): the invariant of the reconcile loop, for server ids that name no property
of `Object.prototype`. In every execution of `applyServerStateToBrowser` on a server list,
whatever the collaborators answer, at the start of the handling of every server item every
server id with an entry in `createdIdMap` is processed; an unprocessed server item therefore
has no mapping, the lookup of a mapped local item yields nothing for it, and the local item
chosen for it, if any, is an object of the array of the pass that the attribute search
accepted. When no id of the server list names a property of `Object.prototype`, the server
ids with an entry are exactly the processed ones, at the start of every handling and at the
end. The handlings listed by `applyVisits` are all the handlings of the execution: their
requests, in order, are the requests of the execution apart from the reads of the tree. -/
theorem createdIdMap_entries_are_processed {ω : Type} (h : Handler ω) (w : ω)
    (serverBookmarks : List BookmarkItem) :
    (∀ visit ∈ applyVisits h serverBookmarks w,
      entriesProcessed visit.1 ∧
      (visit.2.1.id ∉ visit.1.processedServerIds →
        visit.1.createdIdMap.get visit.2.1.id = none ∧
        ∀ targetParentId parentExistsLocally ref,
          findLocalItem visit.1 visit.2.1 targetParentId parentExistsLocally = some ref →
          parentExistsLocally = true ∧
          ∃ i localItem, ref = .snapshot i ∧
            visit.1.currentLocalBookmarks.get? i = some localItem ∧
            matchesAttributes targetParentId visit.2.1 localItem = true)) ∧
    ((∀ item ∈ serverBookmarks, item.id ∉ objectPrototypeKeys) →
      (∀ visit ∈ applyVisits h serverBookmarks w,
        mappedIsProcessed visit.1 ∧
        ∀ id, visit.1.createdIdMap.get id ≠ none ↔ id ∈ visit.1.processedServerIds) ∧
      (∀ report,
        ((applyServerStateToBrowser (some serverBookmarks)).run h w).1 = .ok (some report) →
        mappedIsProcessed report.final ∧
        ∀ id, report.final.createdIdMap.get id ≠ none ↔ id ∈ report.final.processedServerIds)) ∧
    (((applyServerStateToBrowser (some serverBookmarks)).run h w).2.2.filter
        (fun op => !isGetTree op) = (applyVisits h serverBookmarks w).flatMap (visitTrace h)) ∧
    (∀ report,
      ((applyServerStateToBrowser (some serverBookmarks)).run h w).1 = .ok (some report) →
      entriesProcessed report.final) := by
  have hkeys : ∀ st : ReconcileState, mappedIsProcessed st →
      ∀ id, st.createdIdMap.get id ≠ none ↔ id ∈ st.processedServerIds := by
    intro st hst id
    rw [ne_eq, JsObj.get_eq_none_iff, not_not]
    exact ⟨hst.1 id, hst.2 id⟩
  obtain ⟨hentries, hlast⟩ := applyVisits_entriesProcessed h serverBookmarks w
  refine ⟨?_, ?_, (applyServerStateToBrowser_trace h serverBookmarks w).1, ?_⟩
  · intro visit hvisit
    have hinv := (hentries visit hvisit).1
    refine ⟨hinv, ?_⟩
    intro hunprocessed
    have hmap : visit.1.createdIdMap.get visit.2.1.id = none :=
      (JsObj.get_eq_none_iff _ _).2 (fun hk => hunprocessed (hinv _ hk))
    refine ⟨hmap, ?_⟩
    intro targetParentId parentExistsLocally ref hfound
    exact findLocalItem_matches visit.1 visit.2.1 targetParentId parentExistsLocally ref hmap hfound
  · intro hids
    obtain ⟨hvisits, hfinal⟩ := applyVisits_mappedIsProcessed h serverBookmarks w hids
    constructor
    · intro visit hvisit
      exact ⟨(hvisits visit hvisit).1, hkeys visit.1 (hvisits visit hvisit).1⟩
    · intro report hreport
      exact ⟨(hfinal report hreport).1, hkeys report.final (hfinal report hreport).1⟩
  · intro report hreport
    exact (hlast report hreport).1

/-- Counterexample to C26: the first server item has the id `constructor`, a non-empty
string, and is matched with the local folder `Docs`. The read `createdIdMap['constructor']`
finds the function that every object inherits, so no mapping is recorded (line 565) while
the id is marked processed (line 603): at the start of the next handling, in every later
handling and at the end, `constructor` is processed without an entry in `createdIdMap`. No
request fails. -/
theorem inherited_property_hides_missing_mapping :
    (∀ item ∈ constructorList, item.id ≠ "") ∧
    (applyServerStateToBrowser (some constructorList)).failures (deviceHandler offline)
        (profileWith docsTree) = 0 ∧
    (applyVisits (deviceHandler offline) constructorList (profileWith docsTree)).map
        (fun visit => (visit.2.1.id, visit.1.processedServerIds, visit.1.createdIdMap))
      = [("constructor", [], []),
         ("y1", ["constructor"], []),
         ("constructor", ["constructor", "y1"], [("y1", "new1")]),
         ("y1", ["constructor", "y1"], [("y1", "new1")])] ∧
    (¬ ∀ visit ∈ applyVisits (deviceHandler offline) constructorList (profileWith docsTree),
        mappedIsProcessed visit.1) ∧
    (reportOf ((applyServerStateToBrowser (some constructorList)).run (deviceHandler offline)
        (profileWith docsTree)).1).map
      (fun report => (report.unprocessedCount, report.final.processedServerIds,
        report.final.createdIdMap, decide (mappedIsProcessed report.final)))
      = some (0, ["constructor", "y1"], [("y1", "new1")], false) := by
  decide!

/-! ### Failures of single calls -/

theorem reconcileItem_processed_cases {ω : Type} (h : Handler ω) (st : ReconcileState)
    (serverItem : BookmarkItem) (w : ω) (hinv : entriesProcessed st) :
    ((reconcileItem st serverItem).failures h w = 0 ∧
      (((reconcileItem st serverItem).run h w).1.processedServerIds = st.processedServerIds ∨
       ((reconcileItem st serverItem).run h w).1.processedServerIds
          = setAdd st.processedServerIds serverItem.id)) ∨
    (0 < (reconcileItem st serverItem).failures h w ∧
      serverItem.id ∉ st.processedServerIds ∧
      ((reconcileItem st serverItem).run h w).1.processedServerIds = st.processedServerIds ∧
      ((reconcileItem st serverItem).run h w).1.createdIdMap.get serverItem.id = none) := by
  by_cases hprocessed : serverItem.id ∈ st.processedServerIds
  · left
    unfold reconcileItem
    rw [if_pos hprocessed]
    exact ⟨rfl, Or.inl rfl⟩
  · have hkey : serverItem.id ∉ st.createdIdMap.map Prod.fst := fun hk => hprocessed (hinv _ hk)
    have hmap : st.createdIdMap.get serverItem.id = none :=
      (JsObj.get_eq_none_iff _ _).2 hkey
    rcases reconcileItem_cases st serverItem hmap with hskip | ⟨_, i, localItem, _, _, hrun⟩ |
      ⟨_, _, _, hrun⟩
    · left
      rw [hskip]
      exact ⟨rfl, Or.inl rfl⟩
    · rw [hrun]
      obtain ⟨houtcome, _, _, _⟩ := updateMatched_cases h w st serverItem
        (targetParentIdOf st.createdIdMap serverItem) (.snapshot i) localItem
      rcases houtcome with ⟨hnone, _, hdone⟩ | ⟨hsome, hmapped, hdone⟩
      · exact Or.inl ⟨hnone, Or.inr hdone⟩
      · refine Or.inr ⟨hsome, hprocessed, hdone, ?_⟩
        rw [hmapped]
        exact (rollbackMapping_restores st serverItem localItem hmap).1
    · rw [hrun]
      obtain ⟨houtcome, _, _⟩ := createMissing_cases h w st serverItem
        (targetParentIdOf st.createdIdMap serverItem)
      rcases houtcome with ⟨_, hstate, hfail⟩ | ⟨⟨newItem, _, hstate⟩, hnone⟩
      · refine Or.inr ⟨by omega, hprocessed, by rw [hstate], ?_⟩
        rw [hstate]
        exact hmap
      · refine Or.inl ⟨hnone, Or.inr ?_⟩
        rw [hstate]

theorem setAdd_nodup (set : List String) (id : String) (hset : set.Nodup) :
    (setAdd set id).Nodup := by
  unfold setAdd
  split
  · exact hset
  · rename_i hnot
    rw [List.nodup_append]
    refine ⟨hset, List.nodup_singleton _, ?_⟩
    intro x hx hy
    rw [List.mem_singleton] at hy
    subst hy
    exact hnot hx

theorem length_lt_of_unprocessed (processed : List String) (serverBookmarks : List BookmarkItem)
    (hnodup : processed.Nodup)
    (hsub : ∀ id ∈ processed, ∃ item ∈ serverBookmarks, item.id = id)
    (item : BookmarkItem) (hitem : item ∈ serverBookmarks) (hmissing : item.id ∉ processed) :
    processed.length < serverBookmarks.length := by
  have hnodup2 : (item.id :: processed).Nodup := List.nodup_cons.2 ⟨hmissing, hnodup⟩
  have hsub2 : (item.id :: processed) ⊆ serverBookmarks.map (fun x => x.id) := by
    intro x hx
    rw [List.mem_cons] at hx
    rw [List.mem_map]
    rcases hx with rfl | hx
    · exact ⟨item, hitem, rfl⟩
    · exact hsub x hx
  have hle := (List.subperm_of_subset hnodup2 hsub2).length_le
  rw [List.length_cons, List.length_map] at hle
  omega

theorem reconcileItem_processedWithin {ω : Type} (h : Handler ω)
    (serverBookmarks : List BookmarkItem) (st : ReconcileState) (serverItem : BookmarkItem) (w : ω)
    (hitem : serverItem ∈ serverBookmarks) (hinv : processedWithin serverBookmarks st) :
    processedWithin serverBookmarks ((reconcileItem st serverItem).run h w).1 := by
  refine ⟨reconcileItem_entriesProcessed h st serverItem w hinv.1, ?_⟩
  rcases reconcileItem_processed_cases h st serverItem w hinv.1 with
    ⟨_, hsame | hadded⟩ | ⟨_, _, hsame, _⟩
  · rw [hsame]
    exact hinv.2
  · rw [hadded]
    refine ⟨setAdd_nodup _ _ hinv.2.1, ?_⟩
    intro id hid
    rw [mem_setAdd] at hid
    rcases hid with rfl | hold
    · exact ⟨serverItem, hitem, rfl⟩
    · exact hinv.2.2 id hold
  · rw [hsame]
    exact hinv.2

theorem applyVisits_processedWithin {ω : Type} (h : Handler ω)
    (serverBookmarks : List BookmarkItem) (w : ω) :
    (∀ visit ∈ applyVisits h serverBookmarks w,
      processedWithin serverBookmarks visit.1 ∧ visit.2.1 ∈ serverBookmarks) ∧
    ∀ report, ((applyServerStateToBrowser (some serverBookmarks)).run h w).1 = .ok (some report) →
      processedWithin serverBookmarks report.final ∧
      report.unprocessedCount = serverBookmarks.length - report.final.processedServerIds.length :=
  applyVisits_invariant h (processedWithin serverBookmarks) serverBookmarks
    ⟨by decide, List.nodup_nil, by intro id hid; cases hid⟩
    (fun st serverItem w hitem hst =>
      reconcileItem_processedWithin h serverBookmarks st serverItem w hitem hst)
    (fun _ _ _ _ hst => hst) w

theorem reconcileLoop_error {ω : Type} (h : Handler ω) (serverBookmarks : List BookmarkItem) :
    ∀ (n : Nat) (st : ReconcileState) (w : ω) (e : String),
      ((reconcileLoop serverBookmarks n st).run h w).1 = .error e →
      ∃ w2, (h .bookmarksGetTree w2).1 = .error e := by
  intro n
  induction n with
  | zero =>
    intro st w e herr
    cases herr
  | succ remaining ih =>
    intro st w e herr
    cases hchanged : st.changedInPass with
    | false =>
      rw [reconcileLoop_idle_run h serverBookmarks remaining st w hchanged] at herr
      cases herr
    | true =>
      cases htree : (h .bookmarksGetTree w).1 with
      | error e2 =>
        rw [reconcileLoop_error_run h serverBookmarks remaining st w hchanged e2 htree] at herr
        cases herr
        exact ⟨w, htree⟩
      | ok tree =>
        rw [reconcileLoop_pass_run h serverBookmarks remaining st w hchanged tree htree _ _ _ rfl]
          at herr
        split at herr
        · cases herr
        · exact ih _ _ e herr

theorem applyServerStateToBrowser_error {ω : Type} (h : Handler ω)
    (serverBookmarks : List BookmarkItem) (w : ω) (e : String)
    (herr : ((applyServerStateToBrowser (some serverBookmarks)).run h w).1 = .error e) :
    ∃ w2, (h .bookmarksGetTree w2).1 = .error e := by
  cases htree : (h .bookmarksGetTree w).1 with
  | error e2 =>
    rw [applyServerStateToBrowser_error_run h serverBookmarks w e2 htree] at herr
    cases herr
    exact ⟨w, htree⟩
  | ok tree =>
    rw [applyServerStateToBrowser_run h serverBookmarks w tree htree] at herr
    cases hloop : ((reconcileLoop serverBookmarks maxPasses loopStart).run h
        (h .bookmarksGetTree w).2).1 with
    | error e2 =>
      rw [hloop] at herr
      cases herr
      exact reconcileLoop_error h serverBookmarks _ _ _ e hloop
    | ok final =>
      rw [hloop] at herr
      cases herr

/-- C23: failures of single calls are isolated. In every execution of
`applyServerStateToBrowser`, whatever the collaborators answer: when a create, move or
update call of the handling of a server item is rejected, that handling ends with the item
unprocessed, without an entry in `createdIdMap` and with the processed set as it was; every
pass still handles every item of the server list, one after the other; the call as a whole
fails only with the error of a rejected read of the tree; and an item that is unprocessed at
the end makes the unprocessed count positive. On the reference profile, a bookmark whose
parent `0` does not exist is refused in both passes while the other bookmark is created, and
the call returns with one unprocessed item. -/
theorem reconcile_failure_is_isolated {ω : Type} (h : Handler ω) (w : ω)
    (serverBookmarks : List BookmarkItem) :
    (∀ visit ∈ applyVisits h serverBookmarks w,
      0 < (reconcileItem visit.1 visit.2.1).failures h visit.2.2 →
      visit.2.1.id ∉ (visitResult h visit).processedServerIds ∧
      (visitResult h visit).createdIdMap.get visit.2.1.id = none ∧
      (visitResult h visit).processedServerIds = visit.1.processedServerIds) ∧
    (∀ items st w2,
      (passVisits h items st w2).map (fun visit => visit.2.1) = items ∧
      ((reconcilePass items st).run h w2).2.2 = (passVisits h items st w2).flatMap (visitTrace h)) ∧
    (∀ e, ((applyServerStateToBrowser (some serverBookmarks)).run h w).1 = .error e →
      ∃ w2, (h .bookmarksGetTree w2).1 = .error e) ∧
    (∀ report,
      ((applyServerStateToBrowser (some serverBookmarks)).run h w).1 = .ok (some report) →
      ∀ item ∈ serverBookmarks, item.id ∉ report.final.processedServerIds →
        0 < report.unprocessedCount) ∧
    ((applyServerStateToBrowser (some orphanList)).failures (deviceHandler offline)
        (profileWith emptyToolbar) = 2 ∧
     (reportOf ((applyServerStateToBrowser (some orphanList)).run (deviceHandler offline)
        (profileWith emptyToolbar)).1).map
      (fun report => (report.unprocessedCount, report.final.processedServerIds,
        report.final.createdIdMap))
      = some (1, ["y1"], [("y1", "new1")])) := by
  refine ⟨?_, ?_, ?_, ?_, by decide!⟩
  · intro visit hvisit hfail
    have hinv := ((applyVisits_entriesProcessed h serverBookmarks w).1 visit hvisit).1
    rcases reconcileItem_processed_cases h visit.1 visit.2.1 visit.2.2 hinv with
      ⟨hnone, _⟩ | ⟨_, hunprocessed, hsame, hmap⟩
    · omega
    · refine ⟨?_, hmap, hsame⟩
      unfold visitResult
      rw [hsame]
      exact hunprocessed
  · intro items st w2
    exact ⟨passVisits_items h items st w2, reconcilePass_trace h items st w2⟩
  · intro e herr
    exact applyServerStateToBrowser_error h serverBookmarks w e herr
  · intro report hreport item hitem hmissing
    obtain ⟨hwithin, hcount⟩ := (applyVisits_processedWithin h serverBookmarks w).2 report hreport
    have hlt := length_lt_of_unprocessed report.final.processedServerIds serverBookmarks
      hwithin.2.1 hwithin.2.2 item hitem hmissing
    omega

/-! ### The bound on the reconciliation -/

theorem reconcileItem_trace_length {ω : Type} (h : Handler ω) (st : ReconcileState)
    (serverItem : BookmarkItem) (w : ω) :
    ((reconcileItem st serverItem).run h w).2.2.length ≤ 2 := by
  unfold reconcileItem
  split
  · simp [Prog.run_pure]
  · dsimp only
    split
    · split
      · exact (updateMatched_cases h w st serverItem _ _ _).2.2.2
      · simp [Prog.run_pure]
    · split
      · simp [Prog.run_pure]
      · rw [(createMissing_cases h w st serverItem _).2.1]
        simp

theorem length_filter_split {α : Type} (p : α → Bool) (l : List α) :
    l.length = (l.filter p).length + (l.filter (fun x => !p x)).length := by
  induction l with
  | nil => rfl
  | cons a rest ih =>
    cases hp : p a <;> simp [List.filter_cons, hp, ih] <;> omega

theorem length_flatMap_le {α β : Type} (f : α → List β) (bound : Nat) (l : List α)
    (hf : ∀ a, (f a).length ≤ bound) : (l.flatMap f).length ≤ bound * l.length := by
  induction l with
  | nil => simp
  | cons a rest ih =>
    rw [List.flatMap_cons, List.length_append, List.length_cons, Nat.mul_succ]
    have := hf a
    omega

/-- C24: the reconciliation is bounded. For every server list and every behaviour of the
collaborators, an execution of `applyServerStateToBrowser` reads the tree at most 6 times,
once before the loop and once per pass, so there are at most 5 passes; every pass handles
every item of the server list exactly once, a handling issues at most 2 requests, and the
execution issues at most `6 + 2 * 5 * n` requests for a list of `n` items, after which it
returns. It fails only with the error of a rejected read of the tree: on the reference
profile, a chain of 6 folders listed child first leaves one item unprocessed after the fifth
pass and the call returns its report. -/
theorem applyServerStateToBrowser_bounded {ω : Type} (h : Handler ω) (w : ω)
    (serverBookmarks : List BookmarkItem) :
    maxPasses = 5 ∧
    (((applyServerStateToBrowser (some serverBookmarks)).run h w).2.2.filter isGetTree).length
      ≤ maxPasses + 1 ∧
    (applyVisits h serverBookmarks w).length ≤ maxPasses * serverBookmarks.length ∧
    (∀ items st w2,
      (passVisits h items st w2).map (fun visit => visit.2.1) = items ∧
      ((reconcilePass items st).run h w2).2.2 = (passVisits h items st w2).flatMap (visitTrace h)) ∧
    (∀ visit, (visitTrace h visit).length ≤ 2) ∧
    ((applyServerStateToBrowser (some serverBookmarks)).run h w).2.2.length
      ≤ (maxPasses + 1) + 2 * (maxPasses * serverBookmarks.length) ∧
    (∀ e, ((applyServerStateToBrowser (some serverBookmarks)).run h w).1 = .error e →
      ∃ w2, (h .bookmarksGetTree w2).1 = .error e) ∧
    (reportOf ((applyServerStateToBrowser (some (reversedChain 6))).run (deviceHandler offline)
        (profileWith emptyToolbar)).1).map
      (fun report => (report.unprocessedCount, report.final.pass)) = some (1, 5) := by
  obtain ⟨htrace, hreads, hvisits⟩ := applyServerStateToBrowser_trace h serverBookmarks w
  have hvisit : ∀ visit : ReconcileState × BookmarkItem × ω, (visitTrace h visit).length ≤ 2 :=
    fun visit => reconcileItem_trace_length h visit.1 visit.2.1 visit.2.2
  refine ⟨rfl, hreads, hvisits, ?_, hvisit, ?_, ?_, by decide!⟩
  · intro items st w2
    exact ⟨passVisits_items h items st w2, reconcilePass_trace h items st w2⟩
  · rw [length_filter_split isGetTree, htrace]
    have hbound := length_flatMap_le (visitTrace h) 2 (applyVisits h serverBookmarks w) hvisit
    have hmul : 2 * (applyVisits h serverBookmarks w).length
        ≤ 2 * (maxPasses * serverBookmarks.length) := Nat.mul_le_mul_left 2 hvisits
    omega
  · intro e herr
    exact applyServerStateToBrowser_error h serverBookmarks w e herr

/-! ### What a matched item can be asked to change -/

theorem matchesAttributes_spec (targetParentId : JsId) (serverItem item : BookmarkItem)
    (hm : matchesAttributes targetParentId serverItem item = true) :
    item.parentId = targetParentId ∧ item.type = serverItem.type ∧
    ((item.type = some "bookmark" ∧ item.title = serverItem.title ∧ item.url = serverItem.url) ∨
     (item.type = some "folder" ∧ item.title = serverItem.title) ∨
     (item.type = some "separator" ∧ item.index = serverItem.index)) := by
  unfold matchesAttributes at hm
  split at hm
  · cases hm
  · rename_i hne
    rw [not_or, not_not, not_not] at hne
    refine ⟨hne.1, hne.2, ?_⟩
    split at hm
    · rename_i hb
      simp only [Bool.and_eq_true, decide_eq_true_eq] at hm
      exact Or.inl ⟨hb, hm.1, hm.2⟩
    · split at hm
      · rename_i hf
        simp only [decide_eq_true_eq] at hm
        exact Or.inr (Or.inl ⟨hf, hm⟩)
      · split at hm
        · rename_i hs
          simp only [decide_eq_true_eq] at hm
          exact Or.inr (Or.inr ⟨hs, hm⟩)
        · cases hm

theorem findFirstIdx_none {α : Type} (p : α → Bool) (l : List α) (hl : ∀ x ∈ l, p x = false) :
    findFirstIdx p l = none := by
  induction l with
  | nil => rfl
  | cons a rest ih =>
    unfold findFirstIdx
    rw [hl a (List.mem_cons_self _ _)]
    simp only [Bool.false_eq_true, if_false]
    rw [ih (fun x hx => hl x (List.mem_cons_of_mem _ hx))]
    rfl

theorem findLocalItem_none_of_no_match (st : ReconcileState) (serverItem : BookmarkItem)
    (targetParentId : JsId) (parentExistsLocally : Bool)
    (hmap : st.createdIdMap.get serverItem.id = none)
    (hnone : ∀ item ∈ st.currentLocalBookmarks,
      matchesAttributes targetParentId serverItem item = false) :
    findLocalItem st serverItem targetParentId parentExistsLocally = none := by
  unfold findLocalItem
  simp only [hmap, findFirstIdx_none _ _ hnone]
  split <;> rfl

/-- The requests of the handling of a server item without an entry in `createdIdMap`: a
creation under the resolved parent, a move of a matched bookmark or folder to the server's
index under the parent it has, or a change of the title of a matched separator. -/
theorem reconcileItem_requests {ω : Type} (h : Handler ω) (st : ReconcileState)
    (serverItem : BookmarkItem) (w : ω) (hmap : st.createdIdMap.get serverItem.id = none) :
    ∀ op ∈ ((reconcileItem st serverItem).run h w).2.2,
      (op = .bookmarksCreate
          { parentId := targetParentIdOf st.createdIdMap serverItem, index := serverItem.index,
            title := serverItem.title, type := serverItem.type,
            url := if serverItem.type = some "bookmark" then some serverItem.url else none }) ∨
      (∃ localItem ∈ st.currentLocalBookmarks,
        (serverItem.type = some "bookmark" ∨ serverItem.type = some "folder") ∧
        localItem.type = serverItem.type ∧ localItem.title = serverItem.title ∧
        op = .bookmarksMove localItem.id
          { parentId := localItem.parentId, index := serverItem.index }) ∨
      (∃ localItem ∈ st.currentLocalBookmarks,
        serverItem.type = some "separator" ∧ localItem.type = some "separator" ∧
        op = .bookmarksUpdate localItem.id { title := some serverItem.title, url := none }) := by
  intro op hop
  rcases reconcileItem_cases st serverItem hmap with hskip | ⟨_, i, localItem, hget, hmatch, hrun⟩ |
    ⟨_, _, _, hrun⟩
  · rw [hskip] at hop
    simp [Prog.run_pure] at hop
  · rw [hrun] at hop
    obtain ⟨hparent, htype, hkind⟩ := matchesAttributes_spec _ _ _ hmatch
    have hmem : localItem ∈ st.currentLocalBookmarks := List.get?_mem hget
    rcases (updateMatched_cases h w st serverItem _ _ localItem).2.2.1 op hop with
      ⟨hmove, hindex⟩ | ⟨hupdate, hneeds⟩
    · right
      left
      rcases hkind with ⟨hb, htitle, _⟩ | ⟨hf, htitle⟩ | ⟨_, hsame⟩
      · exact ⟨localItem, hmem, Or.inl (htype ▸ hb), htype, htitle, by rw [hmove, hparent]⟩
      · exact ⟨localItem, hmem, Or.inr (htype ▸ hf), htype, htitle, by rw [hmove, hparent]⟩
      · exact absurd hsame hindex
    · right
      right
      unfold needsUpdateFor at hneeds
      rcases hkind with ⟨hb, htitle, hurl⟩ | ⟨hf, htitle⟩ | ⟨hs, _⟩
      · simp [htitle, hurl] at hneeds
      · simp [htitle, hf] at hneeds
      · refine ⟨localItem, hmem, htype ▸ hs, hs, ?_⟩
        rw [hupdate]
        have htitle : localItem.title ≠ serverItem.title := by
          simpa [hs] using hneeds
        simp [changesFor, htitle, hs]
  · rw [hrun, (createMissing_cases h w st serverItem _).2.1] at hop
    rw [List.mem_singleton] at hop
    exact Or.inl hop

/-- C27: bookmarks and folders are neither renamed nor retargeted. In every execution of
`applyServerStateToBrowser`, whatever the collaborators answer, every request of the
handling of a server item is a creation under the resolved parent, a move of a local
bookmark or folder of the same type and title to the server's index under the parent that
local item has, or a change of the title of a local separator for a server separator; so no
update is ever issued for a server item of type bookmark or folder, and every update of the
execution carries the title of a server separator and no url. An unprocessed server item
whose resolved parent exists and that no local item of the pass matches is created as a new
node. -/
theorem applyServerStateToBrowser_no_rename {ω : Type} (h : Handler ω) (w : ω)
    (serverBookmarks : List BookmarkItem) :
    (∀ visit ∈ applyVisits h serverBookmarks w, ∀ op ∈ visitTrace h visit,
      (op = .bookmarksCreate
          { parentId := targetParentIdOf visit.1.createdIdMap visit.2.1,
            index := visit.2.1.index, title := visit.2.1.title, type := visit.2.1.type,
            url := if visit.2.1.type = some "bookmark" then some visit.2.1.url else none }) ∨
      (∃ localItem ∈ visit.1.currentLocalBookmarks,
        (visit.2.1.type = some "bookmark" ∨ visit.2.1.type = some "folder") ∧
        localItem.type = visit.2.1.type ∧ localItem.title = visit.2.1.title ∧
        op = .bookmarksMove localItem.id
          { parentId := localItem.parentId, index := visit.2.1.index }) ∨
      (∃ localItem ∈ visit.1.currentLocalBookmarks,
        visit.2.1.type = some "separator" ∧ localItem.type = some "separator" ∧
        op = .bookmarksUpdate localItem.id { title := some visit.2.1.title, url := none })) ∧
    (∀ visit ∈ applyVisits h serverBookmarks w,
      (visit.2.1.type = some "bookmark" ∨ visit.2.1.type = some "folder") →
      ∀ id changes, Op.bookmarksUpdate id changes ∉ visitTrace h visit) ∧
    (∀ id changes,
      Op.bookmarksUpdate id changes ∈ ((applyServerStateToBrowser (some serverBookmarks)).run h w).2.2 →
      ∃ serverItem ∈ serverBookmarks, serverItem.type = some "separator" ∧
        changes = { title := some serverItem.title, url := none }) ∧
    (∀ visit ∈ applyVisits h serverBookmarks w,
      visit.2.1.id ∉ visit.1.processedServerIds →
      parentExistsLocallyIn visit.1 (targetParentIdOf visit.1.createdIdMap visit.2.1) = true →
      (∀ item ∈ visit.1.currentLocalBookmarks,
        matchesAttributes (targetParentIdOf visit.1.createdIdMap visit.2.1) visit.2.1 item
          = false) →
      visitTrace h visit = [.bookmarksCreate
          { parentId := targetParentIdOf visit.1.createdIdMap visit.2.1,
            index := visit.2.1.index, title := visit.2.1.title, type := visit.2.1.type,
            url := if visit.2.1.type = some "bookmark" then some visit.2.1.url else none }]) := by
  have hvisits := (applyVisits_entriesProcessed h serverBookmarks w).1
  have hrequests : ∀ visit ∈ applyVisits h serverBookmarks w, ∀ op ∈ visitTrace h visit,
      (op = .bookmarksCreate
          { parentId := targetParentIdOf visit.1.createdIdMap visit.2.1,
            index := visit.2.1.index, title := visit.2.1.title, type := visit.2.1.type,
            url := if visit.2.1.type = some "bookmark" then some visit.2.1.url else none }) ∨
      (∃ localItem ∈ visit.1.currentLocalBookmarks,
        (visit.2.1.type = some "bookmark" ∨ visit.2.1.type = some "folder") ∧
        localItem.type = visit.2.1.type ∧ localItem.title = visit.2.1.title ∧
        op = .bookmarksMove localItem.id
          { parentId := localItem.parentId, index := visit.2.1.index }) ∨
      (∃ localItem ∈ visit.1.currentLocalBookmarks,
        visit.2.1.type = some "separator" ∧ localItem.type = some "separator" ∧
        op = .bookmarksUpdate localItem.id { title := some visit.2.1.title, url := none }) := by
    intro visit hvisit op hop
    by_cases hprocessed : visit.2.1.id ∈ visit.1.processedServerIds
    · unfold visitTrace reconcileItem at hop
      rw [if_pos hprocessed] at hop
      simp [Prog.run_pure] at hop
    · have hkey : visit.2.1.id ∉ visit.1.createdIdMap.map Prod.fst :=
        fun hk => hprocessed ((hvisits visit hvisit).1 _ hk)
      exact reconcileItem_requests h visit.1 visit.2.1 visit.2.2
        ((JsObj.get_eq_none_iff _ _).2 hkey) op hop
  refine ⟨hrequests, ?_, ?_, ?_⟩
  · intro visit hvisit htype id changes hmem
    rcases hrequests visit hvisit _ hmem with hcreate | ⟨_, _, _, _, _, hmove⟩ |
      ⟨_, _, hsep, _, _⟩
    · cases hcreate
    · cases hmove
    · rw [hsep] at htype
      rcases htype with htype | htype <;> simp at htype
  · intro id changes hmem
    have hfiltered : Op.bookmarksUpdate id changes ∈
        ((applyServerStateToBrowser (some serverBookmarks)).run h w).2.2.filter
          (fun op => !isGetTree op) := by
      rw [List.mem_filter]
      exact ⟨hmem, rfl⟩
    rw [(applyServerStateToBrowser_trace h serverBookmarks w).1, List.mem_flatMap] at hfiltered
    obtain ⟨visit, hvisit, hop⟩ := hfiltered
    rcases hrequests visit hvisit _ hop with hcreate | ⟨_, _, _, _, _, hmove⟩ |
      ⟨localItem, _, hsep, _, hupdate⟩
    · cases hcreate
    · cases hmove
    · refine ⟨visit.2.1, (hvisits visit hvisit).2, hsep, ?_⟩
      cases hupdate
      rfl
  · intro visit hvisit hunprocessed hparent hnone
    have hkey : visit.2.1.id ∉ visit.1.createdIdMap.map Prod.fst :=
      fun hk => hunprocessed ((hvisits visit hvisit).1 _ hk)
    have hmap := (JsObj.get_eq_none_iff _ _).2 hkey
    unfold visitTrace reconcileItem
    rw [if_neg hunprocessed]
    simp only [hparent, findLocalItem_none_of_no_match visit.1 visit.2.1 _ true hmap hnone,
      Bool.not_true, Bool.false_eq_true, if_false]
    exact (createMissing_cases h visit.2.2 visit.1 visit.2.1 _).2.1

/-! ### The root of a snapshot -/

theorem passVisits_invariant_on {ω : Type} (h : Handler ω) (I : ReconcileState → Prop)
    (H : ReconcileState × BookmarkItem × ω → Prop)
    (hitem : ∀ st serverItem w, H (st, serverItem, w) → I st →
      I ((reconcileItem st serverItem).run h w).1) :
    ∀ (items : List BookmarkItem) (st : ReconcileState) (w : ω),
      (∀ visit ∈ passVisits h items st w, H visit) → I st →
      I ((reconcilePass items st).run h w).1 := by
  intro items
  induction items with
  | nil =>
    intro st w _ hst
    exact hst
  | cons serverItem rest ih =>
    intro st w hH hst
    rw [reconcilePass_cons_run]
    rw [passVisits] at hH
    exact ih _ _ (fun visit hvisit => hH visit (List.mem_cons_of_mem _ hvisit))
      (hitem st serverItem w (hH _ (List.mem_cons_self _ _)) hst)

theorem loopVisits_invariant_on {ω : Type} (h : Handler ω) (I : ReconcileState → Prop)
    (H : ReconcileState × BookmarkItem × ω → Prop) (serverBookmarks : List BookmarkItem)
    (hitem : ∀ st serverItem w, H (st, serverItem, w) → I st →
      I ((reconcileItem st serverItem).run h w).1)
    (hstart : ∀ st tree, I st → I (passStart st tree)) :
    ∀ (n : Nat) (st : ReconcileState) (w : ω),
      (∀ visit ∈ loopVisits h serverBookmarks n st w, H visit) → I st →
      ∀ final, ((reconcileLoop serverBookmarks n st).run h w).1 = .ok final → I final := by
  intro n
  induction n with
  | zero =>
    intro st w _ hst final hfinal
    have hrun : (reconcileLoop serverBookmarks 0 st).run h w = (.ok st, w, []) := rfl
    rw [hrun] at hfinal
    cases hfinal
    exact hst
  | succ remaining ih =>
    intro st w hH hst final hfinal
    cases hchanged : st.changedInPass with
    | false =>
      rw [reconcileLoop_idle_run h serverBookmarks remaining st w hchanged] at hfinal
      cases hfinal
      exact hst
    | true =>
      cases htree : (h .bookmarksGetTree w).1 with
      | error e =>
        rw [reconcileLoop_error_run h serverBookmarks remaining st w hchanged e htree] at hfinal
        cases hfinal
      | ok tree =>
        rw [loopVisits] at hH
        simp only [hchanged, Bool.not_true, Bool.false_eq_true, if_false, htree] at hH
        have hpassed := passVisits_invariant_on h I H hitem serverBookmarks (passStart st tree)
          (h .bookmarksGetTree w).2 (fun visit hvisit => hH visit (List.mem_append_left _ hvisit))
          (hstart st tree hst)
        rw [reconcileLoop_pass_run h serverBookmarks remaining st w hchanged tree htree _ _ _ rfl]
          at hfinal
        split at hfinal
        · cases hfinal
          exact hpassed
        · rename_i hgo
          refine ih _ _ ?_ hpassed final hfinal
          intro visit hvisit
          apply hH visit
          apply List.mem_append_right
          rw [if_neg hgo]
          exact hvisit

theorem applyVisits_invariant_on {ω : Type} (h : Handler ω) (I : ReconcileState → Prop)
    (H : ReconcileState × BookmarkItem × ω → Prop) (serverBookmarks : List BookmarkItem)
    (hinit : I loopStart)
    (hitem : ∀ st serverItem w, H (st, serverItem, w) → I st →
      I ((reconcileItem st serverItem).run h w).1)
    (hstart : ∀ st tree, I st → I (passStart st tree)) (w : ω)
    (hH : ∀ visit ∈ applyVisits h serverBookmarks w, H visit) :
    ∀ report, ((applyServerStateToBrowser (some serverBookmarks)).run h w).1 = .ok (some report) →
      I report.final := by
  intro report hreport
  cases htree : (h .bookmarksGetTree w).1 with
  | error e =>
    rw [applyServerStateToBrowser_error_run h serverBookmarks w e htree] at hreport
    cases hreport
  | ok tree =>
    rw [applyServerStateToBrowser_run h serverBookmarks w tree htree] at hreport
    simp only [applyVisits, htree] at hH
    cases hfinal : ((reconcileLoop serverBookmarks maxPasses loopStart).run h
        (h .bookmarksGetTree w).2).1 with
    | error e =>
      rw [hfinal] at hreport
      cases hreport
    | ok final =>
      rw [hfinal] at hreport
      simp only [Except.ok.injEq, Option.some.injEq] at hreport
      subst hreport
      exact loopVisits_invariant_on h I H serverBookmarks hitem hstart maxPasses loopStart
        (h .bookmarksGetTree w).2 hH hinit final hfinal

theorem findLastIdx_none {α : Type} (p : α → Bool) (l : List α) (hl : ∀ x ∈ l, p x = false) :
    findLastIdx p l = none := by
  induction l with
  | nil => rfl
  | cons a rest ih =>
    unfold findLastIdx
    rw [ih (fun x hx => hl x (List.mem_cons_of_mem _ hx)), hl a (List.mem_cons_self _ _)]
    rfl

theorem mapRef_none (st : ReconcileState) (key : String)
    (hlocal : ∀ item ∈ st.currentLocalBookmarks ++ st.createdItems, item.id ≠ key) :
    st.mapRef key = none := by
  unfold ReconcileState.mapRef
  rw [findLastIdx_none _ st.createdItems (fun x hx => by
        simpa using hlocal x (List.mem_append_right _ hx)),
      findLastIdx_none _ st.currentLocalBookmarks (fun x hx => by
        simpa using hlocal x (List.mem_append_left _ hx))]

/-- A server item without a parent id is skipped when neither a mapping nor a local item
has the key `undefined`. -/
theorem reconcileItem_root_skipped (st : ReconcileState) (serverItem : BookmarkItem)
    (hinv : entriesProcessed st)
    (hprocessed : ∀ id ∈ st.processedServerIds, id ≠ "undefined")
    (hlocal : ∀ item ∈ st.currentLocalBookmarks ++ st.createdItems, item.id ≠ "undefined")
    (hroot : serverItem.parentId = .undefined) :
    reconcileItem st serverItem = pure st := by
  by_cases hdone : serverItem.id ∈ st.processedServerIds
  · unfold reconcileItem
    rw [if_pos hdone]
  · have hmap : st.createdIdMap.get serverItem.id = none :=
      (JsObj.get_eq_none_iff _ _).2 (fun hk => hdone (hinv _ hk))
    have hnokey : st.createdIdMap.get "undefined" = none :=
      (JsObj.get_eq_none_iff _ _).2 (fun hk => hprocessed _ (hinv _ hk) rfl)
    have hread : st.createdIdMap.read "undefined" = .undefined := by
      rw [JsObj.read_of_get_none _ _ hnokey]
      decide
    have htarget : targetParentIdOf st.createdIdMap serverItem = .undefined := by
      unfold targetParentIdOf
      rw [hroot]
      simp only [JsId.key, hread]
      rfl
    have hparent : parentExistsLocallyIn st .undefined = false := by
      unfold parentExistsLocallyIn
      simp only [JsId.key, mapRef_none st "undefined" hlocal]
      decide
    unfold reconcileItem
    rw [if_neg hdone]
    simp only [htarget, hparent, findLocalItem_none_of_no_parent st serverItem _ hmap]
    rfl

theorem reconcileItem_processedHaveParent {ω : Type} (h : Handler ω)
    (serverBookmarks : List BookmarkItem)
    (hids : ∀ item ∈ serverBookmarks, item.id ≠ "undefined")
    (st : ReconcileState) (serverItem : BookmarkItem) (w : ω)
    (hvisit : serverItem ∈ serverBookmarks ∧ entriesProcessed st ∧
      ∀ item ∈ st.currentLocalBookmarks ++ st.createdItems, item.id ≠ "undefined")
    (hinv : processedHaveParent serverBookmarks st) :
    processedHaveParent serverBookmarks ((reconcileItem st serverItem).run h w).1 := by
  obtain ⟨hitem, hmapped, hlocal⟩ := hvisit
  by_cases hroot : serverItem.parentId = .undefined
  · rw [reconcileItem_root_skipped st serverItem hmapped ?_ hlocal hroot]
    · exact hinv
    · intro id hid
      obtain ⟨item, hmem, _, rfl⟩ := hinv.2 id hid
      exact hids item hmem
  · rcases reconcileItem_processed_cases h st serverItem w hmapped with
      ⟨_, hsame | hadded⟩ | ⟨_, _, hsame, _⟩
    · unfold processedHaveParent
      rw [hsame]
      exact hinv
    · unfold processedHaveParent
      rw [hadded]
      refine ⟨setAdd_nodup _ _ hinv.1, ?_⟩
      intro id hid
      rw [mem_setAdd] at hid
      rcases hid with rfl | hold
      · exact ⟨serverItem, hitem, hroot, rfl⟩
      · exact hinv.2 id hold
    · unfold processedHaveParent
      rw [hsame]
      exact hinv

theorem length_lt_of_root (processed : List String) (serverBookmarks : List BookmarkItem)
    (hinv : processed.Nodup ∧
      ∀ id ∈ processed, ∃ item ∈ serverBookmarks, item.parentId ≠ .undefined ∧ item.id = id)
    (root : BookmarkItem) (hroot : root ∈ serverBookmarks) (hparent : root.parentId = .undefined) :
    processed.length < serverBookmarks.length := by
  have hsub : processed ⊆
      (serverBookmarks.filter (fun item => decide (item.parentId ≠ .undefined))).map
        (fun item => item.id) := by
    intro id hid
    obtain ⟨item, hmem, hhas, rfl⟩ := hinv.2 id hid
    rw [List.mem_map]
    exact ⟨item, List.mem_filter.2 ⟨hmem, by simpa using hhas⟩, rfl⟩
  have hle := (List.subperm_of_subset hinv.1 hsub).length_le
  rw [List.length_map] at hle
  have hlt : (serverBookmarks.filter (fun item => decide (item.parentId ≠ .undefined))).length
      < serverBookmarks.length := by
    rw [List.length_filter_lt_length_iff_exists]
    exact ⟨root, hroot, by simp [hparent]⟩
  omega

theorem flattenNode_head (tree : BookmarkTreeNode) :
    ∃ item ∈ flattenBookmarkNodes [tree], item.parentId = tree.raw.parentId := by
  cases tree with
  | mk id parentId index title dateAdded type url dateGroupModified children =>
    refine ⟨(BookmarkTreeNode.mk id parentId index title dateAdded type url dateGroupModified
      []).item, ?_, rfl⟩
    rw [flattenBookmarkNodes, flattenNode]
    exact List.mem_append_left _ (List.mem_cons_self _ _)

/-- C28 (amended): the root of a snapshot is never resolved, local ids permitting. Take an
execution of `applyServerStateToBrowser` on a server list in which no item has the id
`undefined`, and in which no local item met by a handling has the id `undefined` either.
Then the handling of a server item without a parent id issues no request and leaves the loop
variables as they are, in every pass; at the end every processed id is the id of a server
item that has a parent id, a server item without a parent id whose id no other item shares
is unprocessed and unmapped, and the unprocessed count is at least 1 as soon as the list
holds an item without a parent id, in particular when the list is the flattening of a whole
tree, whose root has none. -/
theorem snapshot_root_never_resolved {ω : Type} (h : Handler ω) (w : ω)
    (serverBookmarks : List BookmarkItem)
    (hids : ∀ item ∈ serverBookmarks, item.id ≠ "undefined")
    (hlocal : ∀ visit ∈ applyVisits h serverBookmarks w,
      ∀ item ∈ visit.1.currentLocalBookmarks ++ visit.1.createdItems, item.id ≠ "undefined") :
    (∀ visit ∈ applyVisits h serverBookmarks w, visit.2.1.parentId = .undefined →
      reconcileItem visit.1 visit.2.1 = pure visit.1 ∧ visitTrace h visit = [] ∧
      visitResult h visit = visit.1) ∧
    (∀ report,
      ((applyServerStateToBrowser (some serverBookmarks)).run h w).1 = .ok (some report) →
      (∀ id ∈ report.final.processedServerIds,
        ∃ item ∈ serverBookmarks, item.parentId ≠ .undefined ∧ item.id = id) ∧
      (∀ root ∈ serverBookmarks, root.parentId = .undefined →
        (∀ item ∈ serverBookmarks, item.parentId ≠ .undefined → item.id ≠ root.id) →
        root.id ∉ report.final.processedServerIds ∧
        report.final.createdIdMap.get root.id = none) ∧
      ((∃ root ∈ serverBookmarks, root.parentId = .undefined) → 1 ≤ report.unprocessedCount) ∧
      (∀ tree : BookmarkTreeNode, tree.raw.parentId = .undefined →
        serverBookmarks = flattenBookmarkNodes [tree] → 1 ≤ report.unprocessedCount)) := by
  obtain ⟨hwithin, hfinal⟩ := applyVisits_processedWithin h serverBookmarks w
  have hskip : ∀ visit ∈ applyVisits h serverBookmarks w, visit.2.1.parentId = .undefined →
      reconcileItem visit.1 visit.2.1 = pure visit.1 := by
    intro visit hvisit hroot
    refine reconcileItem_root_skipped visit.1 visit.2.1 (hwithin visit hvisit).1.1 ?_
      (hlocal visit hvisit) hroot
    intro id hid
    obtain ⟨item, hmem, rfl⟩ := (hwithin visit hvisit).1.2.2 id hid
    exact hids item hmem
  constructor
  · intro visit hvisit hroot
    have hpure := hskip visit hvisit hroot
    refine ⟨hpure, ?_, ?_⟩
    · unfold visitTrace
      rw [hpure]
      rfl
    · unfold visitResult
      rw [hpure]
      rfl
  · intro report hreport
    have hparents : processedHaveParent serverBookmarks report.final :=
      applyVisits_invariant_on h (processedHaveParent serverBookmarks)
        (fun visit => visit.2.1 ∈ serverBookmarks ∧ entriesProcessed visit.1 ∧
          ∀ item ∈ visit.1.currentLocalBookmarks ++ visit.1.createdItems, item.id ≠ "undefined")
        serverBookmarks ⟨List.nodup_nil, by intro id hid; cases hid⟩
        (fun st serverItem w2 hvisit hst =>
          reconcileItem_processedHaveParent h serverBookmarks hids st serverItem w2 hvisit hst)
        (fun _ _ hst => hst) w
        (fun visit hvisit =>
          ⟨(hwithin visit hvisit).2, (hwithin visit hvisit).1.1, hlocal visit hvisit⟩)
        report hreport
    have hcount := (hfinal report hreport).2
    have hmapped := (hfinal report hreport).1.1
    have hone : (∃ root ∈ serverBookmarks, root.parentId = .undefined) →
        1 ≤ report.unprocessedCount := by
      rintro ⟨root, hroot, hparent⟩
      have hlt := length_lt_of_root report.final.processedServerIds serverBookmarks hparents
        root hroot hparent
      omega
    refine ⟨hparents.2, ?_, hone, ?_⟩
    · intro root _ hparent hunique
      have hmissing : root.id ∉ report.final.processedServerIds := by
        intro hid
        obtain ⟨item, hmem, hhas, heq⟩ := hparents.2 root.id hid
        exact hunique item hmem hhas heq
      exact ⟨hmissing, (JsObj.get_eq_none_iff _ _).2 (fun hk => hmissing (hmapped _ hk))⟩
    · intro tree hparent hlist
      obtain ⟨item, hmem, hitem⟩ := flattenNode_head tree
      exact hone ⟨item, hlist ▸ hmem, hitem.trans hparent⟩

/-- Witness of C28: the snapshot of the tree of another device (root, toolbar, one
bookmark) is applied to the reference profile with an empty toolbar. The toolbar is matched
and the bookmark is created; the root stays unprocessed and the unprocessed count is 1. -/
theorem snapshot_root_never_resolved_witness :
    ((∀ item ∈ flattenBookmarkNodes otherDeviceTree, item.id ≠ "undefined") ∧
     (∀ visit ∈ applyVisits (deviceHandler offline) (flattenBookmarkNodes otherDeviceTree)
          (profileWith emptyToolbar),
        ∀ item ∈ visit.1.currentLocalBookmarks ++ visit.1.createdItems, item.id ≠ "undefined")) ∧
    (∀ report,
      ((applyServerStateToBrowser (some (flattenBookmarkNodes otherDeviceTree))).run
        (deviceHandler offline) (profileWith emptyToolbar)).1 = .ok (some report) →
      1 ≤ report.unprocessedCount) ∧
    (reportOf ((applyServerStateToBrowser (some (flattenBookmarkNodes otherDeviceTree))).run
        (deviceHandler offline) (profileWith emptyToolbar)).1).map
      (fun report => (report.unprocessedCount, report.final.processedServerIds))
      = some (1, ["tb", "b0"]) :=
  ⟨⟨by decide, by decide!⟩,
   fun report hreport =>
     ((snapshot_root_never_resolved (deviceHandler offline) (profileWith emptyToolbar)
        (flattenBookmarkNodes otherDeviceTree) (by decide) (by decide!)).2 report hreport).2.2.1
       ⟨(folderNode "root" .undefined 0 "" []).item, by decide, rfl⟩,
   by decide!⟩

/-- Counterexample to C28: the local tree holds a folder whose id is `undefined`, and no
server item has that id. The root of the snapshot, which has no parent id, then finds its
parent under the key `undefined`, is matched with the local root and marked processed; every
server item is resolved and the unprocessed count is 0. -/
theorem snapshot_root_matched_under_undefined_key :
    (∀ item ∈ flattenBookmarkNodes otherDeviceTree, item.id ≠ "undefined") ∧
    ((flattenBookmarkNodes otherDeviceTree).head?.map (fun item => (item.id, item.parentId))
      = some ("root", .undefined)) ∧
    (reportOf ((applyServerStateToBrowser (some (flattenBookmarkNodes otherDeviceTree))).run
        (deviceHandler offline) (profileWith oddTree)).1).map
      (fun report => (report.unprocessedCount, report.final.processedServerIds,
        report.final.createdIdMap))
      = some (0, ["root", "tb", "b0"], [("root", "root"), ("tb", "tb"), ("b0", "new1")]) := by
  decide!

/-! ### The disambiguation guard -/

/-- C22 (what the code does): when the attribute search for an unprocessed server item
finds a local item that `createdIdMap` maps to another server item which is processed, the
guard drops the local item, and as the resolved parent exists the handling goes on in the
creation branch: it issues `bookmarks.create` for the server item, and when the call
succeeds the item is mapped to the new node and marked processed. -/
theorem guard_rejection_falls_into_creation {ω : Type} (h : Handler ω) (w : ω)
    (st : ReconcileState) (serverItem : BookmarkItem) (i : Nat) (localItem : BookmarkItem)
    (conflictingServerId : String)
    (hunprocessed : serverItem.id ∉ st.processedServerIds)
    (hunmapped : st.createdIdMap.get serverItem.id = none)
    (hparent : parentExistsLocallyIn st (targetParentIdOf st.createdIdMap serverItem) = true)
    (hfound : findFirstIdx (matchesAttributes (targetParentIdOf st.createdIdMap serverItem)
      serverItem) st.currentLocalBookmarks = some i)
    (hlocal : st.currentLocalBookmarks.get? i = some localItem)
    (hclaimed : st.createdIdMap.keys.find? (fun sId => st.createdIdMap.get sId = some localItem.id)
      = some conflictingServerId)
    (hnonempty : conflictingServerId ≠ "")
    (hother : conflictingServerId ≠ serverItem.id)
    (hdone : conflictingServerId ∈ st.processedServerIds) :
    findLocalItem st serverItem (targetParentIdOf st.createdIdMap serverItem) true = none ∧
    reconcileItem st serverItem
      = createMissing st serverItem (targetParentIdOf st.createdIdMap serverItem) ∧
    ((reconcileItem st serverItem).run h w).2.2
      = [.bookmarksCreate
          { parentId := targetParentIdOf st.createdIdMap serverItem, index := serverItem.index,
            title := serverItem.title, type := serverItem.type,
            url := if serverItem.type = some "bookmark" then some serverItem.url else none }] ∧
    (∀ newItem,
      (h (.bookmarksCreate
          { parentId := targetParentIdOf st.createdIdMap serverItem, index := serverItem.index,
            title := serverItem.title, type := serverItem.type,
            url := if serverItem.type = some "bookmark" then some serverItem.url else none })
        w).1 = .ok newItem →
      serverItem.id ∈ ((reconcileItem st serverItem).run h w).1.processedServerIds ∧
      ((reconcileItem st serverItem).run h w).1.createdIdMap.get serverItem.id
        = some newItem.raw.id) := by
  have hnone : findLocalItem st serverItem (targetParentIdOf st.createdIdMap serverItem) true
      = none := by
    unfold findLocalItem
    simp only [hunmapped, hfound, hlocal, hclaimed, if_true]
    simp [optTruthy, truthy, hnonempty, hother, hdone]
  have hrun : reconcileItem st serverItem
      = createMissing st serverItem (targetParentIdOf st.createdIdMap serverItem) := by
    unfold reconcileItem
    rw [if_neg hunprocessed]
    simp only [hparent, hnone, Bool.not_true, Bool.false_eq_true, if_false]
  refine ⟨hnone, hrun, ?_, ?_⟩
  · rw [hrun]
    exact (createMissing_cases h w st serverItem _).2.1
  · intro newItem hcreated
    rw [hrun]
    rcases (createMissing_cases h w st serverItem
        (targetParentIdOf st.createdIdMap serverItem)).1 with
      ⟨⟨e, he⟩, _, _⟩ | ⟨⟨newItem2, hok, hstate⟩, _⟩
    · rw [hcreated] at he
      cases he
    · rw [hcreated] at hok
      cases hok
      rw [hstate]
      exact ⟨mem_setAdd_self _ _, JsObj.get_set_self _ _ _⟩

/-- Witness of C22: the second of the twin bookmarks in the first pass over a profile whose
toolbar holds one such bookmark, after the first twin was matched with it. That state is the
one the execution reaches, the conditions of the guard hold in it, and the handling creates
the node `new1`. -/
theorem guard_rejection_falls_into_creation_witness :
    (((applyVisits (deviceHandler offline) twinBookmarks (profileWith oneTwinTree)).get? 1).map
        (fun visit => (visit.1, visit.2.1))
      = some (claimedTwinState, bookmarkItem "a2" "tb" 1 "Lean" "https://lean-lang.org")) ∧
    ((bookmarkItem "a2" "tb" 1 "Lean" "https://lean-lang.org").id
        ∉ claimedTwinState.processedServerIds ∧
     claimedTwinState.createdIdMap.get (bookmarkItem "a2" "tb" 1 "Lean" "https://lean-lang.org").id
        = none ∧
     parentExistsLocallyIn claimedTwinState (.str "tb") = true ∧
     findFirstIdx (matchesAttributes (.str "tb")
        (bookmarkItem "a2" "tb" 1 "Lean" "https://lean-lang.org"))
        claimedTwinState.currentLocalBookmarks = some 2 ∧
     claimedTwinState.currentLocalBookmarks.get? 2
        = some (bookmarkNode "b1" (.str "tb") 0 "Lean" "https://lean-lang.org").item ∧
     claimedTwinState.createdIdMap.keys.find?
        (fun sId => claimedTwinState.createdIdMap.get sId = some "b1") = some "a1" ∧
     "a1" ∈ claimedTwinState.processedServerIds) ∧
    ((reconcileItem claimedTwinState
        (bookmarkItem "a2" "tb" 1 "Lean" "https://lean-lang.org")).run (deviceHandler offline)
        (profileWith oneTwinTree)).2.2
      = [.bookmarksCreate { parentId := .str "tb", index := some 1, title := "Lean",
                            type := some "bookmark",
                            url := some (some "https://lean-lang.org") }] ∧
    forestIds ((applyServerStateToBrowser (some twinBookmarks)).run (deviceHandler offline)
        (profileWith oneTwinTree)).2.1.1.bookmarks.tree = ["root", "tb", "b1", "new1"] :=
  ⟨by decide!,
   ⟨by decide, by decide, by decide, by decide, by decide, by decide, by decide⟩,
   (guard_rejection_falls_into_creation (deviceHandler offline) (profileWith oneTwinTree)
      claimedTwinState (bookmarkItem "a2" "tb" 1 "Lean" "https://lean-lang.org") 2
      ((bookmarkNode "b1" (.str "tb") 0 "Lean" "https://lean-lang.org").item) "a1"
      (by decide) (by decide) (by decide) (by decide) (by decide) (by decide) (by decide)
      (by decide) (by decide)).2.2.1,
   by decide!⟩

/-! ### The progress criterion of the pass loop -/

/-- C25 (evaluation at the failing input): the local toolbar holds the folder `Docs`, and the
server list names a bookmark of that folder before the folder. In the first pass the
bookmark is skipped, its parent not being mapped yet, and the folder is matched with the
local folder without any change: the pass resolves one item and no request fails. The loop
stops there, after one pass, with the bookmark unprocessed; the requests of the whole call
are the two reads of the tree. One more pass from the loop variables at the end creates the
bookmark under the local folder, and the same list in the other order is resolved
completely. -/
theorem unchanged_match_ends_loop :
    (applyServerStateToBrowser (some childFirstList)).failures (deviceHandler offline)
        (profileWith docsTree) = 0 ∧
    ((applyServerStateToBrowser (some childFirstList)).run (deviceHandler offline)
        (profileWith docsTree)).2.2 = [.bookmarksGetTree, .bookmarksGetTree] ∧
    (reportOf ((applyServerStateToBrowser (some childFirstList)).run (deviceHandler offline)
        (profileWith docsTree)).1).map
      (fun report => (report.unprocessedCount, report.final.pass, report.final.changedInPass))
      = some (1, 1, false) ∧
    (reportOf ((applyServerStateToBrowser (some childFirstList)).run (deviceHandler offline)
        (profileWith docsTree)).1).map
      (fun report => (report.final.processedServerIds, report.final.createdIdMap))
      = some (["f1"], [("f1", "d1")]) ∧
    ((reconcilePass childFirstList
        (passStart (finalOf ((applyServerStateToBrowser (some childFirstList)).run
          (deviceHandler offline) (profileWith docsTree)).1) docsTree)).run
        (deviceHandler offline) (profileWith docsTree)).2.2
      = [.bookmarksCreate { parentId := .str "d1", index := some 0, title := "Guide",
                            type := some "bookmark",
                            url := some (some "https://guide.example") }] ∧
    (reportOf ((applyServerStateToBrowser (some childFirstList.reverse)).run
        (deviceHandler offline) (profileWith docsTree)).1).map
      (fun report => (report.unprocessedCount, report.final.processedServerIds))
      = some (0, ["f1", "c1"]) := by
  decide!

/-! ### Order tolerance, end to end -/

theorem assign_changedInPass (st : ReconcileState) (ref : ItemRef) (item : BookmarkItem) :
    (st.assign ref item).changedInPass = st.changedInPass := by
  cases ref <;> rfl

/-- The flag `changedInPass` after the branch for a matched item: it stays set, and it is
set when no call failed and the local item needed a move or an update. -/
theorem updateMatched_changedInPass {ω : Type} (h : Handler ω) (w : ω) (st : ReconcileState)
    (serverItem : BookmarkItem) (targetParentId : JsId) (ref : ItemRef) (localItem : BookmarkItem) :
    (st.changedInPass = true →
      ((updateMatched st serverItem targetParentId ref localItem).run h w).1.changedInPass = true) ∧
    ((updateMatched st serverItem targetParentId ref localItem).failures h w = 0 →
      (localItem.index ≠ serverItem.index ∨ needsUpdateFor serverItem localItem = true) →
      ((updateMatched st serverItem targetParentId ref localItem).run h w).1.changedInPass = true) := by
  have hrecord := (recordMapping_fields st serverItem localItem).2.2.2
  unfold updateMatched
  rw [Prog.failures_bind, Prog.run_bind, moveMatched_failures]
  rcases moveMatched_cases h w (recordMapping st serverItem localItem) serverItem targetParentId
      ref localItem with ⟨hindex, hrun⟩ | ⟨hindex, e, hrun, _⟩ | ⟨hindex, hrun, _⟩
  · rw [hrun]
    simp only
    rw [Prog.failures_bind, Prog.run_bind, updateChanged_failures]
    rcases updateChanged_cases h w (recordMapping st serverItem localItem) ref localItem
        (changesFor serverItem localItem) (needsUpdateFor serverItem localItem)
      with ⟨hneeds, hrun2⟩ | ⟨hneeds, e, hrun2, _⟩ | ⟨hneeds, changed, hid, hrun2, _⟩
    · rw [hrun2]
      simp only [Prog.run_pure, Prog.failures_pure]
      refine ⟨fun hset => by rw [hrecord]; exact hset, ?_⟩
      intro _ hneeded
      rcases hneeded with hmove | hupdate
      · exact absurd hindex hmove
      · rw [hneeds] at hupdate
        cases hupdate
    · rw [hrun2]
      simp only [Prog.run_pure, Prog.failures_pure]
      refine ⟨fun hset => ?_, fun hfail => by simp at hfail⟩
      rw [(rollbackMapping_fields _ serverItem localItem).2.2.2, hrecord]
      exact hset
    · rw [hrun2]
      simp only [Prog.run_pure, Prog.failures_pure]
      exact ⟨fun _ => by rw [assign_changedInPass], fun _ _ => by rw [assign_changedInPass]⟩
  · rw [hrun]
    simp only [Prog.run_pure, Prog.failures_pure]
    refine ⟨fun hset => ?_, fun hfail => by simp at hfail⟩
    rw [(rollbackMapping_fields _ serverItem localItem).2.2.2, hrecord]
    exact hset
  · rw [hrun]
    simp only
    rw [Prog.failures_bind, Prog.run_bind, updateChanged_failures]
    rcases updateChanged_cases h
        (h (.bookmarksMove localItem.id { parentId := targetParentId, index := serverItem.index })
          w).2
        (({ recordMapping st serverItem localItem with changedInPass := true }).assign ref
          { localItem with parentId := targetParentId, index := serverItem.index }) ref
        { localItem with parentId := targetParentId, index := serverItem.index }
        (changesFor serverItem localItem) (needsUpdateFor serverItem localItem)
      with ⟨hneeds, hrun2⟩ | ⟨hneeds, e, hrun2, _⟩ | ⟨hneeds, changed, hid, hrun2, _⟩
    · rw [hrun2]
      simp only [Prog.run_pure, Prog.failures_pure]
      exact ⟨fun _ => by rw [assign_changedInPass], fun _ _ => by rw [assign_changedInPass]⟩
    · rw [hrun2]
      simp only [Prog.run_pure, Prog.failures_pure]
      refine ⟨fun _ => ?_, fun hfail => by simp at hfail⟩
      rw [(rollbackMapping_fields _ serverItem _).2.2.2, assign_changedInPass]
    · rw [hrun2]
      simp only [Prog.run_pure, Prog.failures_pure]
      exact ⟨fun _ => by rw [assign_changedInPass], fun _ _ => by rw [assign_changedInPass]⟩

theorem matchedUnchanged_false (st : ReconcileState) (serverItem : BookmarkItem) (ref : ItemRef)
    (localItem : BookmarkItem)
    (hfound : findLocalItem st serverItem (targetParentIdOf st.createdIdMap serverItem)
      (parentExistsLocallyIn st (targetParentIdOf st.createdIdMap serverItem)) = some ref)
    (hderef : st.deref ref = some localItem)
    (hchanged : matchedUnchanged st serverItem = false) :
    localItem.index ≠ serverItem.index ∨ needsUpdateFor serverItem localItem = true := by
  unfold matchedUnchanged at hchanged
  rw [hfound] at hchanged
  simp only [hderef] at hchanged
  by_cases hindex : localItem.index = serverItem.index
  · right
    simpa [hindex] using hchanged
  · exact Or.inl hindex

/-- One handling of a server item: the processed set grows, `changedInPass` stays set, a
handling without a rejected call and without an unchanged match that leaves `changedInPass`
unset leaves the processed set as it was, and such a handling of an unprocessed item whose
resolved parent exists ends with the item processed. -/
theorem reconcileItem_step {ω : Type} (h : Handler ω) (st : ReconcileState)
    (serverItem : BookmarkItem) (w : ω) (hinv : entriesProcessed st) :
    (∀ id ∈ st.processedServerIds, id ∈ ((reconcileItem st serverItem).run h w).1.processedServerIds) ∧
    (st.changedInPass = true → ((reconcileItem st serverItem).run h w).1.changedInPass = true) ∧
    ((reconcileItem st serverItem).failures h w = 0 →
      (serverItem.id ∉ st.processedServerIds → matchedUnchanged st serverItem = false) →
      (((reconcileItem st serverItem).run h w).1.changedInPass = false →
        ∀ id ∈ ((reconcileItem st serverItem).run h w).1.processedServerIds,
          id ∈ st.processedServerIds) ∧
      (serverItem.id ∉ st.processedServerIds →
        parentExistsLocallyIn st (targetParentIdOf st.createdIdMap serverItem) = true →
        serverItem.id ∈ ((reconcileItem st serverItem).run h w).1.processedServerIds)) := by
  by_cases hprocessed : serverItem.id ∈ st.processedServerIds
  · have hrun : reconcileItem st serverItem = pure st := by
      unfold reconcileItem
      rw [if_pos hprocessed]
    rw [hrun]
    exact ⟨fun id hid => hid, fun hset => hset, fun _ _ =>
      ⟨fun _ id hid => hid, fun hnot => absurd hprocessed hnot⟩⟩
  · have hmap : st.createdIdMap.get serverItem.id = none :=
      (JsObj.get_eq_none_iff _ _).2 (fun hk => hprocessed (hinv _ hk))
    cases hfound : findLocalItem st serverItem (targetParentIdOf st.createdIdMap serverItem)
        (parentExistsLocallyIn st (targetParentIdOf st.createdIdMap serverItem)) with
    | some ref =>
      obtain ⟨_, i, localItem, href, hget, _⟩ :=
        findLocalItem_matches st serverItem _ _ ref hmap hfound
      subst href
      have hderef : st.deref (.snapshot i) = some localItem := by
        simp only [ReconcileState.deref, hget]
      have hrun : reconcileItem st serverItem
          = updateMatched st serverItem (targetParentIdOf st.createdIdMap serverItem)
              (.snapshot i) localItem := by
        unfold reconcileItem
        rw [if_neg hprocessed]
        simp only [hfound, hderef]
      rw [hrun]
      obtain ⟨houtcome, _, _, _⟩ := updateMatched_cases h w st serverItem
        (targetParentIdOf st.createdIdMap serverItem) (.snapshot i) localItem
      obtain ⟨hkeeps, hsets⟩ := updateMatched_changedInPass h w st serverItem
        (targetParentIdOf st.createdIdMap serverItem) (.snapshot i) localItem
      refine ⟨?_, hkeeps, ?_⟩
      · intro id hid
        rcases houtcome with ⟨_, _, hdone⟩ | ⟨_, _, hdone⟩
        · rw [hdone, mem_setAdd]
          exact Or.inr hid
        · rw [hdone]
          exact hid
      · intro hok hchanged
        have hset := hsets hok (matchedUnchanged_false st serverItem _ localItem hfound hderef
          (hchanged hprocessed))
        refine ⟨fun hunset => ?_, fun _ _ => ?_⟩
        · rw [hset] at hunset
          cases hunset
        · rcases houtcome with ⟨_, _, hdone⟩ | ⟨hfail, _, _⟩
          · rw [hdone]
            exact mem_setAdd_self _ _
          · omega
    | none =>
      cases hparent : parentExistsLocallyIn st (targetParentIdOf st.createdIdMap serverItem) with
      | false =>
        have hrun : reconcileItem st serverItem = pure st := by
          unfold reconcileItem
          rw [if_neg hprocessed]
          rw [hparent] at hfound
          simp only [hparent, hfound]
          rfl
        rw [hrun]
        exact ⟨fun id hid => hid, fun hset => hset, fun _ _ =>
          ⟨fun _ id hid => hid, fun _ hexists => by cases hexists⟩⟩
      | true =>
        have hrun : reconcileItem st serverItem
            = createMissing st serverItem (targetParentIdOf st.createdIdMap serverItem) := by
          unfold reconcileItem
          rw [if_neg hprocessed]
          rw [hparent] at hfound
          simp only [hparent, hfound]
          rfl
        rw [hrun]
        obtain ⟨houtcome, _, _⟩ := createMissing_cases h w st serverItem
          (targetParentIdOf st.createdIdMap serverItem)
        rcases houtcome with ⟨_, hstate, hfail⟩ | ⟨⟨newItem, _, hstate⟩, _⟩
        · rw [hstate]
          exact ⟨fun id hid => hid, fun hset => hset, fun hok => by omega⟩
        · rw [hstate]
          refine ⟨fun id hid => ?_, fun _ => rfl, fun _ _ => ⟨fun hunset => ?_, fun _ _ => ?_⟩⟩
          · rw [mem_setAdd]
            exact Or.inr hid
          · cases hunset
          · exact mem_setAdd_self _ _

theorem JsObj.mem_of_get (o : JsObj) (key value : String) (hget : o.get key = some value) :
    (key, value) ∈ o := by
  induction o with
  | nil => simp [JsObj.get, List.lookup] at hget
  | cons e rest ih =>
    obtain ⟨k, v⟩ := e
    by_cases hk : key = k
    · subst hk
      simp only [JsObj.get, List.lookup, beq_self_eq_true, Option.some.injEq] at hget
      subst hget
      exact List.mem_cons_self _ _
    · have hne : (key == k) = false := by
        rw [beq_eq_false_iff_ne]
        exact hk
      simp only [JsObj.get, List.lookup, hne] at hget
      exact List.mem_cons_of_mem _ (ih hget)

/-- The resolved parent of a server item whose parent is a processed server item is the
local id that `createdIdMap` has for the parent. -/
theorem targetParentIdOf_mapped (st : ReconcileState) (item parent : BookmarkItem)
    (hinv : mappedIsProcessed st) (hshown : mappedNodesPresent st)
    (hparent : item.parentId = .str parent.id)
    (hprocessed : parent.id ∈ st.processedServerIds) :
    ∃ localId, st.createdIdMap.get parent.id = some localId ∧
      targetParentIdOf st.createdIdMap item = .str localId ∧
      parentExistsLocallyIn st (.str localId) = true := by
  have hkey := hinv.2 _ hprocessed
  cases hget : st.createdIdMap.get parent.id with
  | none => exact absurd hkey ((JsObj.get_eq_none_iff _ _).1 hget)
  | some localId =>
    obtain ⟨htruthy, hpresent⟩ := hshown _ (JsObj.mem_of_get _ _ _ hget)
    refine ⟨localId, rfl, ?_, ?_⟩
    · unfold targetParentIdOf
      rw [hparent]
      simp only [JsId.key, JsObj.read_of_get_some _ _ _ hget, JsId.truthy, htruthy, if_true]
    · unfold parentExistsLocallyIn
      simp only [JsId.key, hpresent, Bool.true_or]

theorem parentResolved_exists (serverBookmarks : List BookmarkItem) (level : BookmarkItem → Nat)
    (st : ReconcileState) (item : BookmarkItem)
    (hinv : mappedIsProcessed st) (hshown : mappedNodesPresent st)
    (hfirst : level item = 1 →
      parentExistsLocallyIn st (targetParentIdOf st.createdIdMap item) = true)
    (hready : parentResolved serverBookmarks level st item) :
    parentExistsLocallyIn st (targetParentIdOf st.createdIdMap item) = true := by
  rcases hready with hone | ⟨parent, _, hparent, hprocessed⟩
  · exact hfirst hone
  · obtain ⟨localId, _, htarget, hexists⟩ :=
      targetParentIdOf_mapped st item parent hinv hshown hparent hprocessed
    rw [htarget]
    exact hexists

/-- One pass over server items whose handlings are cooperative: the processed set grows,
`changedInPass` stays set, a pass that leaves it unset leaves the processed set as it was,
and every item whose parent is resolved at the start is processed at the end. -/
theorem reconcilePass_progress {ω : Type} (h : Handler ω) (serverBookmarks : List BookmarkItem)
    (level : BookmarkItem → Nat)
    (hids : ∀ item ∈ serverBookmarks, item.id ∉ objectPrototypeKeys) :
    ∀ (items : List BookmarkItem) (st : ReconcileState) (w : ω),
      (∀ item ∈ items, item ∈ serverBookmarks) → mappedIsProcessed st →
      (∀ visit ∈ passVisits h items st w, cooperative h level visit) →
      mappedIsProcessed ((reconcilePass items st).run h w).1 ∧
      (∀ id ∈ st.processedServerIds,
        id ∈ ((reconcilePass items st).run h w).1.processedServerIds) ∧
      (st.changedInPass = true → ((reconcilePass items st).run h w).1.changedInPass = true) ∧
      (((reconcilePass items st).run h w).1.changedInPass = false →
        ∀ id ∈ ((reconcilePass items st).run h w).1.processedServerIds,
          id ∈ st.processedServerIds) ∧
      (∀ item ∈ items, parentResolved serverBookmarks level st item →
        item.id ∈ ((reconcilePass items st).run h w).1.processedServerIds) := by
  intro items
  induction items with
  | nil =>
    intro st w _ hinv _
    rw [reconcilePass_nil_run]
    exact ⟨hinv, fun id hid => hid, fun hset => hset, fun _ id hid => hid,
      fun item hitem => by cases hitem⟩
  | cons serverItem rest ih =>
    intro st w hitems hinv hvisits
    rw [passVisits] at hvisits
    obtain ⟨hok, hshown, hunprocessed⟩ := hvisits _ (List.mem_cons_self _ _)
    dsimp only at hok hshown hunprocessed
    obtain ⟨hgrows, hkeeps, hstep⟩ := reconcileItem_step h st serverItem w hinv.1
    obtain ⟨hsame, hdone⟩ := hstep hok (fun hnot => (hunprocessed hnot).1)
    have hinv1 := reconcileItem_mappedIsProcessed h st serverItem w
      (hids _ (hitems _ (List.mem_cons_self _ _))) hinv
    obtain ⟨hinv2, hgrows2, hkeeps2, hsame2, hdone2⟩ :=
      ih ((reconcileItem st serverItem).run h w).1 ((reconcileItem st serverItem).run h w).2.1
        (fun item hitem => hitems item (List.mem_cons_of_mem _ hitem)) hinv1
        (fun visit hvisit => hvisits visit (List.mem_cons_of_mem _ hvisit))
    rw [reconcilePass_cons_run]
    refine ⟨hinv2, fun id hid => hgrows2 id (hgrows id hid), fun hset => hkeeps2 (hkeeps hset),
      ?_, ?_⟩
    · intro hunset id hid
      have hunset1 : ((reconcileItem st serverItem).run h w).1.changedInPass = false := by
        cases hflag : ((reconcileItem st serverItem).run h w).1.changedInPass with
        | false => rfl
        | true =>
          have := hkeeps2 hflag
          dsimp only at hunset
          rw [this] at hunset
          cases hunset
      exact hsame hunset1 id (hsame2 hunset id hid)
    · intro item hitem hready
      rw [List.mem_cons] at hitem
      rcases hitem with rfl | hrest
      · by_cases hprocessed : item.id ∈ st.processedServerIds
        · exact hgrows2 _ (hgrows _ hprocessed)
        · exact hgrows2 _ (hdone hprocessed
            (parentResolved_exists serverBookmarks level st item hinv hshown
              (hunprocessed hprocessed).2 hready))
      · apply hdone2 item hrest
        rcases hready with hone | ⟨parent, hmem, hparent, hprocessed⟩
        · exact Or.inl hone
        · exact Or.inr ⟨parent, hmem, hparent, hgrows _ hprocessed⟩

/-- The loop over cooperative handlings, with `k` levels processed and at least
`maxPasses - k` passes left: it ends with every item of a level processed. -/
theorem reconcileLoop_progress {ω : Type} (h : Handler ω) (serverBookmarks : List BookmarkItem)
    (level : BookmarkItem → Nat)
    (hids : ∀ item ∈ serverBookmarks, item.id ∉ objectPrototypeKeys)
    (hdepth : ∀ item ∈ serverBookmarks, level item ≤ maxPasses)
    (hchild : ∀ item ∈ serverBookmarks, 2 ≤ level item →
      ∃ parent ∈ serverBookmarks, item.parentId = .str parent.id ∧
        1 ≤ level parent ∧ level parent < level item) :
    ∀ (n : Nat) (st : ReconcileState) (w : ω) (k : Nat),
      mappedIsProcessed st →
      (∀ visit ∈ loopVisits h serverBookmarks n st w, cooperative h level visit) →
      (∀ item ∈ serverBookmarks, 1 ≤ level item → level item ≤ k →
        item.id ∈ st.processedServerIds) →
      maxPasses ≤ k + n →
      (st.changedInPass = true ∨
        ∀ item ∈ serverBookmarks, 1 ≤ level item → item.id ∈ st.processedServerIds) →
      ∀ final, ((reconcileLoop serverBookmarks n st).run h w).1 = .ok final →
        mappedIsProcessed final ∧
        ∀ item ∈ serverBookmarks, 1 ≤ level item → item.id ∈ final.processedServerIds := by
  intro n
  induction n with
  | zero =>
    intro st w k hinv _ hlevels hbound _ final hfinal
    have hrun : (reconcileLoop serverBookmarks 0 st).run h w = (.ok st, w, []) := rfl
    rw [hrun] at hfinal
    cases hfinal
    exact ⟨hinv, fun item hitem hone =>
      hlevels item hitem hone (le_trans (hdepth item hitem) (by omega))⟩
  | succ remaining ih =>
    intro st w k hinv hvisits hlevels hbound hgoes final hfinal
    cases hchanged : st.changedInPass with
    | false =>
      rw [reconcileLoop_idle_run h serverBookmarks remaining st w hchanged] at hfinal
      cases hfinal
      rcases hgoes with hset | hall
      · rw [hchanged] at hset
        cases hset
      · exact ⟨hinv, hall⟩
    | true =>
      cases htree : (h .bookmarksGetTree w).1 with
      | error e =>
        rw [reconcileLoop_error_run h serverBookmarks remaining st w hchanged e htree] at hfinal
        cases hfinal
      | ok tree =>
        rw [loopVisits] at hvisits
        simp only [hchanged, Bool.not_true, Bool.false_eq_true, if_false, htree] at hvisits
        obtain ⟨hinv2, hgrows, _, hsame, hdone⟩ :=
          reconcilePass_progress h serverBookmarks level hids serverBookmarks (passStart st tree)
            (h .bookmarksGetTree w).2 (fun item hitem => hitem)
            (passStart_mappedIsProcessed st tree hinv)
            (fun visit hvisit => hvisits visit (List.mem_append_left _ hvisit))
        have hnext : ∀ item ∈ serverBookmarks, 1 ≤ level item → level item ≤ k + 1 →
            item.id ∈ ((reconcilePass serverBookmarks (passStart st tree)).run h
              (h .bookmarksGetTree w).2).1.processedServerIds := by
          intro item hitem hone hle
          apply hdone item hitem
          by_cases hfirst : level item = 1
          · exact Or.inl hfirst
          · obtain ⟨parent, hmem, hparent, hpone, hplt⟩ := hchild item hitem (by omega)
            exact Or.inr ⟨parent, hmem, hparent, hlevels parent hmem hpone (by omega)⟩
        have hstable : ((reconcilePass serverBookmarks (passStart st tree)).run h
              (h .bookmarksGetTree w).2).1.changedInPass = false →
            ∀ m, ∀ item ∈ serverBookmarks, 1 ≤ level item → level item ≤ m →
              item.id ∈ ((reconcilePass serverBookmarks (passStart st tree)).run h
                (h .bookmarksGetTree w).2).1.processedServerIds := by
          intro hunset m
          induction m with
          | zero =>
            intro item _ hone hle
            omega
          | succ m ihm =>
            intro item hitem hone hle
            apply hdone item hitem
            by_cases hfirst : level item = 1
            · exact Or.inl hfirst
            · obtain ⟨parent, hmem, hparent, hpone, hplt⟩ := hchild item hitem (by omega)
              exact Or.inr ⟨parent, hmem, hparent,
                hsame hunset _ (ihm parent hmem hpone (by omega))⟩
        rw [reconcileLoop_pass_run h serverBookmarks remaining st w hchanged tree htree _ _ _ rfl]
          at hfinal
        split at hfinal
        · rename_i hstop
          cases hfinal
          have hunset : ((reconcilePass serverBookmarks (passStart st tree)).run h
              (h .bookmarksGetTree w).2).1.changedInPass = false := by
            simp only [Bool.and_eq_true, Bool.not_eq_true', decide_eq_true_eq] at hstop
            exact hstop.1
          exact ⟨hinv2, fun item hitem hone =>
            hstable hunset (level item) item hitem hone (le_refl _)⟩
        · rename_i hgo
          refine ih _ _ (k + 1) hinv2 ?_ hnext (by omega) ?_ final hfinal
          · intro visit hvisit
            apply hvisits visit
            apply List.mem_append_right
            rw [if_neg hgo]
            exact hvisit
          · cases hflag : ((reconcilePass serverBookmarks (passStart st tree)).run h
                (h .bookmarksGetTree w).2).1.changedInPass with
            | true => exact Or.inl rfl
            | false =>
              exact Or.inr (fun item hitem hone =>
                hstable hflag (level item) item hitem hone (le_refl _))

/-- One handling of an unprocessed server item whose id names no property of
`Object.prototype`: without its resolved parent the item is skipped with no request; with it,
when no call is rejected, the item ends processed, either matched with a local item that
lies under the resolved parent or created under the resolved parent, and mapped to that
node. -/
theorem reconcileItem_places {ω : Type} (h : Handler ω) (w : ω) (st : ReconcileState)
    (serverItem : BookmarkItem)
    (hunprocessed : serverItem.id ∉ st.processedServerIds)
    (hunmapped : st.createdIdMap.get serverItem.id = none)
    (hid : serverItem.id ∉ objectPrototypeKeys) :
    (parentExistsLocallyIn st (targetParentIdOf st.createdIdMap serverItem) = false →
      reconcileItem st serverItem = pure st) ∧
    (parentExistsLocallyIn st (targetParentIdOf st.createdIdMap serverItem) = true →
      (reconcileItem st serverItem).failures h w = 0 →
      serverItem.id ∈ ((reconcileItem st serverItem).run h w).1.processedServerIds ∧
      ((∃ localItem ∈ st.currentLocalBookmarks,
          localItem.parentId = targetParentIdOf st.createdIdMap serverItem ∧
          ((reconcileItem st serverItem).run h w).1.createdIdMap.get serverItem.id
            = some localItem.id ∧
          ∀ details, Op.bookmarksCreate details ∉ ((reconcileItem st serverItem).run h w).2.2) ∨
       (∃ details newItem,
          details.parentId = targetParentIdOf st.createdIdMap serverItem ∧
          details.title = serverItem.title ∧ details.type = serverItem.type ∧
          details.index = serverItem.index ∧
          (h (.bookmarksCreate details) w).1 = .ok newItem ∧
          ((reconcileItem st serverItem).run h w).2.2 = [.bookmarksCreate details] ∧
          ((reconcileItem st serverItem).run h w).1.createdIdMap.get serverItem.id
            = some newItem.raw.id))) := by
  constructor
  · intro hparent
    unfold reconcileItem
    rw [if_neg hunprocessed]
    simp only [hparent, findLocalItem_none_of_no_parent st serverItem _ hunmapped]
    rfl
  · intro hparent hok
    unfold reconcileItem at hok ⊢
    rw [if_neg hunprocessed] at hok ⊢
    simp only at hok ⊢
    cases hfound : findLocalItem st serverItem (targetParentIdOf st.createdIdMap serverItem)
        (parentExistsLocallyIn st (targetParentIdOf st.createdIdMap serverItem)) with
    | some ref =>
      obtain ⟨_, i, localItem, href, hget, hpar⟩ :=
        findLocalItem_unmapped st serverItem _ _ ref hunmapped hfound
      subst href
      rw [hfound] at hok
      simp only [ReconcileState.deref, hget] at hok ⊢
      obtain ⟨hproc, hmap, hcreate⟩ := updateMatched_processes h w st serverItem _ _ localItem hok
      refine ⟨hproc, Or.inl ⟨localItem, List.get?_mem hget, hpar, ?_, hcreate⟩⟩
      rw [hmap, recordMapping_unmapped st serverItem localItem hunmapped hid]
      exact JsObj.get_set_self _ _ _
    | none =>
      rw [hfound] at hok
      simp only [hparent, Bool.not_true, Bool.false_eq_true, if_false] at hok ⊢
      obtain ⟨details, newItem, h1, h2, h3, h4, h5, h6, h7, h8⟩ :=
        createMissing_processes h w st serverItem _ hok
      exact ⟨h7, Or.inr ⟨details, newItem, h1, h2, h3, h4, h5, h6, h8⟩⟩

theorem applyVisits_progress {ω : Type} (h : Handler ω) (w : ω)
    (serverBookmarks : List BookmarkItem) (level : BookmarkItem → Nat)
    (hids : ∀ item ∈ serverBookmarks, item.id ∉ objectPrototypeKeys)
    (hdepth : ∀ item ∈ serverBookmarks, level item ≤ maxPasses)
    (hchild : ∀ item ∈ serverBookmarks, 2 ≤ level item →
      ∃ parent ∈ serverBookmarks, item.parentId = .str parent.id ∧
        1 ≤ level parent ∧ level parent < level item)
    (hvisits : ∀ visit ∈ applyVisits h serverBookmarks w, cooperative h level visit) :
    ∀ report, ((applyServerStateToBrowser (some serverBookmarks)).run h w).1 = .ok (some report) →
      mappedIsProcessed report.final ∧
      ∀ item ∈ serverBookmarks, 1 ≤ level item → item.id ∈ report.final.processedServerIds := by
  intro report hreport
  cases htree : (h .bookmarksGetTree w).1 with
  | error e =>
    rw [applyServerStateToBrowser_error_run h serverBookmarks w e htree] at hreport
    cases hreport
  | ok tree =>
    rw [applyServerStateToBrowser_run h serverBookmarks w tree htree] at hreport
    simp only [applyVisits, htree] at hvisits
    cases hfinal : ((reconcileLoop serverBookmarks maxPasses loopStart).run h
        (h .bookmarksGetTree w).2).1 with
    | error e =>
      rw [hfinal] at hreport
      cases hreport
    | ok final =>
      rw [hfinal] at hreport
      simp only [Except.ok.injEq, Option.some.injEq] at hreport
      subst hreport
      exact reconcileLoop_progress h serverBookmarks level hids hdepth hchild maxPasses loopStart
        (h .bookmarksGetTree w).2 0 (by decide) hvisits
        (fun item _ hone hle => by omega) (by omega) (Or.inl rfl) final hfinal

/-- C3 (amended): order tolerance within the pass limit. Let every server item have a
level: level 0 for an item nothing is asked of, level 1 for an item whose resolved parent
exists locally whenever the item is handled, and a level from 2 to 5 for an item whose
parent is a server item of a lower level, wherever the two stand in the list; let no id of
the list name a property of `Object.prototype`. Take an execution of
`applyServerStateToBrowser` in which no call of a handling is rejected, the tree read in a
pass shows the nodes mapped so far under non-empty ids, and no unprocessed item is matched
with a local item that needs no change. Then the execution fails only with the error of a
rejected read of the tree, and otherwise ends with every item of a level from 1 to 5
processed and mapped to a local node, and with no unprocessed item when every item has such
a level and the ids differ. In every handling, an unprocessed item without its resolved
parent is skipped with no request; one with it ends processed, matched with a local item
under the resolved parent or created under it and mapped to that node; and the resolved
parent of an item whose parent is a processed server item is the node mapped for the
parent. On the reference profile a chain of up to 5 nested new folders, every folder listed
before its parent, ends with every folder under the node created for its parent. -/
theorem reconciler_order_tolerance {ω : Type} (h : Handler ω) (w : ω)
    (serverBookmarks : List BookmarkItem) (level : BookmarkItem → Nat)
    (hids : ∀ item ∈ serverBookmarks, item.id ∉ objectPrototypeKeys)
    (hdepth : ∀ item ∈ serverBookmarks, level item ≤ maxPasses)
    (hchild : ∀ item ∈ serverBookmarks, 2 ≤ level item →
      ∃ parent ∈ serverBookmarks, item.parentId = .str parent.id ∧
        1 ≤ level parent ∧ level parent < level item)
    (hcalls : ∀ visit ∈ applyVisits h serverBookmarks w,
      (reconcileItem visit.1 visit.2.1).failures h visit.2.2 = 0)
    (hshown : ∀ visit ∈ applyVisits h serverBookmarks w, mappedNodesPresent visit.1)
    (hchanged : ∀ visit ∈ applyVisits h serverBookmarks w,
      visit.2.1.id ∉ visit.1.processedServerIds → matchedUnchanged visit.1 visit.2.1 = false)
    (hfirst : ∀ visit ∈ applyVisits h serverBookmarks w,
      visit.2.1.id ∉ visit.1.processedServerIds → level visit.2.1 = 1 →
      parentExistsLocallyIn visit.1 (targetParentIdOf visit.1.createdIdMap visit.2.1) = true) :
    (∀ e, ((applyServerStateToBrowser (some serverBookmarks)).run h w).1 = .error e →
      ∃ w2, (h .bookmarksGetTree w2).1 = .error e) ∧
    (∀ report,
      ((applyServerStateToBrowser (some serverBookmarks)).run h w).1 = .ok (some report) →
      (∀ item ∈ serverBookmarks, 1 ≤ level item →
        item.id ∈ report.final.processedServerIds ∧
        ∃ localId, report.final.createdIdMap.get item.id = some localId) ∧
      ((∀ item ∈ serverBookmarks, 1 ≤ level item) →
        (serverBookmarks.map (fun item => item.id)).Nodup → report.unprocessedCount = 0)) ∧
    (∀ visit ∈ applyVisits h serverBookmarks w,
      visit.2.1.id ∉ visit.1.processedServerIds →
      (parentExistsLocallyIn visit.1 (targetParentIdOf visit.1.createdIdMap visit.2.1) = false →
        reconcileItem visit.1 visit.2.1 = pure visit.1) ∧
      (parentExistsLocallyIn visit.1 (targetParentIdOf visit.1.createdIdMap visit.2.1) = true →
        visit.2.1.id ∈ (visitResult h visit).processedServerIds ∧
        ((∃ localItem ∈ visit.1.currentLocalBookmarks,
            localItem.parentId = targetParentIdOf visit.1.createdIdMap visit.2.1 ∧
            (visitResult h visit).createdIdMap.get visit.2.1.id = some localItem.id ∧
            ∀ details, Op.bookmarksCreate details ∉ visitTrace h visit) ∨
         (∃ details newItem,
            details.parentId = targetParentIdOf visit.1.createdIdMap visit.2.1 ∧
            details.title = visit.2.1.title ∧ details.type = visit.2.1.type ∧
            details.index = visit.2.1.index ∧
            (h (.bookmarksCreate details) visit.2.2).1 = .ok newItem ∧
            visitTrace h visit = [.bookmarksCreate details] ∧
            (visitResult h visit).createdIdMap.get visit.2.1.id = some newItem.raw.id))) ∧
      (∀ parent ∈ serverBookmarks, visit.2.1.parentId = .str parent.id →
        parent.id ∈ visit.1.processedServerIds →
        ∃ localId, visit.1.createdIdMap.get parent.id = some localId ∧
          targetParentIdOf visit.1.createdIdMap visit.2.1 = .str localId ∧
          parentExistsLocallyIn visit.1 (.str localId) = true)) ∧
    (∀ depth, depth ≤ 5 →
      (reportOf ((applyServerStateToBrowser (some (reversedChain depth))).run
          (deviceHandler offline) (profileWith emptyToolbar)).1).map
        (fun report => (report.unprocessedCount, report.final.processedServerIds.length))
        = some (0, depth) ∧
      (applyServerStateToBrowser (some (reversedChain depth))).failures
          (deviceHandler offline) (profileWith emptyToolbar) = 0 ∧
      outline ((applyServerStateToBrowser (some (reversedChain depth))).run
          (deviceHandler offline) (profileWith emptyToolbar)).2.1.1.bookmarks.tree
        = chainOutline depth) := by
  have hcooperative : ∀ visit ∈ applyVisits h serverBookmarks w, cooperative h level visit :=
    fun visit hvisit => ⟨hcalls visit hvisit, hshown visit hvisit, fun hnot =>
      ⟨hchanged visit hvisit hnot, hfirst visit hvisit hnot⟩⟩
  obtain ⟨hmapped, _⟩ := applyVisits_mappedIsProcessed h serverBookmarks w hids
  refine ⟨fun e herr => applyServerStateToBrowser_error h serverBookmarks w e herr, ?_, ?_,
    reversedChain_materialised⟩
  · intro report hreport
    obtain ⟨hinv, hall⟩ := applyVisits_progress h w serverBookmarks level hids hdepth hchild
      hcooperative report hreport
    constructor
    · intro item hitem hone
      refine ⟨hall item hitem hone, ?_⟩
      cases hget : report.final.createdIdMap.get item.id with
      | none =>
        exact absurd (hinv.2 _ (hall item hitem hone)) ((JsObj.get_eq_none_iff _ _).1 hget)
      | some localId => exact ⟨localId, rfl⟩
    · intro hevery hnodup
      have hcount := ((applyVisits_entriesProcessed h serverBookmarks w).2 report hreport).2
      have hsub : serverBookmarks.map (fun item => item.id) ⊆ report.final.processedServerIds := by
        intro id hid
        rw [List.mem_map] at hid
        obtain ⟨item, hitem, rfl⟩ := hid
        exact hall item hitem (hevery item hitem)
      have hle := (List.subperm_of_subset hnodup hsub).length_le
      rw [List.length_map] at hle
      omega
  · intro visit hvisit hunprocessed
    have hinv := (hmapped visit hvisit).1
    have hitem := (hmapped visit hvisit).2
    have hunmapped : visit.1.createdIdMap.get visit.2.1.id = none :=
      (JsObj.get_eq_none_iff _ _).2 (fun hk => hunprocessed (hinv.1 _ hk))
    obtain ⟨hskip, hplace⟩ := reconcileItem_places h visit.2.2 visit.1 visit.2.1 hunprocessed
      hunmapped (hids _ hitem)
    refine ⟨hskip, fun hparent => hplace hparent (hcalls visit hvisit), ?_⟩
    intro parent _ hparent hprocessed
    exact targetParentIdOf_mapped visit.1 visit.2.1 parent hinv (hshown visit hvisit) hparent
      hprocessed

/-- Witness of C3 (amended): the chain of 5 nested new folders, deepest first, on the
reference profile with an empty toolbar; the level of a folder is its depth below the
toolbar. -/
theorem reconciler_order_tolerance_witness :
    ((∀ item ∈ reversedChain 5, item.id ∉ objectPrototypeKeys) ∧
     (∀ item ∈ reversedChain 5, chainLevel item ≤ maxPasses) ∧
     (∀ item ∈ reversedChain 5, 2 ≤ chainLevel item →
        ∃ parent ∈ reversedChain 5, item.parentId = .str parent.id ∧
          1 ≤ chainLevel parent ∧ chainLevel parent < chainLevel item) ∧
     (∀ visit ∈ applyVisits (deviceHandler offline) (reversedChain 5) (profileWith emptyToolbar),
        (reconcileItem visit.1 visit.2.1).failures (deviceHandler offline) visit.2.2 = 0) ∧
     (∀ visit ∈ applyVisits (deviceHandler offline) (reversedChain 5) (profileWith emptyToolbar),
        mappedNodesPresent visit.1) ∧
     (∀ visit ∈ applyVisits (deviceHandler offline) (reversedChain 5) (profileWith emptyToolbar),
        visit.2.1.id ∉ visit.1.processedServerIds →
        matchedUnchanged visit.1 visit.2.1 = false) ∧
     (∀ visit ∈ applyVisits (deviceHandler offline) (reversedChain 5) (profileWith emptyToolbar),
        visit.2.1.id ∉ visit.1.processedServerIds → chainLevel visit.2.1 = 1 →
        parentExistsLocallyIn visit.1 (targetParentIdOf visit.1.createdIdMap visit.2.1) = true)) ∧
    (reversedChain 5).map chainLevel = [5, 4, 3, 2, 1] ∧
    (∀ report,
      ((applyServerStateToBrowser (some (reversedChain 5))).run (deviceHandler offline)
        (profileWith emptyToolbar)).1 = .ok (some report) →
      (∀ item ∈ reversedChain 5, 1 ≤ chainLevel item →
        item.id ∈ report.final.processedServerIds ∧
        ∃ localId, report.final.createdIdMap.get item.id = some localId)) ∧
    (reportOf ((applyServerStateToBrowser (some (reversedChain 5))).run (deviceHandler offline)
        (profileWith emptyToolbar)).1).map
      (fun report => (report.final.pass, report.final.createdIdMap))
      = some (5, [("s1", "new1"), ("s2", "new2"), ("s3", "new3"), ("s4", "new4"),
          ("s5", "new5")]) :=
  ⟨⟨by decide, by decide, by decide, by decide!, by decide!, by decide!, by decide!⟩,
   by decide,
   fun report hreport =>
     ((reconciler_order_tolerance (deviceHandler offline) (profileWith emptyToolbar)
        (reversedChain 5) chainLevel (by decide) (by decide) (by decide) (by decide!)
        (by decide!) (by decide!) (by decide!)).2.1 report hreport).1,
   by decide!⟩

/-! ### The status at the end of a cycle -/

theorem captureAndPush_outcome {ω : Type} (R : Runtime PlainEnvelope) (h : Handler ω) (w : ω)
    (syncState : SyncState) :
    ((∃ done, ((captureAndPush R syncState).run h w).1 = .ok done) ↔
      ∃ payload, (getCurrentBrowserState.run h w).1 = .ok payload ∧
        ∃ sent, ((sendDataToServer R syncState payload).run h
          (getCurrentBrowserState.run h w).2.1).1 = .ok sent) ∧
    ∀ done, ((captureAndPush R syncState).run h w).1 = .ok done →
      done.status = "Sync successful" := by
  unfold captureAndPush
  rw [Prog.run_bind]
  cases hcaptured : (getCurrentBrowserState.run h w).1 with
  | error e =>
    simp only [Prog.run_pure]
    constructor
    · constructor
      · rintro ⟨done, hdone⟩
        cases hdone
      · rintro ⟨payload, hpayload, _⟩
        cases hpayload
    · intro done hdone
      cases hdone
  | ok payload =>
    simp only
    rw [Prog.run_bind]
    cases hsent : ((sendDataToServer R syncState payload).run h
        (getCurrentBrowserState.run h w).2.1).1 with
    | error e =>
      simp only [Prog.run_pure]
      constructor
      · constructor
        · rintro ⟨done, hdone⟩
          cases hdone
        · rintro ⟨payload2, hpayload, sent, hok⟩
          cases hpayload
          rw [hsent] at hok
          cases hok
      · intro done hdone
        cases hdone
    | ok sent =>
      simp only
      rw [Prog.run_bind, Prog.run_perform]
      simp only
      rw [Prog.run_bind, run_sendStatusUpdateToPopup]
      simp only [Prog.run_pure]
      constructor
      · constructor
        · intro _
          exact ⟨payload, rfl, sent, hsent⟩
        · intro _
          exact ⟨_, rfl⟩
      · intro done hdone
        cases hdone
        rfl

theorem syncAfterFetch_outcome {ω : Type} (R : Runtime PlainEnvelope) (h : Handler ω) (w : ω)
    (syncState : SyncState) (lastKnownServerTimestamp : Option String)
    (fetchedData : FetchedData PlainEnvelope) :
    ((∃ done, ((syncAfterFetch R syncState lastKnownServerTimestamp fetchedData).run h w).1
        = .ok done) ↔
      (remoteIsNewer R fetchedData.lastModified lastKnownServerTimestamp = true →
        ((applyRemote fetchedData).run h w).1 = .ok ()) ∧
      ∃ done, ((captureAndPush R syncState).run h
        (if remoteIsNewer R fetchedData.lastModified lastKnownServerTimestamp = true
         then ((applyRemote fetchedData).run h w).2.1 else w)).1 = .ok done) ∧
    ∀ done, ((syncAfterFetch R syncState lastKnownServerTimestamp fetchedData).run h w).1
        = .ok done → done.status = "Sync successful" := by
  unfold syncAfterFetch
  cases hnewer : remoteIsNewer R fetchedData.lastModified lastKnownServerTimestamp with
  | false =>
    simp only [Bool.false_eq_true, if_false, false_implies, true_and]
    exact (captureAndPush_outcome R h w syncState).2
  | true =>
    simp only [if_true, true_implies]
    rw [Prog.run_bind]
    cases happlied : ((applyRemote fetchedData).run h w).1 with
    | error e =>
      simp only [Prog.run_pure]
      constructor
      · constructor
        · rintro ⟨done, hdone⟩
          cases hdone
        · rintro ⟨hok, _⟩
          cases hok
      · intro done hdone
        cases hdone
    | ok u =>
      simp only [true_and]
      exact (captureAndPush_outcome R h _ syncState).2

theorem syncCycle_outcome {ω : Type} (R : Runtime PlainEnvelope) (h : Handler ω) (w : ω)
    (syncState : SyncState) :
    ((∃ done, ((syncCycle R syncState).run h w).1 = .ok done) ↔
      ∃ stored fetchedData,
        (h (.storageGet [LAST_KNOWN_SERVER_TIMESTAMP_KEY]) w).1 = .ok stored ∧
        ((fetchDataFromServer R syncState).run h
          (h (.storageGet [LAST_KNOWN_SERVER_TIMESTAMP_KEY]) w).2).1 = .ok fetchedData ∧
        (remoteIsNewer R fetchedData.lastModified stored.lastKnownServerTimestamp = true →
          ((applyRemote fetchedData).run h
            ((fetchDataFromServer R syncState).run h
              (h (.storageGet [LAST_KNOWN_SERVER_TIMESTAMP_KEY]) w).2).2.1).1 = .ok ()) ∧
        ∃ done, ((captureAndPush R syncState).run h
          (if remoteIsNewer R fetchedData.lastModified stored.lastKnownServerTimestamp = true
           then ((applyRemote fetchedData).run h
            ((fetchDataFromServer R syncState).run h
              (h (.storageGet [LAST_KNOWN_SERVER_TIMESTAMP_KEY]) w).2).2.1).2.1
           else ((fetchDataFromServer R syncState).run h
              (h (.storageGet [LAST_KNOWN_SERVER_TIMESTAMP_KEY]) w).2).2.1)).1 = .ok done) ∧
    ∀ done, ((syncCycle R syncState).run h w).1 = .ok done → done.status = "Sync successful" := by
  unfold syncCycle
  rw [Prog.run_bind, Prog.run_perform]
  cases hgot : (h (.storageGet [LAST_KNOWN_SERVER_TIMESTAMP_KEY]) w).1 with
  | error e =>
    simp only [Prog.run_pure]
    constructor
    · constructor
      · rintro ⟨done, hdone⟩
        cases hdone
      · rintro ⟨stored, _, hstored, _⟩
        cases hstored
    · intro done hdone
      cases hdone
  | ok stored =>
    simp only
    rw [Prog.run_bind]
    cases hfetched : ((fetchDataFromServer R syncState).run h
        (h (.storageGet [LAST_KNOWN_SERVER_TIMESTAMP_KEY]) w).2).1 with
    | error e =>
      simp only [Prog.run_pure]
      constructor
      · constructor
        · rintro ⟨done, hdone⟩
          cases hdone
        · rintro ⟨_, fetchedData, _, hok, _⟩
          cases hok
      · intro done hdone
        cases hdone
    | ok fetchedData =>
      simp only
      obtain ⟨hiff, hstatus⟩ := syncAfterFetch_outcome R h
        ((fetchDataFromServer R syncState).run h
          (h (.storageGet [LAST_KNOWN_SERVER_TIMESTAMP_KEY]) w).2).2.1 syncState
        stored.lastKnownServerTimestamp fetchedData
      refine ⟨?_, hstatus⟩
      rw [hiff]
      constructor
      · rintro ⟨happly, hpush⟩
        exact ⟨stored, fetchedData, rfl, rfl, happly, hpush⟩
      · rintro ⟨stored2, fetched2, hs, hf, happly, hpush⟩
        cases hs
        cases hf
        exact ⟨happly, hpush⟩

theorem error_status_ne_successful (e : String) : "Error: " ++ e ≠ "Sync successful" := by
  intro heq
  have hdata := congrArg String.data heq
  simp [String.data_append] at hdata

theorem finishSync_ok {ω : Type} (h : Handler ω) (w : ω) (syncing done : SyncState)
    (hdone : done.status = "Sync successful") :
    (finishSync syncing (.ok done)).run h w = (done, w, []) := by
  unfold finishSync
  simp only
  rw [Prog.run_bind]
  have hne : done.status ≠ "Syncing..." := by
    rw [hdone]
    decide
  simp only [Prog.run_pure, if_neg hne, List.append_nil]

/-- C29: the in-progress status does not outlive a cycle. For every behaviour of the
collaborators, a call of `performSync` that passed the guards leaves a status other than
`'Syncing...'`: it is `'Sync successful'` exactly when the `try` block ran to its end, that
is when the stored timestamp was read, the fetch succeeded, the remote state, if it was to
be applied, was applied, and the capture and the push succeeded; otherwise it is
`'Error: '` followed by the message of the failure. The status
`'Idle (after error/timeout)'` is never left. A later call therefore passes the re-entrancy
guard: it issues at least the status message. -/
theorem performSync_status_after_cycle {ω : Type} (R : Runtime PlainEnvelope) (h : Handler ω)
    (w : ω) (syncState : SyncState) (hstatus : syncState.status ≠ "Syncing...")
    (hurl : optTruthy syncState.serverUrl = true) (hkey : syncState.encryptionKey ≠ none) :
    let syncing : SyncState := { syncState with status := "Syncing..." }
    let started := (h (.sendMessage "Syncing..." syncState.lastSync) w).2
    let read := h (.storageGet [LAST_KNOWN_SERVER_TIMESTAMP_KEY]) started
    let fetched := (fetchDataFromServer R syncing).run h read.2
    let outcome := ((syncCycle R syncing).run h started).1
    let final := ((performSync R syncState).run h w).1
    final.status ≠ "Syncing..." ∧
    final.status ≠ "Idle (after error/timeout)" ∧
    (final.status = "Sync successful" ↔ ∃ done, outcome = .ok done) ∧
    (∀ e, outcome = .error e → final.status = "Error: " ++ e) ∧
    ((∃ done, outcome = .ok done) ↔
      ∃ stored fetchedData,
        read.1 = .ok stored ∧ fetched.1 = .ok fetchedData ∧
        (remoteIsNewer R fetchedData.lastModified stored.lastKnownServerTimestamp = true →
          ((applyRemote fetchedData).run h fetched.2.1).1 = .ok ()) ∧
        ∃ payload sent,
          (getCurrentBrowserState.run h
            (if remoteIsNewer R fetchedData.lastModified stored.lastKnownServerTimestamp = true
             then ((applyRemote fetchedData).run h fetched.2.1).2.1 else fetched.2.1)).1
            = .ok payload ∧
          ((sendDataToServer R syncing payload).run h
            (getCurrentBrowserState.run h
              (if remoteIsNewer R fetchedData.lastModified stored.lastKnownServerTimestamp = true
               then ((applyRemote fetchedData).run h fetched.2.1).2.1 else fetched.2.1)).2.1).1
            = .ok sent) ∧
    (∀ w2, ((performSync R final).run h w2).2.2 ≠ []) := by
  intro syncing started read fetched outcome final
  have hrun := performSync_run R h w syncState hstatus hurl hkey
  have hfinal : final = ((finishSync syncing outcome).run h
      ((syncCycle R syncing).run h started).2.1).1 := by
    show ((performSync R syncState).run h w).1 = _
    rw [hrun]
  obtain ⟨hiff, hsuccess⟩ := syncCycle_outcome R h started syncing
  have hcases : (∃ done, outcome = .ok done ∧ final.status = "Sync successful") ∨
      (∃ e, outcome = .error e ∧ final.status = "Error: " ++ e) := by
    cases houtcome : outcome with
    | error e =>
      right
      refine ⟨e, rfl, ?_⟩
      rw [hfinal, houtcome, (finishSync_error h _ syncing e).1]
    | ok done =>
      left
      refine ⟨done, rfl, ?_⟩
      have hdone := hsuccess done houtcome
      rw [hfinal, houtcome, finishSync_ok h _ syncing done hdone]
      exact hdone
  have hnot : final.status ≠ "Syncing..." := by
    rcases hcases with ⟨_, _, hs⟩ | ⟨e, _, hs⟩
    · rw [hs]
      decide
    · rw [hs]
      exact error_status_ne_syncing e
  refine ⟨hnot, ?_, ?_, ?_, ?_, ?_⟩
  · rcases hcases with ⟨_, _, hs⟩ | ⟨e, _, hs⟩
    · rw [hs]
      decide
    · rw [hs]
      intro heq
      have hdata := congrArg String.data heq
      simp [String.data_append] at hdata
  · constructor
    · intro hs
      rcases hcases with ⟨done, hdone, _⟩ | ⟨e, _, he⟩
      · exact ⟨done, hdone⟩
      · rw [he] at hs
        exact absurd hs (error_status_ne_successful e)
    · rintro ⟨done, hdone⟩
      rcases hcases with ⟨_, _, hs⟩ | ⟨e, he, _⟩
      · exact hs
      · rw [hdone] at he
        cases he
  · intro e he
    rcases hcases with ⟨done, hdone, _⟩ | ⟨e2, he2, hs⟩
    · rw [he] at hdone
      cases hdone
    · rw [he] at he2
      cases he2
      exact hs
  · rw [hiff]
    constructor
    · rintro ⟨stored, fetchedData, hs, hf, happly, hpush⟩
      obtain ⟨payload, hp, sent, hsent⟩ := (captureAndPush_outcome R h _ syncing).1.1 hpush
      exact ⟨stored, fetchedData, hs, hf, happly, payload, sent, hp, hsent⟩
    · rintro ⟨stored, fetchedData, hs, hf, happly, payload, sent, hp, hsent⟩
      exact ⟨stored, fetchedData, hs, hf, happly,
        (captureAndPush_outcome R h _ syncing).1.2 ⟨payload, hp, sent, hsent⟩⟩
  · intro w2
    unfold performSync
    rw [if_neg hnot]
    split
    · rw [Prog.run_bind, run_sendStatusUpdateToPopup]
      simp
    · rw [Prog.run_bind, run_sendStatusUpdateToPopup]
      simp

/-- Witness of C29: the sample state on a configured profile against a server whose disk
rejects writes; the push fails and the status is `'Error: ...'`. -/
theorem performSync_status_after_cycle_witness :
    (sampleState.status ≠ "Syncing..." ∧ optTruthy sampleState.serverUrl = true ∧
      sampleState.encryptionKey ≠ none) ∧
    ((performSync (tableRuntime sampleTable) sampleState).run
        (deviceHandler (readOnlyServerNet sampleOrigin))
        (deviceWith none none, serverWith "E0")).1.status ≠ "Syncing..." ∧
    ((performSync (tableRuntime sampleTable) sampleState).run
        (deviceHandler (readOnlyServerNet sampleOrigin))
        (deviceWith none none, serverWith "E0")).1.status
      = "Error: Network or fetch error: Server error: 500 " ∧
    ((performSync (tableRuntime sampleTable) sampleState).run
        (deviceHandler (serverNet sampleOrigin))
        (deviceWith none none, serverWith "E0")).1.status = "Sync successful" :=
  ⟨⟨by decide, by decide, by decide⟩,
   (performSync_status_after_cycle (tableRuntime sampleTable)
     (deviceHandler (readOnlyServerNet sampleOrigin)) (deviceWith none none, serverWith "E0")
     sampleState (by decide) (by decide) (by decide)).1,
   by decide!, by decide!⟩

/-! ### Where the stored timestamp comes from -/

theorem traceAll_ret {α ω : Type} (h : Handler ω) (Q : Op → Prop) (a : α) :
    Prog.TraceAll h Q (Pure.pure a : Prog α) := by
  constructor
  intro w op hop
  simp [Prog.run_pure] at hop

theorem traceAll_bind {α β ω : Type} {h : Handler ω} {Q : Op → Prop} {x : Prog α}
    {f : α → Prog β} (hx : Prog.TraceAll h Q x) (hf : ∀ a, Prog.TraceAll h Q (f a)) :
    Prog.TraceAll h Q (x >>= f) := by
  constructor
  intro w op hop
  rw [Prog.run_bind] at hop
  rcases List.mem_append.1 hop with hmem | hmem
  · exact hx.all w op hmem
  · exact (hf _).all _ op hmem

theorem traceAll_perform {ω : Type} (h : Handler ω) (Q : Op → Prop) (op : Op) (hop : Q op) :
    Prog.TraceAll h Q (perform op) := by
  constructor
  intro w op2 hop2
  rw [Prog.run_perform, List.mem_singleton] at hop2
  rw [hop2]
  exact hop

theorem traceAll_of_onlyOps {α ω : Type} (h : Handler ω) {allowed Q : Op → Prop}
    {x : Prog α} (hx : x.OnlyOps allowed) (hQ : ∀ op, allowed op → Q op) :
    Prog.TraceAll h Q x :=
  ⟨fun w op hop => hQ op (hx.trace h w op hop)⟩

theorem resetStamp_of_not_write {ω : Type} (h : Handler ω) (op : Op)
    (hop : ¬ writesTimestamp op) : resetStamp h op :=
  fun hw => absurd hw hop

theorem uploadSaltToServer_posts (syncState : SyncState) (saltBase64 : String) (force : Bool) :
    (uploadSaltToServer syncState saltBase64 force).OnlyOps
      (fun op => ¬ writesTimestamp op ∧ ¬ isGet op) := by
  unfold uploadSaltToServer
  repeat (first
    | exact Prog.OnlyOps.ret _
    | exact Prog.OnlyOps.perform _ (by simp [writesTimestamp, isGet])
    | apply Prog.OnlyOps.bind
    | intro _
    | split
    | dsimp only)

theorem tagTabs_no_get (browserId : String) (tabs : List Tab) :
    (tagTabs browserId tabs).OnlyOps (fun op => ¬ writesTimestamp op ∧ ¬ isGet op) := by
  induction tabs with
  | nil => exact Prog.OnlyOps.ret _
  | cons tab rest ih =>
    unfold tagTabs
    refine Prog.OnlyOps.bind (Prog.OnlyOps.perform _ ?_)
      (fun _ => Prog.OnlyOps.bind ih (fun _ => Prog.OnlyOps.ret _))
    simp [writesTimestamp, isGet]

theorem getCurrentBrowserState_no_get :
    getCurrentBrowserState.OnlyOps (fun op => ¬ writesTimestamp op ∧ ¬ isGet op) := by
  unfold getCurrentBrowserState
  repeat (first
    | exact Prog.OnlyOps.ret _
    | exact tagTabs_no_get _ _
    | exact Prog.OnlyOps.perform _ (by simp [writesTimestamp, isGet])
    | apply Prog.OnlyOps.bind
    | intro _
    | split
    | dsimp only)

theorem sendDataToServer_posts (R : Runtime PlainEnvelope) (syncState : SyncState)
    (dataPayload : SyncPayload) :
    (sendDataToServer R syncState dataPayload).OnlyOps
      (fun op => ¬ writesTimestamp op ∧ ¬ isGet op) := by
  unfold sendDataToServer encryptData
  repeat (first
    | exact Prog.OnlyOps.ret _
    | exact Prog.OnlyOps.perform _ (by simp [writesTimestamp, isGet])
    | apply Prog.OnlyOps.bind
    | intro _
    | split
    | dsimp only)

theorem stampReset_trace {ω : Type} (h : Handler ω) (syncState : SyncState) :
    Prog.TraceAll h (fun op => resetStamp h op ∧ ¬ isGet op) (stampReset syncState) := by
  constructor
  intro w op hop
  unfold stampReset at hop
  rw [Prog.run_bind, Prog.run_perform] at hop
  simp only at hop
  rw [Prog.run_bind, Prog.run_perform] at hop
  simp only at hop
  rw [Prog.run_bind, Prog.run_perform] at hop
  simp only [List.singleton_append, List.mem_cons] at hop
  rcases hop with rfl | rfl | rfl | hrest
  · exact ⟨resetStamp_of_not_write h _ (by simp [writesTimestamp]), by simp [isGet]⟩
  · exact ⟨resetStamp_of_not_write h _ (by simp [writesTimestamp]), by simp [isGet]⟩
  · exact ⟨fun _ => Or.inr ⟨(h .isoNow w).2, rfl⟩, by simp [isGet]⟩
  · split at hrest
    · simp [Prog.run_pure] at hrest
    · rw [Prog.run_bind, run_sendStatusUpdateToPopup] at hrest
      simp only [Prog.run_pure, List.append_nil, List.mem_singleton] at hrest
      subst hrest
      exact ⟨resetStamp_of_not_write h _ (by simp [writesTimestamp]), by simp [isGet]⟩

theorem resetSteps_trace {ω : Type} (R : Runtime PlainEnvelope) (h : Handler ω)
    (syncState : SyncState) (serverUrl passphrase : String) :
    Prog.TraceAll h (fun op => resetStamp h op ∧ ¬ isGet op)
      (resetSteps R syncState serverUrl passphrase) := by
  have hplain : ∀ op, (¬ writesTimestamp op ∧ ¬ isGet op) → resetStamp h op ∧ ¬ isGet op :=
    fun op hop => ⟨resetStamp_of_not_write h op hop.1, hop.2⟩
  unfold resetSteps
  have hremove : resetStamp h
      (.storageRemove ["cryptoKeyJWK", "cryptoSalt", "lastKnownServerTimestamp"]) ∧
      ¬ isGet (.storageRemove ["cryptoKeyJWK", "cryptoSalt", "lastKnownServerTimestamp"]) :=
    ⟨fun _ => Or.inl rfl, fun hget => hget⟩
  have hrandom : ∀ n, resetStamp h (.getRandomValues n) ∧ ¬ isGet (.getRandomValues n) :=
    fun n => hplain _ ⟨fun hw => hw, fun hget => hget⟩
  have hsalt : ∀ s : String, resetStamp h (.storageSet { cryptoSalt := some s }) ∧
      ¬ isGet (.storageSet { cryptoSalt := some s }) :=
    fun s => hplain _ ⟨fun hw => hw rfl, fun hget => hget⟩
  have hjwk : ∀ k : Jwk, resetStamp h (.storageSet { cryptoKeyJWK := some k }) ∧
      ¬ isGet (.storageSet { cryptoKeyJWK := some k }) :=
    fun k => hplain _ ⟨fun hw => hw rfl, fun hget => hget⟩
  repeat (first
    | with_reducible exact traceAll_ret _ _ _
    | with_reducible exact stampReset_trace h _
    | with_reducible exact traceAll_of_onlyOps h (uploadSaltToServer_posts _ _ _) hplain
    | with_reducible exact traceAll_of_onlyOps h getCurrentBrowserState_no_get hplain
    | with_reducible exact traceAll_of_onlyOps h (sendDataToServer_posts _ _ _) hplain
    | with_reducible exact traceAll_perform _ _ _ hremove
    | with_reducible exact traceAll_perform _ _ _ (hrandom _)
    | with_reducible exact traceAll_perform _ _ _ (hsalt _)
    | with_reducible exact traceAll_perform _ _ _ (hjwk _)
    | with_reducible apply traceAll_bind
    | split
    | dsimp only
    | intro _)

theorem resetAndOverwrite_trace {ω : Type} (R : Runtime PlainEnvelope) (h : Handler ω)
    (syncState : SyncState) (serverUrl passphrase : Option String) :
    Prog.TraceAll h (fun op => resetStamp h op ∧ ¬ isGet op)
      (resetAndOverwrite R syncState serverUrl passphrase) := by
  have hmessage : ∀ status lastSync, resetStamp h (.sendMessage status lastSync) ∧
      ¬ isGet (.sendMessage status lastSync) :=
    fun _ _ => ⟨fun hw => hw.elim, fun hget => hget⟩
  unfold resetAndOverwrite sendStatusUpdateToPopup
  repeat (first
    | with_reducible exact traceAll_ret _ _ _
    | with_reducible exact resetSteps_trace R h _ _ _
    | with_reducible exact traceAll_perform _ _ _ (hmessage _ _)
    | with_reducible apply traceAll_bind
    | split
    | dsimp only
    | intro _)

theorem fetchDataFromServer_lastModified {P ω : Type} (R : Runtime P) (h : Handler ω) (w : ω)
    (syncState : SyncState) (fetchedData : FetchedData P) (t : String)
    (hok : ((fetchDataFromServer R syncState).run h w).1 = .ok fetchedData)
    (hts : fetchedData.lastModified = some t) :
    ∃ serverUrl response json,
      syncState.serverUrl = some serverUrl ∧
      (h (.fetch { method := "GET", url := stripTrailingSlashes serverUrl ++ "/sync/data",
                   body := .invalid }) w).1 = .ok response ∧
      response.ok = true ∧ response.json = .ok json ∧ json.lastModified = some t := by
  unfold fetchDataFromServer at hok
  cases hurl : syncState.serverUrl with
  | none =>
    rw [hurl] at hok
    cases hok
  | some serverUrl =>
    rw [hurl] at hok
    simp only at hok
    split at hok
    · cases hok
    · rw [Prog.run_bind, Prog.run_perform] at hok
      cases hres : (h (.fetch ⟨"GET", stripTrailingSlashes serverUrl ++ "/sync/data", .invalid⟩) w).1 with
      | error e =>
        rw [hres] at hok
        cases hok
      | ok response =>
        rw [hres] at hok
        simp only at hok
        cases hrok : response.ok with
        | false =>
          simp only [hrok, Bool.not_false, if_true] at hok
          split at hok
          · simp only [Prog.run_pure, Except.ok.injEq] at hok
            subst hok
            cases hts
          · cases hok
        | true =>
          simp only [hrok, Bool.not_true, Bool.false_eq_true, if_false] at hok
          cases hjson : response.json with
          | error e =>
            rw [hjson] at hok
            cases hok
          | ok json =>
            rw [hjson] at hok
            simp only at hok
            refine ⟨serverUrl, response, json, rfl, hres, hrok, hjson, ?_⟩
            split at hok
            · simp only [Prog.run_pure, Except.ok.injEq] at hok
              subst hok
              simp only at hts
              split at hts
              · exact hts
              · cases hts
            · split at hok
              · cases hok
              · simp only [Prog.run_pure, Except.ok.injEq] at hok
                subst hok
                exact hts

/-- C21 (amended): where the stored last-known timestamp comes from. In a `performSync`
cycle that passed the guards, whatever the collaborators answer, every write of the stored
timestamp stores the `lastModified` field of the JSON body of the response to the cycle's
`GET /sync/data`, and such a write happens only when that value passed the comparison with
the stored record. The `resetAndOverwrite` command is different: it issues no `GET` at all,
and its writes of the record are the removal at its start and, after the push, the storing
of a reading of the clock of the device. -/
theorem lastKnownServerTimestamp_sources {ω : Type} (R : Runtime PlainEnvelope) (h : Handler ω)
    (w : ω) (syncState : SyncState) (hstatus : syncState.status ≠ "Syncing...")
    (hurl : optTruthy syncState.serverUrl = true) (hkey : syncState.encryptionKey ≠ none) :
    let read := h (.storageGet [LAST_KNOWN_SERVER_TIMESTAMP_KEY])
      (h (.sendMessage "Syncing..." syncState.lastSync) w).2
    let cycle := (performSync R syncState).run h w
    (∀ op ∈ cycle.2.2, writesTimestamp op →
      ∃ serverUrl response json t stored,
        syncState.serverUrl = some serverUrl ∧
        (h (.fetch ⟨"GET", stripTrailingSlashes serverUrl ++ "/sync/data", .invalid⟩) read.2).1
          = .ok response ∧
        response.json = .ok json ∧ json.lastModified = some t ∧
        op = .storageSet { lastKnownServerTimestamp := some t } ∧
        read.1 = .ok stored ∧
        remoteIsNewer R (some t) stored.lastKnownServerTimestamp = true) ∧
    (∀ serverUrl passphrase w2,
      ∀ op ∈ ((resetAndOverwrite R syncState serverUrl passphrase).run h w2).2.2,
        ¬ isGet op ∧
        (writesTimestamp op →
          op = .storageRemove ["cryptoKeyJWK", "cryptoSalt", "lastKnownServerTimestamp"] ∨
          ∃ w3, op = .storageSet { lastKnownServerTimestamp := some (h .isoNow w3).1 })) := by
  intro read cycle
  have hrun := performSync_run R h w syncState hstatus hurl hkey
  obtain ⟨hiff, hval⟩ := syncCycle_timestamp_write R h
    (h (.sendMessage "Syncing..." syncState.lastSync) w).2 { syncState with status := "Syncing..." }
  constructor
  · intro op hop hw
    have hcycle : op ∈ ((syncCycle R { syncState with status := "Syncing..." }).run h
        (h (.sendMessage "Syncing..." syncState.lastSync) w).2).2.2 := by
      simp only [cycle] at hop
      rw [hrun] at hop
      simp only [List.mem_cons, List.mem_append] at hop
      rcases hop with rfl | hop | hop
      · exact absurd hw (by simp [writesTimestamp])
      · exact hop
      · exact absurd (writesTimestamp_sub op hw) ((finishSync_onlyOps _ _).trace h _ op hop).2
    obtain ⟨fetchedData, hfetched, hop2⟩ := hval op hcycle hw
    obtain ⟨stored, fetchedData2, _, hread, hfetched2, hnewer, _⟩ := hiff.1 ⟨op, hcycle, hw⟩
    rw [hfetched] at hfetched2
    cases hfetched2
    cases hts : fetchedData.lastModified with
    | none => exact absurd hts (remoteIsNewer_timestamp R _ _ hnewer)
    | some t =>
      obtain ⟨serverUrl, response, json, hserver, hresponse, _, hjson, hmodified⟩ :=
        fetchDataFromServer_lastModified R h _ _ fetchedData t hfetched hts
      refine ⟨serverUrl, response, json, t, stored, hserver, hresponse, hjson, hmodified, ?_,
        hread, ?_⟩
      · rw [hop2, hts]
      · rw [← hts]
        exact hnewer
  · intro serverUrl passphrase w2 op hop
    have hall := (resetAndOverwrite_trace R h syncState serverUrl passphrase).all w2 op hop
    exact ⟨hall.2, hall.1⟩

/-- Witness of C21 (amended): the sample state on a configured profile without a stored
timestamp, against the server that holds an envelope stamped `"5"`; the cycle stores
`"5"`. -/
theorem lastKnownServerTimestamp_sources_witness :
    (sampleState.status ≠ "Syncing..." ∧ optTruthy sampleState.serverUrl = true ∧
      sampleState.encryptionKey ≠ none) ∧
    (∀ op ∈ ((performSync (tableRuntime sampleTable) sampleState).run
        (deviceHandler (serverNet sampleOrigin)) (deviceWith none none, serverWith "E0")).2.2,
      writesTimestamp op → op = .storageSet { lastKnownServerTimestamp := some "5" }) ∧
    ((performSync (tableRuntime sampleTable) sampleState).run
        (deviceHandler (serverNet sampleOrigin))
        (deviceWith none none, serverWith "E0")).2.1.1.storage.lastKnownServerTimestamp
      = some "5" :=
  ⟨⟨by decide, by decide, by decide⟩,
   fun op hop hw => by
     obtain ⟨serverUrl, response, json, t, stored, hserver, hresponse, hjson, hmodified, hwrite,
       _, _⟩ := (lastKnownServerTimestamp_sources (tableRuntime sampleTable)
         (deviceHandler (serverNet sampleOrigin)) (deviceWith none none, serverWith "E0")
         sampleState (by decide) (by decide) (by decide)).1 op hop hw
     cases hserver
     have hresp : response
         = { status := 200, statusText := "",
             json := .ok { payload := some (sampleCiphertext "E0"), lastModified := some "5" } } := by
       have hfetch : ((deviceHandler (serverNet sampleOrigin))
           (.fetch ⟨"GET", stripTrailingSlashes sampleOrigin ++ "/sync/data", .invalid⟩)
           ((deviceHandler (serverNet sampleOrigin)) (.storageGet [LAST_KNOWN_SERVER_TIMESTAMP_KEY])
             ((deviceHandler (serverNet sampleOrigin))
               (.sendMessage "Syncing..." sampleState.lastSync)
               (deviceWith none none, serverWith "E0")).2).2).1
           = .ok { status := 200, statusText := "",
                   json := .ok { payload := some (sampleCiphertext "E0"),
                                 lastModified := some "5" } } := by
         show @Eq (Except String HttpResponse) _ _
         decide!
       rw [hfetch] at hresponse
       cases hresponse
       rfl
     subst hresp
     cases hjson
     cases hmodified
     exact hwrite,
   by decide!⟩

/-- Counterexample to C21: the reset command on a configured profile whose clock stands at
100, against the server whose clock stands at 6. The command succeeds without any `GET`; the
server stamps the pushed envelope `"7"`, and the record the command leaves in local storage
is `"102"`, the reading of the device's clock taken after the push. -/
theorem reset_stores_client_clock :
    ((resetAndOverwrite (tableRuntime sampleTable) sampleState (some sampleOrigin)
        (some "correct horse")).run (deviceHandler (serverNet sampleOrigin)) resetWorld).1.2
      = .ok () ∧
    (∀ op ∈ ((resetAndOverwrite (tableRuntime sampleTable) sampleState (some sampleOrigin)
        (some "correct horse")).run (deviceHandler (serverNet sampleOrigin)) resetWorld).2.2,
      ¬ isGet op) ∧
    ((storedData ((resetAndOverwrite (tableRuntime sampleTable) sampleState (some sampleOrigin)
        (some "correct horse")).run (deviceHandler (serverNet sampleOrigin))
        resetWorld).2.1.2.1).map (fun envelope => envelope.lastModified)) = some "7" ∧
    ((resetAndOverwrite (tableRuntime sampleTable) sampleState (some sampleOrigin)
        (some "correct horse")).run (deviceHandler (serverNet sampleOrigin))
        resetWorld).2.1.1.storage.lastKnownServerTimestamp = some "102" ∧
    (((resetAndOverwrite (tableRuntime sampleTable) sampleState (some sampleOrigin)
        (some "correct horse")).run (deviceHandler (serverNet sampleOrigin))
        resetWorld).2.2.filter (fun op => decide (writesTimestamp op)))
      = [.storageRemove ["cryptoKeyJWK", "cryptoSalt", "lastKnownServerTimestamp"],
         .storageSet { lastKnownServerTimestamp := some "102" }] := by
  decide!

/-! ### The salt uploads of the configuration load -/

theorem unforcedSaltRequest_of_not_fetch (op : Op) (hop : isFetch op → False) :
    unforcedSaltRequest op := by
  intro request hreq
  subst hreq
  exact (hop trivial).elim

theorem fetchSaltFromServer_unforced (syncState : SyncState) :
    (fetchSaltFromServer syncState).OnlyOps unforcedSaltRequest := by
  unfold fetchSaltFromServer
  repeat (first
    | exact Prog.OnlyOps.ret _
    | exact Prog.OnlyOps.perform _ (by
        intro request hreq
        cases hreq
        exact ⟨_, Or.inl rfl, rfl⟩)
    | apply Prog.OnlyOps.bind
    | intro _
    | split
    | dsimp only)

theorem unforcedSaltRequest_post (serverUrl saltBase64 : String) :
    unforcedSaltRequest (.fetch
      { method := "POST",
        url := stripTrailingSlashes serverUrl ++ "/sync/salt"
          ++ (if false = true then "?force=true" else ""),
        body := .object (.str saltBase64) .absent .absent }) := by
  intro request hreq
  cases hreq
  exact ⟨serverUrl, Or.inr rfl, by simp⟩

theorem uploadSaltToServer_unforced (syncState : SyncState) (saltBase64 : String) :
    (uploadSaltToServer syncState saltBase64 false).OnlyOps unforcedSaltRequest := by
  unfold uploadSaltToServer
  repeat (first
    | exact Prog.OnlyOps.ret _
    | exact Prog.OnlyOps.perform _ (unforcedSaltRequest_post _ _)
    | apply Prog.OnlyOps.bind
    | intro _
    | split
    | dsimp only)

theorem resolveSaltConflict_unforced (syncState : SyncState) (message : String) :
    (resolveSaltConflict syncState message).OnlyOps unforcedSaltRequest := by
  unfold resolveSaltConflict
  repeat (first
    | exact Prog.OnlyOps.ret _
    | exact fetchSaltFromServer_unforced _
    | exact Prog.OnlyOps.perform _ (unforcedSaltRequest_of_not_fetch _ (fun hf => hf))
    | apply Prog.OnlyOps.bind
    | intro _
    | split
    | dsimp only)

theorem saltBootstrap_unforced (syncState : SyncState) (localSaltBase64 : Option String) :
    (saltBootstrap syncState localSaltBase64).OnlyOps unforcedSaltRequest := by
  unfold saltBootstrap
  repeat (first
    | exact Prog.OnlyOps.ret _
    | exact fetchSaltFromServer_unforced _
    | exact uploadSaltToServer_unforced _ _
    | exact resolveSaltConflict_unforced _ _
    | exact Prog.OnlyOps.perform _ (unforcedSaltRequest_of_not_fetch _ (fun hf => hf))
    | apply Prog.OnlyOps.bind
    | intro _
    | split
    | dsimp only)

theorem keySetup_unforced {P : Type} (R : Runtime P) (syncState : SyncState)
    (saltToUse : List Byte) : (keySetup R syncState saltToUse).OnlyOps unforcedSaltRequest := by
  unfold keySetup sendStatusUpdateToPopup
  repeat (first
    | exact Prog.OnlyOps.ret _
    | exact Prog.OnlyOps.perform _ (unforcedSaltRequest_of_not_fetch _ (fun hf => hf))
    | apply Prog.OnlyOps.bind
    | intro _
    | split
    | dsimp only)

theorem loadConfiguration_unforced {P : Type} (R : Runtime P) (syncState : SyncState) :
    (loadConfiguration R syncState).OnlyOps unforcedSaltRequest := by
  unfold loadConfiguration loadConfigurationFailed sendStatusUpdateToPopup
  repeat (first
    | exact Prog.OnlyOps.ret _
    | exact saltBootstrap_unforced _ _
    | exact keySetup_unforced _ _ _
    | exact Prog.OnlyOps.perform _ (unforcedSaltRequest_of_not_fetch _ (fun hf => hf))
    | apply Prog.OnlyOps.bind
    | intro _
    | split
    | dsimp only)

theorem routeRequest_unforced (origin : String) (request : HttpRequest) (req : Request)
    (serverUrl : String)
    (hurl : request.url = stripTrailingSlashes serverUrl ++ "/sync/salt")
    (hroute : routeRequest origin request = some req) : req.force ≠ some "true" := by
  unfold routeRequest at hroute
  split at hroute
  · simp only [Option.some.injEq] at hroute
    subst hroute
    simp only
    split
    · rename_i hquery
      exfalso
      have hsplit : request.url.data
          = request.url.data.take origin.data.length
            ++ ((request.url.data.drop origin.data.length).takeWhile (fun c => c ≠ '?')
              ++ (request.url.data.drop origin.data.length).dropWhile (fun c => c ≠ '?')) := by
        rw [List.takeWhile_append_dropWhile, List.take_append_drop]
      have hdrop : ∃ c, (request.url.data.drop origin.data.length).dropWhile (fun c => c ≠ '?')
          = c :: "force=true".data := by
        cases hd : (request.url.data.drop origin.data.length).dropWhile (fun c => c ≠ '?') with
        | nil =>
          rw [hd] at hquery
          exact absurd hquery (by decide)
        | cons c rest =>
          rw [hd] at hquery
          simp only [List.drop_succ_cons, List.drop_zero] at hquery
          exact ⟨c, by rw [hquery]⟩
      obtain ⟨c, hc⟩ := hdrop
      rw [hc] at hsplit
      have hlast : request.url.data.reverse.head? = some 'e' := by
        rw [hsplit]
        simp [List.reverse_append]
      rw [hurl, String.data_append] at hlast
      simp [List.reverse_append] at hlast
    · simp
  · cases hroute

theorem serverNet_keeps_salt (origin : String) (salt : String) (op : Op)
    (w : Device × (Fs × Nat))
    (hop : ∀ request, op = .fetch request →
      ∀ req, routeRequest origin request = some req → ¬ isForcedSaltPost req)
    (hw : storedSalt w.2.1 = some salt) :
    storedSalt ((deviceHandler (serverNet origin)) op w).2.2.1 = some salt := by
  obtain ⟨d, fs, clock⟩ := w
  cases op with
  | fetch request =>
    simp only [deviceHandler, serverNet]
    cases hroute : routeRequest origin request with
    | none => exact hw
    | some req =>
      simp only
      cases fs with
      | none => simp [storedSalt] at hw
      | some dir =>
        have hdir : dir.salt = some salt := by simpa [storedSalt] using hw
        obtain ⟨dir2, h1, h2⟩ := handle_keeps_salt { now := toString clock } dir salt req hdir
          (hop request rfl req hroute)
        rw [h1]
        simpa [storedSalt] using h2
  | _ => exact hw

/-- C30: the salt bootstrap never forces. Whatever the collaborators answer, a transport
failure of the salt fetch included, every call of `fetch` that `loadConfiguration` issues is
a `GET` or a `POST` of the plain salt URL of some server URL, without a query; a server that
receives it under any origin sees no `force=true`. Against the reference server a run of
`loadConfiguration` therefore leaves a stored salt as it is, for every profile and every
`syncState`, whereas the `resetAndOverwrite` command replaces it by its forced upload. -/
theorem loadConfiguration_never_forces {P ω : Type} (R : Runtime P) (h : Handler ω) (w : ω)
    (syncState : SyncState) :
    (∀ op ∈ ((loadConfiguration R syncState).run h w).2.2, ∀ request, op = .fetch request →
      ∃ serverUrl, (request.method = "GET" ∨ request.method = "POST") ∧
        request.url = stripTrailingSlashes serverUrl ++ "/sync/salt") ∧
    (∀ op ∈ ((loadConfiguration R syncState).run h w).2.2, ∀ request, op = .fetch request →
      ∀ origin req, routeRequest origin request = some req →
        req.force ≠ some "true" ∧ ¬ isForcedSaltPost req) ∧
    (∀ (origin : String) (device : Device) (fs : Fs) (clock : Nat) (salt : String),
      storedSalt fs = some salt →
      storedSalt ((loadConfiguration R syncState).run (deviceHandler (serverNet origin))
        (device, (fs, clock))).2.1.2.1 = some salt) ∧
    (storedSalt resetWorld.2.1 = some "c2FsdA==" ∧
     storedSalt ((resetAndOverwrite (tableRuntime sampleTable) sampleState (some sampleOrigin)
        (some "correct horse")).run (deviceHandler (serverNet sampleOrigin)) resetWorld).2.1.2.1
       = some "AQEBAQEBAQEBAQEBAQEBAQ==") := by
  have hforce : ∀ op, unforcedSaltRequest op → ∀ request, op = .fetch request →
      ∀ origin req, routeRequest origin request = some req →
        req.force ≠ some "true" ∧ ¬ isForcedSaltPost req := by
    intro op hop request hreq origin req hroute
    obtain ⟨serverUrl, _, hurl⟩ := hop request hreq
    have hne := routeRequest_unforced origin request req serverUrl hurl hroute
    exact ⟨hne, fun hforced => hne hforced.2.2⟩
  refine ⟨?_, ?_, ?_, by decide!⟩
  · intro op hop
    exact (loadConfiguration_unforced R syncState).trace h w op hop
  · intro op hop
    exact hforce op ((loadConfiguration_unforced R syncState).trace h w op hop)
  · intro origin device fs clock salt hsalt
    exact (loadConfiguration_unforced R syncState).preserves (deviceHandler (serverNet origin))
      (fun w2 => storedSalt w2.2.1 = some salt)
      (fun op w2 hop hw2 => serverNet_keeps_salt origin salt op w2
        (fun request hreq req hroute => (hforce op hop request hreq origin req hroute).2) hw2)
      (device, (fs, clock)) hsalt

end Syncius
